import Mathlib

/-!
# ShapesApp (Week4-1-ShapesAppUsingDescriptorTable.cpp)

A shallow embedding of the application class `ShapesApp` and of the free data
types it uses, followed by theorems about the frame-resource ring, the dirty
countdown of the render items, the geometry batch, the camera and the scene
builder.

Conventions of the embedding.

* `float` values are rationals and float arithmetic is taken exactly. In the
  camera code a literal, or a subexpression of constants only, is the
  single-precision value it has; in the scene builder and the materials a decimal
  literal is the decimal it writes.
* `UINT` values are naturals, reduced modulo `2 ^ 32` wherever the source
  computes with them; `int`/`INT` values are integers, and the differences of
  cursor positions in `OnMouseMove` are reduced to 32 bits.
* `std::unordered_map<std::string, V>` is an association list; `operator[]`
  is `UMap.index` (find, or insert a value-initialised entry).
* A `unique_ptr` held in a map is an `Option` (`none` is the null pointer); a raw
  pointer to a map entry is the entry's key, a raw pointer to an element of a
  vector is its position.
* A function that dereferences a pointer or indexes a vector returns `Option`;
  `none` stands for the undefined behaviour of a null or out-of-range access.
-/

/-! ## Machine integers -/

/-- The number of values of a `UINT`, `2 ^ 32`. -/
def UINT_RANGE : Nat := 4294967296

/-- Conversion of an unsigned 64-bit value to `UINT`, as `(UINT)x`. -/
def toUINT (n : Nat) : Nat := n % UINT_RANGE

/-- The number of values of a `UINT64`, `2 ^ 64`. -/
def UINT64_RANGE : Nat := 18446744073709551616

/-- Conversion of a `UINT` to `int`/`INT` (two's complement): values from `2 ^ 31`
on become negative. -/
def toINT (n : Nat) : Int :=
  if n % UINT_RANGE < 2147483648 then ((n % UINT_RANGE : Nat) : Int)
  else ((n % UINT_RANGE : Nat) : Int) - 4294967296

/-- The result of an `int` operation whose mathematical value is `z`: the value
modulo `2 ^ 32`, taken in the range of `int` (two's complement, as the compiled
code computes it). -/
def wrapINT (z : Int) : Int := toINT (z % 4294967296).toNat

/-! ## DirectXMath and MathHelper -/

/-- A `float` holds a rational, and arithmetic on it is exact in this embedding.
In the camera code (`OnMouseMove` and the initial angles) a literal or a
subexpression of constants only is the single-precision value the compiler gives
it (`float0_1`, `MathHelper.PiMinus0_1`, `initialPhi`, ...); in the scene builder
and the materials a decimal literal is the decimal it writes. -/
abbrev FLOAT := ℚ

abbrev XMFLOAT2 := FLOAT × FLOAT
abbrev XMFLOAT3 := FLOAT × FLOAT × FLOAT
abbrev XMFLOAT4 := FLOAT × FLOAT × FLOAT × FLOAT

/-- A 4x4 matrix of floats, row major (`XMFLOAT4X4`, and `XMMATRIX` once loaded). -/
abbrev XMFLOAT4X4 := Matrix (Fin 4) (Fin 4) FLOAT

/-- The value of the single-precision constant `3.141592654f` of DirectXMath,
which is `13176795 / 2 ^ 22`. -/
def XM_PI : FLOAT := 13176795 / 4194304

/-- The value of the single-precision constant `6.283185307f` of DirectXMath,
which is `13176795 / 2 ^ 21`, twice `XM_PI`. -/
def XM_2PI : FLOAT := 13176795 / 2097152

/-- The `float` literal `0.1f`, which is `13421773 / 2 ^ 27`. -/
def float0_1 : FLOAT := 13421773 / 134217728

/-- The `float` literal `0.05f`, which is `13421773 / 2 ^ 28`. -/
def float0_05 : FLOAT := 13421773 / 268435456

/-- The `float` literal `0.2f`, which is `13421773 / 2 ^ 26`. -/
def float0_2 : FLOAT := 13421773 / 67108864

namespace MathHelper

/-- Modelled from the spec: the constant `MathHelper::Pi`, declared `float` in
`MathHelper.h`, which is not among the sources. It is the spec's pi held in a
`float`: the float nearest to pi, `13176795 / 2 ^ 22`, which lies above pi. -/
def Pi : FLOAT := 13176795 / 4194304

/-- The value of the argument `MathHelper::Pi - 0.1f` of `Clamp`, a `float`
subtraction of two constants: the difference `408235667 / 2 ^ 27` is not a
`float`, and the nearest one is `12757365 / 2 ^ 22`. -/
def PiMinus0_1 : FLOAT := 12757365 / 4194304

/-- The function `MathHelper::Identity4x4`. -/
def Identity4x4 : XMFLOAT4X4 := 1

/-- Modelled from the spec: the function `MathHelper::Clamp` of `MathHelper.h`,
which is not among the sources; min/max clamping,
`x < low ? low : (x > high ? high : x)`. -/
def Clamp (x low high : FLOAT) : FLOAT :=
  if x < low then low else (if x > high then high else x)

end MathHelper

/-- The value of the constant `XM_PI / 180.0f`, a `float` division of two
constants: the nearest float to the quotient is `9370165 / 2 ^ 29`. -/
def radiansPerDegree : FLOAT := 9370165 / 536870912

/-- The function `XMConvertToRadians` of DirectXMath:
`fDegrees * (XM_PI / 180.0f)`. -/
def XMConvertToRadians (fDegrees : FLOAT) : FLOAT := fDegrees * radiansPerDegree

def XMMatrixIdentity : XMFLOAT4X4 := 1

def XMMatrixTranspose (m : XMFLOAT4X4) : XMFLOAT4X4 := m.transpose

/-- The function `XMMatrixMultiply`, which is also `operator*` on `XMMATRIX`. -/
@[noinline] def XMMatrixMultiply (a b : XMFLOAT4X4) : XMFLOAT4X4 := a * b

def XMMatrixScaling (sx sy sz : FLOAT) : XMFLOAT4X4 :=
  !![sx, 0, 0, 0;
     0, sy, 0, 0;
     0, 0, sz, 0;
     0, 0, 0, 1]

def XMMatrixTranslation (x y z : FLOAT) : XMFLOAT4X4 :=
  !![1, 0, 0, 0;
     0, 1, 0, 0;
     0, 0, 1, 0;
     x, y, z, 1]

/-- The routines of the C runtime, of DirectXMath and of `MathHelper` whose
results are not rational functions of their arguments, or whose code is outside
the source file: they are parameters of the embedding. -/
structure MathLib where
  sinf : FLOAT → FLOAT
  cosf : FLOAT → FLOAT
  sqrtf : FLOAT → FLOAT
  XMMatrixLookAtLH : XMFLOAT4 → XMFLOAT4 → XMFLOAT4 → XMFLOAT4X4
  XMMatrixInverse : XMFLOAT4X4 → XMFLOAT4X4
  XMMatrixPerspectiveFovLH : FLOAT → FLOAT → FLOAT → FLOAT → XMFLOAT4X4
  InverseTranspose : XMFLOAT4X4 → XMFLOAT4X4

/-- A rotation about the x axis by `a` radians (`XMMatrixRotationX`). -/
def XMMatrixRotationX (L : MathLib) (a : FLOAT) : XMFLOAT4X4 :=
  !![1, 0, 0, 0;
     0, L.cosf a, L.sinf a, 0;
     0, -(L.sinf a), L.cosf a, 0;
     0, 0, 0, 1]

/-- A rotation about the y axis by `a` radians (`XMMatrixRotationY`). -/
def XMMatrixRotationY (L : MathLib) (a : FLOAT) : XMFLOAT4X4 :=
  !![L.cosf a, 0, -(L.sinf a), 0;
     0, 1, 0, 0;
     L.sinf a, 0, L.cosf a, 0;
     0, 0, 0, 1]

/-! ## `std::unordered_map<std::string, V>` -/

abbrev UMap (V : Type) := List (String × V)

namespace UMap

/-- The function `find`: the value stored under `k`, if any. -/
def find {V : Type} (m : UMap V) (k : String) : Option V := List.lookup k m

/-- Whether `k` is a key of the map. -/
def contains {V : Type} (m : UMap V) (k : String) : Bool := (List.lookup k m).isSome

/-- The reference returned by `m[k]`, read as a value, and the map afterwards:
when `k` is absent an entry with the value-initialised `dflt` is inserted. -/
def index {V : Type} (dflt : V) (m : UMap V) (k : String) : V × UMap V :=
  match List.lookup k m with
  | some v => (v, m)
  | none => (dflt, m ++ [(k, dflt)])

/-- The assignment `m[k] = v`: the value under `k` is replaced, or a new entry
is added. -/
def assign {V : Type} : UMap V → String → V → UMap V
  | [], k, v => [(k, v)]
  | (k1, v1) :: es, k, v => if k1 = k then (k1, v) :: es else (k1, v1) :: assign es k v

end UMap

/-! ## Data types of the headers (`GeometryGenerator.h`, `d3dUtil.h`, `FrameResource.h`, `UploadBuffer.h`) -/

/-- The constant `gNumFrameResources`. -/
def gNumFrameResources : Nat := 3

/-- The global constant `width`. -/
def width : FLOAT := 50

/-- The global constant `depth`. -/
def depth : FLOAT := 50

namespace GeometryGenerator

/-- A vertex as the mesh generator produces it. -/
structure Vertex where
  Position : XMFLOAT3
  Normal : XMFLOAT3
  TangentU : XMFLOAT3
  TexC : XMFLOAT2

/-- A generated mesh: its vertices and its 32-bit indices. -/
structure MeshData where
  Vertices : List Vertex
  Indices32 : List Nat

/-- The function `GetIndices16`: every 32-bit index converted to `uint16_t`. -/
def MeshData.GetIndices16 (m : MeshData) : List Nat := m.Indices32.map (fun i => i % 65536)

end GeometryGenerator

/-- A vertex of the shared vertex buffer (`FrameResource.h`): 32 bytes. -/
structure Vertex where
  Pos : XMFLOAT3 := (0, 0, 0)
  Normal : XMFLOAT3 := (0, 0, 0)
  TexC : XMFLOAT2 := (0, 0)

/-- The value of `sizeof(Vertex)`. -/
def sizeofVertex : Nat := 32

/-- Modelled from the spec: the mesh submesh range of `d3dUtil.h` (index count,
start index, base vertex), value-initialised to zeros. -/
structure SubmeshGeometry where
  IndexCount : Nat := 0
  StartIndexLocation : Nat := 0
  BaseVertexLocation : Int := 0
deriving DecidableEq, Repr

/-- Modelled from the spec: the geometry batch of `d3dUtil.h`, one shared vertex
buffer, one shared index buffer and the named submesh ranges. -/
structure MeshGeometry where
  Name : String := ""
  VertexBufferCPU : List Vertex := []
  IndexBufferCPU : List Nat := []
  VertexByteStride : Nat := 0
  VertexBufferByteSize : Nat := 0
  IndexBufferByteSize : Nat := 0
  DrawArgs : UMap SubmeshGeometry := []

/-- Modelled from the spec: the material record of `d3dUtil.h`; the two indices
are `-1` and the dirty countdown is the ring depth until they are set. -/
structure Material where
  Name : String := ""
  MatCBIndex : Int := -1
  DiffuseSrvHeapIndex : Int := -1
  NumFramesDirty : Int := gNumFrameResources
  DiffuseAlbedo : XMFLOAT4 := (1, 1, 1, 1)
  FresnelR0 : XMFLOAT3 := (1 / 100, 1 / 100, 1 / 100)
  Roughness : FLOAT := 1 / 4
  MatTransform : XMFLOAT4X4 := MathHelper.Identity4x4

/-- The per-object constants of `FrameResource.h`, as this file fills them. -/
structure ObjectConstants where
  World : XMFLOAT4X4 := MathHelper.Identity4x4
  TWorld : XMFLOAT4X4 := MathHelper.Identity4x4
  TexTransform : XMFLOAT4X4 := MathHelper.Identity4x4

/-- The per-material constants of `d3dUtil.h`. -/
structure MaterialConstants where
  DiffuseAlbedo : XMFLOAT4 := (1, 1, 1, 1)
  FresnelR0 : XMFLOAT3 := (1 / 100, 1 / 100, 1 / 100)
  Roughness : FLOAT := 1 / 4
  MatTransform : XMFLOAT4X4 := MathHelper.Identity4x4

/-- A directional light: the two fields this file assigns. -/
structure Light where
  Strength : XMFLOAT3 := (1 / 2, 1 / 2, 1 / 2)
  Direction : XMFLOAT3 := (0, -1, 0)

/-- The per-pass constants of `FrameResource.h`. -/
structure PassConstants where
  View : XMFLOAT4X4 := MathHelper.Identity4x4
  InvView : XMFLOAT4X4 := MathHelper.Identity4x4
  Proj : XMFLOAT4X4 := MathHelper.Identity4x4
  InvProj : XMFLOAT4X4 := MathHelper.Identity4x4
  ViewProj : XMFLOAT4X4 := MathHelper.Identity4x4
  InvViewProj : XMFLOAT4X4 := MathHelper.Identity4x4
  EyePosW : XMFLOAT3 := (0, 0, 0)
  RenderTargetSize : XMFLOAT2 := (0, 0)
  InvRenderTargetSize : XMFLOAT2 := (0, 0)
  NearZ : FLOAT := 0
  FarZ : FLOAT := 0
  TotalTime : FLOAT := 0
  DeltaTime : FLOAT := 0
  Lights : List Light := List.replicate 16 {}

/-- Modelled from the spec: an upload-buffer array of `UploadBuffer.h`. It has a
fixed number of elements, each unwritten (`none`) until the CPU copies a record
into it, and a GPU virtual address. -/
structure UploadBuffer (T : Type) where
  elements : List (Option T)
  gpuVirtualAddress : Nat := 0

namespace UploadBuffer

/-- A new buffer of `elementCount` unwritten elements. -/
def create {T : Type} (elementCount : Nat) : UploadBuffer T :=
  { elements := List.replicate elementCount none }

/-- The function `CopyData(int elementIndex, data)`: the record is copied over
the element; an index outside the array is outside the mapped memory (`none`). -/
def CopyData {T : Type} (b : UploadBuffer T) (elementIndex : Int) (data : T) :
    Option (UploadBuffer T) :=
  if 0 ≤ elementIndex ∧ elementIndex < b.elements.length then
    some { b with elements := b.elements.set elementIndex.toNat (some data) }
  else none

end UploadBuffer

/-- Modelled from the spec: a frame resource of `FrameResource.h`, the three
upload buffers of one ring slot and the fence value of its last submission
(`0` when never submitted). -/
structure FrameResource where
  PassCB : UploadBuffer PassConstants
  MaterialCB : UploadBuffer MaterialConstants
  ObjectCB : UploadBuffer ObjectConstants
  Fence : Nat := 0

/-- The constructor `FrameResource(device, passCount, objectCount, materialCount)`. -/
def FrameResource.create (passCount objectCount materialCount : Nat) : FrameResource :=
  { PassCB := UploadBuffer.create passCount
    MaterialCB := UploadBuffer.create materialCount
    ObjectCB := UploadBuffer.create objectCount }

/-- The value `D3D_PRIMITIVE_TOPOLOGY_TRIANGLELIST`. -/
def D3D_PRIMITIVE_TOPOLOGY_TRIANGLELIST : Nat := 4

/-- The structure `RenderItem` with its default member initialisers. -/
structure RenderItem where
  World : XMFLOAT4X4 := MathHelper.Identity4x4
  TWorld : XMFLOAT4X4 := MathHelper.Identity4x4
  TexTransform : XMFLOAT4X4 := MathHelper.Identity4x4
  NumFramesDirty : Int := gNumFrameResources
  ObjCBIndex : Nat := UINT_RANGE - 1
  Mat : Option String := none
  Geo : Option String := none
  PrimitiveType : Nat := D3D_PRIMITIVE_TOPOLOGY_TRIANGLELIST
  IndexCount : Nat := 0
  StartIndexLocation : Nat := 0
  BaseVertexLocation : Int := 0

/-! ## The application state -/

/-- A pipeline state object: what distinguishes the two this file creates is the
fill mode of the rasteriser. -/
inductive PSO where
  | solid
  | wireframe
deriving DecidableEq, Repr

/-- The commands `Draw` and `DrawRenderItems` record into the command list. -/
inductive Cmd where
  | Reset (pInitialState : Option PSO)
  | RSSetViewports
  | RSSetScissorRects
  | ResourceBarrierToRenderTarget
  | ClearRenderTargetView
  | ClearDepthStencilView
  | OMSetRenderTargets
  | SetDescriptorHeaps
  | SetGraphicsRootSignature
  | SetGraphicsRootConstantBufferView (rootParameterIndex : Nat) (address : Nat)
  | SetGraphicsRootDescriptorTable (rootParameterIndex : Nat) (handle : Int)
  | IASetVertexBuffers (geo : String)
  | IASetIndexBuffer (geo : String)
  | IASetPrimitiveTopology (topology : Nat)
  | DrawIndexedInstanced (indexCountPerInstance instanceCount startIndexLocation : Nat)
      (baseVertexLocation : Int) (startInstanceLocation : Nat)
  | ResourceBarrierToPresent
  | Close
deriving DecidableEq, Repr

/-- The three constant buffers of a ring slot. -/
inductive CBKind where
  | object
  | material
  | pass
deriving DecidableEq, Repr

/-- One call of `CopyData` on a buffer of a ring slot, with the slot's `Fence`
and the completed value of the fence object at the time of the call. -/
structure CBWrite where
  slot : Nat
  buffer : CBKind
  elementIndex : Int
  slotFence : Nat
  completedValue : Nat
deriving DecidableEq, Repr

/-- The timer handed to `Update` and `Draw`. -/
structure GameTimer where
  TotalTime : FLOAT
  DeltaTime : FLOAT

/-- The value of the initialiser `1.5f*XM_PI` of `mTheta`: the product
`39530385 / 2 ^ 23` is not a `float`, and the nearest one is `2470649 / 2 ^ 19`. -/
def initialTheta : FLOAT := 2470649 / 524288

/-- The value of the initialiser `0.2f*XM_PI` of `mPhi`: the float nearest to the
product of the two constants is `2635359 / 2 ^ 22`. -/
def initialPhi : FLOAT := 2635359 / 4194304

/-- The class `ShapesApp`: its own members and the members of the base class
`D3DApp` that this file reads or writes. `mFenceCompleted` is the completed value
of the fence object `mFence` (advanced by the GPU), `mFenceSignalled` the last
value the queue was told to signal, `mSubmitted` the command lists handed to the
queue, `cbWrites` the history of the `CopyData` calls on the ring. -/
structure ShapesApp where
  mCurrentFence : Nat := 0
  mFenceCompleted : Nat := 0
  mFenceSignalled : Nat := 0
  mClientWidth : Int := 800
  mClientHeight : Int := 600
  mCurrBackBuffer : Nat := 0
  mCommandList : List Cmd := []
  mSubmitted : List (List Cmd) := []
  mSrvHeapStart : Nat := 0
  mFrameResources : List FrameResource := []
  mCurrFrameResource : Option Nat := none
  mCurrFrameResourceIndex : Nat := 0
  mCbvSrvDescriptorSize : Nat := 0
  mGeometries : UMap (Option MeshGeometry) := []
  mMaterials : UMap (Option Material) := []
  mPSOs : UMap (Option PSO) := []
  mAllRitems : List RenderItem := []
  mOpaqueRitems : List Nat := []
  mMainPassCB : PassConstants := {}
  mPassCbvOffset : Nat := 0
  mIsWireframe : Bool := false
  mEyePos : XMFLOAT3 := (0, 0, 0)
  mView : XMFLOAT4X4 := MathHelper.Identity4x4
  mProj : XMFLOAT4X4 := MathHelper.Identity4x4
  mTheta : FLOAT := initialTheta
  mPhi : FLOAT := initialPhi
  mRadius : FLOAT := 65
  mLastMousePos : Int × Int := (0, 0)
  objCBIndex : Nat := 0
  cbWrites : List CBWrite := []

/-- The value of `SwapChainBufferCount`. -/
def SwapChainBufferCount : Nat := 2

/-- The flag `MK_LBUTTON`. -/
def MK_LBUTTON : Nat := 1

/-- The flag `MK_RBUTTON`. -/
def MK_RBUTTON : Nat := 2

namespace d3dUtil

/-- The function `CalcConstantBufferByteSize`: `(byteSize + 255) & ~255`. -/
def CalcConstantBufferByteSize (byteSize : Nat) : Nat := toUINT (byteSize + 255) / 256 * 256

end d3dUtil

/-- The value of `sizeof(ObjectConstants)`: three 4x4 float matrices. -/
def sizeofObjectConstants : Nat := 192

/-- The value of `sizeof(MaterialConstants)`: a float4, a float3, a float and a matrix. -/
def sizeofMaterialConstants : Nat := 96

namespace ShapesApp

/-- The ring slot `mCurrFrameResource` points to, with its position. -/
def currFrameResource (s : ShapesApp) : Option (Nat × FrameResource) :=
  match s.mCurrFrameResource with
  | none => none
  | some slot =>
    match s.mFrameResources[slot]? with
    | none => none
    | some fr => some (slot, fr)

/-! ### Input -/

/-- The method `OnMouseDown`. -/
def OnMouseDown (s : ShapesApp) (_btnState : Nat) (x y : Int) : ShapesApp :=
  { s with mLastMousePos := (x, y) }

/-- The method `OnMouseMove`. The differences of cursor positions are 32-bit
`int` subtractions (`wrapINT`); their conversion to `float` and the arithmetic on
them are exact here, and `0.25f` is exactly a quarter. -/
def OnMouseMove (s : ShapesApp) (btnState : Nat) (x y : Int) : ShapesApp :=
  let s1 : ShapesApp :=
    if (btnState &&& MK_LBUTTON) != 0 then
      -- Make each pixel correspond to a quarter of a degree.
      let dx := XMConvertToRadians (1 / 4 * ((wrapINT (x - s.mLastMousePos.1) : Int) : FLOAT))
      let dy := XMConvertToRadians (1 / 4 * ((wrapINT (y - s.mLastMousePos.2) : Int) : FLOAT))
      -- Update angles based on input to orbit camera around box.
      let mTheta := s.mTheta + dx
      let mPhi := s.mPhi + dy
      -- Restrict the angle mPhi.
      { s with mTheta := mTheta, mPhi := MathHelper.Clamp mPhi float0_1 MathHelper.PiMinus0_1 }
    else if (btnState &&& MK_RBUTTON) != 0 then
      let dx : FLOAT := float0_05 * ((wrapINT (x - s.mLastMousePos.1) : Int) : FLOAT)
      let dy : FLOAT := float0_05 * ((wrapINT (y - s.mLastMousePos.2) : Int) : FLOAT)
      -- Update the camera radius based on input.
      let mRadius := s.mRadius + (dx - dy)
      -- Restrict the radius.
      { s with mRadius := MathHelper.Clamp mRadius 5 150 }
    else s
  { s1 with mLastMousePos := (x, y) }

/-- The method `OnKeyboardInput`; `key1Down` is `GetAsyncKeyState('1') & 0x8000`. -/
def OnKeyboardInput (key1Down : Bool) (s : ShapesApp) : ShapesApp :=
  if key1Down then { s with mIsWireframe := true } else { s with mIsWireframe := false }

/-- The method `UpdateCamera`. -/
def UpdateCamera (L : MathLib) (s : ShapesApp) : ShapesApp :=
  -- Convert Spherical to Cartesian coordinates.
  let ex := s.mRadius * L.sinf s.mPhi * L.cosf s.mTheta
  let ez := s.mRadius * L.sinf s.mPhi * L.sinf s.mTheta
  let ey := s.mRadius * L.cosf s.mPhi
  -- Build the view matrix.
  let pos : XMFLOAT4 := (ex, ey, ez, 1)
  let target : XMFLOAT4 := (0, 0, 0, 0)
  let up : XMFLOAT4 := (0, 1, 0, 0)
  { s with mEyePos := (ex, ey, ez), mView := L.XMMatrixLookAtLH pos target up }

end ShapesApp

namespace ShapesApp

/-! ### Constant-buffer updates -/

/-- The call `currObjectCB->CopyData(elementIndex, objConstants)` on the object
buffer of ring slot `slot`. -/
def copyObjectCB (slot : Nat) (elementIndex : Int) (objConstants : ObjectConstants)
    (s : ShapesApp) : Option ShapesApp :=
  match s.mFrameResources[slot]? with
  | none => none
  | some fr =>
    match fr.ObjectCB.CopyData elementIndex objConstants with
    | none => none
    | some b =>
      some { s with
        mFrameResources := s.mFrameResources.set slot { fr with ObjectCB := b }
        cbWrites := s.cbWrites ++ [⟨slot, CBKind.object, elementIndex, fr.Fence, s.mFenceCompleted⟩] }

/-- The call `currMaterialCB->CopyData(elementIndex, matConstants)` on the material
buffer of ring slot `slot`. -/
def copyMaterialCB (slot : Nat) (elementIndex : Int) (matConstants : MaterialConstants)
    (s : ShapesApp) : Option ShapesApp :=
  match s.mFrameResources[slot]? with
  | none => none
  | some fr =>
    match fr.MaterialCB.CopyData elementIndex matConstants with
    | none => none
    | some b =>
      some { s with
        mFrameResources := s.mFrameResources.set slot { fr with MaterialCB := b }
        cbWrites := s.cbWrites ++ [⟨slot, CBKind.material, elementIndex, fr.Fence, s.mFenceCompleted⟩] }

/-- The call `currPassCB->CopyData(elementIndex, mMainPassCB)` on the pass buffer
of ring slot `slot`. -/
def copyPassCB (slot : Nat) (elementIndex : Int) (passConstants : PassConstants)
    (s : ShapesApp) : Option ShapesApp :=
  match s.mFrameResources[slot]? with
  | none => none
  | some fr =>
    match fr.PassCB.CopyData elementIndex passConstants with
    | none => none
    | some b =>
      some { s with
        mFrameResources := s.mFrameResources.set slot { fr with PassCB := b }
        cbWrites := s.cbWrites ++ [⟨slot, CBKind.pass, elementIndex, fr.Fence, s.mFenceCompleted⟩] }

/-- The record `UpdateObjectCBs` builds for a render item. -/
def objectConstantsOf (L : MathLib) (e : RenderItem) : ObjectConstants :=
  let world := e.World
  let _tWorld := e.TWorld
  let texTransform := e.TexTransform
  { World := XMMatrixTranspose world
    TWorld := XMMatrixTranspose (L.InverseTranspose world)
    TexTransform := XMMatrixTranspose texTransform }

/-- The loop of `UpdateObjectCBs` over the render items still to visit: the
items as the loop leaves them, and the state after the copies. -/
def UpdateObjectCBs.loop (L : MathLib) (slot : Nat) :
    List RenderItem → ShapesApp → Option (List RenderItem × ShapesApp)
  | [], s => some ([], s)
  | e :: es, s =>
    -- Only update the cbuffer data if the constants have changed.
    if e.NumFramesDirty > 0 then
      match copyObjectCB slot (toINT e.ObjCBIndex) (objectConstantsOf L e) s with
      | none => none
      | some s1 =>
        match UpdateObjectCBs.loop L slot es s1 with
        | none => none
        -- Next FrameResource need to be updated too.
        | some (es1, s2) => some ({ e with NumFramesDirty := e.NumFramesDirty - 1 } :: es1, s2)
    else
      match UpdateObjectCBs.loop L slot es s with
      | none => none
      | some (es1, s2) => some (e :: es1, s2)

/-- The method `UpdateObjectCBs`. -/
def UpdateObjectCBs (L : MathLib) (s : ShapesApp) : Option ShapesApp :=
  match s.currFrameResource with
  | none => none
  | some (slot, _) =>
    match UpdateObjectCBs.loop L slot s.mAllRitems s with
    | none => none
    | some (items, s1) => some { s1 with mAllRitems := items }

/-- The record `UpdateMaterialCBs` builds for a material. -/
def materialConstantsOf (mat : Material) : MaterialConstants :=
  { DiffuseAlbedo := mat.DiffuseAlbedo
    FresnelR0 := mat.FresnelR0
    Roughness := mat.Roughness
    MatTransform := XMMatrixTranspose mat.MatTransform }

/-- The loop of `UpdateMaterialCBs` over the entries of `mMaterials` still to
visit. -/
def UpdateMaterialCBs.loop (slot : Nat) :
    UMap (Option Material) → ShapesApp → Option (UMap (Option Material) × ShapesApp)
  | [], s => some ([], s)
  | (_, none) :: _, _ => none
  | (k, some mat) :: es, s =>
    if mat.NumFramesDirty > 0 then
      match copyMaterialCB slot mat.MatCBIndex (materialConstantsOf mat) s with
      | none => none
      | some s1 =>
        match UpdateMaterialCBs.loop slot es s1 with
        | none => none
        | some (es1, s2) =>
          some ((k, some { mat with NumFramesDirty := mat.NumFramesDirty - 1 }) :: es1, s2)
    else
      match UpdateMaterialCBs.loop slot es s with
      | none => none
      | some (es1, s2) => some ((k, some mat) :: es1, s2)

/-- The method `UpdateMaterialCBs`. -/
def UpdateMaterialCBs (s : ShapesApp) : Option ShapesApp :=
  match s.currFrameResource with
  | none => none
  | some (slot, _) =>
    match UpdateMaterialCBs.loop slot s.mMaterials s with
    | none => none
    | some (mats, s1) => some { s1 with mMaterials := mats }

/-- The method `UpdateMainPassCB`. -/
def UpdateMainPassCB (L : MathLib) (gt : GameTimer) (s : ShapesApp) : Option ShapesApp :=
  let view := s.mView
  let proj := s.mProj
  let viewProj := XMMatrixMultiply view proj
  let invView := L.XMMatrixInverse view
  let invProj := L.XMMatrixInverse proj
  let invViewProj := L.XMMatrixInverse viewProj
  let lights0 := s.mMainPassCB.Lights
  let lights1 := lights0.modify (fun l => { l with Direction := (0, -0, 1) }) 0
  let lights2 := lights1.modify (fun l => { l with Strength := (0, 99 / 100, 0) }) 0
  let lights3 := lights2.modify (fun l => { l with Direction := (-57735 / 100000, -57735 / 100000, 57735 / 100000) }) 1
  let lights4 := lights3.modify (fun l => { l with Strength := (0, 0, 0) }) 1
  let lights5 := lights4.modify (fun l => { l with Direction := (0, -707 / 1000, -707 / 1000) }) 2
  let lights6 := lights5.modify (fun l => { l with Strength := (0, 0, 0) }) 2
  let cb : PassConstants :=
    { s.mMainPassCB with
      View := XMMatrixTranspose view
      InvView := XMMatrixTranspose invView
      Proj := XMMatrixTranspose proj
      InvProj := XMMatrixTranspose invProj
      ViewProj := XMMatrixTranspose viewProj
      InvViewProj := XMMatrixTranspose invViewProj
      EyePosW := s.mEyePos
      RenderTargetSize := ((s.mClientWidth : FLOAT), (s.mClientHeight : FLOAT))
      InvRenderTargetSize := (1 / (s.mClientWidth : FLOAT), 1 / (s.mClientHeight : FLOAT))
      NearZ := 1
      FarZ := 1000
      TotalTime := gt.TotalTime
      DeltaTime := gt.DeltaTime
      Lights := lights6 }
  let s1 := { s with mMainPassCB := cb }
  match s1.currFrameResource with
  | none => none
  | some (slot, _) => copyPassCB slot 0 cb s1

/-! ### The frame -/

/-- What a frame takes from outside the program: the state of the `1` key, the
timer, and the completed value the fence object shows when a blocking wait on
it returns. -/
structure FrameInput where
  key1Down : Bool
  gt : GameTimer
  completedAfterWait : Nat

/-- Whether `Update` has to block on the fence for the slot it advanced to. -/
def mustWait (s : ShapesApp) (fr : FrameResource) : Bool :=
  fr.Fence != 0 && decide (s.mFenceCompleted < fr.Fence)

/-- The part of `Update` that cycles through the circular frame resource array
and, when the GPU has not finished with the slot, waits for its fence. -/
def Update.cycle (inp : FrameInput) (s : ShapesApp) : Option ShapesApp :=
  -- Cycle through the circular frame resource array.
  let idx := (s.mCurrFrameResourceIndex + 1) % gNumFrameResources
  match s.mFrameResources[idx]? with
  | none => none
  | some fr =>
    let s1 := { s with mCurrFrameResourceIndex := idx, mCurrFrameResource := some idx }
    -- Has the GPU finished processing the commands of the current frame resource?
    -- If not, wait until the GPU has completed commands up to this fence point.
    some (if mustWait s1 fr then { s1 with mFenceCompleted := inp.completedAfterWait } else s1)

/-- The method `Update`. -/
def Update (L : MathLib) (inp : FrameInput) (s : ShapesApp) : Option ShapesApp :=
  let s1 := OnKeyboardInput inp.key1Down s
  let s2 := UpdateCamera L s1
  match Update.cycle inp s2 with
  | none => none
  | some s3 =>
    match UpdateObjectCBs L s3 with
    | none => none
    | some s4 =>
      match UpdateMaterialCBs s4 with
      | none => none
      | some s5 => UpdateMainPassCB L inp.gt s5

end ShapesApp

namespace ShapesApp

/-! ### Drawing -/

/-- The body of the loop of `DrawRenderItems` for the render item at position
`ri` of `mAllRitems`: the commands it records. -/
def drawRenderItem (s : ShapesApp) (objectCB matCB : Nat) (ri : Nat) : Option (List Cmd) :=
  let objCBByteSize := d3dUtil.CalcConstantBufferByteSize sizeofObjectConstants
  let matCBByteSize := d3dUtil.CalcConstantBufferByteSize sizeofMaterialConstants
  match s.mAllRitems[ri]? with
  | none => none
  | some item =>
    match item.Geo, item.Mat with
    | some geo, some matKey =>
      match UMap.find s.mMaterials matKey with
      | some (some mat) =>
        let tex : Int := (s.mSrvHeapStart : Int) + mat.DiffuseSrvHeapIndex * (s.mCbvSrvDescriptorSize : Int)
        let objCBAddress := objectCB + toUINT (item.ObjCBIndex * objCBByteSize)
        let matCBAddress := matCB + toUINT ((mat.MatCBIndex % (UINT_RANGE : Int)).toNat * matCBByteSize)
        some [ Cmd.IASetVertexBuffers geo,
               Cmd.IASetIndexBuffer geo,
               Cmd.IASetPrimitiveTopology item.PrimitiveType,
               Cmd.SetGraphicsRootDescriptorTable 0 tex,
               Cmd.SetGraphicsRootConstantBufferView 1 objCBAddress,
               Cmd.SetGraphicsRootConstantBufferView 3 matCBAddress,
               Cmd.DrawIndexedInstanced item.IndexCount 1 item.StartIndexLocation
                 item.BaseVertexLocation 0 ]
      | _ => none
    | _, _ => none

/-- The loop of `DrawRenderItems` over the positions still to draw. -/
def DrawRenderItems.loop (s : ShapesApp) (objectCB matCB : Nat) : List Nat → Option (List Cmd)
  | [] => some []
  | ri :: rest =>
    match drawRenderItem s objectCB matCB ri with
    | none => none
    | some cmds =>
      match DrawRenderItems.loop s objectCB matCB rest with
      | none => none
      | some more => some (cmds ++ more)

/-- The method `DrawRenderItems`: the commands appended to the command list for
the render items `ritems` (positions in `mAllRitems`). -/
def DrawRenderItems (s : ShapesApp) (ritems : List Nat) : Option (List Cmd) :=
  match s.currFrameResource with
  | none => none
  | some (_, fr) =>
    DrawRenderItems.loop s fr.ObjectCB.gpuVirtualAddress fr.MaterialCB.gpuVirtualAddress ritems

/-- The method `Draw`. -/
def Draw (s : ShapesApp) : Option ShapesApp :=
  match s.currFrameResource with
  | none => none
  | some (slot, fr) =>
    -- Reuse the memory associated with command recording.
    let (pso, psos) := UMap.index none s.mPSOs "opaque"
    let head : List Cmd :=
      [ Cmd.Reset pso, Cmd.RSSetViewports, Cmd.RSSetScissorRects,
        Cmd.ResourceBarrierToRenderTarget, Cmd.ClearRenderTargetView, Cmd.ClearDepthStencilView,
        Cmd.OMSetRenderTargets, Cmd.SetDescriptorHeaps, Cmd.SetGraphicsRootSignature,
        Cmd.SetGraphicsRootConstantBufferView 2 fr.PassCB.gpuVirtualAddress ]
    let s1 := { s with mPSOs := psos }
    match DrawRenderItems s1 s1.mOpaqueRitems with
    | none => none
    | some draws =>
      -- Done recording commands.
      let cmds := head ++ draws ++ [Cmd.ResourceBarrierToPresent, Cmd.Close]
      -- Advance the fence value to mark commands up to this fence point.
      let fence := (s1.mCurrentFence + 1) % UINT64_RANGE
      some { s1 with
        mCommandList := cmds
        -- Add the command list to the queue for execution.
        mSubmitted := s1.mSubmitted ++ [cmds]
        -- Swap the back and front buffers
        mCurrBackBuffer := (s1.mCurrBackBuffer + 1) % SwapChainBufferCount
        mCurrentFence := fence
        mFrameResources := s1.mFrameResources.set slot { fr with Fence := fence }
        -- Add an instruction to the command queue to set a new fence point.
        mFenceSignalled := fence }

end ShapesApp

/-! ## Startup: geometry, materials, render items, frame resources -/

/-- The twelve meshes `BuildShapeGeometry` obtains from the geometry generator. -/
structure ShapeMeshes where
  box : GeometryGenerator.MeshData
  grid : GeometryGenerator.MeshData
  sphere : GeometryGenerator.MeshData
  cylinder : GeometryGenerator.MeshData
  cone : GeometryGenerator.MeshData
  triPrism : GeometryGenerator.MeshData
  diamond : GeometryGenerator.MeshData
  pyramid : GeometryGenerator.MeshData
  torus : GeometryGenerator.MeshData
  wedge : GeometryGenerator.MeshData
  torus2 : GeometryGenerator.MeshData
  cylinder2 : GeometryGenerator.MeshData

/-- The meshes in the order `BuildShapeGeometry` concatenates them. -/
def ShapeMeshes.toList (m : ShapeMeshes) : List GeometryGenerator.MeshData :=
  [m.box, m.grid, m.sphere, m.cylinder, m.cone, m.triPrism, m.diamond, m.pyramid, m.torus,
   m.wedge, m.torus2, m.cylinder2]

/-- The keys of `DrawArgs`, in the order of `ShapeMeshes.toList`. -/
def shapeNames : List String :=
  ["box", "grid", "sphere", "cylinder", "cone", "prism", "diamond", "pyramid", "torus",
   "wedge", "torus2", "cylinder2"]

namespace ShapesApp

/-- One vertex-copy loop of `BuildShapeGeometry`:
`for (i = 0; i < mesh.Vertices.size(); ++i, ++k) vertices[k] = ...` with `k` a `UINT`. -/
def copyVertices (src : List GeometryGenerator.Vertex) (acc : List Vertex × Nat) :
    List Vertex × Nat :=
  src.foldl
    (fun a v =>
      (a.1.set a.2 { Pos := v.Position, Normal := v.Normal, TexC := v.TexC }, toUINT (a.2 + 1)))
    acc

/-- The part of `BuildShapeGeometry` that computes the offsets of the meshes in
the concatenated buffers and the submesh ranges, and stores the ranges in
`DrawArgs`. -/
def BuildShapeGeometry.drawArgs (m : ShapeMeshes) : UMap SubmeshGeometry :=
  -- Cache the vertex offsets to each object in the concatenated vertex buffer.
  let boxVertexOffset : Nat := 0
  let gridVertexOffset := toUINT m.box.Vertices.length
  let sphereVertexOffset := toUINT (gridVertexOffset + toUINT m.grid.Vertices.length)
  let cylinderVertexOffset := toUINT (sphereVertexOffset + toUINT m.sphere.Vertices.length)
  let coneVertexOffset := toUINT (cylinderVertexOffset + toUINT m.cylinder.Vertices.length)
  let triPrismVertexOffset := toUINT (coneVertexOffset + toUINT m.cone.Vertices.length)
  let diamondVertexOffset := toUINT (triPrismVertexOffset + toUINT m.triPrism.Vertices.length)
  let pyramidVertexOffset := toUINT (diamondVertexOffset + toUINT m.diamond.Vertices.length)
  let torusVertexOffset := toUINT (pyramidVertexOffset + toUINT m.pyramid.Vertices.length)
  let wedgeVertexOffset := toUINT (torusVertexOffset + toUINT m.torus.Vertices.length)
  let torus2VertexOffset := toUINT (wedgeVertexOffset + toUINT m.wedge.Vertices.length)
  let cylinder2VertexOffset := toUINT (torus2VertexOffset + toUINT m.torus2.Vertices.length)
  -- Cache the starting index for each object in the concatenated index buffer.
  let boxIndexOffset : Nat := 0
  let gridIndexOffset := toUINT m.box.Indices32.length
  let sphereIndexOffset := toUINT (gridIndexOffset + toUINT m.grid.Indices32.length)
  let cylinderIndexOffset := toUINT (sphereIndexOffset + toUINT m.sphere.Indices32.length)
  let coneIndexOffset := toUINT (cylinderIndexOffset + toUINT m.cylinder.Indices32.length)
  let triPrismIndexOffset := toUINT (coneIndexOffset + toUINT m.cone.Indices32.length)
  let diamondIndexOffset := toUINT (triPrismIndexOffset + toUINT m.triPrism.Indices32.length)
  let pyramidIndexOffset := toUINT (diamondIndexOffset + toUINT m.diamond.Indices32.length)
  let torusIndexOffset := toUINT (pyramidIndexOffset + toUINT m.pyramid.Indices32.length)
  let wedgeIndexOffset := toUINT (torusIndexOffset + toUINT m.torus.Indices32.length)
  let torus2IndexOffset := toUINT (wedgeIndexOffset + toUINT m.wedge.Indices32.length)
  let cylinder2IndexOffset := toUINT (torus2IndexOffset + toUINT m.torus2.Indices32.length)
  -- Define the SubmeshGeometry that cover different regions of the vertex/index buffers.
  let boxSubmesh : SubmeshGeometry :=
    ⟨toUINT m.box.Indices32.length, boxIndexOffset, toINT boxVertexOffset⟩
  let wedgeSubmesh : SubmeshGeometry :=
    ⟨toUINT m.wedge.Indices32.length, wedgeIndexOffset, toINT wedgeVertexOffset⟩
  let gridSubmesh : SubmeshGeometry :=
    ⟨toUINT m.grid.Indices32.length, gridIndexOffset, toINT gridVertexOffset⟩
  let sphereSubmesh : SubmeshGeometry :=
    ⟨toUINT m.sphere.Indices32.length, sphereIndexOffset, toINT sphereVertexOffset⟩
  let cylinderSubmesh : SubmeshGeometry :=
    ⟨toUINT m.cylinder.Indices32.length, cylinderIndexOffset, toINT cylinderVertexOffset⟩
  let coneSubmesh : SubmeshGeometry :=
    ⟨toUINT m.cone.Indices32.length, coneIndexOffset, toINT coneVertexOffset⟩
  let triPrismSubmesh : SubmeshGeometry :=
    ⟨toUINT m.triPrism.Indices32.length, triPrismIndexOffset, toINT triPrismVertexOffset⟩
  let diamondSubmesh : SubmeshGeometry :=
    ⟨toUINT m.diamond.Indices32.length, diamondIndexOffset, toINT diamondVertexOffset⟩
  let pyramidSubmesh : SubmeshGeometry :=
    ⟨toUINT m.pyramid.Indices32.length, pyramidIndexOffset, toINT pyramidVertexOffset⟩
  let torusSubmesh : SubmeshGeometry :=
    ⟨toUINT m.torus.Indices32.length, torusIndexOffset, toINT torusVertexOffset⟩
  let torus2Submesh : SubmeshGeometry :=
    ⟨toUINT m.torus2.Indices32.length, torus2IndexOffset, toINT torus2VertexOffset⟩
  let cylinder2Submesh : SubmeshGeometry :=
    ⟨toUINT m.cylinder2.Indices32.length, cylinder2IndexOffset, toINT cylinder2VertexOffset⟩
  let drawArgs0 : UMap SubmeshGeometry := []
  let drawArgs1 := UMap.assign drawArgs0 "box" boxSubmesh
  let drawArgs2 := UMap.assign drawArgs1 "grid" gridSubmesh
  let drawArgs3 := UMap.assign drawArgs2 "sphere" sphereSubmesh
  let drawArgs4 := UMap.assign drawArgs3 "cylinder" cylinderSubmesh
  let drawArgs5 := UMap.assign drawArgs4 "cone" coneSubmesh
  let drawArgs6 := UMap.assign drawArgs5 "prism" triPrismSubmesh
  let drawArgs7 := UMap.assign drawArgs6 "diamond" diamondSubmesh
  let drawArgs8 := UMap.assign drawArgs7 "pyramid" pyramidSubmesh
  let drawArgs9 := UMap.assign drawArgs8 "torus" torusSubmesh
  let drawArgs10 := UMap.assign drawArgs9 "wedge" wedgeSubmesh
  let drawArgs11 := UMap.assign drawArgs10 "torus2" torus2Submesh
  UMap.assign drawArgs11 "cylinder2" cylinder2Submesh

/-- The part of `BuildShapeGeometry` that packs the vertices of all the meshes
into one vertex buffer. -/
def BuildShapeGeometry.vertices (m : ShapeMeshes) : List Vertex :=
  let totalVertexCount :=
    (m.box.Vertices.length + m.grid.Vertices.length + m.sphere.Vertices.length
      + m.cylinder.Vertices.length + m.cone.Vertices.length + m.triPrism.Vertices.length
      + m.diamond.Vertices.length + m.pyramid.Vertices.length + m.torus.Vertices.length
      + m.wedge.Vertices.length + m.torus2.Vertices.length + m.cylinder2.Vertices.length) % UINT64_RANGE
  let vertices0 : List Vertex × Nat := (List.replicate totalVertexCount {}, 0)
  (copyVertices m.cylinder2.Vertices <| copyVertices m.torus2.Vertices <|
    copyVertices m.wedge.Vertices <| copyVertices m.torus.Vertices <|
    copyVertices m.pyramid.Vertices <| copyVertices m.diamond.Vertices <|
    copyVertices m.triPrism.Vertices <| copyVertices m.cone.Vertices <|
    copyVertices m.cylinder.Vertices <| copyVertices m.sphere.Vertices <|
    copyVertices m.grid.Vertices <| copyVertices m.box.Vertices vertices0).1

/-- The part of `BuildShapeGeometry` that concatenates the 16-bit indices of all
the meshes into one index buffer. -/
def BuildShapeGeometry.indices (m : ShapeMeshes) : List Nat :=
  m.box.GetIndices16 ++ m.grid.GetIndices16 ++ m.sphere.GetIndices16 ++ m.cylinder.GetIndices16
    ++ m.cone.GetIndices16 ++ m.triPrism.GetIndices16 ++ m.diamond.GetIndices16
    ++ m.pyramid.GetIndices16 ++ m.torus.GetIndices16 ++ m.wedge.GetIndices16
    ++ m.torus2.GetIndices16 ++ m.cylinder2.GetIndices16

/-- The method `BuildShapeGeometry`, given the generated meshes. -/
def BuildShapeGeometry (m : ShapeMeshes) (s : ShapesApp) : ShapesApp :=
  let vertices := BuildShapeGeometry.vertices m
  let indices := BuildShapeGeometry.indices m
  let vbByteSize := toUINT (toUINT vertices.length * sizeofVertex)
  let ibByteSize := toUINT (toUINT indices.length * 2)
  let geo : MeshGeometry :=
    { Name := "shapeGeo"
      VertexBufferCPU := vertices
      IndexBufferCPU := indices
      VertexByteStride := sizeofVertex
      VertexBufferByteSize := vbByteSize
      IndexBufferByteSize := ibByteSize
      DrawArgs := BuildShapeGeometry.drawArgs m }
  { s with mGeometries := UMap.assign s.mGeometries geo.Name (some geo) }

/-- The method `BuildMaterials`. -/
def BuildMaterials (s : ShapesApp) : ShapesApp :=
  let bricks0 : Material :=
    { Name := "bricks0", MatCBIndex := 0, DiffuseSrvHeapIndex := 0
      DiffuseAlbedo := (1, 1, 1, 1), FresnelR0 := (2 / 100, 2 / 100, 2 / 100), Roughness := 1 / 10 }
  let stone0 : Material :=
    { Name := "stone0", MatCBIndex := 1, DiffuseSrvHeapIndex := 1
      DiffuseAlbedo := (1, 1, 1, 1), FresnelR0 := (95 / 100, 95 / 100, 95 / 100), Roughness := 1 / 100 }
  let tile0 : Material :=
    { Name := "tile0", MatCBIndex := 2, DiffuseSrvHeapIndex := 2
      DiffuseAlbedo := (1, 1, 1, 1), FresnelR0 := (2 / 100, 2 / 100, 2 / 100), Roughness := 3 / 10 }
  let materials1 := UMap.assign s.mMaterials "bricks0" (some bricks0)
  let materials2 := UMap.assign materials1 "stone0" (some stone0)
  let materials3 := UMap.assign materials2 "tile0" (some tile0)
  { s with mMaterials := materials3 }

/-- The method `SetRenderItemInfo`: the application afterwards and the render item
as filled in. A null `Ritem.Geo` is dereferenced when "shapeGeo" is not a
geometry (`none`). -/
def SetRenderItemInfo (s : ShapesApp) (Ritem : RenderItem) (itemType : String)
    (transform : XMFLOAT4X4) : Option (ShapesApp × RenderItem) :=
  let r1 := { Ritem with ObjCBIndex := s.objCBIndex }
  let s1 := { s with objCBIndex := toUINT (s.objCBIndex + 1) }
  let r2 := { r1 with World := transform }
  let (mat, mats) := UMap.index none s1.mMaterials "stone0"
  let r3 := { r2 with Mat := mat.map (fun _ => "stone0") }
  let (geo, geos) := UMap.index none s1.mGeometries "shapeGeo"
  let r4 := { r3 with Geo := geo.map (fun _ => "shapeGeo") }
  let r5 := { r4 with PrimitiveType := D3D_PRIMITIVE_TOPOLOGY_TRIANGLELIST }
  match geo with
  | none => none
  | some g =>
    let (sub1, args1) := UMap.index ({} : SubmeshGeometry) g.DrawArgs itemType
    let r6 := { r5 with IndexCount := sub1.IndexCount }
    let (sub2, args2) := UMap.index ({} : SubmeshGeometry) args1 itemType
    let r7 := { r6 with StartIndexLocation := sub2.StartIndexLocation }
    let (sub3, args3) := UMap.index ({} : SubmeshGeometry) args2 itemType
    let r8 := { r7 with BaseVertexLocation := sub3.BaseVertexLocation }
    let inverseTransform := XMMatrixTranspose transform
    let r9 := { r8 with TWorld := inverseTransform }
    some ({ s1 with
            mMaterials := mats
            mGeometries := UMap.assign geos "shapeGeo" (some { g with DrawArgs := args3 }) }, r9)

end ShapesApp

/-- The values of `j` in `for (int j = lo; j < hi; j += step)`. -/
def forValues (lo hi step : Nat) : List Nat :=
  ((List.range (hi - lo)).map (fun n => lo + n)).filter (fun j => (j - lo) % step == 0)

namespace ShapesApp

/-- The call `mAllRitems.push_back(std::move(item))`. -/
def pushRitem (s : ShapesApp) (item : RenderItem) : ShapesApp :=
  { s with mAllRitems := s.mAllRitems ++ [item] }

/-- One render item of `BuildRenderItems` that is created, filled in by
`SetRenderItemInfo` and pushed onto `mAllRitems` at once. -/
def BuildRenderItems.single (s : ShapesApp) (itemType : String) (world : XMFLOAT4X4) :
    Option ShapesApp :=
  let ritem : RenderItem := {}
  match SetRenderItemInfo s ritem itemType world with
  | none => none
  | some (s, ritem) => some (pushRitem s ritem)

/-- The body of the tower loop of `BuildRenderItems` for the value `i`. -/
def BuildRenderItems.tower (L : MathLib) (thetaSquareStep radius : FLOAT) (s : ShapesApp)
    (i : Nat) : Option ShapesApp :=
  let theta : FLOAT := i * thetaSquareStep + thetaSquareStep * (1 / 2)
  let sRadius := radius * L.sinf theta
  let cRadius := radius * L.cosf theta
  let towerRitem : RenderItem := {}
  let poleRitem : RenderItem := {}
  let sphereRitem : RenderItem := {}
  let flagRitem : RenderItem := {}
  -- keep in mind the base cylinder has a height of 2
  let towerWorld :=
    XMMatrixMultiply (XMMatrixScaling 6 7 6) (XMMatrixTranslation cRadius 7 sRadius)
  let poleWorld :=
    XMMatrixMultiply (XMMatrixScaling (2 / 10) 2 (2 / 10)) (XMMatrixTranslation cRadius 21 sRadius)
  let sphereWorld :=
    XMMatrixMultiply (XMMatrixScaling (3 / 10) (3 / 10) (3 / 10))
      (XMMatrixTranslation cRadius (231 / 10) sRadius)
  let flagWorld :=
    XMMatrixMultiply (XMMatrixScaling (15 / 10) 1 (1 / 10))
      (XMMatrixTranslation (cRadius - 1) (225 / 10) sRadius)
  match SetRenderItemInfo s towerRitem "cylinder" towerWorld with
  | none => none
  | some (s, towerRitem) =>
  match SetRenderItemInfo s poleRitem "cylinder" poleWorld with
  | none => none
  | some (s, poleRitem) =>
  match SetRenderItemInfo s flagRitem "box" flagWorld with
  | none => none
  | some (s, flagRitem) =>
  match SetRenderItemInfo s sphereRitem "sphere" sphereWorld with
  | none => none
  | some (s, sphereRitem) =>
  let s := pushRitem s towerRitem
  let s := pushRitem s poleRitem
  let s := pushRitem s sphereRitem
  let s := pushRitem s flagRitem
  -- adding the rooves seperately from the other tower components, since the last tower wont have one
  if i < 3 then
    let roofRitem : RenderItem := {}
    let roofWorld :=
      XMMatrixMultiply (XMMatrixScaling 8 6 8) (XMMatrixTranslation cRadius 17 sRadius)
    match SetRenderItemInfo s roofRitem "cone" roofWorld with
    | none => none
    | some (s, roofRitem) => some (pushRitem s roofRitem)
  else
    some s

/-- The body of the inner loop of the wall loop of `BuildRenderItems`. -/
def BuildRenderItems.mogul (L : MathLib) (theta sRadius cRadius : FLOAT) (s : ShapesApp)
    (j : Nat) : Option ShapesApp :=
  let MogulWorld : XMFLOAT4X4 :=
    if theta == XM_PI || theta == 0 then
      XMMatrixMultiply (XMMatrixMultiply (XMMatrixScaling 2 1 1) (XMMatrixRotationY L theta))
        (XMMatrixTranslation cRadius (128 / 10) ((sRadius - 25) + j))
    else
      XMMatrixMultiply (XMMatrixMultiply (XMMatrixScaling 2 1 1) (XMMatrixRotationY L theta))
        (XMMatrixTranslation ((cRadius - 25) + j) (128 / 10) sRadius)
  BuildRenderItems.single s "box" MogulWorld

/-- The body of the wall loop of `BuildRenderItems` for the value `i`. -/
def BuildRenderItems.wall (L : MathLib) (thetaSquareStep w2 : FLOAT) (s : ShapesApp)
    (i : Nat) : Option ShapesApp :=
  let theta : FLOAT := i * thetaSquareStep
  let sRadius := w2 * L.sinf theta
  let cRadius := w2 * L.cosf theta
  -- the three identical castle walls
  let world :=
    XMMatrixMultiply (XMMatrixMultiply (XMMatrixScaling 1 10 width) (XMMatrixRotationY L theta))
      (XMMatrixTranslation cRadius 5 sRadius)
  match (if i < 3 then BuildRenderItems.single s "box" world else some s) with
  | none => none
  | some s =>
  -- the prism along the top of the walls
  let PrismWorld :=
    XMMatrixMultiply (XMMatrixMultiply (XMMatrixScaling 1 4 (width - 3)) (XMMatrixRotationY L theta))
      (XMMatrixTranslation cRadius (105 / 10) sRadius)
  match BuildRenderItems.single s "prism" PrismWorld with
  | none => none
  | some s =>
  let mogulsNum := 50
  -- the loop increments by 2
  (forValues 0 mogulsNum 2).foldlM (BuildRenderItems.mogul L theta sRadius cRadius) s

/-- The body of the loop over the two smaller front walls. -/
def BuildRenderItems.frontWall (s : ShapesApp) (i : Nat) : Option ShapesApp :=
  let WallWorld :=
    XMMatrixMultiply (XMMatrixScaling 19 10 1) (XMMatrixTranslation (-125 / 10 + i * 25) 5 (-25))
  BuildRenderItems.single s "box" WallWorld

/-- The body of the loop over the two wedges. -/
def BuildRenderItems.wedge (L : MathLib) (thetaSquareStep : FLOAT) (s : ShapesApp)
    (i : Nat) : Option ShapesApp :=
  let wedgeWorld :=
    XMMatrixMultiply (XMMatrixMultiply (XMMatrixRotationY L (-thetaSquareStep)) (XMMatrixScaling 3 3 18))
      (XMMatrixTranslation 0 (45 / 10 + i * (-3)) (-35 / 10 + i * (-31)))
  BuildRenderItems.single s "wedge" wedgeWorld

/-- The method `BuildRenderItems`. -/
def BuildRenderItems (L : MathLib) (s : ShapesApp) : Option ShapesApp :=
  let thetaSquareStep : FLOAT := XM_2PI / 4
  let w2 : FLOAT := width * (1 / 2)
  let d2 : FLOAT := w2
  let radius := L.sqrtf (w2 * w2 + d2 * d2)
  let gridWorld := XMMatrixIdentity
  match BuildRenderItems.single s "grid" gridWorld with
  | none => none
  | some s =>
  -- tower objects
  match (forValues 0 4 1).foldlM (BuildRenderItems.tower L thetaSquareStep radius) s with
  | none => none
  | some s =>
  -- adding pale and torus on their own
  let paleWorld :=
    XMMatrixMultiply (XMMatrixScaling (35 / 10) 3 (35 / 10)) (XMMatrixTranslation w2 (175 / 10) (-d2))
  match BuildRenderItems.single s "cylinder2" paleWorld with
  | none => none
  | some s =>
  let torusWorld :=
    XMMatrixMultiply (XMMatrixScaling (18 / 10) 2 (18 / 10)) (XMMatrixTranslation w2 (145 / 10) (-d2))
  match BuildRenderItems.single s "torus2" torusWorld with
  | none => none
  | some s =>
  -- walls
  match (forValues 0 4 1).foldlM (BuildRenderItems.wall L thetaSquareStep w2) s with
  | none => none
  | some s =>
  -- smaller, front walls
  match (forValues 0 2 1).foldlM BuildRenderItems.frontWall s with
  | none => none
  | some s =>
  let PyrWorld :=
    XMMatrixMultiply (XMMatrixScaling 21 6 21) (XMMatrixTranslation 0 (75 / 10) 13)
  match BuildRenderItems.single s "pyramid" PyrWorld with
  | none => none
  | some s =>
  let DiamondWorld :=
    XMMatrixMultiply (XMMatrixScaling 1 1 1) (XMMatrixTranslation 0 13 13)
  match BuildRenderItems.single s "diamond" DiamondWorld with
  | none => none
  | some s =>
  let RingWorld :=
    XMMatrixMultiply
      (XMMatrixMultiply (XMMatrixScaling (1 / 2) (1 / 2) (1 / 2)) (XMMatrixRotationX L (1571 / 1000)))
      (XMMatrixTranslation 0 (1175 / 100) 13)
  match BuildRenderItems.single s "torus" RingWorld with
  | none => none
  | some s =>
  match (forValues 0 2 1).foldlM (BuildRenderItems.wedge L thetaSquareStep) s with
  | none => none
  | some s =>
  let pathWorld :=
    XMMatrixMultiply (XMMatrixScaling 6 3 13) (XMMatrixTranslation 0 (15 / 10) (-19))
  match BuildRenderItems.single s "box" pathWorld with
  | none => none
  | some s =>
  -- All the render items are opaque.
  some { s with mOpaqueRitems := s.mOpaqueRitems ++ List.range s.mAllRitems.length }

/-- The method `BuildFrameResources`. -/
def BuildFrameResources (s : ShapesApp) : ShapesApp :=
  (forValues 0 gNumFrameResources 1).foldl
    (fun s _ =>
      { s with mFrameResources := s.mFrameResources ++
          [FrameResource.create 1 (toUINT s.mAllRitems.length) (toUINT s.mMaterials.length)] })
    s

/-- The method `BuildPSOs`: the two pipeline states it stores. -/
def BuildPSOs (s : ShapesApp) : ShapesApp :=
  let psos1 := UMap.assign s.mPSOs "opaque" (some PSO.solid)
  let psos2 := UMap.assign psos1 "opaque_wireframe" (some PSO.wireframe)
  { s with mPSOs := psos2 }

/-- Modelled from the spec: the method `FlushCommandQueue` of the base class, a
hard wait for all outstanding GPU work. The fence counter is advanced and
signalled, and the call returns once the fence object has reached it. -/
def FlushCommandQueue (s : ShapesApp) : ShapesApp :=
  let fence := (s.mCurrentFence + 1) % UINT64_RANGE
  { s with mCurrentFence := fence, mFenceSignalled := fence, mFenceCompleted := fence }

/-- The method `Initialize`, after the initialisation of the base class: the
build steps that set up state of this embedding, then the flush. -/
def Initialize (L : MathLib) (m : ShapeMeshes) (s : ShapesApp) : Option ShapesApp :=
  let s := BuildShapeGeometry m s
  let s := BuildMaterials s
  match BuildRenderItems L s with
  | none => none
  | some s =>
  let s := BuildFrameResources s
  let s := BuildPSOs s
  some (FlushCommandQueue s)

end ShapesApp

/-! ## Runs of the application -/

/-- What happens to the application once it is initialised: the message loop calls
`Update` and `Draw`, mouse messages arrive, and the GPU advances the completed
value of the fence object. -/
inductive Event where
  | update (inp : ShapesApp.FrameInput)
  | draw
  | mouseDown (btnState : Nat) (x y : Int)
  | mouseMove (btnState : Nat) (x y : Int)
  | gpu (completed : Nat)

namespace ShapesApp

/-- The effect of an event on the application. -/
def exec (L : MathLib) (s : ShapesApp) : Event → Option ShapesApp
  | Event.update inp => Update L inp s
  | Event.draw => Draw s
  | Event.mouseDown btnState x y => some (OnMouseDown s btnState x y)
  | Event.mouseMove btnState x y => some (OnMouseMove s btnState x y)
  | Event.gpu completed => some { s with mFenceCompleted := completed }

/-- What is assumed of the fence object: its completed value never decreases and
never exceeds the last value the queue was told to signal, and the blocking wait
of `Update` returns with a completed value that has reached the awaited one. -/
def admissible (s : ShapesApp) : Event → Bool
  | Event.gpu completed => decide (s.mFenceCompleted ≤ completed ∧ completed ≤ s.mFenceSignalled)
  | Event.update inp =>
    match s.mFrameResources[(s.mCurrFrameResourceIndex + 1) % gNumFrameResources]? with
    | none => true
    | some fr =>
      !(mustWait s fr) ||
        decide (fr.Fence ≤ inp.completedAfterWait ∧ s.mFenceCompleted ≤ inp.completedAfterWait
          ∧ inp.completedAfterWait ≤ s.mFenceSignalled)
  | _ => true

/-- The application after a sequence of events, when each is admissible and
defined. -/
def run (L : MathLib) : List Event → ShapesApp → Option ShapesApp
  | [], s => some s
  | e :: es, s =>
    if admissible s e then
      match exec L s e with
      | none => none
      | some s1 => run L es s1
    else none

/-- Whether the events are frames of the message loop: `Update` then `Draw`, over
and over, with any number of mouse messages and GPU steps in between. The flag
tells whether a `Draw` is due. -/
def framed : Bool → List Event → Bool
  | _, [] => true
  | false, Event.update _ :: es => framed true es
  | true, Event.draw :: es => framed false es
  | _, Event.update _ :: _ => false
  | _, Event.draw :: _ => false
  | b, _ :: es => framed b es

/-- The number of `Update` calls among the events. -/
def updateCount : List Event → Nat
  | [] => 0
  | Event.update _ :: es => updateCount es + 1
  | _ :: es => updateCount es

/-- The application after `k` calls of the partial method `f`. -/
def iterate (f : ShapesApp → Option ShapesApp) : Nat → ShapesApp → Option ShapesApp
  | 0, s => some s
  | k + 1, s =>
    match f s with
    | none => none
    | some s1 => iterate f k s1

end ShapesApp

/-! ## Concrete data -/

/-- A stand-in for the routines of `MathLib`, enough to run the embedding. -/
def sampleLib : MathLib where
  sinf := fun _ => 0
  cosf := fun _ => 1
  sqrtf := fun x => x
  XMMatrixLookAtLH := fun _ _ _ => 1
  XMMatrixInverse := fun m => m
  XMMatrixPerspectiveFovLH := fun _ _ _ _ => 1
  InverseTranspose := fun m => m

/-- A mesh of `v` vertices and `n` indices, all zero. -/
def sampleMesh (v n : Nat) : GeometryGenerator.MeshData :=
  ⟨List.replicate v ⟨(0, 0, 0), (0, 0, 0), (0, 0, 0), (0, 0)⟩, List.replicate n 0⟩

/-- Twelve small meshes. -/
def sampleMeshes : ShapeMeshes :=
  ⟨sampleMesh 24 36, sampleMesh 4 6, sampleMesh 5 12, sampleMesh 6 12, sampleMesh 4 6,
   sampleMesh 6 24, sampleMesh 8 36, sampleMesh 5 18, sampleMesh 9 24, sampleMesh 6 24,
   sampleMesh 9 24, sampleMesh 6 12⟩

/-- A render item for the box of the small scene, as newly built. -/
def sampleItem : RenderItem :=
  { ObjCBIndex := 0, Mat := some "stone0", Geo := some "shapeGeo", IndexCount := 36 }

/-- A small scene after startup: one render item, one material, a ring of three
slots none of which has been submitted. -/
def sampleApp : ShapesApp :=
  { mFrameResources := List.replicate 3 (FrameResource.create 1 1 1)
    mMaterials := [("stone0", some { Name := "stone0", MatCBIndex := 0, DiffuseSrvHeapIndex := 0 })]
    mGeometries := [("shapeGeo", some { Name := "shapeGeo", DrawArgs := [("box", ⟨36, 0, 0⟩)] })]
    mPSOs := [("opaque", some PSO.solid), ("opaque_wireframe", some PSO.wireframe)]
    mAllRitems := [sampleItem]
    mOpaqueRitems := [0]
    objCBIndex := 1 }

/-- The small scene during a frame, with ring slot `0` current. -/
def runningApp : ShapesApp := { sampleApp with mCurrFrameResource := some 0 }

/-- The small scene during a frame, once the countdown of its item has run out. -/
def settledApp : ShapesApp :=
  { runningApp with mAllRitems := [{ sampleItem with NumFramesDirty := 0 }] }

/-- The input of a frame in which the `1` key is up and no wait result is needed. -/
def sampleInput : ShapesApp.FrameInput := ⟨false, ⟨0, 0⟩, 0⟩

/-! ## Notions used by the statements -/

/-- Rounding to the nearest `float`: `c` is `m / 2 ^ k` with a normalised 24-bit
significand `m`, and `x` is less than half a unit in the last place of `c` away
from it. -/
def RoundsTo (x c : FLOAT) : Prop :=
  ∃ (m : Int) (k : Nat), 8388608 ≤ |m| ∧ |m| < 16777216 ∧ c * 2 ^ k = m
    ∧ |x - c| * 2 ^ (k + 1) < 1

namespace ShapesApp

/-- The application after a sequence of `OnMouseMove` calls, each given by its
button state and cursor position. -/
def mouseMoves (s : ShapesApp) (moves : List (Nat × Int × Int)) : ShapesApp :=
  moves.foldl (fun s e => OnMouseMove s e.1 e.2.1 e.2.2) s

/-- The camera bounds of the code: `mPhi` between the values of `0.1f` and of
`MathHelper::Pi - 0.1f`, and `mRadius` within `[5, 150]`. -/
def CameraClamped (s : ShapesApp) : Prop :=
  float0_1 ≤ s.mPhi ∧ s.mPhi ≤ MathHelper.PiMinus0_1 ∧ 5 ≤ s.mRadius ∧ s.mRadius ≤ 150

/-- The `MatCBIndex` values of the materials of the table, in table order
(`none` for a null entry). -/
def matCBIndices (s : ShapesApp) : List (String × Option Int) :=
  s.mMaterials.map (fun e => (e.1, e.2.map (fun mat => mat.MatCBIndex)))

/-- The submesh range `BuildShapeGeometry` leaves under `name` in the `DrawArgs`
of the geometry "shapeGeo". -/
def builtSubmesh (m : ShapeMeshes) (s : ShapesApp) (name : String) : Option SubmeshGeometry :=
  match UMap.find (BuildShapeGeometry m s).mGeometries "shapeGeo" with
  | some (some g) => UMap.find g.DrawArgs name
  | _ => none

end ShapesApp

/-- The index counts of the meshes, in concatenation order. -/
def ShapeMeshes.indexCounts (m : ShapeMeshes) : List Nat :=
  m.toList.map (fun d => d.Indices32.length)

/-- The vertex counts of the meshes, in concatenation order. -/
def ShapeMeshes.vertexCounts (m : ShapeMeshes) : List Nat :=
  m.toList.map (fun d => d.Vertices.length)

/-- The recorded range of the mesh at position `i`: it starts at the sum of the
index counts and at the sum of the vertex counts of the meshes before it, and
has the mesh's own index count. -/
def ShapesApp.RangeIsPrefixSum (m : ShapeMeshes) (s : ShapesApp) (i : Nat) : Prop :=
  ∃ sub, ShapesApp.builtSubmesh m s (shapeNames.getD i "") = some sub
    ∧ sub.StartIndexLocation = (m.indexCounts.take i).sum
    ∧ sub.BaseVertexLocation = ((m.vertexCounts.take i).sum : Nat)
    ∧ sub.IndexCount = m.indexCounts.getD i 0

/-- Twelve meshes of which the first, the box, has `2 ^ 32` indices. -/
def hugeMeshes : ShapeMeshes :=
  { sampleMeshes with box := sampleMesh 24 4294967296 }

/-- The outcome of `SetRenderItemInfo` on a new render item, for a shape whose
submesh range is `sub`: the item carries the counter's value as `ObjCBIndex`
and the draw parameters of `sub`, its dirty countdown is still the ring depth,
and the counter is one more than before. -/
def ShapesApp.NewItemFilled (s : ShapesApp) (itemType : String) (transform : XMFLOAT4X4)
    (sub : SubmeshGeometry) : Prop :=
  ∃ s1 r, ShapesApp.SetRenderItemInfo s {} itemType transform = some (s1, r)
    ∧ r.ObjCBIndex = s.objCBIndex
    ∧ r.IndexCount = sub.IndexCount
    ∧ r.StartIndexLocation = sub.StartIndexLocation
    ∧ r.BaseVertexLocation = sub.BaseVertexLocation
    ∧ r.NumFramesDirty = gNumFrameResources
    ∧ s1.objCBIndex = s.objCBIndex + 1

/-- The small scene with the counter `objCBIndex` at the largest `UINT`. -/
def wrapApp : ShapesApp := { sampleApp with objCBIndex := 4294967295 }

namespace ShapesApp

/-- What one call of `UpdateObjectCBs` does to the dirty countdown of an item. -/
def countDown (e : RenderItem) : RenderItem :=
  if e.NumFramesDirty > 0 then { e with NumFramesDirty := e.NumFramesDirty - 1 } else e

/-- The current ring slot exists and the `ObjCBIndex` of every render item is an
element of its object-constant buffer: the copies of `UpdateObjectCBs` stay
inside the buffer. -/
def ObjectCBsInRange (s : ShapesApp) : Prop :=
  ∃ slot fr, s.currFrameResource = some (slot, fr)
    ∧ ∀ e ∈ s.mAllRitems,
        0 ≤ toINT e.ObjCBIndex ∧ toINT e.ObjCBIndex < fr.ObjectCB.elements.length

end ShapesApp

namespace ShapesApp

/-- The part of the state the frame-resource ring is made of: the ring index,
the current slot, the three fence counters and the `Fence` of every slot. -/
def ringView (s : ShapesApp) : Nat × Option Nat × Nat × Nat × Nat × List Nat :=
  (s.mCurrFrameResourceIndex, s.mCurrFrameResource, s.mFenceCompleted, s.mCurrentFence,
    s.mFenceSignalled, s.mFrameResources.map (fun fr => fr.Fence))

/-- Every buffer write made so far found the `Fence` of the written slot at or
below the completed value of the fence object. -/
def WritesSafe (s : ShapesApp) : Prop :=
  ∀ w ∈ s.cbWrites, w.slotFence ≤ w.completedValue

/-- The GPU has reached the `Fence` of ring slot `slot`. -/
def SlotRetired (slot : Nat) (s : ShapesApp) : Prop :=
  ∀ fr, s.mFrameResources[slot]? = some fr → fr.Fence ≤ s.mFenceCompleted

/-- The `ObjCBIndex` of every render item, in the order of `mAllRitems`. -/
def objCBIndices (s : ShapesApp) : List Nat :=
  s.mAllRitems.map (fun e => e.ObjCBIndex)

end ShapesApp

/-- The events of four frames of the small scene. The GPU completes nothing, so
the fourth `Update`, which returns to slot `1`, has to wait for the fence of that
slot's first submission, and the wait returns when the fence object shows `1`. -/
def sampleRun : List Event :=
  [Event.update sampleInput, Event.draw, Event.update sampleInput, Event.draw,
   Event.update sampleInput, Event.draw, Event.update ⟨false, ⟨0, 0⟩, 1⟩]

/-! ### The counter of the scene builder

`BuildRenderItems` is followed on a pair: the value of the counter `objCBIndex`
and the `ObjCBIndex` values of the items pushed so far, in the order of
`mAllRitems`. -/

/-- The counter and the indices of the pushed items. -/
abbrev BuilderTrace := Nat × List Nat

namespace BuilderTrace

/-- One item filled in and pushed at once. -/
def single (a : BuilderTrace) : BuilderTrace := (toUINT (a.1 + 1), a.2 ++ [a.1])

/-- One round of the tower loop: tower, pole, flag and sphere are filled in in this
order and pushed as tower, pole, sphere, flag; a roof follows when `i < 3`. -/
def tower (a : BuilderTrace) (i : Nat) : BuilderTrace :=
  let c0 := a.1
  let c1 := toUINT (c0 + 1)
  let c2 := toUINT (c1 + 1)
  let c3 := toUINT (c2 + 1)
  let c4 := toUINT (c3 + 1)
  let l := a.2 ++ [c0] ++ [c1] ++ [c3] ++ [c2]
  if i < 3 then (toUINT (c4 + 1), l ++ [c4]) else (c4, l)

/-- One round of the wall loop: a wall when `i < 3`, a prism and the moguls. -/
def wall (a : BuilderTrace) (i : Nat) : BuilderTrace :=
  let a1 := if i < 3 then single a else a
  let a2 := single a1
  (forValues 0 50 2).foldl (fun b _ => single b) a2

/-- The whole of `BuildRenderItems`. -/
def build (a : BuilderTrace) : BuilderTrace :=
  let a1 := single a
  let a2 := (forValues 0 4 1).foldl tower a1
  let a3 := single a2
  let a4 := single a3
  let a5 := (forValues 0 4 1).foldl wall a4
  let a6 := (forValues 0 2 1).foldl (fun b _ => single b) a5
  let a7 := single a6
  let a8 := single a7
  let a9 := single a8
  let a10 := (forValues 0 2 1).foldl (fun b _ => single b) a9
  single a10

end BuilderTrace

/-- The builder is ready: the geometry "shapeGeo" exists, the counter and the
indices of the pushed items are those of the trace. -/
def ShapesApp.Traced (s : ShapesApp) (a : BuilderTrace) : Prop :=
  (∃ g, UMap.find s.mGeometries "shapeGeo" = some (some g))
  ∧ s.objCBIndex = a.1 ∧ s.objCBIndices = a.2

/-- The scene of the application, built by `Initialize` from the twelve small
meshes. -/
def sceneApp : Option ShapesApp := ShapesApp.Initialize sampleLib sampleMeshes {}

/-- The events of four frames of the scene. `Initialize` has flushed the queue at
fence `1`, the three submissions carry the fences `2`, `3`, `4`, and the GPU
completes nothing more until the fourth `Update`, which returns to slot `1`, waits
for fence `2`. -/
def sceneRun : List Event :=
  [Event.update sampleInput, Event.draw, Event.update sampleInput, Event.draw,
   Event.update sampleInput, Event.draw, Event.update ⟨false, ⟨0, 0⟩, 2⟩]

/-! ## Notions used by the statements on frames, draws and world matrices -/

/-- The input of a frame in which the `1` key is down. -/
def keyDownInput : ShapesApp.FrameInput := ⟨true, ⟨0, 0⟩, 0⟩

namespace ShapesApp

/-- Whether a call of `Update` enters the body of its `if` and blocks on the
fence: the condition
`mCurrFrameResource->Fence != 0 && mFence->GetCompletedValue() < mCurrFrameResource->Fence`,
evaluated where `Update` evaluates it, after the ring has advanced. -/
def Update.blocks (L : MathLib) (inp : FrameInput) (s : ShapesApp) : Option Bool :=
  let s1 := OnKeyboardInput inp.key1Down s
  let s2 := UpdateCamera L s1
  -- Cycle through the circular frame resource array.
  let idx := (s2.mCurrFrameResourceIndex + 1) % gNumFrameResources
  match s2.mFrameResources[idx]? with
  | none => none
  | some fr => some (fr.Fence != 0 && decide (s2.mFenceCompleted < fr.Fence))

end ShapesApp

/-- The small scene after `2 ^ 64 - 1` frames: the fence counter is at the
largest `UINT64`, the three slots hold the last three fence values, the GPU has
completed them all, and `Update` has advanced to slot `0`. -/
def fenceWrapApp : ShapesApp :=
  { sampleApp with
    mFrameResources :=
      [ { FrameResource.create 1 1 1 with Fence := 18446744073709551613 },
        { FrameResource.create 1 1 1 with Fence := 18446744073709551614 },
        { FrameResource.create 1 1 1 with Fence := 18446744073709551615 } ]
    mCurrentFence := 18446744073709551615
    mFenceSignalled := 18446744073709551615
    mFenceCompleted := 18446744073709551615
    mCurrFrameResourceIndex := 0
    mCurrFrameResource := some 0 }

/-- The `Fence` of every ring slot, in ring order. -/
def ShapesApp.slotFences (s : ShapesApp) : List Nat :=
  s.mFrameResources.map (fun fr => fr.Fence)

/-! ### The factors of a world matrix -/

/-- A factor of a world matrix as the scene builder writes it: a call of
`XMMatrixScaling`, `XMMatrixRotationX`, `XMMatrixRotationY` or
`XMMatrixTranslation` with its arguments. -/
inductive WorldFactor where
  | scaling (sx sy sz : FLOAT)
  | rotationX (angle : FLOAT)
  | rotationY (angle : FLOAT)
  | translation (x y z : FLOAT)
deriving DecidableEq

/-- What a factor is: a scale, a rotation or a translation. -/
inductive FactorKind where
  | scale
  | rotation
  | translation
deriving DecidableEq, Repr

namespace WorldFactor

def kind : WorldFactor → FactorKind
  | scaling _ _ _ => FactorKind.scale
  | rotationX _ => FactorKind.rotation
  | rotationY _ => FactorKind.rotation
  | translation _ _ _ => FactorKind.translation

/-- The matrix the call returns. -/
def matrix (L : MathLib) : WorldFactor → XMFLOAT4X4
  | scaling sx sy sz => XMMatrixScaling sx sy sz
  | rotationX angle => XMMatrixRotationX L angle
  | rotationY angle => XMMatrixRotationY L angle
  | translation x y z => XMMatrixTranslation x y z

/-- The product `f1 * f2 * ... * fn` of the factors, multiplied from the left as
`operator*` associates: `[a, b, c]` gives
`XMMatrixMultiply (XMMatrixMultiply a b) c`. No factor gives `XMMatrixIdentity()`. -/
def product (L : MathLib) : List WorldFactor → XMFLOAT4X4
  | [] => XMMatrixIdentity
  | f :: fs => fs.foldl (fun acc g => XMMatrixMultiply acc (g.matrix L)) (f.matrix L)

/-- The factors are a scale, then a rotation, then a translation, in that order
of multiplication; the rotation may be left out, and so may all three. -/
def InOrder (fs : List WorldFactor) : Prop :=
  fs.map kind = [FactorKind.scale, FactorKind.rotation, FactorKind.translation]
  ∨ fs.map kind = [FactorKind.scale, FactorKind.translation]
  ∨ fs = []

end WorldFactor

/-- The factors of the world matrices `BuildRenderItems` writes, item by item in
the order of the `push_back` calls. -/
def BuilderWorlds.tower (L : MathLib) (thetaSquareStep radius : FLOAT) (i : Nat) :
    List (List WorldFactor) :=
  let theta : FLOAT := i * thetaSquareStep + thetaSquareStep * (1 / 2)
  let sRadius := radius * L.sinf theta
  let cRadius := radius * L.cosf theta
  let towerWorld := [WorldFactor.scaling 6 7 6, WorldFactor.translation cRadius 7 sRadius]
  let poleWorld :=
    [WorldFactor.scaling (2 / 10) 2 (2 / 10), WorldFactor.translation cRadius 21 sRadius]
  let sphereWorld :=
    [WorldFactor.scaling (3 / 10) (3 / 10) (3 / 10),
      WorldFactor.translation cRadius (231 / 10) sRadius]
  let flagWorld :=
    [WorldFactor.scaling (15 / 10) 1 (1 / 10),
      WorldFactor.translation (cRadius - 1) (225 / 10) sRadius]
  let roofWorld := [WorldFactor.scaling 8 6 8, WorldFactor.translation cRadius 17 sRadius]
  [towerWorld, poleWorld, sphereWorld, flagWorld] ++ (if i < 3 then [roofWorld] else [])

/-- The factors of `MogulWorld` in the inner loop of the wall loop. -/
def BuilderWorlds.mogul (theta sRadius cRadius : FLOAT) (j : Nat) : List WorldFactor :=
  if theta == XM_PI || theta == 0 then
    [WorldFactor.scaling 2 1 1, WorldFactor.rotationY theta,
      WorldFactor.translation cRadius (128 / 10) ((sRadius - 25) + j)]
  else
    [WorldFactor.scaling 2 1 1, WorldFactor.rotationY theta,
      WorldFactor.translation ((cRadius - 25) + j) (128 / 10) sRadius]

/-- One round of the wall loop: the wall when `i < 3`, the prism and the moguls. -/
def BuilderWorlds.wall (L : MathLib) (thetaSquareStep w2 : FLOAT) (i : Nat) :
    List (List WorldFactor) :=
  let theta : FLOAT := i * thetaSquareStep
  let sRadius := w2 * L.sinf theta
  let cRadius := w2 * L.cosf theta
  let world :=
    [WorldFactor.scaling 1 10 width, WorldFactor.rotationY theta,
      WorldFactor.translation cRadius 5 sRadius]
  let PrismWorld :=
    [WorldFactor.scaling 1 4 (width - 3), WorldFactor.rotationY theta,
      WorldFactor.translation cRadius (105 / 10) sRadius]
  (if i < 3 then [world] else []) ++ [PrismWorld]
    ++ (forValues 0 50 2).map (BuilderWorlds.mogul theta sRadius cRadius)

/-- The factors of `WallWorld` of the two smaller front walls. -/
def BuilderWorlds.frontWall (i : Nat) : List WorldFactor :=
  [WorldFactor.scaling 19 10 1, WorldFactor.translation (-125 / 10 + i * 25) 5 (-25)]

/-- The factors of `wedgeWorld`: the rotation is written first. -/
def BuilderWorlds.wedge (thetaSquareStep : FLOAT) (i : Nat) : List WorldFactor :=
  [WorldFactor.rotationY (-thetaSquareStep), WorldFactor.scaling 3 3 18,
    WorldFactor.translation 0 (45 / 10 + i * (-3)) (-35 / 10 + i * (-31))]

/-- The items before the wedges: the grid (`XMMatrixIdentity()`, no factor), the
towers, the pale and its torus, the walls, the front walls, the pyramid, the
diamond and the ring. -/
def BuilderWorlds.front (L : MathLib) : List (List WorldFactor) :=
  let thetaSquareStep : FLOAT := XM_2PI / 4
  let w2 : FLOAT := width * (1 / 2)
  let d2 : FLOAT := w2
  let radius := L.sqrtf (w2 * w2 + d2 * d2)
  [[]]
    ++ ((forValues 0 4 1).map (BuilderWorlds.tower L thetaSquareStep radius)).flatten
    ++ [[WorldFactor.scaling (35 / 10) 3 (35 / 10), WorldFactor.translation w2 (175 / 10) (-d2)]]
    ++ [[WorldFactor.scaling (18 / 10) 2 (18 / 10), WorldFactor.translation w2 (145 / 10) (-d2)]]
    ++ ((forValues 0 4 1).map (BuilderWorlds.wall L thetaSquareStep w2)).flatten
    ++ (forValues 0 2 1).map BuilderWorlds.frontWall
    ++ [[WorldFactor.scaling 21 6 21, WorldFactor.translation 0 (75 / 10) 13]]
    ++ [[WorldFactor.scaling 1 1 1, WorldFactor.translation 0 13 13]]
    ++ [[WorldFactor.scaling (1 / 2) (1 / 2) (1 / 2), WorldFactor.rotationX (1571 / 1000),
          WorldFactor.translation 0 (1175 / 100) 13]]

/-- All the items: those before the wedges, the two wedges and the path. -/
def BuilderWorlds.build (L : MathLib) : List (List WorldFactor) :=
  BuilderWorlds.front L
    ++ (forValues 0 2 1).map (BuilderWorlds.wedge (XM_2PI / 4))
    ++ [[WorldFactor.scaling 6 3 13, WorldFactor.translation 0 (15 / 10) (-19)]]

namespace ShapesApp

/-- The scene builder can run: the geometry "shapeGeo" and the material "stone0"
are there. -/
def BuilderReady (s : ShapesApp) : Prop :=
  (∃ g, UMap.find s.mGeometries "shapeGeo" = some (some g))
  ∧ ∃ mat, UMap.find s.mMaterials "stone0" = some (some mat)

/-- The members the scene builder neither reads nor writes: the ring, the fence
counters, the descriptor size and heap start, the pipeline states and the history
of buffer writes. -/
def outsideBuilder (s : ShapesApp) :
    List FrameResource × Option Nat × Nat × Nat × Nat × Nat × Nat × Nat × UMap (Option PSO)
      × List CBWrite :=
  (s.mFrameResources, s.mCurrFrameResource, s.mCurrFrameResourceIndex, s.mCurrentFence,
    s.mFenceCompleted, s.mFenceSignalled, s.mCbvSrvDescriptorSize, s.mSrvHeapStart, s.mPSOs,
    s.cbWrites)

/-- The state `s1` is `s` with render items added at the end of `mAllRitems`, whose
world matrices are, item by item, the products of the factors listed in
`recipes`; the materials and the members outside the builder are those of `s`. -/
def Grown (L : MathLib) (recipes : List (List WorldFactor)) (s s1 : ShapesApp) : Prop :=
  s1.BuilderReady ∧ s1.mMaterials = s.mMaterials ∧ s1.outsideBuilder = s.outsideBuilder
  ∧ ∃ added, s1.mAllRitems = s.mAllRitems ++ added
      ∧ added.map (fun e => e.World) = recipes.map (WorldFactor.product L)

end ShapesApp

/-- Whether a command binds the texture descriptor table. -/
def Cmd.isSetDescriptorTable : Cmd → Bool
  | Cmd.SetGraphicsRootDescriptorTable _ _ => true
  | _ => false

/-- The elements of the object-constant buffer of every ring slot, in ring order. -/
def ShapesApp.objectBuffers (s : ShapesApp) : List (List (Option ObjectConstants)) :=
  s.mFrameResources.map (fun fr => fr.ObjectCB.elements)

/-! ## Notions used by the statements on records, fences and the built scene -/

/-- Two render items agree on everything `UpdateObjectCBs` reads but the stored
`TWorld`: on `World`, `TexTransform`, `ObjCBIndex` and the dirty countdown. -/
def RenderItem.AgreeButTWorld (e1 e2 : RenderItem) : Prop :=
  e1.World = e2.World ∧ e1.TexTransform = e2.TexTransform ∧ e1.ObjCBIndex = e2.ObjCBIndex
  ∧ e1.NumFramesDirty = e2.NumFramesDirty

namespace ShapesApp

/-- The application after a sequence of events, each taken as it comes: nothing
is assumed of the fence object. -/
def execAll (L : MathLib) : List Event → ShapesApp → Option ShapesApp
  | [], s => some s
  | e :: es, s =>
    match exec L s e with
    | none => none
    | some s1 => execAll L es s1

/-- The number of `Draw` calls among the events. -/
def drawCount : List Event → Nat
  | [] => 0
  | Event.draw :: es => drawCount es + 1
  | _ :: es => drawCount es

/-- The fence bookkeeping: the counter is at least `c`, every slot's `Fence` is `0`
or lies above `c` and at most at the counter, and two slots with nonzero `Fence`
hold different values. -/
def FencesInOrder (c : Nat) (s : ShapesApp) : Prop :=
  c ≤ s.mCurrentFence
  ∧ (∀ f ∈ s.slotFences, f = 0 ∨ (c < f ∧ f ≤ s.mCurrentFence))
  ∧ ∀ (i j fi fj : Nat), i ≠ j → s.slotFences[i]? = some fi → s.slotFences[j]? = some fj →
      fi ≠ 0 → fj ≠ 0 → fi ≠ fj

end ShapesApp

/-- The small scene with the fence counter two below the largest `UINT64`; no slot
has been submitted. -/
def lateFenceApp : ShapesApp :=
  { sampleApp with
    mCurrentFence := 18446744073709551614
    mFenceSignalled := 18446744073709551614
    mFenceCompleted := 18446744073709551614 }

/-- Two frames: `Update`, `Draw`, `Update`, `Draw`. -/
def twoFrames : List Event :=
  [Event.update sampleInput, Event.draw, Event.update sampleInput, Event.draw]

/-! ### The shapes of the scene builder

`BuildRenderItems` is followed on the list of the shape names handed to
`SetRenderItemInfo` for the items pushed so far, in the order of `mAllRitems`. -/

namespace BuilderShapes

/-- One round of the tower loop: tower and pole are cylinders, then the sphere
and the flag (a box) are pushed; a roof (a cone) follows when `i < 3`. -/
def tower (a : List String) (i : Nat) : List String :=
  let l := a ++ ["cylinder"] ++ ["cylinder"] ++ ["sphere"] ++ ["box"]
  if i < 3 then l ++ ["cone"] else l

/-- One round of the wall loop: a wall (a box) when `i < 3`, a prism and the
moguls (boxes). -/
def wall (a : List String) (i : Nat) : List String :=
  let a1 := if i < 3 then a ++ ["box"] else a
  let a2 := a1 ++ ["prism"]
  (forValues 0 50 2).foldl (fun b _ => b ++ ["box"]) a2

/-- The whole of `BuildRenderItems`. -/
def build (a : List String) : List String :=
  let a1 := a ++ ["grid"]
  let a2 := (forValues 0 4 1).foldl tower a1
  let a3 := a2 ++ ["cylinder2"]
  let a4 := a3 ++ ["torus2"]
  let a5 := (forValues 0 4 1).foldl wall a4
  let a6 := (forValues 0 2 1).foldl (fun b _ => b ++ ["box"]) a5
  let a7 := a6 ++ ["pyramid"]
  let a8 := a7 ++ ["diamond"]
  let a9 := a8 ++ ["torus"]
  let a10 := (forValues 0 2 1).foldl (fun b _ => b ++ ["wedge"]) a9
  a10 ++ ["box"]

end BuilderShapes

/-- The render item is what `SetRenderItemInfo` makes of a new item for the shape
`name` of the geometry `g`: `name` is a key of `DrawArgs` and the item carries the
draw parameters stored under it, the material "stone0" and the geometry
"shapeGeo" (neither null), and the dirty countdown of a new item. -/
def RenderItem.FilledFor (g : MeshGeometry) (e : RenderItem) (name : String) : Prop :=
  ∃ sub, UMap.find g.DrawArgs name = some sub
    ∧ e.IndexCount = sub.IndexCount ∧ e.StartIndexLocation = sub.StartIndexLocation
    ∧ e.BaseVertexLocation = sub.BaseVertexLocation
    ∧ e.Mat = some "stone0" ∧ e.Geo = some "shapeGeo"
    ∧ e.NumFramesDirty = gNumFrameResources
    ∧ e.TexTransform = MathHelper.Identity4x4

namespace ShapesApp

/-- The maps the scene builder looks names up in: the geometry "shapeGeo" is `g`,
every shape name is a key of its `DrawArgs`, and "stone0" is a material. -/
def SceneMaps (g : MeshGeometry) (s : ShapesApp) : Prop :=
  UMap.find s.mGeometries "shapeGeo" = some (some g)
  ∧ (∀ n ∈ shapeNames, ∃ sub, UMap.find g.DrawArgs n = some sub)
  ∧ ∃ mat, UMap.find s.mMaterials "stone0" = some (some mat)

/-- The state `s1` is `s` with one render item per name of `added` at the end of
`mAllRitems`, each filled in for its shape; no map has changed, so no lookup has
inserted a key. -/
def Shaped (g : MeshGeometry) (added : List String) (s s1 : ShapesApp) : Prop :=
  s1.mGeometries = s.mGeometries ∧ s1.mMaterials = s.mMaterials
  ∧ ∃ items, s1.mAllRitems = s.mAllRitems ++ items
      ∧ List.Forall₂ (fun e n => RenderItem.FilledFor g e n) items added

end ShapesApp

namespace ShapesApp

/-- The number of elements of the pass, material and object buffer of every ring
slot, in ring order. -/
def ringSizes (s : ShapesApp) : List (Nat × Nat × Nat) :=
  s.mFrameResources.map (fun fr =>
    (fr.PassCB.elements.length, fr.MaterialCB.elements.length, fr.ObjectCB.elements.length))

/-- The ring has `gNumFrameResources` slots, and in every slot the pass buffer has
an element, the object buffer has an element for the `ObjCBIndex` of every render
item (an `int` that is not negative), and the material buffer has an element for
the `MatCBIndex` of every material, none of which is null. -/
def Sized (s : ShapesApp) : Prop :=
  s.ringSizes.length = gNumFrameResources
  ∧ s.mCurrFrameResourceIndex < gNumFrameResources
  ∧ ∀ sz ∈ s.ringSizes, 1 ≤ sz.1
      ∧ (∀ i ∈ s.objCBIndices, i < sz.2.2 ∧ i < 2147483648)
      ∧ ∀ kv ∈ s.matCBIndices, ∃ i : Int, kv.2 = some i ∧ 0 ≤ i ∧ i < sz.2.1

/-- The object buffer of ring slot `slot` holds, for every render item, the record
of the item at the element `ObjCBIndex`. -/
def Populated (L : MathLib) (slot : Nat) (s : ShapesApp) : Prop :=
  ∃ els, s.objectBuffers[slot]? = some els
    ∧ ∀ e ∈ s.mAllRitems, els[e.ObjCBIndex]? = some (some (objectConstantsOf L e))

end ShapesApp

/-- The `ObjCBIndex` of every render item with the record `UpdateObjectCBs` builds
for it, in the order of `mAllRitems`. -/
def ShapesApp.objectRecords (L : MathLib) (s : ShapesApp) : List (Nat × ObjectConstants) :=
  s.mAllRitems.map (fun e => (e.ObjCBIndex, ShapesApp.objectConstantsOf L e))

/-- What a vertex-copy loop of `BuildShapeGeometry` stores for a generated vertex:
its position, normal and texture coordinates. -/
def Vertex.ofGenerated (v : GeometryGenerator.Vertex) : Vertex :=
  { Pos := v.Position, Normal := v.Normal, TexC := v.TexC }

/-- The concatenated geometry `BuildShapeGeometry` leaves under "shapeGeo". -/
def ShapesApp.builtGeometry (m : ShapeMeshes) (s : ShapesApp) : Option MeshGeometry :=
  match UMap.find (ShapesApp.BuildShapeGeometry m s).mGeometries "shapeGeo" with
  | some (some g) => some g
  | _ => none

/-- Twelve meshes of which the first, the box, has `2 ^ 32` indices, all of them
`1`. -/
def longBoxMeshes : ShapeMeshes :=
  { sampleMeshes with
    box := ⟨List.replicate 24 ⟨(0, 0, 0), (0, 0, 0), (0, 0, 0), (0, 0)⟩,
            List.replicate 4294967296 1⟩ }

/-! # Theorems -/

/-! ## Machine integers and maps -/

theorem toUINT_of_lt {n : Nat} (h : n < 4294967296) : toUINT n = n := by
  unfold toUINT UINT_RANGE
  omega

theorem toINT_of_lt {n : Nat} (h : n < 2147483648) : toINT n = (n : Int) := by
  unfold toINT UINT_RANGE
  have h1 : n % 4294967296 = n := by omega
  rw [h1, if_pos (by omega)]

/-- The result of an `int` operation is in the range of `int`, and it is the
mathematical value when that is in range. -/
theorem wrapINT_range (z : Int) : -2147483648 ≤ wrapINT z ∧ wrapINT z < 2147483648 := by
  unfold wrapINT toINT UINT_RANGE
  split_ifs <;> omega

theorem wrapINT_of_range (z : Int) (h1 : -2147483648 ≤ z) (h2 : z < 2147483648) :
    wrapINT z = z := by
  unfold wrapINT toINT UINT_RANGE
  split_ifs <;> omega

theorem UMap.find_assign {V : Type} (m : UMap V) (k : String) (v : V) :
    UMap.find (UMap.assign m k v) k = some v := by
  unfold UMap.find
  induction m with
  | nil => simp [UMap.assign, List.lookup]
  | cons e es ih =>
    obtain ⟨k1, v1⟩ := e
    by_cases hk : k1 = k
    · subst hk
      simp [UMap.assign, List.lookup]
    · have hk2 : (k == k1) = false := by simpa using (fun h => hk h.symm)
      simp [UMap.assign, List.lookup, hk, hk2, ih]

theorem UMap.assign_of_find {V : Type} (m : UMap V) (k : String) (v : V)
    (h : UMap.find m k = some v) : UMap.assign m k v = m := by
  unfold UMap.find at h
  induction m with
  | nil => simp [List.lookup] at h
  | cons e es ih =>
    obtain ⟨k1, v1⟩ := e
    by_cases hk : k1 = k
    · subst hk
      simp [List.lookup] at h
      simp [UMap.assign, h]
    · have hk2 : (k == k1) = false := by simpa using (fun h => hk h.symm)
      simp only [List.lookup, hk2] at h
      simp [UMap.assign, hk, ih h]

/-! ## The camera (C6) -/

theorem MathHelper.Clamp_mem (x low high : FLOAT) (h : low ≤ high) :
    low ≤ MathHelper.Clamp x low high ∧ MathHelper.Clamp x low high ≤ high := by
  unfold MathHelper.Clamp
  split_ifs with h1 h2
  · exact ⟨le_refl _, h⟩
  · exact ⟨h, le_refl _⟩
  · exact ⟨not_lt.mp h1, not_lt.mp h2⟩

/-- The camera constants are the floats nearest to what the source writes. -/
theorem float0_1_rounds : RoundsTo (1 / 10) float0_1 :=
  ⟨13421773, 27, by norm_num, by norm_num, by norm_num [float0_1],
    by norm_num [float0_1, abs_of_pos]⟩

theorem float0_05_rounds : RoundsTo (1 / 20) float0_05 :=
  ⟨13421773, 28, by norm_num, by norm_num, by norm_num [float0_05],
    by norm_num [float0_05, abs_of_pos]⟩

theorem float0_2_rounds : RoundsTo (1 / 5) float0_2 :=
  ⟨13421773, 26, by norm_num, by norm_num, by norm_num [float0_2],
    by norm_num [float0_2, abs_of_pos]⟩

theorem MathHelper.PiMinus0_1_rounds :
    RoundsTo (MathHelper.Pi - float0_1) MathHelper.PiMinus0_1 :=
  ⟨12757365, 22, by norm_num, by norm_num, by norm_num [MathHelper.PiMinus0_1],
    by norm_num [MathHelper.PiMinus0_1, MathHelper.Pi, float0_1, abs_of_pos]⟩

theorem radiansPerDegree_rounds : RoundsTo (XM_PI / 180) radiansPerDegree :=
  ⟨9370165, 29, by norm_num, by norm_num, by norm_num [radiansPerDegree],
    by norm_num [radiansPerDegree, XM_PI, abs_of_pos]⟩

theorem initialPhi_rounds : RoundsTo (float0_2 * XM_PI) initialPhi :=
  ⟨10541436, 24, by norm_num, by norm_num, by norm_num [initialPhi],
    by norm_num [initialPhi, float0_2, XM_PI, abs_of_pos]⟩

theorem initialTheta_rounds : RoundsTo (3 / 2 * XM_PI) initialTheta :=
  ⟨9882596, 21, by norm_num, by norm_num, by norm_num [initialTheta],
    by norm_num [initialTheta, XM_PI, abs_of_pos]⟩

/-- The constant `MathHelper.Pi` is the float nearest to pi (its significand is
`13176795`, its unit in the last place `2 ^ (-22)`), and it lies above pi. -/
theorem MathHelper.Pi_nearest :
    MathHelper.Pi * 2 ^ 22 = 13176795
    ∧ Real.pi < ((MathHelper.Pi : FLOAT) : ℝ)
    ∧ (((MathHelper.Pi : FLOAT) : ℝ) - Real.pi) * 2 ^ 23 < 1 := by
  have h1 := Real.pi_gt_d20
  have h2 := Real.pi_lt_d20
  refine ⟨by norm_num [MathHelper.Pi], ?_, ?_⟩
  · unfold MathHelper.Pi
    push_cast
    norm_num at h2 ⊢
    linarith
  · unfold MathHelper.Pi
    push_cast
    norm_num at h1 ⊢
    linarith

/-- The upper bound of the clamp lies above `pi - 0.1`, by less than `2 / 10 ^ 7`. -/
theorem MathHelper.PiMinus0_1_above :
    Real.pi - 1 / 10 < ((MathHelper.PiMinus0_1 : FLOAT) : ℝ)
    ∧ ((MathHelper.PiMinus0_1 : FLOAT) : ℝ) < Real.pi - 1 / 10 + 1 / 5000000 := by
  have h1 := Real.pi_gt_d20
  have h2 := Real.pi_lt_d20
  unfold MathHelper.PiMinus0_1
  push_cast
  constructor
  · norm_num at h2 ⊢
    linarith
  · norm_num at h1 ⊢
    linarith

theorem MathHelper.phi_interval : float0_1 ≤ MathHelper.PiMinus0_1 := by
  unfold MathHelper.PiMinus0_1 float0_1
  norm_num

theorem ShapesApp.OnMouseMove_clamped (s : ShapesApp) (btnState : Nat) (x y : Int)
    (h : s.CameraClamped) : (s.OnMouseMove btnState x y).CameraClamped := by
  obtain ⟨h1, h2, h3, h4⟩ := h
  unfold ShapesApp.OnMouseMove ShapesApp.CameraClamped
  split_ifs with hl hr
  · have hc := MathHelper.Clamp_mem
      (s.mPhi + XMConvertToRadians (1 / 4 * ((wrapINT (y - s.mLastMousePos.2) : Int) : FLOAT)))
      float0_1 MathHelper.PiMinus0_1 MathHelper.phi_interval
    exact ⟨hc.1, hc.2, h3, h4⟩
  · have hc := MathHelper.Clamp_mem
      (s.mRadius + (float0_05 * ((wrapINT (x - s.mLastMousePos.1) : Int) : FLOAT)
        - float0_05 * ((wrapINT (y - s.mLastMousePos.2) : Int) : FLOAT)))
      5 150 (by norm_num)
    exact ⟨h1, h2, hc.1, hc.2⟩
  · exact ⟨h1, h2, h3, h4⟩

theorem ShapesApp.mouseMoves_clamped (moves : List (Nat × Int × Int)) (s : ShapesApp)
    (h : s.CameraClamped) : (s.mouseMoves moves).CameraClamped := by
  induction moves generalizing s with
  | nil => exact h
  | cons e es ih => exact ih _ (ShapesApp.OnMouseMove_clamped s e.1 e.2.1 e.2.2 h)

theorem ShapesApp.constructed_clamped (s : ShapesApp) (hPhi : s.mPhi = initialPhi)
    (hRadius : s.mRadius = 65) : s.CameraClamped := by
  unfold ShapesApp.CameraClamped
  rw [hPhi, hRadius]
  refine ⟨?_, ?_, ?_, ?_⟩ <;> norm_num [initialPhi, float0_1, MathHelper.PiMinus0_1]

/-- A left-button drag of 600 pixels downwards from the constructed state: the
angle `initialPhi` plus 150 degrees is above the bound of the clamp. -/
theorem ShapesApp.long_drag_phi :
    (ShapesApp.mouseMoves { mLastMousePos := (0, 0) } [(MK_LBUTTON, 0, 600)]).mPhi
      = MathHelper.PiMinus0_1 := by
  have hw : wrapINT (600 - 0) = 600 := by decide
  have hb : ((MK_LBUTTON &&& MK_LBUTTON) != 0) = true := by decide
  simp only [ShapesApp.mouseMoves, List.foldl, ShapesApp.OnMouseMove, hw, hb, if_true]
  norm_num [MathHelper.Clamp, XMConvertToRadians, radiansPerDegree, initialPhi, float0_1,
    MathHelper.PiMinus0_1]

/-- C6, as amended. Camera clamp invariant: in the state the constructor leaves
(whatever the uninitialised `mLastMousePos` holds) and after every sequence of
`OnMouseMove` calls with arbitrary button states and cursor positions, `mPhi` is
at least `0.1` and at most the `float` value `12757365 / 2 ^ 22` of
`MathHelper::Pi - 0.1f`, which is below `pi - 0.1 + 2 / 10 ^ 7`, and `mRadius`
lies in `[5, 150]`; `Clamp` is the min/max clamping of `MathHelper`, the cursor
differences are 32-bit, and the arithmetic on them is exact. -/
theorem camera_clamp_invariant (lastMousePos : Int × Int) (moves : List (Nat × Int × Int)) :
    1 / 10 ≤ (ShapesApp.mouseMoves { mLastMousePos := lastMousePos } moves).mPhi
    ∧ (ShapesApp.mouseMoves { mLastMousePos := lastMousePos } moves).mPhi
        ≤ MathHelper.PiMinus0_1
    ∧ (((ShapesApp.mouseMoves { mLastMousePos := lastMousePos } moves).mPhi : FLOAT) : ℝ)
        < Real.pi - 1 / 10 + 1 / 5000000
    ∧ 5 ≤ (ShapesApp.mouseMoves { mLastMousePos := lastMousePos } moves).mRadius
    ∧ (ShapesApp.mouseMoves { mLastMousePos := lastMousePos } moves).mRadius ≤ 150 := by
  obtain ⟨h1, h2, h3, h4⟩ :=
    ShapesApp.mouseMoves_clamped moves { mLastMousePos := lastMousePos }
      (ShapesApp.constructed_clamped _ rfl rfl)
  refine ⟨le_trans (by norm_num [float0_1]) h1, h2, ?_, h3, h4⟩
  have h5 : (((ShapesApp.mouseMoves { mLastMousePos := lastMousePos } moves).mPhi : FLOAT) : ℝ)
      ≤ ((MathHelper.PiMinus0_1 : FLOAT) : ℝ) := by exact_mod_cast h2
  exact lt_of_le_of_lt h5 MathHelper.PiMinus0_1_above.2

/-- C6, counterexample. From the constructed state with the cursor last seen at
`(0, 0)`, one `OnMouseMove` with the left button down at `(0, 600)` leaves `mPhi`
at `12757365 / 2 ^ 22`, the `float` value of `MathHelper::Pi - 0.1f`, which is
greater than `pi - 0.1`: `mPhi` is outside `[0.1, pi - 0.1]`. -/
theorem camera_phi_exceeds_pi_bound :
    (ShapesApp.mouseMoves { mLastMousePos := (0, 0) } [(MK_LBUTTON, 0, 600)]).mPhi
      = 12757365 / 4194304
    ∧ ¬ (((ShapesApp.mouseMoves { mLastMousePos := (0, 0) } [(MK_LBUTTON, 0, 600)]).mPhi
          : FLOAT) : ℝ) ≤ Real.pi - 1 / 10 := by
  refine ⟨ShapesApp.long_drag_phi, ?_⟩
  rw [ShapesApp.long_drag_phi]
  exact not_le.mpr MathHelper.PiMinus0_1_above.1

/-! ## The material table (C10) -/

/-- C10. From an empty material table, `BuildMaterials` gives the materials the
constant-buffer slot ids `0, 1, 2` in definition order (bricks0, stone0, tile0):
the table has `M = 3` entries, the `MatCBIndex` values are pairwise distinct, they
are exactly the integers `0 ≤ i < M`, and `CopyData` at each of them is inside a
material-constant buffer of `M` elements. -/
theorem materials_sequential_ids (s : ShapesApp) (h : s.mMaterials = []) :
    (ShapesApp.BuildMaterials s).matCBIndices
      = [("bricks0", some 0), ("stone0", some 1), ("tile0", some 2)]
    ∧ (ShapesApp.BuildMaterials s).mMaterials.length = 3
    ∧ ((ShapesApp.BuildMaterials s).matCBIndices.map (fun e => e.2)).Nodup
    ∧ (∀ i : Int, some i ∈ (ShapesApp.BuildMaterials s).matCBIndices.map (fun e => e.2)
        ↔ 0 ≤ i ∧ i < (ShapesApp.BuildMaterials s).mMaterials.length)
    ∧ (∀ i : Int, some i ∈ (ShapesApp.BuildMaterials s).matCBIndices.map (fun e => e.2) →
        ∀ c : MaterialConstants,
          ((UploadBuffer.create (ShapesApp.BuildMaterials s).mMaterials.length :
            UploadBuffer MaterialConstants).CopyData i c).isSome) := by
  have ht : (ShapesApp.BuildMaterials s).matCBIndices
      = [("bricks0", some 0), ("stone0", some 1), ("tile0", some 2)] := by
    simp [ShapesApp.BuildMaterials, ShapesApp.matCBIndices, UMap.assign, h]
  have hM : (ShapesApp.BuildMaterials s).mMaterials.length = 3 := by
    simp [ShapesApp.BuildMaterials, UMap.assign, h]
  simp only [ht, hM]
  refine ⟨trivial, trivial, by decide, ?_, ?_⟩
  · intro i
    simp
    omega
  · intro i hi c
    have hr : 0 ≤ i ∧ i < 3 := by
      simp at hi
      omega
    simp [UploadBuffer.CopyData, UploadBuffer.create, hr]

/-- C10, witness: the material table of a newly constructed application is empty. -/
theorem materials_sequential_ids_witness :
    ({} : ShapesApp).mMaterials = []
    ∧ (ShapesApp.BuildMaterials {}).matCBIndices
      = [("bricks0", some 0), ("stone0", some 1), ("tile0", some 2)] :=
  ⟨rfl, (materials_sequential_ids {} rfl).1⟩

/-! ## The geometry batch (C5) -/

theorem ShapesApp.builtSubmesh_eq (m : ShapeMeshes) (s : ShapesApp) (name : String) :
    ShapesApp.builtSubmesh m s name
      = UMap.find (ShapesApp.BuildShapeGeometry.drawArgs m) name := by
  simp [ShapesApp.builtSubmesh, ShapesApp.BuildShapeGeometry, UMap.find_assign]

set_option maxHeartbeats 4000000 in
theorem ShapesApp.drawArgs_of_fits (m : ShapeMeshes)
    (hI : m.indexCounts.sum < 4294967296) (hV : m.vertexCounts.sum < 2147483648) :
    ShapesApp.BuildShapeGeometry.drawArgs m =
    [
      ("box", ⟨m.box.Indices32.length, 0,
        ((0 : Nat) : Int)⟩),
      ("grid", ⟨m.grid.Indices32.length, m.box.Indices32.length,
        ((m.box.Vertices.length : Nat) : Int)⟩),
      ("sphere", ⟨m.sphere.Indices32.length, m.box.Indices32.length + m.grid.Indices32.length,
        ((m.box.Vertices.length + m.grid.Vertices.length : Nat) : Int)⟩),
      ("cylinder", ⟨m.cylinder.Indices32.length, m.box.Indices32.length + m.grid.Indices32.length + m.sphere.Indices32.length,
        ((m.box.Vertices.length + m.grid.Vertices.length + m.sphere.Vertices.length : Nat) : Int)⟩),
      ("cone", ⟨m.cone.Indices32.length, m.box.Indices32.length + m.grid.Indices32.length + m.sphere.Indices32.length + m.cylinder.Indices32.length,
        ((m.box.Vertices.length + m.grid.Vertices.length + m.sphere.Vertices.length + m.cylinder.Vertices.length : Nat) : Int)⟩),
      ("prism", ⟨m.triPrism.Indices32.length, m.box.Indices32.length + m.grid.Indices32.length + m.sphere.Indices32.length + m.cylinder.Indices32.length + m.cone.Indices32.length,
        ((m.box.Vertices.length + m.grid.Vertices.length + m.sphere.Vertices.length + m.cylinder.Vertices.length + m.cone.Vertices.length : Nat) : Int)⟩),
      ("diamond", ⟨m.diamond.Indices32.length, m.box.Indices32.length + m.grid.Indices32.length + m.sphere.Indices32.length + m.cylinder.Indices32.length + m.cone.Indices32.length + m.triPrism.Indices32.length,
        ((m.box.Vertices.length + m.grid.Vertices.length + m.sphere.Vertices.length + m.cylinder.Vertices.length + m.cone.Vertices.length + m.triPrism.Vertices.length : Nat) : Int)⟩),
      ("pyramid", ⟨m.pyramid.Indices32.length, m.box.Indices32.length + m.grid.Indices32.length + m.sphere.Indices32.length + m.cylinder.Indices32.length + m.cone.Indices32.length + m.triPrism.Indices32.length + m.diamond.Indices32.length,
        ((m.box.Vertices.length + m.grid.Vertices.length + m.sphere.Vertices.length + m.cylinder.Vertices.length + m.cone.Vertices.length + m.triPrism.Vertices.length + m.diamond.Vertices.length : Nat) : Int)⟩),
      ("torus", ⟨m.torus.Indices32.length, m.box.Indices32.length + m.grid.Indices32.length + m.sphere.Indices32.length + m.cylinder.Indices32.length + m.cone.Indices32.length + m.triPrism.Indices32.length + m.diamond.Indices32.length + m.pyramid.Indices32.length,
        ((m.box.Vertices.length + m.grid.Vertices.length + m.sphere.Vertices.length + m.cylinder.Vertices.length + m.cone.Vertices.length + m.triPrism.Vertices.length + m.diamond.Vertices.length + m.pyramid.Vertices.length : Nat) : Int)⟩),
      ("wedge", ⟨m.wedge.Indices32.length, m.box.Indices32.length + m.grid.Indices32.length + m.sphere.Indices32.length + m.cylinder.Indices32.length + m.cone.Indices32.length + m.triPrism.Indices32.length + m.diamond.Indices32.length + m.pyramid.Indices32.length + m.torus.Indices32.length,
        ((m.box.Vertices.length + m.grid.Vertices.length + m.sphere.Vertices.length + m.cylinder.Vertices.length + m.cone.Vertices.length + m.triPrism.Vertices.length + m.diamond.Vertices.length + m.pyramid.Vertices.length + m.torus.Vertices.length : Nat) : Int)⟩),
      ("torus2", ⟨m.torus2.Indices32.length, m.box.Indices32.length + m.grid.Indices32.length + m.sphere.Indices32.length + m.cylinder.Indices32.length + m.cone.Indices32.length + m.triPrism.Indices32.length + m.diamond.Indices32.length + m.pyramid.Indices32.length + m.torus.Indices32.length + m.wedge.Indices32.length,
        ((m.box.Vertices.length + m.grid.Vertices.length + m.sphere.Vertices.length + m.cylinder.Vertices.length + m.cone.Vertices.length + m.triPrism.Vertices.length + m.diamond.Vertices.length + m.pyramid.Vertices.length + m.torus.Vertices.length + m.wedge.Vertices.length : Nat) : Int)⟩),
      ("cylinder2", ⟨m.cylinder2.Indices32.length, m.box.Indices32.length + m.grid.Indices32.length + m.sphere.Indices32.length + m.cylinder.Indices32.length + m.cone.Indices32.length + m.triPrism.Indices32.length + m.diamond.Indices32.length + m.pyramid.Indices32.length + m.torus.Indices32.length + m.wedge.Indices32.length + m.torus2.Indices32.length,
        ((m.box.Vertices.length + m.grid.Vertices.length + m.sphere.Vertices.length + m.cylinder.Vertices.length + m.cone.Vertices.length + m.triPrism.Vertices.length + m.diamond.Vertices.length + m.pyramid.Vertices.length + m.torus.Vertices.length + m.wedge.Vertices.length + m.torus2.Vertices.length : Nat) : Int)⟩) ] := by
  simp only [ShapeMeshes.indexCounts, ShapeMeshes.vertexCounts, ShapeMeshes.toList,
    List.map, List.sum_cons, List.sum_nil] at hI hV
  unfold ShapesApp.BuildShapeGeometry.drawArgs
  simp (disch := omega) only [toUINT_of_lt, toINT_of_lt]
  simp [UMap.assign]

/-- C5, amended. For every choice of the twelve generated meshes whose index
counts sum to less than `2 ^ 32` and whose vertex counts sum to less than
`2 ^ 31`, taken in the order box, grid, sphere, cylinder, cone, prism, diamond,
pyramid, torus, wedge, torus2, cylinder2, the submesh range `BuildShapeGeometry`
records for the `i`-th mesh has `StartIndexLocation` equal to the sum of the index
counts of meshes `0..i-1`, `BaseVertexLocation` equal to the sum of the vertex
counts of meshes `0..i-1`, and `IndexCount` equal to the mesh's own index count. -/
theorem submesh_ranges_are_prefix_sums (m : ShapeMeshes) (s : ShapesApp)
    (hI : m.indexCounts.sum < 4294967296) (hV : m.vertexCounts.sum < 2147483648)
    (i : Nat) (hi : i < 12) :
    ShapesApp.RangeIsPrefixSum m s i := by
  unfold ShapesApp.RangeIsPrefixSum
  simp only [ShapesApp.builtSubmesh_eq, ShapesApp.drawArgs_of_fits m hI hV, shapeNames,
    ShapeMeshes.indexCounts, ShapeMeshes.vertexCounts, ShapeMeshes.toList, List.map]
  interval_cases i <;>
    simp [UMap.find, List.lookup] <;> omega

/-- C5, witness: twelve small meshes, and the range of the cylinder. -/
theorem submesh_ranges_are_prefix_sums_witness :
    sampleMeshes.indexCounts.sum < 4294967296 ∧ sampleMeshes.vertexCounts.sum < 2147483648
    ∧ ShapesApp.RangeIsPrefixSum sampleMeshes {} 3 :=
  ⟨by decide, by decide,
    submesh_ranges_are_prefix_sums sampleMeshes {} (by decide) (by decide) 3 (by decide)⟩

theorem sampleMesh_indices (v n : Nat) : (sampleMesh v n).Indices32.length = n := by
  simp [sampleMesh]

theorem sampleMesh_vertices (v n : Nat) : (sampleMesh v n).Vertices.length = v := by
  simp [sampleMesh]

theorem ShapesApp.grid_start_wraps (m : ShapeMeshes) (s : ShapesApp)
    (h : m.box.Indices32.length = 4294967296) : ¬ ShapesApp.RangeIsPrefixSum m s 1 := by
  unfold ShapesApp.RangeIsPrefixSum
  simp only [ShapesApp.builtSubmesh_eq, shapeNames, List.getD_cons_zero, List.getD_cons_succ]
  simp [ShapesApp.BuildShapeGeometry.drawArgs, UMap.assign, UMap.find, List.lookup,
    ShapeMeshes.indexCounts, ShapeMeshes.toList, h, toUINT, UINT_RANGE]

/-- C5, counterexample. When the box mesh has `2 ^ 32` indices, the range recorded
for the grid (the mesh at position 1) does not start at the index count of the
box: the `UINT` offset has wrapped to `0`. -/
theorem submesh_ranges_overflow : ¬ ShapesApp.RangeIsPrefixSum hugeMeshes {} 1 :=
  ShapesApp.grid_start_wraps hugeMeshes {} (sampleMesh_indices 24 4294967296)

/-! ## `SetRenderItemInfo` (C8, C9) -/

theorem UMap.index_of_find {V : Type} (dflt : V) (m : UMap V) (k : String) (v : V)
    (h : UMap.find m k = some v) : UMap.index dflt m k = (v, m) := by
  unfold UMap.find at h
  simp [UMap.index, h]

theorem UMap.index_of_absent {V : Type} (dflt : V) (m : UMap V) (k : String)
    (h : UMap.find m k = none) : UMap.index dflt m k = (dflt, m ++ [(k, dflt)]) := by
  unfold UMap.find at h
  simp [UMap.index, h]

theorem UMap.find_append_absent {V : Type} (m : UMap V) (k : String) (v : V)
    (h : UMap.find m k = none) : UMap.find (m ++ [(k, v)]) k = some v := by
  unfold UMap.find at *
  induction m with
  | nil => simp [List.lookup]
  | cons e es ih =>
    obtain ⟨k1, v1⟩ := e
    by_cases hk : k = k1
    · subst hk
      simp [List.lookup] at h
    · have hk2 : (k == k1) = false := by simpa using hk
      simp only [List.lookup, hk2] at h
      simp only [List.cons_append, List.lookup, hk2]
      exact ih h

/-- What `SetRenderItemInfo` does when the geometry "shapeGeo" exists and the
shape name is one of its `DrawArgs`. -/
theorem ShapesApp.SetRenderItemInfo_of_present (s : ShapesApp) (r : RenderItem) (name : String)
    (t : XMFLOAT4X4) (g : MeshGeometry) (sub : SubmeshGeometry)
    (hg : UMap.find s.mGeometries "shapeGeo" = some (some g))
    (hn : UMap.find g.DrawArgs name = some sub) :
    ShapesApp.SetRenderItemInfo s r name t =
      some ({ s with
              objCBIndex := toUINT (s.objCBIndex + 1)
              mMaterials := (UMap.index none s.mMaterials "stone0").2 },
            { r with
              ObjCBIndex := s.objCBIndex
              World := t
              Mat := (UMap.index none s.mMaterials "stone0").1.map (fun _ => "stone0")
              Geo := some "shapeGeo"
              PrimitiveType := D3D_PRIMITIVE_TOPOLOGY_TRIANGLELIST
              IndexCount := sub.IndexCount
              StartIndexLocation := sub.StartIndexLocation
              BaseVertexLocation := sub.BaseVertexLocation
              TWorld := XMMatrixTranspose t }) := by
  unfold ShapesApp.SetRenderItemInfo
  simp only [UMap.index_of_find none s.mGeometries "shapeGeo" (some g) hg,
    UMap.index_of_find ({} : SubmeshGeometry) g.DrawArgs name sub hn, Option.map_some']
  rw [UMap.assign_of_find s.mGeometries "shapeGeo" (some g) hg]

/-- What `SetRenderItemInfo` does when the geometry "shapeGeo" exists and the
shape name is not one of its `DrawArgs`: `operator[]` inserts a zero range. -/
theorem ShapesApp.SetRenderItemInfo_of_absent (s : ShapesApp) (r : RenderItem) (name : String)
    (t : XMFLOAT4X4) (g : MeshGeometry)
    (hg : UMap.find s.mGeometries "shapeGeo" = some (some g))
    (hn : UMap.find g.DrawArgs name = none) :
    ShapesApp.SetRenderItemInfo s r name t =
      some ({ s with
              objCBIndex := toUINT (s.objCBIndex + 1)
              mMaterials := (UMap.index none s.mMaterials "stone0").2
              mGeometries := UMap.assign s.mGeometries "shapeGeo"
                (some { g with DrawArgs := g.DrawArgs ++ [(name, {})] }) },
            { r with
              ObjCBIndex := s.objCBIndex
              World := t
              Mat := (UMap.index none s.mMaterials "stone0").1.map (fun _ => "stone0")
              Geo := some "shapeGeo"
              PrimitiveType := D3D_PRIMITIVE_TOPOLOGY_TRIANGLELIST
              IndexCount := 0
              StartIndexLocation := 0
              BaseVertexLocation := 0
              TWorld := XMMatrixTranspose t }) := by
  unfold ShapesApp.SetRenderItemInfo
  have h2 := UMap.find_append_absent g.DrawArgs name ({} : SubmeshGeometry) hn
  simp only [UMap.index_of_find none s.mGeometries "shapeGeo" (some g) hg,
    UMap.index_of_absent ({} : SubmeshGeometry) g.DrawArgs name hn,
    UMap.index_of_find ({} : SubmeshGeometry) _ name _ h2, Option.map_some']

/-- C8, amended. For every shape name defined in the geometry batch and every
transform, when the builder's counter is `c` and `c + 1` is still a `UINT`
(`c < 2 ^ 32 - 1`), `SetRenderItemInfo` applied to a new render item yields an
item with `ObjCBIndex == c` (so `0` for the first item built), with `IndexCount`,
`StartIndexLocation` and `BaseVertexLocation` those of the named submesh and
`NumFramesDirty` still `3`, and leaves the counter at `c + 1`. -/
theorem new_item_filled (s : ShapesApp) (itemType : String) (transform : XMFLOAT4X4)
    (g : MeshGeometry) (sub : SubmeshGeometry)
    (hg : UMap.find s.mGeometries "shapeGeo" = some (some g))
    (hn : UMap.find g.DrawArgs itemType = some sub)
    (hc : s.objCBIndex + 1 < UINT_RANGE) :
    ShapesApp.NewItemFilled s itemType transform sub := by
  refine ⟨_, _, ShapesApp.SetRenderItemInfo_of_present s {} itemType transform g sub hg hn,
    rfl, rfl, rfl, rfl, rfl, ?_⟩
  exact toUINT_of_lt hc

/-- C8, witness: the box of the small scene, with the counter at `1`. -/
theorem new_item_filled_witness :
    UMap.find sampleApp.mGeometries "shapeGeo"
        = some (some { Name := "shapeGeo", DrawArgs := [("box", ⟨36, 0, 0⟩)] })
    ∧ sampleApp.objCBIndex + 1 < UINT_RANGE
    ∧ ShapesApp.NewItemFilled sampleApp "box" XMMatrixIdentity ⟨36, 0, 0⟩ :=
  ⟨rfl, by decide,
    new_item_filled sampleApp "box" XMMatrixIdentity
      { Name := "shapeGeo", DrawArgs := [("box", ⟨36, 0, 0⟩)] } ⟨36, 0, 0⟩ rfl rfl (by decide)⟩

/-- C8, counterexample. With the counter at `2 ^ 32 - 1` and the box defined in
the geometry batch, `SetRenderItemInfo` does not leave the counter at `c + 1`: it
wraps to `0`. -/
theorem new_item_counter_wraps :
    UMap.find wrapApp.mGeometries "shapeGeo"
        = some (some { Name := "shapeGeo", DrawArgs := [("box", ⟨36, 0, 0⟩)] })
    ∧ (ShapesApp.SetRenderItemInfo wrapApp {} "box" XMMatrixIdentity).map
        (fun p => p.1.objCBIndex) = some 0
    ∧ ¬ ShapesApp.NewItemFilled wrapApp "box" XMMatrixIdentity ⟨36, 0, 0⟩ := by
  have h := ShapesApp.SetRenderItemInfo_of_present wrapApp {} "box" XMMatrixIdentity
    { Name := "shapeGeo", DrawArgs := [("box", ⟨36, 0, 0⟩)] } ⟨36, 0, 0⟩ rfl rfl
  refine ⟨rfl, ?_, ?_⟩
  · rw [h]
    rfl
  · rintro ⟨s1, r, hs, -, -, -, -, -, hcount⟩
    rw [h] at hs
    simp only [Option.some.injEq, Prod.mk.injEq] at hs
    rw [← hs.1] at hcount
    revert hcount
    decide

/-- C9, amended. For a name that was never registered in `DrawArgs`,
`SetRenderItemInfo` reports no error: the lookup `DrawArgs[itemType]` inserts a
zero submesh range under the name, the item is produced with `IndexCount`,
`StartIndexLocation` and `BaseVertexLocation` all `0`, and the map of the geometry
has gained the entry (the lookup is not read-only). -/
theorem absent_shape_name_inserted (s : ShapesApp) (r : RenderItem) (itemType : String)
    (transform : XMFLOAT4X4) (g : MeshGeometry)
    (hg : UMap.find s.mGeometries "shapeGeo" = some (some g))
    (hn : UMap.find g.DrawArgs itemType = none) :
    ∃ s1 r1 g1, ShapesApp.SetRenderItemInfo s r itemType transform = some (s1, r1)
      ∧ r1.IndexCount = 0 ∧ r1.StartIndexLocation = 0 ∧ r1.BaseVertexLocation = 0
      ∧ UMap.find s1.mGeometries "shapeGeo" = some (some g1)
      ∧ g1.DrawArgs = g.DrawArgs ++ [(itemType, ⟨0, 0, 0⟩)]
      ∧ UMap.find g1.DrawArgs itemType = some ⟨0, 0, 0⟩ :=
  ⟨_, _, _, ShapesApp.SetRenderItemInfo_of_absent s r itemType transform g hg hn, rfl, rfl, rfl,
    UMap.find_assign _ _ _, rfl, UMap.find_append_absent g.DrawArgs itemType _ hn⟩

/-- C9, witness: the name "dragon" in the small scene, whose batch has the box
only. -/
theorem absent_shape_name_inserted_witness :
    UMap.find sampleApp.mGeometries "shapeGeo"
        = some (some { Name := "shapeGeo", DrawArgs := [("box", ⟨36, 0, 0⟩)] })
    ∧ UMap.find [("box", (⟨36, 0, 0⟩ : SubmeshGeometry))] "dragon" = none
    ∧ ∃ s1 r1 g1, ShapesApp.SetRenderItemInfo sampleApp {} "dragon" XMMatrixIdentity = some (s1, r1)
      ∧ r1.IndexCount = 0 ∧ r1.StartIndexLocation = 0 ∧ r1.BaseVertexLocation = 0
      ∧ UMap.find s1.mGeometries "shapeGeo" = some (some g1)
      ∧ g1.DrawArgs = [("box", (⟨36, 0, 0⟩ : SubmeshGeometry))] ++ [("dragon", ⟨0, 0, 0⟩)]
      ∧ UMap.find g1.DrawArgs "dragon" = some ⟨0, 0, 0⟩ :=
  ⟨rfl, by decide,
    absent_shape_name_inserted sampleApp {} "dragon" XMMatrixIdentity
      { Name := "shapeGeo", DrawArgs := [("box", ⟨36, 0, 0⟩)] } rfl (by decide)⟩

/-- C9, counterexample. In the small scene, whose geometry batch defines the box
only, `SetRenderItemInfo` for the unregistered name "dragon" does not fail: it
returns an item, and the `DrawArgs` of the batch are no longer what they were. -/
theorem absent_shape_name_no_error :
    UMap.find [("box", (⟨36, 0, 0⟩ : SubmeshGeometry))] "dragon" = none
    ∧ ShapesApp.SetRenderItemInfo sampleApp {} "dragon" XMMatrixIdentity ≠ none
    ∧ (ShapesApp.SetRenderItemInfo sampleApp {} "dragon" XMMatrixIdentity).map
        (fun p => (p.2.IndexCount, p.2.StartIndexLocation, p.2.BaseVertexLocation,
          (UMap.find p.1.mGeometries "shapeGeo").map (fun g => g.map (fun g => g.DrawArgs))))
      = some (0, 0, 0, some (some [("box", ⟨36, 0, 0⟩), ("dragon", ⟨0, 0, 0⟩)])) := by
  have h := ShapesApp.SetRenderItemInfo_of_absent sampleApp {} "dragon" XMMatrixIdentity
    { Name := "shapeGeo", DrawArgs := [("box", ⟨36, 0, 0⟩)] } rfl (by decide)
  refine ⟨by decide, ?_, ?_⟩
  · rw [h]
    exact Option.some_ne_none _
  · rw [h]
    simp only [Option.map_some', UMap.find_assign]
    rfl

/-! ## The dirty countdown (C3, C4) -/

theorem ShapesApp.currFrameResource_eq (s : ShapesApp) (slot : Nat) (fr : FrameResource) :
    s.currFrameResource = some (slot, fr)
      ↔ s.mCurrFrameResource = some slot ∧ s.mFrameResources[slot]? = some fr := by
  unfold ShapesApp.currFrameResource
  constructor
  · intro h
    split at h
    · exact absurd h (by simp)
    · rename_i slot1 hs
      split at h
      · exact absurd h (by simp)
      · rename_i fr1 hf
        simp only [Option.some.injEq, Prod.mk.injEq] at h
        obtain ⟨h1, h2⟩ := h
        subst h1 h2
        exact ⟨hs, hf⟩
  · rintro ⟨h1, h2⟩
    simp [h1, h2]

/-- A copy into the object buffer of a slot, when the element is in range. -/
theorem ShapesApp.copyObjectCB_of_inRange (slot : Nat) (i : Int) (c : ObjectConstants)
    (s : ShapesApp) (fr : FrameResource) (hf : s.mFrameResources[slot]? = some fr)
    (hi : 0 ≤ i ∧ i < fr.ObjectCB.elements.length) :
    ShapesApp.copyObjectCB slot i c s =
      some { s with
        mFrameResources := s.mFrameResources.set slot
          { fr with ObjectCB := { fr.ObjectCB with elements := fr.ObjectCB.elements.set i.toNat (some c) } }
        cbWrites := s.cbWrites ++ [⟨slot, CBKind.object, i, fr.Fence, s.mFenceCompleted⟩] } := by
  simp [ShapesApp.copyObjectCB, hf, UploadBuffer.CopyData, hi]

/-- The loop of `UpdateObjectCBs` succeeds when the copies stay in range: every
item is counted down, and nothing but the object buffer of the slot and the
history of copies has changed. -/
theorem ShapesApp.UpdateObjectCBs_loop_spec (L : MathLib) (slot : Nat) (items : List RenderItem) :
    ∀ (s : ShapesApp) (fr : FrameResource), s.mFrameResources[slot]? = some fr →
      (∀ e ∈ items, 0 ≤ toINT e.ObjCBIndex ∧ toINT e.ObjCBIndex < fr.ObjectCB.elements.length) →
      ∃ s1 fr1, ShapesApp.UpdateObjectCBs.loop L slot items s
          = some (items.map ShapesApp.countDown, s1)
        ∧ s1.mFrameResources[slot]? = some fr1
        ∧ fr1.ObjectCB.elements.length = fr.ObjectCB.elements.length
        ∧ s1.mCurrFrameResource = s.mCurrFrameResource
        ∧ s1.mAllRitems = s.mAllRitems := by
  induction items with
  | nil =>
    intro s fr hf _
    exact ⟨s, fr, rfl, hf, rfl, rfl, rfl⟩
  | cons e es ih =>
    intro s fr hf hr
    have he := hr e (List.mem_cons_self _ _)
    have hes : ∀ x ∈ es, 0 ≤ toINT x.ObjCBIndex ∧ toINT x.ObjCBIndex < fr.ObjectCB.elements.length :=
      fun x hx => hr x (List.mem_cons_of_mem _ hx)
    by_cases hd : e.NumFramesDirty > 0
    · have hcopy := ShapesApp.copyObjectCB_of_inRange slot (toINT e.ObjCBIndex)
        (ShapesApp.objectConstantsOf L e) s fr hf he
      have hlen : slot < s.mFrameResources.length := by
        rcases Nat.lt_or_ge slot s.mFrameResources.length with h | h
        · exact h
        · rw [List.getElem?_eq_none h] at hf
          exact absurd hf (by simp)
      obtain ⟨s1, fr1, hloop, h1, h2, h3, h4⟩ := ih
        { s with
          mFrameResources := s.mFrameResources.set slot
            { fr with ObjectCB := { fr.ObjectCB with
                elements := fr.ObjectCB.elements.set (toINT e.ObjCBIndex).toNat
                  (some (ShapesApp.objectConstantsOf L e)) } }
          cbWrites := s.cbWrites
            ++ [⟨slot, CBKind.object, toINT e.ObjCBIndex, fr.Fence, s.mFenceCompleted⟩] }
        { fr with ObjectCB := { fr.ObjectCB with
            elements := fr.ObjectCB.elements.set (toINT e.ObjCBIndex).toNat
              (some (ShapesApp.objectConstantsOf L e)) } }
        (by simp [List.getElem?_set_self hlen])
        (by simpa using hes)
      refine ⟨s1, fr1, ?_, h1, ?_, h3, h4⟩
      · simp only [ShapesApp.UpdateObjectCBs.loop, hd, if_true, hcopy, hloop, List.map_cons,
          ShapesApp.countDown]
      · simpa using h2
    · obtain ⟨s1, fr1, hloop, h1, h2, h3, h4⟩ := ih s fr hf hes
      refine ⟨s1, fr1, ?_, h1, h2, h3, h4⟩
      simp only [ShapesApp.UpdateObjectCBs.loop, hd, if_false, hloop, List.map_cons,
        ShapesApp.countDown]

/-- One call of `UpdateObjectCBs` on a state whose copies stay in range. -/
theorem ShapesApp.UpdateObjectCBs_spec (L : MathLib) (s : ShapesApp) (h : s.ObjectCBsInRange) :
    ∃ s1, ShapesApp.UpdateObjectCBs L s = some s1
      ∧ s1.mAllRitems = s.mAllRitems.map ShapesApp.countDown
      ∧ s1.ObjectCBsInRange := by
  obtain ⟨slot, fr, hc, hr⟩ := h
  obtain ⟨hs, hf⟩ := (ShapesApp.currFrameResource_eq s slot fr).mp hc
  obtain ⟨s1, fr1, hloop, h1, h2, h3, h4⟩ :=
    ShapesApp.UpdateObjectCBs_loop_spec L slot s.mAllRitems s fr hf hr
  refine ⟨{ s1 with mAllRitems := s.mAllRitems.map ShapesApp.countDown }, ?_, rfl, ?_⟩
  · simp only [ShapesApp.UpdateObjectCBs, hc, hloop]
  · refine ⟨slot, fr1, ?_, ?_⟩
    · exact (ShapesApp.currFrameResource_eq _ slot fr1).mpr ⟨by rw [← hs]; exact h3, h1⟩
    · intro e he
      simp only [List.mem_map] at he
      obtain ⟨e0, he0, rfl⟩ := he
      have := hr e0 he0
      rw [h2]
      unfold ShapesApp.countDown
      split_ifs <;> exact this

/-- After `k` calls of `UpdateObjectCBs`, every item has been counted down `k`
times. -/
theorem ShapesApp.UpdateObjectCBs_iterate (L : MathLib) (k : Nat) :
    ∀ s : ShapesApp, s.ObjectCBsInRange →
      ∃ s1, ShapesApp.iterate (ShapesApp.UpdateObjectCBs L) k s = some s1
        ∧ s1.mAllRitems = s.mAllRitems.map (ShapesApp.countDown^[k])
        ∧ s1.ObjectCBsInRange := by
  induction k with
  | zero =>
    intro s h
    exact ⟨s, rfl, by simp, h⟩
  | succ k ih =>
    intro s h
    obtain ⟨s1, h1, h2, h3⟩ := ShapesApp.UpdateObjectCBs_spec L s h
    obtain ⟨s2, h4, h5, h6⟩ := ih s1 h3
    refine ⟨s2, ?_, ?_, h6⟩
    · simp only [ShapesApp.iterate, h1, h4]
    · rw [h5, h2, List.map_map]
      rfl

theorem ShapesApp.countDown_iterate (e : RenderItem) (k : Nat) (n : Nat)
    (hn : e.NumFramesDirty = n) (hk : k ≤ n) :
    (ShapesApp.countDown^[k] e).NumFramesDirty = (n : Int) - k := by
  induction k generalizing e n with
  | zero => simp [hn]
  | succ k ih =>
    rw [Function.iterate_succ_apply]
    have hpos : e.NumFramesDirty > 0 := by omega
    have hstep : (ShapesApp.countDown e).NumFramesDirty = ((n - 1 : Nat) : Int) := by
      simp only [ShapesApp.countDown, hpos, if_true]
      omega
    rw [ih (ShapesApp.countDown e) (n - 1) hstep (by omega)]
    omega

theorem ShapesApp.countDown_iterate_index (e : RenderItem) (k : Nat) :
    (ShapesApp.countDown^[k] e).ObjCBIndex = e.ObjCBIndex := by
  induction k generalizing e with
  | zero => rfl
  | succ k ih =>
    rw [Function.iterate_succ_apply, ih (ShapesApp.countDown e)]
    unfold ShapesApp.countDown
    split_ifs <;> rfl

/-- C3. For every render item whose dirty countdown is `N = gNumFrameResources = 3`
and that is not touched afterwards, `k` calls of `UpdateObjectCBs` (each copying
inside the current slot's object buffer) succeed for every `k <= N` and leave its
`NumFramesDirty` at `N - k`: the countdown is positive after fewer than `N` frames
and is `0` after exactly `N` frames. -/
theorem dirty_countdown (L : MathLib) (s : ShapesApp) (i : Nat) (e : RenderItem) (k : Nat)
    (hr : s.ObjectCBsInRange) (hi : s.mAllRitems[i]? = some e)
    (hN : e.NumFramesDirty = gNumFrameResources) (hk : k ≤ gNumFrameResources) :
    ∃ s1 e1, ShapesApp.iterate (ShapesApp.UpdateObjectCBs L) k s = some s1
      ∧ s1.mAllRitems[i]? = some e1
      ∧ e1.NumFramesDirty = (gNumFrameResources : Int) - k
      ∧ e1.ObjCBIndex = e.ObjCBIndex
      ∧ (k < gNumFrameResources → 0 < e1.NumFramesDirty)
      ∧ (k = gNumFrameResources → e1.NumFramesDirty = 0) := by
  obtain ⟨s1, h1, h2, -⟩ := ShapesApp.UpdateObjectCBs_iterate L k s hr
  have hcount := ShapesApp.countDown_iterate e k gNumFrameResources hN hk
  refine ⟨s1, ShapesApp.countDown^[k] e, h1, ?_, hcount, ?_, ?_, ?_⟩
  · rw [h2, List.getElem?_map, hi]
    rfl
  · exact ShapesApp.countDown_iterate_index e k
  · intro hlt
    rw [hcount]
    omega
  · intro heq
    rw [hcount, heq]
    omega

/-- C3, witness: the item of the small scene, after two calls. -/
theorem dirty_countdown_witness :
    runningApp.ObjectCBsInRange ∧ runningApp.mAllRitems[0]? = some sampleItem
    ∧ sampleItem.NumFramesDirty = gNumFrameResources ∧ 2 ≤ gNumFrameResources
    ∧ ∃ s1 e1, ShapesApp.iterate (ShapesApp.UpdateObjectCBs sampleLib) 2 runningApp = some s1
      ∧ s1.mAllRitems[0]? = some e1
      ∧ e1.NumFramesDirty = (gNumFrameResources : Int) - (2 : Nat)
      ∧ e1.ObjCBIndex = sampleItem.ObjCBIndex
      ∧ (2 < gNumFrameResources → 0 < e1.NumFramesDirty)
      ∧ (2 = gNumFrameResources → e1.NumFramesDirty = 0) :=
  have hr : runningApp.ObjectCBsInRange :=
    ⟨0, FrameResource.create 1 1 1, rfl, by
      intro e he
      have : e = sampleItem := by simpa [runningApp, sampleApp] using he
      subst this
      decide⟩
  ⟨hr, rfl, rfl, by decide,
    dirty_countdown sampleLib runningApp 0 sampleItem 2 hr rfl rfl (by decide)⟩

theorem ShapesApp.UpdateObjectCBs_loop_settled (L : MathLib) (slot : Nat) (items : List RenderItem)
    (s : ShapesApp) (h : ∀ e ∈ items, e.NumFramesDirty = 0) :
    ShapesApp.UpdateObjectCBs.loop L slot items s = some (items, s) := by
  induction items with
  | nil => rfl
  | cons e es ih =>
    have he : ¬ e.NumFramesDirty > 0 := by
      rw [h e (List.mem_cons_self _ _)]
      decide
    simp only [ShapesApp.UpdateObjectCBs.loop, he, if_false,
      ih (fun x hx => h x (List.mem_cons_of_mem _ hx))]

theorem ShapesApp.UpdateObjectCBs_settled (L : MathLib) (s : ShapesApp)
    (h : ∀ e ∈ s.mAllRitems, e.NumFramesDirty = 0) (hc : s.currFrameResource.isSome) :
    ShapesApp.UpdateObjectCBs L s = some s := by
  obtain ⟨⟨slot, fr⟩, hsf⟩ := Option.isSome_iff_exists.mp hc
  simp only [ShapesApp.UpdateObjectCBs, hsf, ShapesApp.UpdateObjectCBs_loop_settled L slot _ s h]

/-- C4. Once every render item's dirty countdown is `0`, `UpdateObjectCBs` is a
no-op on a state whose current ring slot exists: any number `n` of further calls
returns the very same state, so every countdown stays `0`, no `CopyData` call is
added to the history of copies, and the buffers of every slot are exactly as they
were. -/
theorem settled_update_is_noop (L : MathLib) (s : ShapesApp) (n : Nat)
    (h : ∀ e ∈ s.mAllRitems, e.NumFramesDirty = 0) (hc : s.currFrameResource.isSome) :
    ShapesApp.iterate (ShapesApp.UpdateObjectCBs L) n s = some s
    ∧ ShapesApp.UpdateObjectCBs L s = some s := by
  refine ⟨?_, ShapesApp.UpdateObjectCBs_settled L s h hc⟩
  induction n with
  | zero => rfl
  | succ n ih => simp only [ShapesApp.iterate, ShapesApp.UpdateObjectCBs_settled L s h hc, ih]

/-- C4, witness: the small scene with its item's countdown at `0`, five further
calls. -/
theorem settled_update_is_noop_witness :
    (∀ e ∈ settledApp.mAllRitems, e.NumFramesDirty = 0) ∧ settledApp.currFrameResource.isSome
    ∧ ShapesApp.iterate (ShapesApp.UpdateObjectCBs sampleLib) 5 settledApp = some settledApp :=
  have h : ∀ e ∈ settledApp.mAllRitems, e.NumFramesDirty = 0 := by
    intro e he
    have : e = { sampleItem with NumFramesDirty := 0 } := by
      simpa [settledApp, runningApp, sampleApp] using he
    subst this
    rfl
  ⟨h, rfl, (settled_update_is_noop sampleLib settledApp 5 h rfl).1⟩

/-- After `N` calls of `UpdateObjectCBs` from a state where every item has the
countdown `N`, every countdown is `0`: the state is settled in the sense of C4. -/
theorem ShapesApp.settled_after_ring_depth (L : MathLib) (s : ShapesApp)
    (hr : s.ObjectCBsInRange) (hN : ∀ e ∈ s.mAllRitems, e.NumFramesDirty = gNumFrameResources) :
    ∃ s1, ShapesApp.iterate (ShapesApp.UpdateObjectCBs L) gNumFrameResources s = some s1
      ∧ (∀ e ∈ s1.mAllRitems, e.NumFramesDirty = 0) ∧ s1.currFrameResource.isSome := by
  obtain ⟨s1, h1, h2, h3⟩ := ShapesApp.UpdateObjectCBs_iterate L gNumFrameResources s hr
  refine ⟨s1, h1, ?_, ?_⟩
  · intro e he
    rw [h2, List.mem_map] at he
    obtain ⟨e0, he0, rfl⟩ := he
    rw [ShapesApp.countDown_iterate e0 gNumFrameResources gNumFrameResources (hN e0 he0)
      (le_refl _)]
    omega
  · obtain ⟨slot, fr, hc, -⟩ := h3
    rw [hc]
    rfl

/-! ## The frame-resource ring (C1, C2) -/

theorem List.map_set_same_image {α β : Type} (f : α → β) (l : List α) (i : Nat) (a b : α)
    (h : l[i]? = some a) (hf : f b = f a) : (l.set i b).map f = l.map f := by
  induction l generalizing i with
  | nil => rfl
  | cons x xs ih =>
    cases i with
    | zero =>
      simp only [List.getElem?_cons_zero, Option.some.injEq] at h
      subst h
      simp [hf]
    | succ i =>
      simp only [List.getElem?_cons_succ] at h
      simp [ih i h]

/-- A state that differs from `s` by one logged write to a buffer of slot `slot`. -/
theorem ShapesApp.write_preserves (slot : Nat) (s : ShapesApp) (fr fr1 : FrameResource)
    (kind : CBKind) (i : Int) (hf : s.mFrameResources[slot]? = some fr)
    (hfence : fr1.Fence = fr.Fence) :
    let s1 : ShapesApp := { s with
      mFrameResources := s.mFrameResources.set slot fr1
      cbWrites := s.cbWrites ++ [⟨slot, kind, i, fr.Fence, s.mFenceCompleted⟩] }
    s1.ringView = s.ringView
    ∧ ((s.WritesSafe ∧ s.SlotRetired slot) → (s1.WritesSafe ∧ s1.SlotRetired slot)) := by
  intro s1
  have hlen : slot < s.mFrameResources.length := by
    rcases Nat.lt_or_ge slot s.mFrameResources.length with h | h
    · exact h
    · rw [List.getElem?_eq_none h] at hf
      exact absurd hf (by simp)
  refine ⟨?_, ?_⟩
  · simp only [ShapesApp.ringView, s1, List.map_set_same_image _ _ _ _ _ hf hfence]
  · rintro ⟨hw, hs⟩
    refine ⟨?_, ?_⟩
    · intro w hmem
      simp only [s1, List.mem_append, List.mem_singleton] at hmem
      rcases hmem with hmem | rfl
      · exact hw w hmem
      · exact hs fr hf
    · intro fr2 h2
      simp only [s1, List.getElem?_set_self hlen, Option.some.injEq] at h2
      subst h2
      rw [hfence]
      exact hs fr hf

theorem ShapesApp.copyObjectCB_preserves (slot : Nat) (i : Int) (c : ObjectConstants)
    (s s1 : ShapesApp) (h : ShapesApp.copyObjectCB slot i c s = some s1) :
    s1.ringView = s.ringView ∧ s1.mAllRitems = s.mAllRitems
    ∧ ((s.WritesSafe ∧ s.SlotRetired slot) → (s1.WritesSafe ∧ s1.SlotRetired slot)) := by
  unfold ShapesApp.copyObjectCB at h
  split at h
  · exact absurd h (by simp)
  · rename_i fr hf
    split at h
    · exact absurd h (by simp)
    · rename_i b hb
      simp only [Option.some.injEq] at h
      subst h
      have hp := ShapesApp.write_preserves slot s fr { fr with ObjectCB := b } CBKind.object i hf rfl
      exact ⟨hp.1, rfl, hp.2⟩

theorem ShapesApp.copyMaterialCB_preserves (slot : Nat) (i : Int) (c : MaterialConstants)
    (s s1 : ShapesApp) (h : ShapesApp.copyMaterialCB slot i c s = some s1) :
    s1.ringView = s.ringView ∧ s1.mAllRitems = s.mAllRitems
    ∧ ((s.WritesSafe ∧ s.SlotRetired slot) → (s1.WritesSafe ∧ s1.SlotRetired slot)) := by
  unfold ShapesApp.copyMaterialCB at h
  split at h
  · exact absurd h (by simp)
  · rename_i fr hf
    split at h
    · exact absurd h (by simp)
    · rename_i b hb
      simp only [Option.some.injEq] at h
      subst h
      have hp :=
        ShapesApp.write_preserves slot s fr { fr with MaterialCB := b } CBKind.material i hf rfl
      exact ⟨hp.1, rfl, hp.2⟩

theorem ShapesApp.copyPassCB_preserves (slot : Nat) (i : Int) (c : PassConstants)
    (s s1 : ShapesApp) (h : ShapesApp.copyPassCB slot i c s = some s1) :
    s1.ringView = s.ringView ∧ s1.mAllRitems = s.mAllRitems
    ∧ ((s.WritesSafe ∧ s.SlotRetired slot) → (s1.WritesSafe ∧ s1.SlotRetired slot)) := by
  unfold ShapesApp.copyPassCB at h
  split at h
  · exact absurd h (by simp)
  · rename_i fr hf
    split at h
    · exact absurd h (by simp)
    · rename_i b hb
      simp only [Option.some.injEq] at h
      subst h
      have hp := ShapesApp.write_preserves slot s fr { fr with PassCB := b } CBKind.pass i hf rfl
      exact ⟨hp.1, rfl, hp.2⟩

theorem ShapesApp.UpdateObjectCBs_loop_preserves (L : MathLib) (slot : Nat)
    (items : List RenderItem) :
    ∀ (s s1 : ShapesApp) (items1 : List RenderItem),
      ShapesApp.UpdateObjectCBs.loop L slot items s = some (items1, s1) →
      items1 = items.map ShapesApp.countDown
      ∧ s1.ringView = s.ringView ∧ s1.mAllRitems = s.mAllRitems
      ∧ ((s.WritesSafe ∧ s.SlotRetired slot) → (s1.WritesSafe ∧ s1.SlotRetired slot)) := by
  induction items with
  | nil =>
    intro s s1 items1 h
    simp only [ShapesApp.UpdateObjectCBs.loop, Option.some.injEq, Prod.mk.injEq] at h
    obtain ⟨rfl, rfl⟩ := h
    exact ⟨rfl, rfl, rfl, id⟩
  | cons e es ih =>
    intro s s1 items1 h
    unfold ShapesApp.UpdateObjectCBs.loop at h
    split_ifs at h with hd
    · split at h
      · exact absurd h (by simp)
      · rename_i s2 hcopy
        split at h
        · exact absurd h (by simp)
        · rename_i es1 s3 hloop
          simp only [Option.some.injEq, Prod.mk.injEq] at h
          obtain ⟨rfl, rfl⟩ := h
          obtain ⟨c1, c2, c3⟩ := ShapesApp.copyObjectCB_preserves _ _ _ _ _ hcopy
          obtain ⟨l1, l2, l3, l4⟩ := ih _ _ _ hloop
          refine ⟨?_, l2.trans c1, l3.trans c2, fun hw => l4 (c3 hw)⟩
          simp only [List.map_cons, ShapesApp.countDown, hd, if_true, l1]
    · split at h
      · exact absurd h (by simp)
      · rename_i es1 s3 hloop
        simp only [Option.some.injEq, Prod.mk.injEq] at h
        obtain ⟨rfl, rfl⟩ := h
        obtain ⟨l1, l2, l3, l4⟩ := ih _ _ _ hloop
        refine ⟨?_, l2, l3, l4⟩
        simp only [List.map_cons, ShapesApp.countDown, hd, if_false, l1]

theorem ShapesApp.UpdateMaterialCBs_loop_preserves (slot : Nat)
    (mats : UMap (Option Material)) :
    ∀ (s s1 : ShapesApp) (mats1 : UMap (Option Material)),
      ShapesApp.UpdateMaterialCBs.loop slot mats s = some (mats1, s1) →
      s1.ringView = s.ringView ∧ s1.mAllRitems = s.mAllRitems
      ∧ ((s.WritesSafe ∧ s.SlotRetired slot) → (s1.WritesSafe ∧ s1.SlotRetired slot)) := by
  induction mats with
  | nil =>
    intro s s1 mats1 h
    simp only [ShapesApp.UpdateMaterialCBs.loop, Option.some.injEq, Prod.mk.injEq] at h
    obtain ⟨rfl, rfl⟩ := h
    exact ⟨rfl, rfl, id⟩
  | cons e es ih =>
    intro s s1 mats1 h
    obtain ⟨k, m⟩ := e
    cases m with
    | none => simp [ShapesApp.UpdateMaterialCBs.loop] at h
    | some mat =>
      unfold ShapesApp.UpdateMaterialCBs.loop at h
      split_ifs at h with hd
      · split at h
        · exact absurd h (by simp)
        · rename_i s2 hcopy
          split at h
          · exact absurd h (by simp)
          · rename_i es1 s3 hloop
            simp only [Option.some.injEq, Prod.mk.injEq] at h
            obtain ⟨rfl, rfl⟩ := h
            obtain ⟨c1, c2, c3⟩ := ShapesApp.copyMaterialCB_preserves _ _ _ _ _ hcopy
            obtain ⟨l2, l3, l4⟩ := ih _ _ _ hloop
            exact ⟨l2.trans c1, l3.trans c2, fun hw => l4 (c3 hw)⟩
      · split at h
        · exact absurd h (by simp)
        · rename_i es1 s3 hloop
          simp only [Option.some.injEq, Prod.mk.injEq] at h
          obtain ⟨rfl, rfl⟩ := h
          exact ih _ _ _ hloop

theorem ShapesApp.UpdateObjectCBs_preserves (L : MathLib) (s s1 : ShapesApp) (slot : Nat)
    (h : ShapesApp.UpdateObjectCBs L s = some s1) (hslot : s.mCurrFrameResource = some slot) :
    s1.ringView = s.ringView ∧ s1.objCBIndices = s.objCBIndices
    ∧ ((s.WritesSafe ∧ s.SlotRetired slot) → (s1.WritesSafe ∧ s1.SlotRetired slot)) := by
  unfold ShapesApp.UpdateObjectCBs at h
  split at h
  · exact absurd h (by simp)
  · rename_i slot1 fr hc
    have hs := ((ShapesApp.currFrameResource_eq s slot1 fr).mp hc).1
    rw [hslot, Option.some.injEq] at hs
    subst hs
    split at h
    · exact absurd h (by simp)
    · rename_i items s2 hloop
      simp only [Option.some.injEq] at h
      subst h
      obtain ⟨l1, l2, -, l4⟩ := ShapesApp.UpdateObjectCBs_loop_preserves L slot _ _ _ _ hloop
      refine ⟨l2, ?_, l4⟩
      simp only [ShapesApp.objCBIndices, l1, List.map_map]
      apply List.map_congr_left
      intro e _
      simp only [Function.comp, ShapesApp.countDown]
      split_ifs <;> rfl

theorem ShapesApp.UpdateMaterialCBs_preserves (s s1 : ShapesApp) (slot : Nat)
    (h : ShapesApp.UpdateMaterialCBs s = some s1) (hslot : s.mCurrFrameResource = some slot) :
    s1.ringView = s.ringView ∧ s1.objCBIndices = s.objCBIndices
    ∧ ((s.WritesSafe ∧ s.SlotRetired slot) → (s1.WritesSafe ∧ s1.SlotRetired slot)) := by
  unfold ShapesApp.UpdateMaterialCBs at h
  split at h
  · exact absurd h (by simp)
  · rename_i slot1 fr hc
    have hs := ((ShapesApp.currFrameResource_eq s slot1 fr).mp hc).1
    rw [hslot, Option.some.injEq] at hs
    subst hs
    split at h
    · exact absurd h (by simp)
    · rename_i mats s2 hloop
      simp only [Option.some.injEq] at h
      subst h
      obtain ⟨l2, l3, l4⟩ := ShapesApp.UpdateMaterialCBs_loop_preserves slot _ _ _ _ hloop
      refine ⟨l2, ?_, l4⟩
      simp only [ShapesApp.objCBIndices, l3]

theorem ShapesApp.UpdateMainPassCB_preserves (L : MathLib) (gt : GameTimer) (s s1 : ShapesApp)
    (slot : Nat) (h : ShapesApp.UpdateMainPassCB L gt s = some s1)
    (hslot : s.mCurrFrameResource = some slot) :
    s1.ringView = s.ringView ∧ s1.objCBIndices = s.objCBIndices
    ∧ ((s.WritesSafe ∧ s.SlotRetired slot) → (s1.WritesSafe ∧ s1.SlotRetired slot)) := by
  simp only [ShapesApp.UpdateMainPassCB] at h
  split at h
  · exact absurd h (by simp)
  · rename_i slot1 fr hc
    have hs := ((ShapesApp.currFrameResource_eq _ slot1 fr).mp hc).1
    simp only [hslot, Option.some.injEq] at hs
    subst hs
    obtain ⟨c1, c2, c3⟩ := ShapesApp.copyPassCB_preserves _ _ _ _ _ h
    exact ⟨c1, by simp only [ShapesApp.objCBIndices, c2], c3⟩

theorem ShapesApp.input_phase (L : MathLib) (key1Down : Bool) (s : ShapesApp) :
    (ShapesApp.UpdateCamera L (ShapesApp.OnKeyboardInput key1Down s)).ringView = s.ringView
    ∧ (ShapesApp.UpdateCamera L (ShapesApp.OnKeyboardInput key1Down s)).mFrameResources
        = s.mFrameResources
    ∧ (ShapesApp.UpdateCamera L (ShapesApp.OnKeyboardInput key1Down s)).cbWrites = s.cbWrites
    ∧ (ShapesApp.UpdateCamera L (ShapesApp.OnKeyboardInput key1Down s)).mAllRitems
        = s.mAllRitems := by
  cases key1Down <;> exact ⟨rfl, rfl, rfl, rfl⟩

theorem ShapesApp.Update_cycle_spec (inp : ShapesApp.FrameInput) (s s1 : ShapesApp)
    (h : ShapesApp.Update.cycle inp s = some s1) :
    s1.mCurrFrameResourceIndex = (s.mCurrFrameResourceIndex + 1) % gNumFrameResources
    ∧ s1.mCurrFrameResource = some s1.mCurrFrameResourceIndex
    ∧ s1.mAllRitems = s.mAllRitems ∧ s1.cbWrites = s.cbWrites
    ∧ s1.mFrameResources = s.mFrameResources
    ∧ (ShapesApp.admissible s (Event.update inp) = true →
        s1.SlotRetired s1.mCurrFrameResourceIndex) := by
  unfold ShapesApp.Update.cycle at h
  simp only at h
  split at h
  · exact absurd h (by simp)
  · rename_i fr hf
    simp only [Option.some.injEq] at h
    by_cases hw : ShapesApp.mustWait
        { s with
          mCurrFrameResourceIndex := (s.mCurrFrameResourceIndex + 1) % gNumFrameResources
          mCurrFrameResource := some ((s.mCurrFrameResourceIndex + 1) % gNumFrameResources) }
        fr = true
    · rw [if_pos hw] at h
      subst h
      refine ⟨rfl, rfl, rfl, rfl, rfl, ?_⟩
      intro hadm fr2 hf2
      have hfr : fr2 = fr := by
        have : s.mFrameResources[(s.mCurrFrameResourceIndex + 1) % gNumFrameResources]?
            = some fr2 := hf2
        rw [hf] at this
        exact (Option.some.inj this).symm
      subst hfr
      have hw2 : ShapesApp.mustWait s fr2 = true := hw
      simp only [ShapesApp.admissible, hf, hw2, Bool.not_true, Bool.false_or,
        decide_eq_true_eq] at hadm
      exact hadm.1
    · rw [if_neg hw] at h
      subst h
      refine ⟨rfl, rfl, rfl, rfl, rfl, ?_⟩
      intro _ fr2 hf2
      have hfr : fr2 = fr := by
        have : s.mFrameResources[(s.mCurrFrameResourceIndex + 1) % gNumFrameResources]?
            = some fr2 := hf2
        rw [hf] at this
        exact (Option.some.inj this).symm
      subst hfr
      have hw2 : ¬ (ShapesApp.mustWait s fr2 = true) := hw
      simp only [ShapesApp.mustWait, Bool.and_eq_true, bne_iff_ne, ne_eq, decide_eq_true_eq,
        not_and, not_lt] at hw2
      show fr2.Fence ≤ s.mFenceCompleted
      by_cases h0 : fr2.Fence = 0
      · omega
      · exact hw2 h0

/-- What `Update` does to the ring, to the `ObjCBIndex` of the items and to the
safety of the buffer writes. -/
theorem ShapesApp.Update_spec (L : MathLib) (inp : ShapesApp.FrameInput) (s s1 : ShapesApp)
    (h : ShapesApp.Update L inp s = some s1) :
    s1.mCurrFrameResourceIndex = (s.mCurrFrameResourceIndex + 1) % gNumFrameResources
    ∧ s1.mCurrFrameResource = some s1.mCurrFrameResourceIndex
    ∧ s1.objCBIndices = s.objCBIndices
    ∧ (ShapesApp.admissible s (Event.update inp) = true → s.WritesSafe → s1.WritesSafe) := by
  obtain ⟨i1, i2, i3, i4⟩ := ShapesApp.input_phase L inp.key1Down s
  simp only [ShapesApp.Update] at h
  have hadm : ShapesApp.admissible
      (ShapesApp.UpdateCamera L (ShapesApp.OnKeyboardInput inp.key1Down s)) (Event.update inp)
      = ShapesApp.admissible s (Event.update inp) := by
    cases inp.key1Down <;> rfl
  have hidx : (ShapesApp.UpdateCamera L
      (ShapesApp.OnKeyboardInput inp.key1Down s)).mCurrFrameResourceIndex
      = s.mCurrFrameResourceIndex := by
    cases inp.key1Down <;> rfl
  generalize ShapesApp.UpdateCamera L (ShapesApp.OnKeyboardInput inp.key1Down s) = s2 at *
  split at h
  · exact absurd h (by simp)
  · rename_i s3 h3
    split at h
    · exact absurd h (by simp)
    · rename_i s4 h4
      split at h
      · exact absurd h (by simp)
      · rename_i s5 h5
        obtain ⟨c1, c2, c3, c4, c5, c6⟩ := ShapesApp.Update_cycle_spec inp s2 s3 h3
        obtain ⟨o1, o2, o3⟩ := ShapesApp.UpdateObjectCBs_preserves L s3 s4 _ h4 c2
        have hcur4 : s4.mCurrFrameResource = some s3.mCurrFrameResourceIndex := by
          have := congrArg (fun v => v.2.1) o1
          simp only [ShapesApp.ringView] at this
          rw [this, c2]
        obtain ⟨m1, m2, m3⟩ := ShapesApp.UpdateMaterialCBs_preserves s4 s5 _ h5 hcur4
        have hcur5 : s5.mCurrFrameResource = some s3.mCurrFrameResourceIndex := by
          have := congrArg (fun v => v.2.1) m1
          simp only [ShapesApp.ringView] at this
          rw [this, hcur4]
        obtain ⟨p1, p2, p3⟩ := ShapesApp.UpdateMainPassCB_preserves L inp.gt s5 s1 _ h hcur5
        have hview : s1.ringView = s3.ringView := p1.trans (m1.trans o1)
        have hI : s1.mCurrFrameResourceIndex = s3.mCurrFrameResourceIndex := by
          have := congrArg (fun v => v.1) hview
          simpa only [ShapesApp.ringView] using this
        have hC : s1.mCurrFrameResource = s3.mCurrFrameResource := by
          have := congrArg (fun v => v.2.1) hview
          simpa only [ShapesApp.ringView] using this
        refine ⟨?_, ?_, ?_, ?_⟩
        · rw [hI, c1, hidx]
        · rw [hC, c2, hI]
        · rw [p2, m2, o2]
          simp only [ShapesApp.objCBIndices, c3, i4]
        · intro ha hsafe
          have hs3 : s3.WritesSafe := by
            intro w hw
            rw [c4, i3] at hw
            exact hsafe w hw
          exact (p3 (m3 (o3 ⟨hs3, c6 (hadm.trans ha)⟩))).1

/-- What `Draw` leaves alone: the ring index, the current slot, the items and the
history of buffer writes. -/
theorem ShapesApp.Draw_spec (s s1 : ShapesApp) (h : ShapesApp.Draw s = some s1) :
    s1.mCurrFrameResourceIndex = s.mCurrFrameResourceIndex
    ∧ s1.mCurrFrameResource = s.mCurrFrameResource
    ∧ s1.mAllRitems = s.mAllRitems
    ∧ s1.cbWrites = s.cbWrites := by
  unfold ShapesApp.Draw at h
  split at h
  · exact absurd h (by simp)
  · rename_i slot fr hc
    simp only at h
    split at h
    · exact absurd h (by simp)
    · rename_i draws hd
      simp only [Option.some.injEq] at h
      subst h
      exact ⟨rfl, rfl, rfl, rfl⟩

/-- What an event does to the ring index, to the `ObjCBIndex` of the items and to
the safety of the buffer writes. -/
theorem ShapesApp.exec_spec (L : MathLib) (e : Event) (s s1 : ShapesApp)
    (h : ShapesApp.exec L s e = some s1) (ha : ShapesApp.admissible s e = true) :
    s1.mCurrFrameResourceIndex
        = (match e with
          | Event.update _ => (s.mCurrFrameResourceIndex + 1) % gNumFrameResources
          | _ => s.mCurrFrameResourceIndex)
    ∧ s1.objCBIndices = s.objCBIndices
    ∧ (s.WritesSafe → s1.WritesSafe) := by
  cases e with
  | update inp =>
    obtain ⟨u1, -, u3, u4⟩ := ShapesApp.Update_spec L inp s s1 h
    exact ⟨u1, u3, u4 ha⟩
  | draw =>
    obtain ⟨d1, -, d3, d4⟩ := ShapesApp.Draw_spec s s1 h
    refine ⟨d1, by simp only [ShapesApp.objCBIndices, d3], ?_⟩
    intro hs w hw
    rw [d4] at hw
    exact hs w hw
  | mouseDown b x y =>
    simp only [ShapesApp.exec, Option.some.injEq] at h
    subst h
    exact ⟨rfl, rfl, id⟩
  | mouseMove b x y =>
    simp only [ShapesApp.exec, Option.some.injEq] at h
    subst h
    refine ⟨?_, ?_, ?_⟩ <;> unfold ShapesApp.OnMouseMove <;> split_ifs <;> first | rfl | exact id
  | gpu c =>
    simp only [ShapesApp.exec, Option.some.injEq] at h
    subst h
    exact ⟨rfl, rfl, id⟩

/-- Along a run the `ObjCBIndex` of the items never change and the buffer writes
stay safe. -/
theorem ShapesApp.run_spec (L : MathLib) (es : List Event) :
    ∀ s0 s : ShapesApp, ShapesApp.run L es s0 = some s →
      s.objCBIndices = s0.objCBIndices ∧ (s0.WritesSafe → s.WritesSafe) := by
  induction es with
  | nil =>
    intro s0 s h
    simp only [ShapesApp.run, Option.some.injEq] at h
    subst h
    exact ⟨rfl, id⟩
  | cons e es ih =>
    intro s0 s h
    unfold ShapesApp.run at h
    split_ifs at h with ha
    split at h
    · exact absurd h (by simp)
    · rename_i s1 h1
      obtain ⟨-, e2, e3⟩ := ShapesApp.exec_spec L e s0 s1 h1 ha
      obtain ⟨r2, r3⟩ := ih s1 s h
      exact ⟨r2.trans e2, fun hs => r3 (e3 hs)⟩

/-- Along a run the ring index advances by one, modulo the ring depth, at every
`Update` and at nothing else. -/
theorem ShapesApp.run_index (L : MathLib) (es : List Event) :
    ∀ s0 s : ShapesApp, ShapesApp.run L es s0 = some s →
      s0.mCurrFrameResourceIndex < gNumFrameResources →
      s.mCurrFrameResourceIndex
          = (s0.mCurrFrameResourceIndex + ShapesApp.updateCount es) % gNumFrameResources := by
  induction es with
  | nil =>
    intro s0 s h hlt
    simp only [ShapesApp.run, Option.some.injEq] at h
    subst h
    simp [ShapesApp.updateCount, Nat.mod_eq_of_lt hlt]
  | cons e es ih =>
    intro s0 s h hlt
    unfold ShapesApp.run at h
    split_ifs at h with ha
    split at h
    · exact absurd h (by simp)
    · rename_i s1 h1
      obtain ⟨e1, -, -⟩ := ShapesApp.exec_spec L e s0 s1 h1 ha
      have hlt1 : s1.mCurrFrameResourceIndex < gNumFrameResources := by
        rw [e1]
        cases e with
        | update inp => exact Nat.mod_lt _ (by decide)
        | draw => exact hlt
        | mouseDown b x y => exact hlt
        | mouseMove b x y => exact hlt
        | gpu c => exact hlt
      rw [ih s1 s h hlt1, e1]
      cases e with
      | update inp =>
        simp only [ShapesApp.updateCount, gNumFrameResources]
        omega
      | draw => rfl
      | mouseDown b x y => rfl
      | mouseMove b x y => rfl
      | gpu c => rfl

/-- The four frames of the small scene are admissible and defined. -/
theorem sampleRun_defined : (ShapesApp.run sampleLib sampleRun sampleApp).isSome = true := by
  decide

/-- C1. In every state reached from a start state with no buffer write behind it
by an admissible run (calls of `Update` and `Draw` in any order, so in particular
`Update` followed by `Draw`, frame after frame, with mouse messages and with the
completed value of the fence object never decreasing, never above the last
signalled value, and at least the awaited value when the blocking wait returns),
whenever `Update` copied object, material or pass constants into a buffer of a
ring slot, the `Fence` last recorded for that slot did not exceed the completed
value of the fence object at the time of the copy. -/
theorem writes_wait_for_gpu (L : MathLib) (es : List Event) (s0 s : ShapesApp)
    (h0 : s0.cbWrites = []) (hrun : ShapesApp.run L es s0 = some s) :
    ∀ w ∈ s.cbWrites, w.slotFence ≤ w.completedValue := by
  have hs0 : s0.WritesSafe := by
    intro w hw
    rw [h0] at hw
    exact absurd hw (List.not_mem_nil _)
  exact (ShapesApp.run_spec L es s0 s hrun).2 hs0

/-- C1, witness: four frames of the small scene; the fourth `Update` returns to
slot `1`, whose `Fence` is `1`, and waits for the fence object to reach `1`. -/
theorem writes_wait_for_gpu_witness :
    sampleApp.cbWrites = [] ∧ ShapesApp.framed false sampleRun = true
    ∧ (ShapesApp.run sampleLib sampleRun sampleApp).map
        (fun s => s.cbWrites.map (fun w => (w.slot, w.buffer, w.slotFence, w.completedValue)))
      = some [(1, CBKind.object, 0, 0), (1, CBKind.material, 0, 0), (1, CBKind.pass, 0, 0),
              (2, CBKind.object, 0, 0), (2, CBKind.material, 0, 0), (2, CBKind.pass, 0, 0),
              (0, CBKind.object, 0, 0), (0, CBKind.material, 0, 0), (0, CBKind.pass, 0, 0),
              (1, CBKind.pass, 1, 1)]
    ∧ ∃ s, ShapesApp.run sampleLib sampleRun sampleApp = some s
        ∧ ∀ w ∈ s.cbWrites, w.slotFence ≤ w.completedValue := by
  obtain ⟨s, hs⟩ := Option.isSome_iff_exists.mp sampleRun_defined
  exact ⟨rfl, by decide, by decide, s, hs,
    writes_wait_for_gpu sampleLib sampleRun sampleApp s rfl hs⟩

/-- C2, amended. For `N = 3`, from a start state whose ring index is `0` (the
value the constructor gives it), the ring index after any admissible run is the
number of `Update` calls made so far modulo `3`: it depends on nothing else, in
particular not on the completed value of the fence object or on any input. Frame
`k` (`k = 0, 1, 2, ...`) is recorded after `k + 1` calls of `Update`, so it uses
the index `(k + 1) mod 3`: the sequence is `1, 2, 0, 1, 2, 0, ...`. -/
theorem ring_index_counts_updates (L : MathLib) (es : List Event) (s0 s : ShapesApp)
    (h0 : s0.mCurrFrameResourceIndex = 0) (hrun : ShapesApp.run L es s0 = some s) :
    s.mCurrFrameResourceIndex = ShapesApp.updateCount es % gNumFrameResources
    ∧ ∀ k, ShapesApp.updateCount es = k + 1 → s.mCurrFrameResourceIndex = (k + 1) % 3 := by
  have h := ShapesApp.run_index L es s0 s hrun (by rw [h0]; decide)
  rw [h0, Nat.zero_add] at h
  refine ⟨h, ?_⟩
  intro k hk
  rw [h, hk]
  rfl

/-- C2, witness: the four frames of the small scene end with the ring index `1`. -/
theorem ring_index_counts_updates_witness :
    sampleApp.mCurrFrameResourceIndex = 0
    ∧ ShapesApp.updateCount sampleRun = 4
    ∧ ∃ s, ShapesApp.run sampleLib sampleRun sampleApp = some s
        ∧ s.mCurrFrameResourceIndex = 4 % 3 := by
  obtain ⟨s, hs⟩ := Option.isSome_iff_exists.mp sampleRun_defined
  exact ⟨rfl, rfl, s, hs, (ring_index_counts_updates sampleLib sampleRun sampleApp s rfl hs).1⟩

set_option maxRecDepth 100000 in
/-- C2, counterexample. The first frame after startup (frame `0`) uses the ring
index `1`, not `0 mod 3`: `Initialize` leaves the ring index at `0` and the first
`Update` advances it before it selects the slot. -/
theorem first_frame_uses_slot_one :
    sceneApp.map (fun s => s.mCurrFrameResourceIndex) = some 0
    ∧ (sceneApp.bind (ShapesApp.run sampleLib [Event.update sampleInput])).map
        (fun s => (s.mCurrFrameResourceIndex, s.mCurrFrameResource)) = some (1, some 1)
    ∧ (sceneApp.bind (ShapesApp.run sampleLib [Event.update sampleInput])).map
        (fun s => s.mCurrFrameResourceIndex) ≠ some (0 % 3) := by
  decide

/-! ## The scene builder (C7) -/

/-- Whatever the shape name, `SetRenderItemInfo` succeeds when the geometry
"shapeGeo" exists: the item takes the counter's value, the counter advances, the
items already pushed and the geometry stay. -/
theorem ShapesApp.SetRenderItemInfo_counter (s : ShapesApp) (r : RenderItem) (name : String)
    (t : XMFLOAT4X4) (hg : ∃ g, UMap.find s.mGeometries "shapeGeo" = some (some g)) :
    ∃ s1 r1, ShapesApp.SetRenderItemInfo s r name t = some (s1, r1)
      ∧ r1.ObjCBIndex = s.objCBIndex
      ∧ s1.objCBIndex = toUINT (s.objCBIndex + 1)
      ∧ s1.mAllRitems = s.mAllRitems
      ∧ s1.mOpaqueRitems = s.mOpaqueRitems
      ∧ ∃ g1, UMap.find s1.mGeometries "shapeGeo" = some (some g1) := by
  obtain ⟨g, hg⟩ := hg
  cases hn : UMap.find g.DrawArgs name with
  | none =>
    exact ⟨_, _, ShapesApp.SetRenderItemInfo_of_absent s r name t g hg hn, rfl, rfl, rfl, rfl,
      _, UMap.find_assign _ _ _⟩
  | some sub =>
    exact ⟨_, _, ShapesApp.SetRenderItemInfo_of_present s r name t g sub hg hn, rfl, rfl, rfl,
      rfl, g, hg⟩

theorem ShapesApp.single_traced (s : ShapesApp) (a : BuilderTrace) (name : String)
    (t : XMFLOAT4X4) (h : s.Traced a) :
    ∃ s1, ShapesApp.BuildRenderItems.single s name t = some s1 ∧ s1.Traced a.single
      ∧ s1.mOpaqueRitems = s.mOpaqueRitems := by
  obtain ⟨hg, hc, hl⟩ := h
  obtain ⟨s1, r1, h1, h2, h3, h4, h5, h6⟩ := ShapesApp.SetRenderItemInfo_counter s {} name t hg
  refine ⟨ShapesApp.pushRitem s1 r1, ?_, ⟨h6, ?_, ?_⟩, h5⟩
  · simp [ShapesApp.BuildRenderItems.single, h1]
  · show s1.objCBIndex = _
    rw [h3, hc]
    rfl
  · show List.map _ (s1.mAllRitems ++ [r1]) = _
    rw [List.map_append, h4]
    show s.objCBIndices ++ [r1.ObjCBIndex] = _
    rw [hl, h2, hc]
    rfl

theorem ShapesApp.foldlM_traced (f : ShapesApp → Nat → Option ShapesApp)
    (g : BuilderTrace → Nat → BuilderTrace)
    (hfg : ∀ s a i, ShapesApp.Traced s a →
      ∃ s1, f s i = some s1 ∧ s1.Traced (g a i) ∧ s1.mOpaqueRitems = s.mOpaqueRitems)
    (l : List Nat) :
    ∀ s a, ShapesApp.Traced s a →
      ∃ s1, l.foldlM f s = some s1 ∧ s1.Traced (l.foldl g a)
        ∧ s1.mOpaqueRitems = s.mOpaqueRitems := by
  induction l with
  | nil =>
    intro s a h
    exact ⟨s, rfl, h, rfl⟩
  | cons i is ih =>
    intro s a h
    obtain ⟨s1, h1, h2, h3⟩ := hfg s a i h
    obtain ⟨s2, h4, h5, h6⟩ := ih s1 (g a i) h2
    refine ⟨s2, ?_, h5, h6.trans h3⟩
    simp [List.foldlM, h1, h4]

set_option maxHeartbeats 2000000 in
theorem ShapesApp.tower_traced (L : MathLib) (thetaSquareStep radius : FLOAT)
    (s : ShapesApp) (a : BuilderTrace) (i : Nat) (h : s.Traced a) :
    ∃ s1, ShapesApp.BuildRenderItems.tower L thetaSquareStep radius s i = some s1
      ∧ s1.Traced (a.tower i) ∧ s1.mOpaqueRitems = s.mOpaqueRitems := by
  obtain ⟨hg, hc, hl⟩ := h
  unfold ShapesApp.objCBIndices at hl
  unfold ShapesApp.BuildRenderItems.tower
  simp only []
  generalize XMMatrixMultiply (XMMatrixScaling 6 7 6) _ = towerWorld
  generalize XMMatrixMultiply (XMMatrixScaling (2 / 10) 2 (2 / 10)) _ = poleWorld
  generalize XMMatrixMultiply (XMMatrixScaling (3 / 10) (3 / 10) (3 / 10)) _ = sphereWorld
  generalize XMMatrixMultiply (XMMatrixScaling (15 / 10) 1 (1 / 10)) _ = flagWorld
  generalize XMMatrixMultiply (XMMatrixScaling 8 6 8) _ = roofWorld
  obtain ⟨s1, r1, e1, i1, c1, l1, o1, g1⟩ :=
    ShapesApp.SetRenderItemInfo_counter s {} "cylinder" towerWorld hg
  obtain ⟨s2, r2, e2, i2, c2, l2, o2, g2⟩ :=
    ShapesApp.SetRenderItemInfo_counter s1 {} "cylinder" poleWorld g1
  obtain ⟨s3, r3, e3, i3, c3, l3, o3, g3⟩ :=
    ShapesApp.SetRenderItemInfo_counter s2 {} "box" flagWorld g2
  obtain ⟨s4, r4, e4, i4, c4, l4, o4, g4⟩ :=
    ShapesApp.SetRenderItemInfo_counter s3 {} "sphere" sphereWorld g3
  have hitems : (ShapesApp.pushRitem (ShapesApp.pushRitem (ShapesApp.pushRitem
      (ShapesApp.pushRitem s4 r1) r2) r4) r3).objCBIndices
      = a.2 ++ [a.1] ++ [toUINT (a.1 + 1)] ++ [toUINT (toUINT (toUINT (a.1 + 1) + 1) + 1)]
        ++ [toUINT (toUINT (a.1 + 1) + 1)] := by
    simp only [ShapesApp.objCBIndices, ShapesApp.pushRitem, List.map_append, List.map_cons,
      List.map_nil, l4, l3, l2, l1, i1, i2, i3, i4, c1, c2, c3, hl, hc]
  simp only [e1, e2, e3, e4]
  by_cases hi : i < 3
  · obtain ⟨s5, r5, e5, i5, c5, l5, o5, g5⟩ :=
      ShapesApp.SetRenderItemInfo_counter (ShapesApp.pushRitem (ShapesApp.pushRitem
        (ShapesApp.pushRitem (ShapesApp.pushRitem s4 r1) r2) r4) r3) {} "cone" roofWorld g4
    refine ⟨ShapesApp.pushRitem s5 r5, ?_, ⟨g5, ?_, ?_⟩, ?_⟩
    · simp only [hi, if_true, e5]
    · show s5.objCBIndex = _
      simp only [c5, ShapesApp.pushRitem, c4, c3, c2, c1, hc, BuilderTrace.tower, hi, if_true]
    · show List.map _ (s5.mAllRitems ++ [r5]) = _
      rw [List.map_append, l5]
      show ShapesApp.objCBIndices _ ++ [r5.ObjCBIndex] = _
      rw [hitems, i5]
      simp only [ShapesApp.pushRitem, c4, c3, c2, c1, hc, BuilderTrace.tower, hi, if_true]
    · show s5.mOpaqueRitems = _
      rw [o5]
      show s4.mOpaqueRitems = _
      rw [o4, o3, o2, o1]
  · refine ⟨ShapesApp.pushRitem (ShapesApp.pushRitem (ShapesApp.pushRitem
        (ShapesApp.pushRitem s4 r1) r2) r4) r3, ?_, ⟨g4, ?_, ?_⟩, ?_⟩
    · simp only [hi, if_false]
    · show s4.objCBIndex = _
      simp only [c4, c3, c2, c1, hc, BuilderTrace.tower, hi, if_false]
    · rw [hitems]
      simp only [BuilderTrace.tower, hi, if_false]
    · show s4.mOpaqueRitems = _
      rw [o4, o3, o2, o1]

theorem ShapesApp.mogul_traced (L : MathLib) (theta sRadius cRadius : FLOAT)
    (s : ShapesApp) (a : BuilderTrace) (j : Nat) (h : s.Traced a) :
    ∃ s1, ShapesApp.BuildRenderItems.mogul L theta sRadius cRadius s j = some s1
      ∧ s1.Traced a.single ∧ s1.mOpaqueRitems = s.mOpaqueRitems := by
  unfold ShapesApp.BuildRenderItems.mogul
  exact ShapesApp.single_traced s a "box" _ h

theorem ShapesApp.frontWall_traced (s : ShapesApp) (a : BuilderTrace) (i : Nat)
    (h : s.Traced a) :
    ∃ s1, ShapesApp.BuildRenderItems.frontWall s i = some s1
      ∧ s1.Traced a.single ∧ s1.mOpaqueRitems = s.mOpaqueRitems := by
  unfold ShapesApp.BuildRenderItems.frontWall
  exact ShapesApp.single_traced s a "box" _ h

theorem ShapesApp.wedge_traced (L : MathLib) (thetaSquareStep : FLOAT)
    (s : ShapesApp) (a : BuilderTrace) (i : Nat) (h : s.Traced a) :
    ∃ s1, ShapesApp.BuildRenderItems.wedge L thetaSquareStep s i = some s1
      ∧ s1.Traced a.single ∧ s1.mOpaqueRitems = s.mOpaqueRitems := by
  unfold ShapesApp.BuildRenderItems.wedge
  exact ShapesApp.single_traced s a "wedge" _ h

theorem ShapesApp.wall_traced (L : MathLib) (thetaSquareStep w2 : FLOAT)
    (s : ShapesApp) (a : BuilderTrace) (i : Nat) (h : s.Traced a) :
    ∃ s1, ShapesApp.BuildRenderItems.wall L thetaSquareStep w2 s i = some s1
      ∧ s1.Traced (a.wall i) ∧ s1.mOpaqueRitems = s.mOpaqueRitems := by
  unfold ShapesApp.BuildRenderItems.wall
  simp only []
  generalize XMMatrixMultiply (XMMatrixMultiply (XMMatrixScaling 1 10 width) _) _ = world
  generalize XMMatrixMultiply (XMMatrixMultiply (XMMatrixScaling 1 4 (width - 3)) _) _
    = PrismWorld
  have hfirst : ∃ s1, (if i < 3 then ShapesApp.BuildRenderItems.single s "box" world
      else some s) = some s1
      ∧ s1.Traced (if i < 3 then a.single else a) ∧ s1.mOpaqueRitems = s.mOpaqueRitems := by
    by_cases hi : i < 3
    · simp only [hi, if_true]
      exact ShapesApp.single_traced s a "box" _ h
    · simp only [hi, if_false]
      exact ⟨s, rfl, h, rfl⟩
  obtain ⟨s1, h1, t1, o1⟩ := hfirst
  obtain ⟨s2, h2, t2, o2⟩ := ShapesApp.single_traced s1 _ "prism" PrismWorld t1
  obtain ⟨s3, h3, t3, o3⟩ := ShapesApp.foldlM_traced
    (ShapesApp.BuildRenderItems.mogul L (↑i * thetaSquareStep)
      (w2 * L.sinf (↑i * thetaSquareStep)) (w2 * L.cosf (↑i * thetaSquareStep)))
    (fun b _ => b.single)
    (fun s a j hh => ShapesApp.mogul_traced L _ _ _ s a j hh) (forValues 0 50 2) s2 _ t2
  refine ⟨s3, ?_, t3, o3.trans (o2.trans o1)⟩
  simp only [h1, h2, h3]

/-- `BuildRenderItems` succeeds when the geometry "shapeGeo" exists; the counter
and the indices of the items are those of `BuilderTrace.build`, and every item is
listed as opaque, in the order of `mAllRitems`. -/
theorem ShapesApp.BuildRenderItems_traced (L : MathLib) (s : ShapesApp) (a : BuilderTrace)
    (h : s.Traced a) :
    ∃ s1, ShapesApp.BuildRenderItems L s = some s1 ∧ s1.Traced a.build
      ∧ s1.mOpaqueRitems = s.mOpaqueRitems ++ List.range s1.mAllRitems.length := by
  unfold ShapesApp.BuildRenderItems
  simp only []
  obtain ⟨s1, h1, t1, o1⟩ := ShapesApp.single_traced s a "grid" XMMatrixIdentity h
  obtain ⟨s2, h2, t2, o2⟩ := ShapesApp.foldlM_traced
    (ShapesApp.BuildRenderItems.tower L (XM_2PI / 4)
      (L.sqrtf (width * (1 / 2) * (width * (1 / 2)) + width * (1 / 2) * (width * (1 / 2)))))
    BuilderTrace.tower (fun s a i hh => ShapesApp.tower_traced L _ _ s a i hh)
    (forValues 0 4 1) s1 _ t1
  obtain ⟨s3, h3, t3, o3⟩ := ShapesApp.single_traced s2 _ "cylinder2"
    (XMMatrixMultiply (XMMatrixScaling (35 / 10) 3 (35 / 10))
      (XMMatrixTranslation (width * (1 / 2)) (175 / 10) (-(width * (1 / 2))))) t2
  obtain ⟨s4, h4, t4, o4⟩ := ShapesApp.single_traced s3 _ "torus2"
    (XMMatrixMultiply (XMMatrixScaling (18 / 10) 2 (18 / 10))
      (XMMatrixTranslation (width * (1 / 2)) (145 / 10) (-(width * (1 / 2))))) t3
  obtain ⟨s5, h5, t5, o5⟩ := ShapesApp.foldlM_traced
    (ShapesApp.BuildRenderItems.wall L (XM_2PI / 4) (width * (1 / 2)))
    BuilderTrace.wall (fun s a i hh => ShapesApp.wall_traced L _ _ s a i hh)
    (forValues 0 4 1) s4 _ t4
  obtain ⟨s6, h6, t6, o6⟩ := ShapesApp.foldlM_traced ShapesApp.BuildRenderItems.frontWall
    (fun b _ => b.single) (fun s a i hh => ShapesApp.frontWall_traced s a i hh)
    (forValues 0 2 1) s5 _ t5
  obtain ⟨s7, h7, t7, o7⟩ := ShapesApp.single_traced s6 _ "pyramid"
    (XMMatrixMultiply (XMMatrixScaling 21 6 21) (XMMatrixTranslation 0 (75 / 10) 13)) t6
  obtain ⟨s8, h8, t8, o8⟩ := ShapesApp.single_traced s7 _ "diamond"
    (XMMatrixMultiply (XMMatrixScaling 1 1 1) (XMMatrixTranslation 0 13 13)) t7
  obtain ⟨s9, h9, t9, o9⟩ := ShapesApp.single_traced s8 _ "torus"
    (XMMatrixMultiply
      (XMMatrixMultiply (XMMatrixScaling (1 / 2) (1 / 2) (1 / 2)) (XMMatrixRotationX L (1571 / 1000)))
      (XMMatrixTranslation 0 (1175 / 100) 13)) t8
  obtain ⟨s10, h10, t10, o10⟩ := ShapesApp.foldlM_traced
    (ShapesApp.BuildRenderItems.wedge L (XM_2PI / 4))
    (fun b _ => b.single) (fun s a i hh => ShapesApp.wedge_traced L _ s a i hh)
    (forValues 0 2 1) s9 _ t9
  obtain ⟨s11, h11, t11, o11⟩ := ShapesApp.single_traced s10 _ "box"
    (XMMatrixMultiply (XMMatrixScaling 6 3 13) (XMMatrixTranslation 0 (15 / 10) (-19))) t10
  refine ⟨{ s11 with mOpaqueRitems := s11.mOpaqueRitems ++ List.range s11.mAllRitems.length },
    ?_, t11, ?_⟩
  · simp only [h1, h2, h3, h4, h5, h6, h7, h8, h9, h10, h11]
  · show s11.mOpaqueRitems ++ _ = _
    rw [o11, o10, o9, o8, o7, o6, o5, o4, o3, o2, o1]

set_option maxRecDepth 100000 in
theorem BuilderTrace.build_start_nodup : (BuilderTrace.build (0, [])).2.Nodup := by decide

set_option maxRecDepth 100000 in
theorem BuilderTrace.build_start_count :
    (BuilderTrace.build (0, [])).1 = 137 ∧ (BuilderTrace.build (0, [])).2.length = 137 := by
  decide

theorem ShapesApp.startup_traced (m : ShapeMeshes) (s : ShapesApp) (hc : s.objCBIndex = 0)
    (hl : s.mAllRitems = []) :
    (ShapesApp.BuildMaterials (ShapesApp.BuildShapeGeometry m s)).Traced (0, []) := by
  refine ⟨?_, hc, ?_⟩
  · simp only [ShapesApp.BuildMaterials, ShapesApp.BuildShapeGeometry, UMap.find_assign]
    exact ⟨_, rfl⟩
  · show List.map _ s.mAllRitems = []
    rw [hl]
    rfl

theorem ShapesApp.UpdateObjectCBs_indices (L : MathLib) (s s1 : ShapesApp)
    (h : ShapesApp.UpdateObjectCBs L s = some s1) : s1.objCBIndices = s.objCBIndices := by
  cases hc : s.mCurrFrameResource with
  | none => simp [ShapesApp.UpdateObjectCBs, ShapesApp.currFrameResource, hc] at h
  | some slot => exact (ShapesApp.UpdateObjectCBs_preserves L s s1 slot h hc).2.1

/-- The scene `Initialize` builds: 137 render items with pairwise distinct
`ObjCBIndex`, all listed as opaque. -/
theorem ShapesApp.Initialize_items (L : MathLib) (m : ShapeMeshes) :
    ∃ s, ShapesApp.Initialize L m {} = some s
      ∧ s.objCBIndices = (BuilderTrace.build (0, [])).2
      ∧ s.objCBIndex = 137 ∧ s.mAllRitems.length = 137
      ∧ s.mOpaqueRitems = List.range 137 := by
  obtain ⟨s1, h1, ⟨-, t2, t3⟩, o1⟩ := ShapesApp.BuildRenderItems_traced L _ _
    (ShapesApp.startup_traced m {} rfl rfl)
  have hlen : s1.mAllRitems.length = 137 := by
    have := congrArg List.length t3
    rw [BuilderTrace.build_start_count.2] at this
    simpa [ShapesApp.objCBIndices] using this
  refine ⟨ShapesApp.FlushCommandQueue (ShapesApp.BuildPSOs (ShapesApp.BuildFrameResources s1)),
    ?_, ?_, ?_, ?_, ?_⟩
  · simp only [ShapesApp.Initialize, h1]
  · exact t3
  · exact t2.trans BuilderTrace.build_start_count.1
  · exact hlen
  · show s1.mOpaqueRitems = _
    rw [o1, hlen]
    rfl

/-- C7. The `ObjCBIndex` values of the render items produced by `BuildRenderItems`
at startup are pairwise distinct, and no later operation changes the `ObjCBIndex`
of any item: not `Update`, not `UpdateObjectCBs`, not `Draw` (whose
`DrawRenderItems` only reads the items and returns commands), and so no admissible
run of the application. -/
theorem objCBIndex_unique_and_fixed (L : MathLib) (m : ShapeMeshes) :
    (∃ s, ShapesApp.BuildRenderItems L
        (ShapesApp.BuildMaterials (ShapesApp.BuildShapeGeometry m {})) = some s
      ∧ s.objCBIndices.Nodup ∧ s.mAllRitems.length = 137)
    ∧ (∃ s, ShapesApp.Initialize L m {} = some s ∧ s.objCBIndices.Nodup
        ∧ ∀ es s1, ShapesApp.run L es s = some s1 →
            s1.objCBIndices = s.objCBIndices ∧ s1.objCBIndices.Nodup)
    ∧ (∀ inp s s1, ShapesApp.Update L inp s = some s1 → s1.objCBIndices = s.objCBIndices)
    ∧ (∀ s s1, ShapesApp.UpdateObjectCBs L s = some s1 → s1.objCBIndices = s.objCBIndices)
    ∧ (∀ s s1, ShapesApp.Draw s = some s1 → s1.objCBIndices = s.objCBIndices) := by
  refine ⟨?_, ?_, ?_, ?_, ?_⟩
  · obtain ⟨s1, h1, ⟨-, -, t3⟩, -⟩ := ShapesApp.BuildRenderItems_traced L _ _
      (ShapesApp.startup_traced m {} rfl rfl)
    refine ⟨s1, h1, ?_, ?_⟩
    · rw [t3]
      exact BuilderTrace.build_start_nodup
    · have := congrArg List.length t3
      rw [BuilderTrace.build_start_count.2] at this
      simpa [ShapesApp.objCBIndices] using this
  · obtain ⟨s, h1, h2, -, -, -⟩ := ShapesApp.Initialize_items L m
    have hn : s.objCBIndices.Nodup := by
      rw [h2]
      exact BuilderTrace.build_start_nodup
    refine ⟨s, h1, hn, ?_⟩
    intro es s1 hrun
    have hsame := (ShapesApp.run_spec L es s s1 hrun).1
    exact ⟨hsame, by rw [hsame]; exact hn⟩
  · intro inp s s1 h
    exact (ShapesApp.Update_spec L inp s s1 h).2.2.1
  · intro s s1 h
    exact ShapesApp.UpdateObjectCBs_indices L s s1 h
  · intro s s1 h
    have := (ShapesApp.Draw_spec s s1 h).2.2.1
    simp only [ShapesApp.objCBIndices, this]

set_option maxRecDepth 100000 in
/-- The four frames of the scene are admissible and defined: 424 buffer writes are
made, the last of them into the pass buffer of slot `1`, whose `Fence` is `2`,
when the fence object has reached `2`. -/
theorem sceneRun_defined :
    (sceneApp.bind (ShapesApp.run sampleLib sceneRun)).map
      (fun s => (s.objCBIndices.length, s.mCurrFrameResourceIndex, s.cbWrites.length))
      = some (137, 1, 424)
    ∧ (sceneApp.bind (ShapesApp.run sampleLib sceneRun)).map
      (fun s => s.cbWrites.getLast?.map (fun w => (w.slot, w.slotFence, w.completedValue)))
      = some (some (1, 2, 2)) := by
  decide

/-- C7, witness: the scene built from the twelve small meshes, run for four
frames. -/
theorem objCBIndex_unique_and_fixed_witness :
    ∃ s s1, sceneApp = some s ∧ ShapesApp.run sampleLib sceneRun s = some s1
      ∧ s.objCBIndices.Nodup ∧ s1.objCBIndices = s.objCBIndices := by
  have hdef := sceneRun_defined.1
  obtain ⟨s, hs, hnodup, hruns⟩ := (objCBIndex_unique_and_fixed sampleLib sampleMeshes).2.1
  have hs2 : sceneApp = some s := hs
  rw [hs2, Option.some_bind] at hdef
  cases hrun : ShapesApp.run sampleLib sceneRun s with
  | none => rw [hrun] at hdef; simp at hdef
  | some s1 => exact ⟨s, s1, hs2, hrun, hnodup, (hruns sceneRun s1 hrun).1⟩

/-! ## World matrices of a render item (C16, C17) -/

/-- C16. Round trip of the world matrix: for every transform `t`, every render
item and every shape name defined in the geometry batch, the `World` matrix read
back from the item after `SetRenderItemInfo(item, name, t)` is `t`, entry for
entry: the transform is stored once, whatever matrix the item held before. -/
theorem world_round_trip (s : ShapesApp) (r : RenderItem) (name : String) (t : XMFLOAT4X4)
    (g : MeshGeometry) (sub : SubmeshGeometry)
    (hg : UMap.find s.mGeometries "shapeGeo" = some (some g))
    (hn : UMap.find g.DrawArgs name = some sub) :
    ∃ s1 r1, ShapesApp.SetRenderItemInfo s r name t = some (s1, r1)
      ∧ r1.World = t ∧ ∀ i j, r1.World i j = t i j :=
  ⟨_, _, ShapesApp.SetRenderItemInfo_of_present s r name t g sub hg hn, rfl, fun _ _ => rfl⟩

/-- C16, witness: the box of the small scene, on an item that already holds a
scaling as its world matrix, with a translation as the new transform. -/
theorem world_round_trip_witness :
    UMap.find sampleApp.mGeometries "shapeGeo"
        = some (some { Name := "shapeGeo", DrawArgs := [("box", ⟨36, 0, 0⟩)] })
    ∧ UMap.find [("box", (⟨36, 0, 0⟩ : SubmeshGeometry))] "box" = some ⟨36, 0, 0⟩
    ∧ ∃ s1 r1, ShapesApp.SetRenderItemInfo sampleApp { World := XMMatrixScaling 2 3 4 } "box"
          (XMMatrixTranslation 1 2 3) = some (s1, r1)
      ∧ r1.World = XMMatrixTranslation 1 2 3
      ∧ ∀ i j, r1.World i j = XMMatrixTranslation 1 2 3 i j :=
  ⟨rfl, rfl,
    world_round_trip sampleApp { World := XMMatrixScaling 2 3 4 } "box" (XMMatrixTranslation 1 2 3)
      { Name := "shapeGeo", DrawArgs := [("box", ⟨36, 0, 0⟩)] } ⟨36, 0, 0⟩ rfl rfl⟩

/-- C17. For every render item filled in by `SetRenderItemInfo` with transform `t`
(for a shape name defined in the geometry batch), the stored `TWorld` is the plain
transpose of `t`: `TWorld[i][j] == World[j][i]` for all `i`, `j`. No inverse is
taken, and transposing `TWorld` gives back `World`. -/
theorem tworld_is_transpose (s : ShapesApp) (r : RenderItem) (name : String) (t : XMFLOAT4X4)
    (g : MeshGeometry) (sub : SubmeshGeometry)
    (hg : UMap.find s.mGeometries "shapeGeo" = some (some g))
    (hn : UMap.find g.DrawArgs name = some sub) :
    ∃ s1 r1, ShapesApp.SetRenderItemInfo s r name t = some (s1, r1)
      ∧ r1.TWorld = XMMatrixTranspose t
      ∧ (∀ i j, r1.TWorld i j = r1.World j i)
      ∧ XMMatrixTranspose r1.TWorld = r1.World :=
  ⟨_, _, ShapesApp.SetRenderItemInfo_of_present s r name t g sub hg hn, rfl, fun _ _ => rfl,
    Matrix.transpose_transpose t⟩

/-- C17, witness: the box of the small scene with the scaling by `2` as transform.
The stored `TWorld` is the scaling itself; it is not the inverse transpose, whose
product with the transpose of the transform would be the identity. -/
theorem tworld_is_transpose_witness :
    UMap.find sampleApp.mGeometries "shapeGeo"
        = some (some { Name := "shapeGeo", DrawArgs := [("box", ⟨36, 0, 0⟩)] })
    ∧ UMap.find [("box", (⟨36, 0, 0⟩ : SubmeshGeometry))] "box" = some ⟨36, 0, 0⟩
    ∧ (∃ s1 r1, ShapesApp.SetRenderItemInfo sampleApp {} "box" (XMMatrixScaling 2 2 2)
          = some (s1, r1)
      ∧ r1.TWorld = XMMatrixTranspose (XMMatrixScaling 2 2 2)
      ∧ (∀ i j, r1.TWorld i j = r1.World j i)
      ∧ XMMatrixTranspose r1.TWorld = r1.World)
    ∧ XMMatrixMultiply (XMMatrixTranspose (XMMatrixScaling 2 2 2))
        (XMMatrixTranspose (XMMatrixScaling 2 2 2)) ≠ XMMatrixIdentity := by
  refine ⟨rfl, rfl,
    tworld_is_transpose sampleApp {} "box" (XMMatrixScaling 2 2 2)
      { Name := "shapeGeo", DrawArgs := [("box", ⟨36, 0, 0⟩)] } ⟨36, 0, 0⟩ rfl rfl, ?_⟩
  intro h
  have h00 := congrFun (congrFun h 0) 0
  simp [XMMatrixMultiply, XMMatrixTranspose, XMMatrixScaling, XMMatrixIdentity,
    Matrix.mul_apply, Fin.sum_univ_four] at h00
  norm_num at h00

/-! ## The frame: wireframe toggle, blocking wait, fence bookkeeping (C11, C12, C13) -/

/-- The four stages of a defined call of `Update`, after the input phase. -/
theorem ShapesApp.Update_stages (L : MathLib) (inp : ShapesApp.FrameInput) (s s1 : ShapesApp)
    (h : ShapesApp.Update L inp s = some s1) :
    ∃ s3 s4 s5,
      ShapesApp.Update.cycle inp (ShapesApp.UpdateCamera L
          (ShapesApp.OnKeyboardInput inp.key1Down s)) = some s3
      ∧ ShapesApp.UpdateObjectCBs L s3 = some s4
      ∧ ShapesApp.UpdateMaterialCBs s4 = some s5
      ∧ ShapesApp.UpdateMainPassCB L inp.gt s5 = some s1 := by
  simp only [ShapesApp.Update] at h
  split at h
  · exact absurd h (by simp)
  · rename_i s3 h3
    split at h
    · exact absurd h (by simp)
    · rename_i s4 h4
      split at h
      · exact absurd h (by simp)
      · rename_i s5 h5
        exact ⟨s3, s4, s5, h3, h4, h5, h⟩

/-- The ring as `Update` leaves it is the ring as its stage `Update.cycle` leaves
it: the three copy routines change no index, no counter and no `Fence`. -/
theorem ShapesApp.Update_ringView (L : MathLib) (inp : ShapesApp.FrameInput) (s s1 : ShapesApp)
    (h : ShapesApp.Update L inp s = some s1) :
    ∃ s3, ShapesApp.Update.cycle inp (ShapesApp.UpdateCamera L
          (ShapesApp.OnKeyboardInput inp.key1Down s)) = some s3
      ∧ s1.ringView = s3.ringView := by
  obtain ⟨s3, s4, s5, h3, h4, h5, h6⟩ := ShapesApp.Update_stages L inp s s1 h
  obtain ⟨-, c2, -⟩ := ShapesApp.Update_cycle_spec inp _ s3 h3
  obtain ⟨o1, -, -⟩ := ShapesApp.UpdateObjectCBs_preserves L s3 s4 _ h4 c2
  have hcur4 : s4.mCurrFrameResource = some s3.mCurrFrameResourceIndex := by
    have := congrArg (fun v => v.2.1) o1
    simp only [ShapesApp.ringView] at this
    rw [this, c2]
  obtain ⟨m1, -, -⟩ := ShapesApp.UpdateMaterialCBs_preserves s4 s5 _ h5 hcur4
  have hcur5 : s5.mCurrFrameResource = some s3.mCurrFrameResourceIndex := by
    have := congrArg (fun v => v.2.1) m1
    simp only [ShapesApp.ringView] at this
    rw [this, hcur4]
  obtain ⟨p1, -, -⟩ := ShapesApp.UpdateMainPassCB_preserves L inp.gt s5 s1 _ h6 hcur5
  exact ⟨s3, h3, p1.trans (m1.trans o1)⟩

/-- The head of the command list `Draw` records is the reset with the pipeline
state stored under "opaque", whatever `mIsWireframe` is. -/
theorem ShapesApp.Draw_reset (s s1 : ShapesApp) (h : ShapesApp.Draw s = some s1) :
    s1.mCommandList.head? = some (Cmd.Reset (UMap.index none s.mPSOs "opaque").1) := by
  unfold ShapesApp.Draw at h
  split at h
  · exact absurd h (by simp)
  · rename_i slot fr hc
    simp only at h
    split at h
    · exact absurd h (by simp)
    · rename_i draws hd
      simp only [Option.some.injEq] at h
      subst h
      rfl

set_option maxRecDepth 100000 in
/-- C11. The wireframe toggle does not reach the frame. `Draw` always resets the
command list with the pipeline state stored under "opaque"; in the scene built by
`Initialize`, a frame whose `Update` samples the `1` key as down sets
`mIsWireframe`, and `Draw` still records the frame with the solid pipeline state,
although the wireframe state is stored under "opaque_wireframe". -/
theorem wireframe_key_ignored :
    (∀ s s1 : ShapesApp, ShapesApp.Draw s = some s1 →
        s1.mCommandList.head? = some (Cmd.Reset (UMap.index none s.mPSOs "opaque").1))
    ∧ (sceneApp.bind (ShapesApp.run sampleLib [Event.update keyDownInput, Event.draw])).map
        (fun s => (s.mIsWireframe, s.mCommandList.head?, UMap.find s.mPSOs "opaque_wireframe"))
      = some (true, some (Cmd.Reset (some PSO.solid)), some (some PSO.wireframe)) :=
  ⟨ShapesApp.Draw_reset, by decide⟩

/-- C13. `Update` blocks on the fence if and only if the slot it has just advanced
to has a nonzero `Fence` and the completed value of the fence object is strictly
less than that `Fence`. A slot that was never submitted (`Fence == 0`) causes no
wait, and neither does a slot whose `Fence` the GPU has already reached. The
completed value `Update` returns with is the one the wait handed back when it
blocked, and the one it started with when it did not. -/
theorem update_blocks_iff (L : MathLib) (inp : ShapesApp.FrameInput) (s : ShapesApp) :
    (∀ b, ShapesApp.Update.blocks L inp s = some b →
      ∃ fr, s.mFrameResources[(s.mCurrFrameResourceIndex + 1) % gNumFrameResources]? = some fr
        ∧ (b = true ↔ fr.Fence ≠ 0 ∧ s.mFenceCompleted < fr.Fence)
        ∧ (fr.Fence = 0 → b = false)
        ∧ (fr.Fence ≤ s.mFenceCompleted → b = false))
    ∧ (∀ s1, ShapesApp.Update L inp s = some s1 →
      ∃ b, ShapesApp.Update.blocks L inp s = some b
        ∧ s1.mFenceCompleted = if b = true then inp.completedAfterWait else s.mFenceCompleted) := by
  have hfr : (ShapesApp.UpdateCamera L (ShapesApp.OnKeyboardInput inp.key1Down s)).mFrameResources
      = s.mFrameResources := (ShapesApp.input_phase L inp.key1Down s).2.1
  have hidx : (ShapesApp.UpdateCamera L
      (ShapesApp.OnKeyboardInput inp.key1Down s)).mCurrFrameResourceIndex
      = s.mCurrFrameResourceIndex := by
    cases inp.key1Down <;> rfl
  have hcomp : (ShapesApp.UpdateCamera L
      (ShapesApp.OnKeyboardInput inp.key1Down s)).mFenceCompleted = s.mFenceCompleted := by
    cases inp.key1Down <;> rfl
  constructor
  · intro b hb
    simp only [ShapesApp.Update.blocks, hfr, hidx, hcomp] at hb
    split at hb
    · exact absurd hb (by simp)
    · rename_i fr hf
      simp only [Option.some.injEq] at hb
      subst hb
      refine ⟨fr, hf, ?_, ?_, ?_⟩
      · simp [bne_iff_ne]
      · intro h0
        simp [h0]
      · intro hle
        simp only [Bool.and_eq_false_imp, bne_iff_ne, ne_eq, decide_eq_false_iff_not, not_lt]
        exact fun _ => hle
  · intro s1 h
    obtain ⟨s3, h3, hview⟩ := ShapesApp.Update_ringView L inp s s1 h
    have hc1 : s1.mFenceCompleted = s3.mFenceCompleted := by
      have := congrArg (fun v => v.2.2.1) hview
      simpa only [ShapesApp.ringView] using this
    cases hf : s.mFrameResources[(s.mCurrFrameResourceIndex + 1) % gNumFrameResources]? with
    | none => simp [ShapesApp.Update.cycle, hfr, hidx, hf] at h3
    | some fr =>
      simp only [ShapesApp.Update.cycle, hfr, hidx, hf, Option.some.injEq] at h3
      refine ⟨fr.Fence != 0 && decide (s.mFenceCompleted < fr.Fence), ?_, ?_⟩
      · simp only [ShapesApp.Update.blocks, hfr, hidx, hcomp, hf]
      · rw [hc1, ← h3]
        simp only [ShapesApp.mustWait, hcomp]
        split <;> rfl

set_option maxRecDepth 100000 in
/-- C13, witness: the small scene. Its first `Update` advances to a slot that was
never submitted and does not block; after three frames in which the GPU completes
nothing, the fourth `Update` returns to slot `1`, whose `Fence` is `1` while the
completed value is `0`, and blocks. -/
theorem update_blocks_iff_witness :
    ShapesApp.Update.blocks sampleLib sampleInput sampleApp = some false
    ∧ ∃ s fr, ShapesApp.run sampleLib (sampleRun.take 6) sampleApp = some s
        ∧ ShapesApp.Update.blocks sampleLib sampleInput s = some true
        ∧ s.mFrameResources[(s.mCurrFrameResourceIndex + 1) % gNumFrameResources]? = some fr
        ∧ fr.Fence ≠ 0 ∧ s.mFenceCompleted < fr.Fence := by
  have hd : (ShapesApp.run sampleLib (sampleRun.take 6) sampleApp).map
      (fun s => ShapesApp.Update.blocks sampleLib sampleInput s) = some (some true) := by
    decide
  refine ⟨by decide, ?_⟩
  cases hrun : ShapesApp.run sampleLib (sampleRun.take 6) sampleApp with
  | none => rw [hrun] at hd; simp at hd
  | some s =>
    rw [hrun, Option.map_some', Option.some.injEq] at hd
    obtain ⟨fr, hf, hiff, -, -⟩ := (update_blocks_iff sampleLib sampleInput s).1 true hd
    exact ⟨s, fr, rfl, hd, hf, (hiff.mp rfl).1, (hiff.mp rfl).2⟩

/-- What `Draw` does to the fence counters and to the ring. -/
theorem ShapesApp.Draw_fence (s s1 : ShapesApp) (slot : Nat) (fr : FrameResource)
    (hc : s.currFrameResource = some (slot, fr)) (h : ShapesApp.Draw s = some s1) :
    s1.mCurrentFence = (s.mCurrentFence + 1) % UINT64_RANGE
    ∧ s1.mFenceSignalled = s1.mCurrentFence
    ∧ s1.mFenceCompleted = s.mFenceCompleted
    ∧ s1.mFrameResources = s.mFrameResources.set slot { fr with Fence := s1.mCurrentFence } := by
  unfold ShapesApp.Draw at h
  rw [hc] at h
  simp only at h
  split at h
  · exact absurd h (by simp)
  · rename_i draws hd
    simp only [Option.some.injEq] at h
    subst h
    exact ⟨rfl, rfl, rfl, rfl⟩

/-- An event other than `Draw` leaves the fence counter and the `Fence` of every
slot as they are. -/
theorem ShapesApp.exec_fence (L : MathLib) (e : Event) (s s1 : ShapesApp)
    (h : ShapesApp.exec L s e = some s1) (hne : e ≠ Event.draw) :
    s1.mCurrentFence = s.mCurrentFence ∧ s1.slotFences = s.slotFences := by
  cases e with
  | draw => exact absurd rfl hne
  | mouseDown b x y =>
    simp only [ShapesApp.exec, Option.some.injEq] at h
    subst h
    exact ⟨rfl, rfl⟩
  | mouseMove b x y =>
    simp only [ShapesApp.exec, Option.some.injEq] at h
    subst h
    constructor
    · simp only [ShapesApp.OnMouseMove]
      split_ifs <;> rfl
    · simp only [ShapesApp.slotFences, ShapesApp.OnMouseMove]
      split_ifs <;> rfl
  | gpu c =>
    simp only [ShapesApp.exec, Option.some.injEq] at h
    subst h
    exact ⟨rfl, rfl⟩
  | update inp =>
    simp only [ShapesApp.exec] at h
    obtain ⟨s3, h3, hview⟩ := ShapesApp.Update_ringView L inp s s1 h
    have hin := (ShapesApp.input_phase L inp.key1Down s).1
    have h3v : s3.mCurrentFence = (ShapesApp.UpdateCamera L
          (ShapesApp.OnKeyboardInput inp.key1Down s)).mCurrentFence
        ∧ s3.slotFences = (ShapesApp.UpdateCamera L
          (ShapesApp.OnKeyboardInput inp.key1Down s)).slotFences := by
      generalize ShapesApp.UpdateCamera L (ShapesApp.OnKeyboardInput inp.key1Down s) = s2 at h3
      unfold ShapesApp.Update.cycle at h3
      simp only at h3
      split at h3
      · exact absurd h3 (by simp)
      · simp only [Option.some.injEq] at h3
        subst h3
        constructor
        · split <;> rfl
        · simp only [ShapesApp.slotFences]
          split <;> rfl
    have a1 : s1.mCurrentFence = s3.mCurrentFence := by
      have := congrArg (fun v => v.2.2.2.1) hview
      simpa only [ShapesApp.ringView] using this
    have a2 : s1.slotFences = s3.slotFences := by
      have := congrArg (fun v => v.2.2.2.2.2) hview
      simpa only [ShapesApp.ringView] using this
    have b1 : (ShapesApp.UpdateCamera L
        (ShapesApp.OnKeyboardInput inp.key1Down s)).mCurrentFence = s.mCurrentFence := by
      have := congrArg (fun v => v.2.2.2.1) hin
      simpa only [ShapesApp.ringView] using this
    have b2 : (ShapesApp.UpdateCamera L
        (ShapesApp.OnKeyboardInput inp.key1Down s)).slotFences = s.slotFences := by
      have := congrArg (fun v => v.2.2.2.2.2) hin
      simpa only [ShapesApp.ringView] using this
    exact ⟨a1.trans (h3v.1.trans b1), a2.trans (h3v.2.trans b2)⟩

/-- Between two calls of `Draw` the fence counter and the `Fence` of every slot
stay as they are. -/
theorem ShapesApp.run_fence (L : MathLib) (es : List Event) :
    ∀ s s1 : ShapesApp, ShapesApp.run L es s = some s1 → (∀ e ∈ es, e ≠ Event.draw) →
      s1.mCurrentFence = s.mCurrentFence ∧ s1.slotFences = s.slotFences := by
  induction es with
  | nil =>
    intro s s1 h _
    simp only [ShapesApp.run, Option.some.injEq] at h
    subst h
    exact ⟨rfl, rfl⟩
  | cons e es ih =>
    intro s s1 h hne
    simp only [ShapesApp.run] at h
    split at h
    · split at h
      · exact absurd h (by simp)
      · rename_i s2 h2
        obtain ⟨e1, e2⟩ := ShapesApp.exec_fence L e s s2 h2 (hne e (List.mem_cons_self _ _))
        obtain ⟨r1, r2⟩ := ih s2 s1 h (fun x hx => hne x (List.mem_cons_of_mem _ hx))
        exact ⟨r1.trans e1, r2.trans e2⟩
    · exact absurd h (by simp)

/-- C12, amended. As long as the 64-bit fence counter has not reached its largest
value, each `Draw` call increments `mCurrentFence` by exactly one, records the
incremented value as the `Fence` of the current slot and signals that same value
to the queue; the `Fence` values of the other slots are unchanged, and the value
recorded by the next `Draw` call (whatever `Update`, mouse and GPU events come in
between) is strictly greater. -/
theorem draw_advances_fence (L : MathLib) (s s1 : ShapesApp) (slot : Nat)
    (hs : s.mCurrFrameResource = some slot) (h : ShapesApp.Draw s = some s1)
    (hno : s.mCurrentFence + 1 < UINT64_RANGE) :
    s1.mCurrentFence = s.mCurrentFence + 1
    ∧ s1.slotFences[slot]? = some s1.mCurrentFence
    ∧ s1.mFenceSignalled = s1.mCurrentFence
    ∧ (∀ k, k ≠ slot → s1.slotFences[k]? = s.slotFences[k]?)
    ∧ s1.slotFences.length = s.slotFences.length
    ∧ ∀ es s2 s3, (∀ e ∈ es, e ≠ Event.draw) → ShapesApp.run L es s1 = some s2 →
        ShapesApp.Draw s2 = some s3 → s2.mCurrentFence + 1 < UINT64_RANGE →
        s3.mCurrentFence = s1.mCurrentFence + 1 ∧ s1.mCurrentFence < s3.mCurrentFence := by
  cases hc : s.currFrameResource with
  | none => simp [ShapesApp.Draw, hc] at h
  | some p =>
    obtain ⟨slot1, fr⟩ := p
    obtain ⟨hslot, hfr⟩ := (ShapesApp.currFrameResource_eq s slot1 fr).mp hc
    rw [hs, Option.some.injEq] at hslot
    subst hslot
    obtain ⟨d1, d2, -, d4⟩ := ShapesApp.Draw_fence s s1 slot fr hc h
    have hlt : slot < s.mFrameResources.length := by
      by_contra hge
      rw [List.getElem?_eq_none (by omega)] at hfr
      exact absurd hfr (by simp)
    have hmod : (s.mCurrentFence + 1) % UINT64_RANGE = s.mCurrentFence + 1 := Nat.mod_eq_of_lt hno
    refine ⟨d1.trans hmod, ?_, d2, ?_, ?_, ?_⟩
    · simp only [ShapesApp.slotFences, d4, List.getElem?_map]
      rw [List.getElem?_set_self hlt]
      rfl
    · intro k hk
      simp only [ShapesApp.slotFences, d4, List.getElem?_map]
      rw [List.getElem?_set_ne (Ne.symm hk)]
    · simp only [ShapesApp.slotFences, d4, List.length_map, List.length_set]
    · intro es s2 s3 hne hrun hdraw hno2
      obtain ⟨r1, -⟩ := ShapesApp.run_fence L es s1 s2 hrun hne
      cases hc2 : s2.currFrameResource with
      | none => simp [ShapesApp.Draw, hc2] at hdraw
      | some p2 =>
        obtain ⟨slot2, fr2⟩ := p2
        obtain ⟨e1, -, -, -⟩ := ShapesApp.Draw_fence s2 s3 slot2 fr2 hc2 hdraw
        rw [Nat.mod_eq_of_lt hno2, r1] at e1
        exact ⟨e1, by omega⟩

/-- C12, witness: the first `Draw` of the small scene, with slot `0` current. -/
theorem draw_advances_fence_witness :
    runningApp.mCurrFrameResource = some 0 ∧ runningApp.mCurrentFence + 1 < UINT64_RANGE
    ∧ ∃ s1, ShapesApp.Draw runningApp = some s1
      ∧ s1.mCurrentFence = runningApp.mCurrentFence + 1
      ∧ s1.slotFences[0]? = some s1.mCurrentFence
      ∧ s1.mFenceSignalled = s1.mCurrentFence
      ∧ s1.slotFences = [1, 0, 0] := by
  have hd : (ShapesApp.Draw runningApp).map (fun s => s.slotFences) = some [1, 0, 0] := by
    decide
  cases hdraw : ShapesApp.Draw runningApp with
  | none => rw [hdraw] at hd; simp at hd
  | some s1 =>
    rw [hdraw, Option.map_some', Option.some.injEq] at hd
    obtain ⟨a, b, c, -⟩ :=
      draw_advances_fence sampleLib runningApp s1 0 rfl hdraw (by decide)
    exact ⟨rfl, by decide, s1, rfl, a, b, c, hd⟩

/-- C12, counterexample. With the fence counter at `2 ^ 64 - 1`, `Draw` does not
increment it by one: the counter wraps to `0`, and the value recorded for slot `0`
is `0`, below the value `2 ^ 64 - 1` recorded by the `Draw` before it. -/
theorem draw_fence_wraps :
    fenceWrapApp.mCurrentFence = 18446744073709551615
    ∧ fenceWrapApp.slotFences = [18446744073709551613, 18446744073709551614, 18446744073709551615]
    ∧ (ShapesApp.Draw fenceWrapApp).map (fun s => (s.mCurrentFence, s.slotFences))
        = some (0, [0, 18446744073709551614, 18446744073709551615])
    ∧ ¬ ∃ s1, ShapesApp.Draw fenceWrapApp = some s1
        ∧ s1.mCurrentFence = fenceWrapApp.mCurrentFence + 1 := by
  have hd : (ShapesApp.Draw fenceWrapApp).map (fun s => (s.mCurrentFence, s.slotFences))
      = some (0, [0, 18446744073709551614, 18446744073709551615]) := by decide
  refine ⟨rfl, rfl, hd, ?_⟩
  rintro ⟨s1, h1, h2⟩
  rw [h1, Option.map_some', Option.some.injEq, Prod.mk.injEq] at hd
  rw [hd.1] at h2
  revert h2
  decide

/-! ## The world matrices of the scene (C15) -/

theorem XMMatrixScaling_one : XMMatrixScaling 1 1 1 = 1 := by
  ext i j
  fin_cases i <;> fin_cases j <;> rfl

theorem XMMatrixTranslation_zero : XMMatrixTranslation 0 0 0 = 1 := by
  ext i j
  fin_cases i <;> fin_cases j <;> rfl

/-- Leaving the rotation out is multiplying by the identity. -/
theorem WorldFactor.product_scale_translation (L : MathLib) (sx sy sz x y z : FLOAT) :
    WorldFactor.product L [WorldFactor.scaling sx sy sz, WorldFactor.translation x y z]
      = XMMatrixMultiply (XMMatrixMultiply (XMMatrixScaling sx sy sz) XMMatrixIdentity)
          (XMMatrixTranslation x y z) := by
  simp [WorldFactor.product, WorldFactor.matrix, XMMatrixMultiply, XMMatrixIdentity]

/-- Leaving every factor out is multiplying identities. -/
theorem WorldFactor.product_nil (L : MathLib) :
    WorldFactor.product L []
      = XMMatrixMultiply (XMMatrixMultiply (XMMatrixScaling 1 1 1) XMMatrixIdentity)
          (XMMatrixTranslation 0 0 0) := by
  simp [WorldFactor.product, XMMatrixMultiply, XMMatrixIdentity, XMMatrixScaling_one,
    XMMatrixTranslation_zero]

theorem List.flatten_map_singleton_fun {α β : Type} (g : α → β) (l : List α) :
    (l.map (fun a => [g a])).flatten = l.map g := by
  induction l with
  | nil => rfl
  | cons a as ih => simp [ih]

theorem ShapesApp.Grown.refl (L : MathLib) (s : ShapesApp) (h : s.BuilderReady) :
    ShapesApp.Grown L [] s s :=
  ⟨h, rfl, rfl, [], (List.append_nil _).symm, rfl⟩

theorem ShapesApp.Grown.trans (L : MathLib) (c1 c2 : List (List WorldFactor))
    (s s1 s2 : ShapesApp)
    (h1 : ShapesApp.Grown L c1 s s1) (h2 : ShapesApp.Grown L c2 s1 s2) :
    ShapesApp.Grown L (c1 ++ c2) s s2 := by
  obtain ⟨-, m1, o1, a1, l1, w1⟩ := h1
  obtain ⟨r2, m2, o2, a2, l2, w2⟩ := h2
  refine ⟨r2, m2.trans m1, o2.trans o1, a1 ++ a2, ?_, ?_⟩
  · rw [l2, l1, List.append_assoc]
  · rw [List.map_append, List.map_append, w1, w2]

theorem ShapesApp.pushRitem_outsideBuilder (s : ShapesApp) (r : RenderItem) :
    (ShapesApp.pushRitem s r).outsideBuilder = s.outsideBuilder := rfl

theorem ShapesApp.pushRitem_mMaterials (s : ShapesApp) (r : RenderItem) :
    (ShapesApp.pushRitem s r).mMaterials = s.mMaterials := rfl

theorem ShapesApp.pushRitem_mAllRitems (s : ShapesApp) (r : RenderItem) :
    (ShapesApp.pushRitem s r).mAllRitems = s.mAllRitems ++ [r] := rfl

/-- With the geometry and the material there, `SetRenderItemInfo` succeeds
whatever the shape name: the item holds the transform, the material "stone0" and
the geometry "shapeGeo"; the items already pushed and the materials stay. -/
theorem ShapesApp.SetRenderItemInfo_ready (s : ShapesApp) (r : RenderItem) (name : String)
    (t : XMFLOAT4X4) (h : s.BuilderReady) :
    ∃ s1 r1, ShapesApp.SetRenderItemInfo s r name t = some (s1, r1)
      ∧ r1.World = t
      ∧ r1.Mat = some "stone0" ∧ r1.Geo = some "shapeGeo"
      ∧ s1.mAllRitems = s.mAllRitems
      ∧ s1.mMaterials = s.mMaterials
      ∧ s1.outsideBuilder = s.outsideBuilder
      ∧ s1.BuilderReady := by
  obtain ⟨⟨g, hg⟩, ⟨mat, hm⟩⟩ := h
  have hidx := UMap.index_of_find none s.mMaterials "stone0" (some mat) hm
  cases hn : UMap.find g.DrawArgs name with
  | none =>
    refine ⟨_, _, ShapesApp.SetRenderItemInfo_of_absent s r name t g hg hn, rfl, ?_, rfl, rfl, ?_,
      rfl, ⟨_, UMap.find_assign _ _ _⟩, ?_⟩
    · show Option.map _ (UMap.index none s.mMaterials "stone0").1 = _
      rw [hidx]
      rfl
    · show (UMap.index none s.mMaterials "stone0").2 = _
      rw [hidx]
    · show ∃ mat, UMap.find (UMap.index none s.mMaterials "stone0").2 "stone0" = some (some mat)
      rw [hidx]
      exact ⟨mat, hm⟩
  | some sub =>
    refine ⟨_, _, ShapesApp.SetRenderItemInfo_of_present s r name t g sub hg hn, rfl, ?_, rfl, rfl,
      ?_, rfl, ⟨g, hg⟩, ?_⟩
    · show Option.map _ (UMap.index none s.mMaterials "stone0").1 = _
      rw [hidx]
      rfl
    · show (UMap.index none s.mMaterials "stone0").2 = _
      rw [hidx]
    · show ∃ mat, UMap.find (UMap.index none s.mMaterials "stone0").2 "stone0" = some (some mat)
      rw [hidx]
      exact ⟨mat, hm⟩

/-- One item created, filled in and pushed at once. -/
theorem ShapesApp.single_pushed (s : ShapesApp) (name : String) (t : XMFLOAT4X4)
    (h : s.BuilderReady) :
    ∃ s1 r, ShapesApp.BuildRenderItems.single s name t = some s1
      ∧ s1.mAllRitems = s.mAllRitems ++ [r] ∧ r.World = t
      ∧ s1.mMaterials = s.mMaterials ∧ s1.outsideBuilder = s.outsideBuilder
      ∧ s1.BuilderReady := by
  obtain ⟨s1, r1, h1, hw, -, -, hl, hm, ho, hr⟩ := ShapesApp.SetRenderItemInfo_ready s {} name t h
  refine ⟨ShapesApp.pushRitem s1 r1, r1, ?_, ?_, hw, hm, ho, hr⟩
  · simp [ShapesApp.BuildRenderItems.single, h1]
  · show s1.mAllRitems ++ [r1] = _
    rw [hl]

theorem ShapesApp.single_grown (L : MathLib) (s : ShapesApp) (name : String) (t : XMFLOAT4X4)
    (fs : List WorldFactor) (h : s.BuilderReady) (ht : t = WorldFactor.product L fs) :
    ∃ s1, ShapesApp.BuildRenderItems.single s name t = some s1
      ∧ ShapesApp.Grown L [fs] s s1 := by
  obtain ⟨s1, r, h1, hl, hw, hm, ho, hr⟩ := ShapesApp.single_pushed s name t h
  refine ⟨s1, h1, hr, hm, ho, [r], hl, ?_⟩
  simp only [List.map_cons, List.map_nil, hw, ht]

theorem ShapesApp.foldlM_grown (L : MathLib) (f : ShapesApp → Nat → Option ShapesApp)
    (c : Nat → List (List WorldFactor))
    (hf : ∀ s i, ShapesApp.BuilderReady s → ∃ s1, f s i = some s1 ∧ ShapesApp.Grown L (c i) s s1)
    (l : List Nat) :
    ∀ s, ShapesApp.BuilderReady s →
      ∃ s1, l.foldlM f s = some s1 ∧ ShapesApp.Grown L (l.map c).flatten s s1 := by
  induction l with
  | nil =>
    intro s h
    exact ⟨s, rfl, ShapesApp.Grown.refl L s h⟩
  | cons i is ih =>
    intro s h
    obtain ⟨s1, h1, g1⟩ := hf s i h
    obtain ⟨s2, h2, g2⟩ := ih s1 g1.1
    refine ⟨s2, ?_, ?_⟩
    · simp [List.foldlM, h1, h2]
    · rw [List.map_cons, List.flatten_cons]
      exact ShapesApp.Grown.trans L _ _ s s1 s2 g1 g2

set_option maxHeartbeats 2000000 in
theorem ShapesApp.tower_grown (L : MathLib) (thetaSquareStep radius : FLOAT)
    (s : ShapesApp) (i : Nat) (h : s.BuilderReady) :
    ∃ s1, ShapesApp.BuildRenderItems.tower L thetaSquareStep radius s i = some s1
      ∧ ShapesApp.Grown L (BuilderWorlds.tower L thetaSquareStep radius i) s s1 := by
  unfold ShapesApp.BuildRenderItems.tower BuilderWorlds.tower
  simp only []
  have w1 : XMMatrixMultiply (XMMatrixScaling 6 7 6) (XMMatrixTranslation
      (radius * L.cosf (↑i * thetaSquareStep + thetaSquareStep * (1 / 2))) 7
      (radius * L.sinf (↑i * thetaSquareStep + thetaSquareStep * (1 / 2))))
      = WorldFactor.product L [WorldFactor.scaling 6 7 6, WorldFactor.translation
      (radius * L.cosf (↑i * thetaSquareStep + thetaSquareStep * (1 / 2))) 7
      (radius * L.sinf (↑i * thetaSquareStep + thetaSquareStep * (1 / 2)))] := rfl
  have w2 : XMMatrixMultiply (XMMatrixScaling (2 / 10) 2 (2 / 10)) (XMMatrixTranslation
      (radius * L.cosf (↑i * thetaSquareStep + thetaSquareStep * (1 / 2))) 21
      (radius * L.sinf (↑i * thetaSquareStep + thetaSquareStep * (1 / 2))))
      = WorldFactor.product L [WorldFactor.scaling (2 / 10) 2 (2 / 10), WorldFactor.translation
      (radius * L.cosf (↑i * thetaSquareStep + thetaSquareStep * (1 / 2))) 21
      (radius * L.sinf (↑i * thetaSquareStep + thetaSquareStep * (1 / 2)))] := rfl
  have w3 : XMMatrixMultiply (XMMatrixScaling (3 / 10) (3 / 10) (3 / 10)) (XMMatrixTranslation
      (radius * L.cosf (↑i * thetaSquareStep + thetaSquareStep * (1 / 2))) (231 / 10)
      (radius * L.sinf (↑i * thetaSquareStep + thetaSquareStep * (1 / 2))))
      = WorldFactor.product L [WorldFactor.scaling (3 / 10) (3 / 10) (3 / 10),
      WorldFactor.translation
      (radius * L.cosf (↑i * thetaSquareStep + thetaSquareStep * (1 / 2))) (231 / 10)
      (radius * L.sinf (↑i * thetaSquareStep + thetaSquareStep * (1 / 2)))] := rfl
  have w4 : XMMatrixMultiply (XMMatrixScaling (15 / 10) 1 (1 / 10)) (XMMatrixTranslation
      (radius * L.cosf (↑i * thetaSquareStep + thetaSquareStep * (1 / 2)) - 1) (225 / 10)
      (radius * L.sinf (↑i * thetaSquareStep + thetaSquareStep * (1 / 2))))
      = WorldFactor.product L [WorldFactor.scaling (15 / 10) 1 (1 / 10), WorldFactor.translation
      (radius * L.cosf (↑i * thetaSquareStep + thetaSquareStep * (1 / 2)) - 1) (225 / 10)
      (radius * L.sinf (↑i * thetaSquareStep + thetaSquareStep * (1 / 2)))] := rfl
  have w5 : XMMatrixMultiply (XMMatrixScaling 8 6 8) (XMMatrixTranslation
      (radius * L.cosf (↑i * thetaSquareStep + thetaSquareStep * (1 / 2))) 17
      (radius * L.sinf (↑i * thetaSquareStep + thetaSquareStep * (1 / 2))))
      = WorldFactor.product L [WorldFactor.scaling 8 6 8, WorldFactor.translation
      (radius * L.cosf (↑i * thetaSquareStep + thetaSquareStep * (1 / 2))) 17
      (radius * L.sinf (↑i * thetaSquareStep + thetaSquareStep * (1 / 2)))] := rfl
  revert w1 w2 w3 w4 w5
  generalize XMMatrixMultiply (XMMatrixScaling 6 7 6) _ = towerWorld
  generalize XMMatrixMultiply (XMMatrixScaling (2 / 10) 2 (2 / 10)) _ = poleWorld
  generalize XMMatrixMultiply (XMMatrixScaling (3 / 10) (3 / 10) (3 / 10)) _ = sphereWorld
  generalize XMMatrixMultiply (XMMatrixScaling (15 / 10) 1 (1 / 10)) _ = flagWorld
  generalize XMMatrixMultiply (XMMatrixScaling 8 6 8) _ = roofWorld
  intro w1 w2 w3 w4 w5
  obtain ⟨s1, r1, e1, t1, -, -, l1, m1, o1, g1⟩ :=
    ShapesApp.SetRenderItemInfo_ready s {} "cylinder" towerWorld h
  obtain ⟨s2, r2, e2, t2, -, -, l2, m2, o2, g2⟩ :=
    ShapesApp.SetRenderItemInfo_ready s1 {} "cylinder" poleWorld g1
  obtain ⟨s3, r3, e3, t3, -, -, l3, m3, o3, g3⟩ :=
    ShapesApp.SetRenderItemInfo_ready s2 {} "box" flagWorld g2
  obtain ⟨s4, r4, e4, t4, -, -, l4, m4, o4, g4⟩ :=
    ShapesApp.SetRenderItemInfo_ready s3 {} "sphere" sphereWorld g3
  have hfour : ShapesApp.Grown L
      [[WorldFactor.scaling 6 7 6, WorldFactor.translation
          (radius * L.cosf (↑i * thetaSquareStep + thetaSquareStep * (1 / 2))) 7
          (radius * L.sinf (↑i * thetaSquareStep + thetaSquareStep * (1 / 2)))],
        [WorldFactor.scaling (2 / 10) 2 (2 / 10), WorldFactor.translation
          (radius * L.cosf (↑i * thetaSquareStep + thetaSquareStep * (1 / 2))) 21
          (radius * L.sinf (↑i * thetaSquareStep + thetaSquareStep * (1 / 2)))],
        [WorldFactor.scaling (3 / 10) (3 / 10) (3 / 10), WorldFactor.translation
          (radius * L.cosf (↑i * thetaSquareStep + thetaSquareStep * (1 / 2))) (231 / 10)
          (radius * L.sinf (↑i * thetaSquareStep + thetaSquareStep * (1 / 2)))],
        [WorldFactor.scaling (15 / 10) 1 (1 / 10), WorldFactor.translation
          (radius * L.cosf (↑i * thetaSquareStep + thetaSquareStep * (1 / 2)) - 1) (225 / 10)
          (radius * L.sinf (↑i * thetaSquareStep + thetaSquareStep * (1 / 2)))]]
      s (ShapesApp.pushRitem (ShapesApp.pushRitem
      (ShapesApp.pushRitem (ShapesApp.pushRitem s4 r1) r2) r4) r3) := by
    refine ⟨g4, ?_, ?_, [r1, r2, r4, r3], ?_, ?_⟩
    · simp only [ShapesApp.pushRitem_mMaterials, m4, m3, m2, m1]
    · simp only [ShapesApp.pushRitem_outsideBuilder, o4, o3, o2, o1]
    · simp only [ShapesApp.pushRitem_mAllRitems, l4, l3, l2, l1, List.append_assoc,
        List.singleton_append]
      rfl
    · simp only [List.map_cons, List.map_nil, t1, t2, t3, t4, w1, w2, w3, w4]
  simp only [e1, e2, e3, e4]
  by_cases hi : i < 3
  · obtain ⟨s5, g5h, g5⟩ := ShapesApp.single_grown L _ "cone" roofWorld _ hfour.1 w5
    simp only [hi, if_true]
    exact ⟨s5, g5h, ShapesApp.Grown.trans L _ _ _ _ _ hfour g5⟩
  · simp only [hi, if_false, List.append_nil]
    exact ⟨_, rfl, hfour⟩

theorem ShapesApp.mogul_grown (L : MathLib) (theta sRadius cRadius : FLOAT)
    (s : ShapesApp) (j : Nat) (h : s.BuilderReady) :
    ∃ s1, ShapesApp.BuildRenderItems.mogul L theta sRadius cRadius s j = some s1
      ∧ ShapesApp.Grown L [BuilderWorlds.mogul theta sRadius cRadius j] s s1 := by
  unfold ShapesApp.BuildRenderItems.mogul
  apply ShapesApp.single_grown L s "box" _ _ h
  unfold BuilderWorlds.mogul
  split <;> rfl

theorem ShapesApp.frontWall_grown (L : MathLib) (s : ShapesApp) (i : Nat) (h : s.BuilderReady) :
    ∃ s1, ShapesApp.BuildRenderItems.frontWall s i = some s1
      ∧ ShapesApp.Grown L [BuilderWorlds.frontWall i] s s1 := by
  unfold ShapesApp.BuildRenderItems.frontWall
  exact ShapesApp.single_grown L s "box" _ _ h rfl

theorem ShapesApp.wall_grown (L : MathLib) (thetaSquareStep w2 : FLOAT)
    (s : ShapesApp) (i : Nat) (h : s.BuilderReady) :
    ∃ s1, ShapesApp.BuildRenderItems.wall L thetaSquareStep w2 s i = some s1
      ∧ ShapesApp.Grown L (BuilderWorlds.wall L thetaSquareStep w2 i) s s1 := by
  unfold ShapesApp.BuildRenderItems.wall BuilderWorlds.wall
  simp only []
  have hfirst : ∃ s1, (if i < 3 then ShapesApp.BuildRenderItems.single s "box"
        (XMMatrixMultiply (XMMatrixMultiply (XMMatrixScaling 1 10 width)
          (XMMatrixRotationY L (↑i * thetaSquareStep)))
          (XMMatrixTranslation (w2 * L.cosf (↑i * thetaSquareStep)) 5
            (w2 * L.sinf (↑i * thetaSquareStep))))
      else some s) = some s1
      ∧ ShapesApp.Grown L
          (if i < 3 then [[WorldFactor.scaling 1 10 width,
              WorldFactor.rotationY (↑i * thetaSquareStep),
              WorldFactor.translation (w2 * L.cosf (↑i * thetaSquareStep)) 5
                (w2 * L.sinf (↑i * thetaSquareStep))]]
            else []) s s1 := by
    by_cases hi : i < 3
    · simp only [hi, if_true]
      exact ShapesApp.single_grown L s "box" _ _ h rfl
    · simp only [hi, if_false]
      exact ⟨s, rfl, ShapesApp.Grown.refl L s h⟩
  obtain ⟨s1, h1, g1⟩ := hfirst
  obtain ⟨s2, h2, g2⟩ := ShapesApp.single_grown L s1 "prism"
    (XMMatrixMultiply (XMMatrixMultiply (XMMatrixScaling 1 4 (width - 3))
      (XMMatrixRotationY L (↑i * thetaSquareStep)))
      (XMMatrixTranslation (w2 * L.cosf (↑i * thetaSquareStep)) (105 / 10)
        (w2 * L.sinf (↑i * thetaSquareStep))))
    [WorldFactor.scaling 1 4 (width - 3), WorldFactor.rotationY (↑i * thetaSquareStep),
      WorldFactor.translation (w2 * L.cosf (↑i * thetaSquareStep)) (105 / 10)
        (w2 * L.sinf (↑i * thetaSquareStep))] g1.1 rfl
  obtain ⟨s3, h3, g3⟩ := ShapesApp.foldlM_grown L
    (ShapesApp.BuildRenderItems.mogul L (↑i * thetaSquareStep)
      (w2 * L.sinf (↑i * thetaSquareStep)) (w2 * L.cosf (↑i * thetaSquareStep)))
    (fun j => [BuilderWorlds.mogul (↑i * thetaSquareStep)
      (w2 * L.sinf (↑i * thetaSquareStep)) (w2 * L.cosf (↑i * thetaSquareStep)) j])
    (fun s j hh => ShapesApp.mogul_grown L _ _ _ s j hh) (forValues 0 50 2) s2 g2.1
  rw [List.flatten_map_singleton_fun] at g3
  refine ⟨s3, ?_, ShapesApp.Grown.trans L _ _ _ _ _ (ShapesApp.Grown.trans L _ _ _ _ _ g1 g2) g3⟩
  simp only [h1, h2, h3]
/-- `BuildRenderItems` succeeds when the geometry and the material are there. The
last three items it pushes are the two wedges and the path; the world matrices of
the items before them are the products of the factors of `BuilderWorlds.front`,
and the world matrices of the two wedges and of the path are the products the
source writes. -/
theorem ShapesApp.BuildRenderItems_worlds (L : MathLib) (s : ShapesApp) (h : s.BuilderReady) :
    ∃ s1 pre w0 w1 p, ShapesApp.BuildRenderItems L s = some s1
      ∧ s1.mAllRitems = s.mAllRitems ++ pre ++ [w0, w1, p]
      ∧ pre.map (fun e => e.World) = (BuilderWorlds.front L).map (WorldFactor.product L)
      ∧ w0.World = XMMatrixMultiply
          (XMMatrixMultiply (XMMatrixRotationY L (-(XM_2PI / 4))) (XMMatrixScaling 3 3 18))
          (XMMatrixTranslation 0 (45 / 10) (-35 / 10))
      ∧ w1.World = XMMatrixMultiply
          (XMMatrixMultiply (XMMatrixRotationY L (-(XM_2PI / 4))) (XMMatrixScaling 3 3 18))
          (XMMatrixTranslation 0 (45 / 10 + -3) (-35 / 10 + -31))
      ∧ p.World = XMMatrixMultiply (XMMatrixScaling 6 3 13) (XMMatrixTranslation 0 (15 / 10) (-19))
      ∧ s1.mMaterials = s.mMaterials ∧ s1.outsideBuilder = s.outsideBuilder
      ∧ s1.BuilderReady := by
  unfold ShapesApp.BuildRenderItems
  simp only []
  obtain ⟨s1, h1, g1⟩ := ShapesApp.single_grown L s "grid" XMMatrixIdentity [] h rfl
  obtain ⟨s2, h2, g2⟩ := ShapesApp.foldlM_grown L
    (ShapesApp.BuildRenderItems.tower L (XM_2PI / 4)
      (L.sqrtf (width * (1 / 2) * (width * (1 / 2)) + width * (1 / 2) * (width * (1 / 2)))))
    (BuilderWorlds.tower L (XM_2PI / 4)
      (L.sqrtf (width * (1 / 2) * (width * (1 / 2)) + width * (1 / 2) * (width * (1 / 2)))))
    (fun s i hh => ShapesApp.tower_grown L _ _ s i hh) (forValues 0 4 1) s1 g1.1
  obtain ⟨s3, h3, g3⟩ := ShapesApp.single_grown L s2 "cylinder2"
    (XMMatrixMultiply (XMMatrixScaling (35 / 10) 3 (35 / 10))
      (XMMatrixTranslation (width * (1 / 2)) (175 / 10) (-(width * (1 / 2)))))
    [WorldFactor.scaling (35 / 10) 3 (35 / 10),
      WorldFactor.translation (width * (1 / 2)) (175 / 10) (-(width * (1 / 2)))] g2.1 rfl
  obtain ⟨s4, h4, g4⟩ := ShapesApp.single_grown L s3 "torus2"
    (XMMatrixMultiply (XMMatrixScaling (18 / 10) 2 (18 / 10))
      (XMMatrixTranslation (width * (1 / 2)) (145 / 10) (-(width * (1 / 2)))))
    [WorldFactor.scaling (18 / 10) 2 (18 / 10),
      WorldFactor.translation (width * (1 / 2)) (145 / 10) (-(width * (1 / 2)))] g3.1 rfl
  obtain ⟨s5, h5, g5⟩ := ShapesApp.foldlM_grown L
    (ShapesApp.BuildRenderItems.wall L (XM_2PI / 4) (width * (1 / 2)))
    (BuilderWorlds.wall L (XM_2PI / 4) (width * (1 / 2)))
    (fun s i hh => ShapesApp.wall_grown L _ _ s i hh) (forValues 0 4 1) s4 g4.1
  obtain ⟨s6, h6, g6⟩ := ShapesApp.foldlM_grown L ShapesApp.BuildRenderItems.frontWall
    (fun i => [BuilderWorlds.frontWall i])
    (fun s i hh => ShapesApp.frontWall_grown L s i hh) (forValues 0 2 1) s5 g5.1
  rw [List.flatten_map_singleton_fun] at g6
  obtain ⟨s7, h7, g7⟩ := ShapesApp.single_grown L s6 "pyramid"
    (XMMatrixMultiply (XMMatrixScaling 21 6 21) (XMMatrixTranslation 0 (75 / 10) 13))
    [WorldFactor.scaling 21 6 21, WorldFactor.translation 0 (75 / 10) 13] g6.1 rfl
  obtain ⟨s8, h8, g8⟩ := ShapesApp.single_grown L s7 "diamond"
    (XMMatrixMultiply (XMMatrixScaling 1 1 1) (XMMatrixTranslation 0 13 13))
    [WorldFactor.scaling 1 1 1, WorldFactor.translation 0 13 13] g7.1 rfl
  obtain ⟨s9, h9, g9⟩ := ShapesApp.single_grown L s8 "torus"
    (XMMatrixMultiply
      (XMMatrixMultiply (XMMatrixScaling (1 / 2) (1 / 2) (1 / 2)) (XMMatrixRotationX L (1571 / 1000)))
      (XMMatrixTranslation 0 (1175 / 100) 13))
    [WorldFactor.scaling (1 / 2) (1 / 2) (1 / 2), WorldFactor.rotationX (1571 / 1000),
      WorldFactor.translation 0 (1175 / 100) 13] g8.1 rfl
  have hA : ShapesApp.Grown L (BuilderWorlds.front L) s s9 :=
    ShapesApp.Grown.trans L _ _ _ _ _ (ShapesApp.Grown.trans L _ _ _ _ _
      (ShapesApp.Grown.trans L _ _ _ _ _ (ShapesApp.Grown.trans L _ _ _ _ _
        (ShapesApp.Grown.trans L _ _ _ _ _ (ShapesApp.Grown.trans L _ _ _ _ _
          (ShapesApp.Grown.trans L _ _ _ _ _ (ShapesApp.Grown.trans L _ _ _ _ _ g1 g2) g3) g4)
            g5) g6) g7) g8) g9
  obtain ⟨r9, m9, o9, pre, l9, w9⟩ := hA
  obtain ⟨s10, w0, h10, l10, t10, m10, o10, r10⟩ := ShapesApp.single_pushed s9 "wedge"
    (XMMatrixMultiply
      (XMMatrixMultiply (XMMatrixRotationY L (-(XM_2PI / 4))) (XMMatrixScaling 3 3 18))
      (XMMatrixTranslation 0 (45 / 10 + ((0 : Nat) : FLOAT) * -3)
        (-35 / 10 + ((0 : Nat) : FLOAT) * -31))) r9
  obtain ⟨s11, w1, h11, l11, t11, m11, o11, r11⟩ := ShapesApp.single_pushed s10 "wedge"
    (XMMatrixMultiply
      (XMMatrixMultiply (XMMatrixRotationY L (-(XM_2PI / 4))) (XMMatrixScaling 3 3 18))
      (XMMatrixTranslation 0 (45 / 10 + ((1 : Nat) : FLOAT) * -3)
        (-35 / 10 + ((1 : Nat) : FLOAT) * -31))) r10
  obtain ⟨s12, p, h12, l12, t12, m12, o12, r12⟩ := ShapesApp.single_pushed s11 "box"
    (XMMatrixMultiply (XMMatrixScaling 6 3 13) (XMMatrixTranslation 0 (15 / 10) (-19))) r11
  have hwedges : (forValues 0 2 1).foldlM (ShapesApp.BuildRenderItems.wedge L (XM_2PI / 4)) s9
      = some s11 := by
    have hv : forValues 0 2 1 = [0, 1] := by decide
    rw [hv]
    simp only [List.foldlM, ShapesApp.BuildRenderItems.wedge]
    rw [h10]
    simp only [Option.bind_eq_bind, Option.some_bind, Option.pure_def]
    rw [h11]
    rfl
  refine ⟨{ s12 with mOpaqueRitems := s12.mOpaqueRitems ++ List.range s12.mAllRitems.length },
    pre, w0, w1, p, ?_, ?_, w9, ?_, ?_, t12, ?_, ?_, r12⟩
  · simp only [h1, h2, h3, h4, h5, h6, h7, h8, h9, hwedges, h12]
  · show s12.mAllRitems = _
    rw [l12, l11, l10, l9]
    simp
  · rw [t10]
    norm_num
  · rw [t11]
    norm_num
  · show s12.mMaterials = _
    rw [m12, m11, m10, m9]
  · show s12.outsideBuilder = _
    rw [o12, o11, o10, o9]

theorem UMap.find_assign_ne {V : Type} (m : UMap V) (k k2 : String) (v : V) (h : k ≠ k2) :
    UMap.find (UMap.assign m k v) k2 = UMap.find m k2 := by
  unfold UMap.find
  induction m with
  | nil =>
    have hk : (k2 == k) = false := by simpa using (fun e => h e.symm)
    simp [UMap.assign, List.lookup, hk]
  | cons e es ih =>
    obtain ⟨k1, v1⟩ := e
    by_cases hk : k1 = k
    · subst hk
      have hk2 : (k2 == k1) = false := by simpa using (fun e => h e.symm)
      simp [UMap.assign, List.lookup, hk2]
    · by_cases hk3 : k2 = k1
      · subst hk3
        simp [UMap.assign, List.lookup, hk]
      · have hk4 : (k2 == k1) = false := by simpa using hk3
        simp [UMap.assign, List.lookup, hk, hk4, ih]

/-- After `BuildShapeGeometry` and `BuildMaterials` the scene builder can run. -/
theorem ShapesApp.startup_ready (m : ShapeMeshes) (s : ShapesApp) :
    (ShapesApp.BuildMaterials (ShapesApp.BuildShapeGeometry m s)).BuilderReady := by
  constructor
  · simp only [ShapesApp.BuildMaterials, ShapesApp.BuildShapeGeometry, UMap.find_assign]
    exact ⟨_, rfl⟩
  · simp only [ShapesApp.BuildMaterials]
    rw [UMap.find_assign_ne _ "tile0" "stone0" _ (by decide), UMap.find_assign]
    exact ⟨_, rfl⟩


/-- The scene `BuildRenderItems` makes at startup: 137 items, of which the last
three are the two wedges and the path, with the `ObjCBIndex` values of the builder
trace, the world matrices described in `BuildRenderItems_worlds` and the materials
of `BuildMaterials`. -/
theorem ShapesApp.scene_items (L : MathLib) (m : ShapeMeshes) :
    ∃ s pre w0 w1 p, ShapesApp.BuildRenderItems L
        (ShapesApp.BuildMaterials (ShapesApp.BuildShapeGeometry m {})) = some s
      ∧ s.mAllRitems = pre ++ [w0, w1, p] ∧ pre.length = 134
      ∧ s.objCBIndices = (BuilderTrace.build (0, [])).2
      ∧ pre.map (fun e => e.World) = (BuilderWorlds.front L).map (WorldFactor.product L)
      ∧ w0.World = XMMatrixMultiply
          (XMMatrixMultiply (XMMatrixRotationY L (-(XM_2PI / 4))) (XMMatrixScaling 3 3 18))
          (XMMatrixTranslation 0 (45 / 10) (-35 / 10))
      ∧ w1.World = XMMatrixMultiply
          (XMMatrixMultiply (XMMatrixRotationY L (-(XM_2PI / 4))) (XMMatrixScaling 3 3 18))
          (XMMatrixTranslation 0 (45 / 10 + -3) (-35 / 10 + -31))
      ∧ p.World = XMMatrixMultiply (XMMatrixScaling 6 3 13) (XMMatrixTranslation 0 (15 / 10) (-19))
      ∧ s.mMaterials = (ShapesApp.BuildMaterials (ShapesApp.BuildShapeGeometry m {})).mMaterials
      ∧ s.mOpaqueRitems = List.range 137
      ∧ s.outsideBuilder = ShapesApp.outsideBuilder {} := by
  obtain ⟨s1, h1, ⟨-, -, t3⟩, o1⟩ := ShapesApp.BuildRenderItems_traced L _ _
    (ShapesApp.startup_traced m {} rfl rfl)
  obtain ⟨s2, pre, w0, w1, p, h2, l2, a2, b2, c2, d2, m2, o2, -⟩ :=
    ShapesApp.BuildRenderItems_worlds L _ (ShapesApp.startup_ready m {})
  rw [h1, Option.some.injEq] at h2
  subst h2
  have hlen : s1.mAllRitems.length = 137 := by
    have := congrArg List.length t3
    rw [BuilderTrace.build_start_count.2] at this
    simpa [ShapesApp.objCBIndices] using this
  have l3 : s1.mAllRitems = pre ++ [w0, w1, p] := by
    rw [l2]
    rfl
  refine ⟨s1, pre, w0, w1, p, h1, l3, ?_, t3, a2, b2, c2, d2, m2, ?_, o2⟩
  · have := congrArg List.length l3
    rw [hlen] at this
    simp at this
    omega
  · rw [o1, hlen]
    rfl

/-! ### The order of the factors -/

theorem BuilderWorlds.tower_inOrder (L : MathLib) (thetaSquareStep radius : FLOAT) (i : Nat) :
    ∀ fs ∈ BuilderWorlds.tower L thetaSquareStep radius i, WorldFactor.InOrder fs := by
  intro fs h
  unfold BuilderWorlds.tower at h
  simp only [List.mem_append, List.mem_cons, List.mem_singleton, List.not_mem_nil,
    or_false] at h
  rcases h with (h | h | h | h) | h
  · subst h; exact Or.inr (Or.inl rfl)
  · subst h; exact Or.inr (Or.inl rfl)
  · subst h; exact Or.inr (Or.inl rfl)
  · subst h; exact Or.inr (Or.inl rfl)
  · split_ifs at h
    · rw [List.mem_singleton.mp h]; exact Or.inr (Or.inl rfl)
    · exact absurd h (List.not_mem_nil _)

theorem BuilderWorlds.mogul_inOrder (theta sRadius cRadius : FLOAT) (j : Nat) :
    WorldFactor.InOrder (BuilderWorlds.mogul theta sRadius cRadius j) := by
  unfold BuilderWorlds.mogul
  split <;> exact Or.inl rfl

theorem BuilderWorlds.wall_inOrder (L : MathLib) (thetaSquareStep w2 : FLOAT) (i : Nat) :
    ∀ fs ∈ BuilderWorlds.wall L thetaSquareStep w2 i, WorldFactor.InOrder fs := by
  intro fs h
  unfold BuilderWorlds.wall at h
  simp only [List.mem_append, List.mem_singleton, List.mem_map] at h
  rcases h with (h | h) | ⟨j, -, h⟩
  · split_ifs at h
    · rw [List.mem_singleton.mp h]; exact Or.inl rfl
    · exact absurd h (List.not_mem_nil _)
  · subst h; exact Or.inl rfl
  · subst h; exact BuilderWorlds.mogul_inOrder _ _ _ _

/-- Before the wedges every item has its factors in the order scale, rotation,
translation. -/
theorem BuilderWorlds.front_inOrder (L : MathLib) :
    ∀ fs ∈ BuilderWorlds.front L, WorldFactor.InOrder fs := by
  intro fs h
  unfold BuilderWorlds.front at h
  simp only [List.mem_append, List.mem_singleton, List.mem_flatten, List.mem_map] at h
  rcases h with (((((((h | ⟨l, ⟨i, -, hl⟩, h⟩) | h) | h) | ⟨l, ⟨i, -, hl⟩, h⟩) | ⟨i, -, h⟩) | h)
    | h) | h
  · subst h; exact Or.inr (Or.inr rfl)
  · subst hl; exact BuilderWorlds.tower_inOrder L _ _ i fs h
  · subst h; exact Or.inr (Or.inl rfl)
  · subst h; exact Or.inr (Or.inl rfl)
  · subst hl; exact BuilderWorlds.wall_inOrder L _ _ i fs h
  · subst h; exact Or.inr (Or.inl rfl)
  · subst h; exact Or.inr (Or.inl rfl)
  · subst h; exact Or.inr (Or.inl rfl)
  · subst h; exact Or.inl rfl

theorem BuilderWorlds.front_length (L : MathLib) : (BuilderWorlds.front L).length = 134 := by
  have h4 : forValues 0 4 1 = [0, 1, 2, 3] := by decide
  have h2 : forValues 0 2 1 = [0, 1] := by decide
  have h50 : (forValues 0 50 2).length = 25 := by decide
  simp [BuilderWorlds.front, BuilderWorlds.tower, BuilderWorlds.wall, h4, h2, h50]

/-- The factors of the last three items, with the loop variable of the wedge loop
filled in. -/
theorem BuilderWorlds.build_eq (L : MathLib) :
    BuilderWorlds.build L = BuilderWorlds.front L ++
      [[WorldFactor.rotationY (-(XM_2PI / 4)), WorldFactor.scaling 3 3 18,
          WorldFactor.translation 0 (45 / 10) (-35 / 10)],
        [WorldFactor.rotationY (-(XM_2PI / 4)), WorldFactor.scaling 3 3 18,
          WorldFactor.translation 0 (45 / 10 + -3) (-35 / 10 + -31)],
        [WorldFactor.scaling 6 3 13, WorldFactor.translation 0 (15 / 10) (-19)]] := by
  have h2 : forValues 0 2 1 = [0, 1] := by decide
  unfold BuilderWorlds.build
  rw [h2, List.append_assoc]
  congr 1
  simp only [List.map_cons, List.map_nil, BuilderWorlds.wedge, List.cons_append,
    List.nil_append]
  norm_num

/-- With the same three factors the order matters: rotation * scale * translation
and scale * rotation * translation differ in the entry of row 0 and column 2,
which is `-18 * sin` in the first and `-3 * sin` in the second. -/
theorem wedge_order_matters (L : MathLib) (a x y z : FLOAT) (h : L.sinf a ≠ 0) :
    XMMatrixMultiply (XMMatrixMultiply (XMMatrixRotationY L a) (XMMatrixScaling 3 3 18))
        (XMMatrixTranslation x y z)
      ≠ XMMatrixMultiply (XMMatrixMultiply (XMMatrixScaling 3 3 18) (XMMatrixRotationY L a))
        (XMMatrixTranslation x y z) := by
  intro e
  have h02 := congrFun (congrFun e 0) 2
  simp [XMMatrixMultiply, XMMatrixScaling, XMMatrixTranslation, XMMatrixRotationY,
    Matrix.mul_apply, Fin.sum_univ_four] at h02
  apply h
  linarith

/-- Where the cosine of the angle is exactly zero, the product of the wedge is
also the scale-first product with the scale `(18, 3, 3)` in place of the
`(3, 3, 18)` the source writes. -/
theorem wedge_world_at_quarter_turn (L : MathLib) (a x y z : FLOAT) (h : L.cosf a = 0) :
    XMMatrixMultiply (XMMatrixMultiply (XMMatrixRotationY L a) (XMMatrixScaling 3 3 18))
        (XMMatrixTranslation x y z)
      = XMMatrixMultiply (XMMatrixMultiply (XMMatrixScaling 18 3 3) (XMMatrixRotationY L a))
        (XMMatrixTranslation x y z) := by
  ext i j
  fin_cases i <;> fin_cases j <;>
    simp [XMMatrixMultiply, XMMatrixScaling, XMMatrixTranslation, XMMatrixRotationY,
      Matrix.mul_apply, Fin.sum_univ_four, h] <;> ring

/-- C15, amended. Every render item built by `BuildRenderItems` has as its world
transform the product of the factors `BuilderWorlds.build` lists for it, multiplied
in the order listed. For every item other than the two wedge items the factors are
scale, rotation, translation in that order, a factor being left out where none is
given (the rotation for most items, all three for the grid, whose world is the
identity). For the two wedge items, at positions 134 and 135 of the 137 items, the
factors are rotation, scale, translation in that order:
`XMMatrixRotationY(-XM_2PI / 4) * XMMatrixScaling(3, 3, 18) * XMMatrixTranslation(...)`. -/
theorem scene_world_forms (L : MathLib) (m : ShapeMeshes) :
    ∃ s, ShapesApp.BuildRenderItems L
        (ShapesApp.BuildMaterials (ShapesApp.BuildShapeGeometry m {})) = some s
      ∧ s.mAllRitems.length = 137
      ∧ s.mAllRitems.map (fun e => e.World)
          = (BuilderWorlds.build L).map (WorldFactor.product L)
      ∧ (∀ i fs, (BuilderWorlds.build L)[i]? = some fs → i ≠ 134 → i ≠ 135 →
          WorldFactor.InOrder fs)
      ∧ (BuilderWorlds.build L)[134]?
          = some [WorldFactor.rotationY (-(XM_2PI / 4)), WorldFactor.scaling 3 3 18,
              WorldFactor.translation 0 (45 / 10) (-35 / 10)]
      ∧ (BuilderWorlds.build L)[135]?
          = some [WorldFactor.rotationY (-(XM_2PI / 4)), WorldFactor.scaling 3 3 18,
              WorldFactor.translation 0 (45 / 10 + -3) (-35 / 10 + -31)] := by
  obtain ⟨s, pre, w0, w1, p, h, l, n, -, a, b, c, d, -, -, -⟩ := ShapesApp.scene_items L m
  have hf := BuilderWorlds.front_length L
  refine ⟨s, h, ?_, ?_, ?_, ?_, ?_⟩
  · rw [l]
    simp [n]
  · rw [l, BuilderWorlds.build_eq, List.map_append, List.map_append, a]
    simp only [List.map_cons, List.map_nil, b, c, d]
    rfl
  · intro i fs he h134 h135
    rw [BuilderWorlds.build_eq] at he
    by_cases hi : i < 134
    · rw [List.getElem?_append_left (by omega)] at he
      exact BuilderWorlds.front_inOrder L fs (List.mem_iff_getElem?.mpr ⟨i, he⟩)
    · rw [List.getElem?_append_right (by omega), hf] at he
      have h3 : i - 134 = 2 := by
        by_contra hne
        have : 3 ≤ i - 134 := by omega
        rw [List.getElem?_eq_none (by simpa using this)] at he
        exact absurd he (by simp)
      rw [h3] at he
      simp only [List.getElem?_cons_succ, List.getElem?_cons_zero, Option.some.injEq] at he
      rw [← he]
      exact Or.inr (Or.inl rfl)
  · rw [BuilderWorlds.build_eq, List.getElem?_append_right (by omega), hf]
    rfl
  · rw [BuilderWorlds.build_eq, List.getElem?_append_right (by omega), hf]
    rfl

/-- C15, counterexample. The factors of the first wedge, the item at position 134,
are not in the order scale, rotation, translation: whatever the rotation routines
and the meshes, its world transform is the product
`XMMatrixRotationY(-XM_2PI / 4) * XMMatrixScaling(3, 3, 18) * XMMatrixTranslation(0, 4.5, -3.5)`
with the rotation multiplied first, and wherever the sine of the angle is not zero
this is another matrix than the product of the same factors in the order scale,
rotation, translation. -/
theorem wedge_multiplies_rotation_first :
    ¬ WorldFactor.InOrder
        [WorldFactor.rotationY (-(XM_2PI / 4)), WorldFactor.scaling 3 3 18,
          WorldFactor.translation 0 (45 / 10) (-35 / 10)]
    ∧ (∀ (L : MathLib) (m : ShapeMeshes), ∃ s e, ShapesApp.BuildRenderItems L
          (ShapesApp.BuildMaterials (ShapesApp.BuildShapeGeometry m {})) = some s
        ∧ s.mAllRitems[134]? = some e
        ∧ e.World = XMMatrixMultiply
            (XMMatrixMultiply (XMMatrixRotationY L (-(XM_2PI / 4))) (XMMatrixScaling 3 3 18))
            (XMMatrixTranslation 0 (45 / 10) (-35 / 10)))
    ∧ (∀ L : MathLib, L.sinf (-(XM_2PI / 4)) ≠ 0 →
        XMMatrixMultiply
            (XMMatrixMultiply (XMMatrixRotationY L (-(XM_2PI / 4))) (XMMatrixScaling 3 3 18))
            (XMMatrixTranslation 0 (45 / 10) (-35 / 10))
          ≠ XMMatrixMultiply
            (XMMatrixMultiply (XMMatrixScaling 3 3 18) (XMMatrixRotationY L (-(XM_2PI / 4))))
            (XMMatrixTranslation 0 (45 / 10) (-35 / 10))) := by
  refine ⟨?_, ?_, fun L h => wedge_order_matters L _ _ _ _ h⟩
  · rintro (h | h | h) <;> simp [WorldFactor.kind] at h
  · intro L m
    obtain ⟨s, pre, w0, w1, p, h, l, n, -, -, b, -, -, -, -, -⟩ := ShapesApp.scene_items L m
    refine ⟨s, w0, h, ?_, b⟩
    rw [l, List.getElem?_append_right (by omega), n]
    rfl

/-! ## The order of the `ObjCBIndex` values along `mAllRitems` (C18) -/

set_option maxRecDepth 100000 in
/-- The indices of the builder trace, position by position: the position itself,
except that the sphere and the flag of each tower hold each other's position. -/
theorem BuilderTrace.build_start_indices :
    (BuilderTrace.build (0, [])).2 = (List.range 137).map (fun i =>
      if i = 3 ∨ i = 8 ∨ i = 13 ∨ i = 18 then i + 1
      else if i = 4 ∨ i = 9 ∨ i = 14 ∨ i = 19 then i - 1 else i) := by
  decide

/-- The `ObjCBIndex` of the item at each position of the scene built at startup. -/
theorem ShapesApp.scene_indices (L : MathLib) (m : ShapeMeshes) :
    ∃ s, ShapesApp.BuildRenderItems L
        (ShapesApp.BuildMaterials (ShapesApp.BuildShapeGeometry m {})) = some s
      ∧ s.mAllRitems.length = 137
      ∧ ∀ i e, s.mAllRitems[i]? = some e →
          e.ObjCBIndex = if i = 3 ∨ i = 8 ∨ i = 13 ∨ i = 18 then i + 1
            else if i = 4 ∨ i = 9 ∨ i = 14 ∨ i = 19 then i - 1 else i := by
  obtain ⟨s, pre, w0, w1, p, h, l, n, t, -⟩ := ShapesApp.scene_items L m
  have hlen : s.mAllRitems.length = 137 := by
    rw [l]
    simp [n]
  refine ⟨s, h, hlen, ?_⟩
  intro i e he
  have hi : i < 137 := by
    by_contra hge
    rw [List.getElem?_eq_none (by omega)] at he
    exact absurd he (by simp)
  have h1 : s.objCBIndices[i]? = some e.ObjCBIndex := by
    simp only [ShapesApp.objCBIndices, List.getElem?_map, he, Option.map_some']
  rw [t, BuilderTrace.build_start_indices, List.getElem?_map,
    List.getElem?_range hi, Option.map_some', Option.some.injEq] at h1
  exact h1.symm

/-- C18, amended. `ObjCBIndex` is assigned in the order of the `SetRenderItemInfo`
calls, which is the order of `mAllRitems` except for the sphere and the flag of
each of the four towers: the flag is filled in first and the sphere is pushed
first. After `BuildRenderItems` the item at position `i` has `ObjCBIndex == i`,
except at the positions 3 and 4, 8 and 9, 13 and 14, 18 and 19, where the two
items of the pair hold each other's position; for every two positions `i < j`
other than such a pair, the item at position `i` has the smaller `ObjCBIndex`. -/
theorem objCBIndex_follows_fill_order (L : MathLib) (m : ShapeMeshes) :
    ∃ s, ShapesApp.BuildRenderItems L
        (ShapesApp.BuildMaterials (ShapesApp.BuildShapeGeometry m {})) = some s
      ∧ s.mAllRitems.length = 137
      ∧ (∀ i e, s.mAllRitems[i]? = some e → (i = 3 ∨ i = 8 ∨ i = 13 ∨ i = 18) →
          e.ObjCBIndex = i + 1)
      ∧ (∀ i e, s.mAllRitems[i]? = some e → (i = 4 ∨ i = 9 ∨ i = 14 ∨ i = 19) →
          e.ObjCBIndex = i - 1)
      ∧ (∀ i e, s.mAllRitems[i]? = some e →
          i ≠ 3 → i ≠ 4 → i ≠ 8 → i ≠ 9 → i ≠ 13 → i ≠ 14 → i ≠ 18 → i ≠ 19 →
          e.ObjCBIndex = i)
      ∧ (∀ i j ei ej, i < j → s.mAllRitems[i]? = some ei → s.mAllRitems[j]? = some ej →
          ¬ ((i = 3 ∨ i = 8 ∨ i = 13 ∨ i = 18) ∧ j = i + 1) →
          ei.ObjCBIndex < ej.ObjCBIndex) := by
  obtain ⟨s, h, hlen, hidx⟩ := ShapesApp.scene_indices L m
  refine ⟨s, h, hlen, ?_, ?_, ?_, ?_⟩
  · intro i e he hi
    rw [hidx i e he, if_pos hi]
  · intro i e he hi
    rw [hidx i e he, if_neg (by omega), if_pos hi]
  · intro i e he h3 h4 h8 h9 h13 h14 h18 h19
    rw [hidx i e he, if_neg (by omega), if_neg (by omega)]
  · intro i j ei ej hij hi hj hpair
    rw [hidx i ei hi, hidx j ej hj]
    split_ifs <;> omega

/-- C18, counterexample. In the scene built at startup the item at position 3, the
sphere of the first tower, has `ObjCBIndex` 4, and the item at position 4, its
flag, has `ObjCBIndex` 3: the item at the smaller position has the larger index,
and neither has its position as index. -/
theorem sphere_pushed_before_flag :
    ∃ s e3 e4, ShapesApp.BuildRenderItems sampleLib
        (ShapesApp.BuildMaterials (ShapesApp.BuildShapeGeometry sampleMeshes {})) = some s
      ∧ s.mAllRitems[3]? = some e3 ∧ s.mAllRitems[4]? = some e4
      ∧ e3.ObjCBIndex = 4 ∧ e4.ObjCBIndex = 3 ∧ ¬ e3.ObjCBIndex < e4.ObjCBIndex := by
  obtain ⟨s, h, hlen, hidx⟩ := ShapesApp.scene_indices sampleLib sampleMeshes
  cases h3 : s.mAllRitems[3]? with
  | none =>
    rw [List.getElem?_eq_none_iff] at h3
    omega
  | some e3 =>
    cases h4 : s.mAllRitems[4]? with
    | none =>
      rw [List.getElem?_eq_none_iff] at h4
      omega
    | some e4 =>
      have a3 := hidx 3 e3 h3
      have a4 := hidx 4 e4 h4
      simp at a3 a4
      exact ⟨s, e3, e4, h, h3, h4, a3, a4, by omega⟩

/-! ## The ring built at startup (C20) -/

/-- The three frame resources `BuildFrameResources` appends. -/
theorem ShapesApp.BuildFrameResources_eq (s : ShapesApp) :
    ShapesApp.BuildFrameResources s =
      { s with
        mFrameResources :=
          s.mFrameResources ++ List.replicate 3
            (FrameResource.create 1 (toUINT s.mAllRitems.length) (toUINT s.mMaterials.length)) } := by
  have hv : forValues 0 gNumFrameResources 1 = [0, 1, 2] := by decide
  unfold ShapesApp.BuildFrameResources
  rw [hv]
  simp only [List.foldl, List.replicate, List.append_assoc, List.singleton_append]
  rfl

/-- The state `Initialize` returns, in terms of the state `BuildRenderItems`
returns. -/
theorem ShapesApp.Initialize_eq (L : MathLib) (m : ShapeMeshes) (s0 s1 : ShapesApp)
    (h : ShapesApp.BuildRenderItems L
      (ShapesApp.BuildMaterials (ShapesApp.BuildShapeGeometry m s0)) = some s1) :
    ShapesApp.Initialize L m s0 = some (ShapesApp.FlushCommandQueue (ShapesApp.BuildPSOs
      (ShapesApp.BuildFrameResources s1))) := by
  simp only [ShapesApp.Initialize, h]

/-- C20. After the build sequence of `Initialize` the ring holds exactly `N = 3`
frame resources, each created with pass count 1, an object-constant capacity equal
to the number of render items produced by `BuildRenderItems` (137) and a
material-constant capacity equal to the number of materials produced by
`BuildMaterials` (3): `BuildFrameResources` runs after both, and neither capacity
is 0. -/
theorem ring_sized_by_scene (L : MathLib) (m : ShapeMeshes) :
    ∃ s, ShapesApp.Initialize L m {} = some s
      ∧ s.mFrameResources.length = gNumFrameResources
      ∧ s.mAllRitems.length = 137
      ∧ s.mMaterials = (ShapesApp.BuildMaterials (ShapesApp.BuildShapeGeometry m {})).mMaterials
      ∧ s.mMaterials.length = 3
      ∧ ∀ fr ∈ s.mFrameResources,
          fr = FrameResource.create 1 s.mAllRitems.length s.mMaterials.length
          ∧ fr.PassCB.elements.length = 1
          ∧ fr.ObjectCB.elements.length = s.mAllRitems.length
          ∧ fr.MaterialCB.elements.length = s.mMaterials.length
          ∧ fr.ObjectCB.elements.length ≠ 0 ∧ fr.MaterialCB.elements.length ≠ 0 := by
  obtain ⟨s1, pre, w0, w1, p, h, l, n, -, -, -, -, -, hm, -, ho⟩ := ShapesApp.scene_items L m
  have hfr : s1.mFrameResources = [] := congrArg (fun v => v.1) ho
  have hlen : s1.mAllRitems.length = 137 := by
    rw [l]
    simp [n]
  have hmat : s1.mMaterials.length = 3 := by
    rw [hm]
    rfl
  refine ⟨_, ShapesApp.Initialize_eq L m {} s1 h, ?_, hlen, hm, hmat, ?_⟩
  · rw [ShapesApp.BuildFrameResources_eq]
    show (s1.mFrameResources ++ List.replicate 3 _).length = 3
    rw [hfr]
    rfl
  · intro fr hfr2
    rw [ShapesApp.BuildFrameResources_eq] at hfr2
    have hfr3 : fr ∈ s1.mFrameResources ++ List.replicate 3
        (FrameResource.create 1 (toUINT s1.mAllRitems.length) (toUINT s1.mMaterials.length)) :=
      hfr2
    rw [hfr, List.nil_append, hlen, hmat] at hfr3
    have hfr4 := List.eq_of_mem_replicate hfr3
    have hA : (ShapesApp.FlushCommandQueue (ShapesApp.BuildPSOs
        (ShapesApp.BuildFrameResources s1))).mAllRitems.length = 137 := hlen
    have hM : (ShapesApp.FlushCommandQueue (ShapesApp.BuildPSOs
        (ShapesApp.BuildFrameResources s1))).mMaterials.length = 3 := hmat
    rw [hA, hM, hfr4]
    refine ⟨rfl, ?_, ?_, ?_, ?_, ?_⟩ <;>
      simp [FrameResource.create, UploadBuffer.create, toUINT, UINT_RANGE]

/-! ## The texture descriptor bound by a draw (C14) -/

/-- The descriptor handle `DrawRenderItems` binds for an item, when the descriptor
size is `0`: the start of the heap, whatever the material of the item. -/
theorem ShapesApp.drawRenderItem_descriptor (s : ShapesApp) (objectCB matCB ri : Nat)
    (cmds : List Cmd) (h0 : s.mCbvSrvDescriptorSize = 0)
    (h : ShapesApp.drawRenderItem s objectCB matCB ri = some cmds) :
    cmds[3]? = some (Cmd.SetGraphicsRootDescriptorTable 0 s.mSrvHeapStart) := by
  unfold ShapesApp.drawRenderItem at h
  simp only at h
  split at h
  · exact absurd h (by simp)
  · split at h
    · split at h
      · simp only [Option.some.injEq] at h
        subst h
        simp [h0]
      · exact absurd h (by simp)
    · exact absurd h (by simp)

set_option maxRecDepth 100000 in
/-- C14. The texture descriptor a draw binds is not selected by the material. The
member `mCbvSrvDescriptorSize` is `0` after `Initialize`, so the handle
`heap start + DiffuseSrvHeapIndex * mCbvSrvDescriptorSize` is the heap start for
every item. In the first frame of the scene built by `Initialize`, where the
material "stone0" of every item has `DiffuseSrvHeapIndex == 1`, the draw of the
first item and all the 137 descriptor-table bindings of the frame use offset `0`. -/
theorem texture_offset_ignored :
    (∀ (s : ShapesApp) (objectCB matCB ri : Nat) (cmds : List Cmd),
        s.mCbvSrvDescriptorSize = 0 →
        ShapesApp.drawRenderItem s objectCB matCB ri = some cmds →
        cmds[3]? = some (Cmd.SetGraphicsRootDescriptorTable 0 s.mSrvHeapStart))
    ∧ (sceneApp.bind (ShapesApp.run sampleLib [Event.update sampleInput, Event.draw])).map
        (fun s => (s.mCbvSrvDescriptorSize, s.mSrvHeapStart,
          (UMap.find s.mMaterials "stone0").map (fun mat => mat.map (fun x => x.DiffuseSrvHeapIndex)),
          (s.mCommandList.drop 10).take 7))
      = some (0, 0, some (some 1),
          [Cmd.IASetVertexBuffers "shapeGeo", Cmd.IASetIndexBuffer "shapeGeo",
           Cmd.IASetPrimitiveTopology 4, Cmd.SetGraphicsRootDescriptorTable 0 0,
           Cmd.SetGraphicsRootConstantBufferView 1 0, Cmd.SetGraphicsRootConstantBufferView 3 256,
           Cmd.DrawIndexedInstanced 6 1 36 24 0])
    ∧ (sceneApp.bind (ShapesApp.run sampleLib [Event.update sampleInput, Event.draw])).map
        (fun s => s.mCommandList.filter Cmd.isSetDescriptorTable)
      = some (List.replicate 137 (Cmd.SetGraphicsRootDescriptorTable 0 0)) :=
  ⟨ShapesApp.drawRenderItem_descriptor, by decide, by decide⟩

/-! ## What `Update` writes into the object buffers (C19) -/

theorem List.set_of_getElem? {α : Type} (l : List α) (i : Nat) (a : α) (h : l[i]? = some a) :
    l.set i a = l := by
  induction l generalizing i with
  | nil => rfl
  | cons x xs ih =>
    cases i with
    | zero =>
      simp only [List.getElem?_cons_zero, Option.some.injEq] at h
      subst h
      rfl
    | succ i =>
      simp only [List.getElem?_cons_succ] at h
      simp [ih i h]

theorem toINT_of_nonneg {n : Nat} (hn : n < UINT_RANGE) (h : 0 ≤ toINT n) : toINT n = (n : Int) := by
  unfold toINT UINT_RANGE at *
  have h1 : n % 4294967296 = n := by omega
  rw [h1] at h ⊢
  split_ifs at h ⊢ with hlt
  · rfl
  · omega

/-- A defined copy into the object buffer of a slot: the element is inside the
buffer, and the buffers are as before but for that element. -/
theorem ShapesApp.copyObjectCB_elements (slot : Nat) (i : Int) (c : ObjectConstants)
    (s s1 : ShapesApp) (h : ShapesApp.copyObjectCB slot i c s = some s1) :
    ∃ els, s.objectBuffers[slot]? = some els ∧ 0 ≤ i ∧ i < els.length
      ∧ s1.objectBuffers = s.objectBuffers.set slot (els.set i.toNat (some c)) := by
  unfold ShapesApp.copyObjectCB at h
  split at h
  · exact absurd h (by simp)
  · rename_i fr hf
    unfold UploadBuffer.CopyData at h
    by_cases hi : 0 ≤ i ∧ i < fr.ObjectCB.elements.length
    · simp only [hi, and_self, if_true, Option.some.injEq] at h
      subst h
      refine ⟨fr.ObjectCB.elements, ?_, hi.1, hi.2, ?_⟩
      · simp only [ShapesApp.objectBuffers, List.getElem?_map, hf, Option.map_some']
      · simp only [ShapesApp.objectBuffers, List.map_set]
    · simp only [hi, if_false] at h
      exact absurd h (by simp)

/-- The loop of `UpdateObjectCBs` writes into the object buffer of the slot, at
the `ObjCBIndex` of the dirty items, and nowhere else. -/
theorem ShapesApp.UpdateObjectCBs_loop_buffers (L : MathLib) (slot : Nat)
    (items : List RenderItem) :
    ∀ (s s1 : ShapesApp) (items1 : List RenderItem) (els : List (Option ObjectConstants)),
      ShapesApp.UpdateObjectCBs.loop L slot items s = some (items1, s1) →
      s.objectBuffers[slot]? = some els →
      ∃ els1, s1.objectBuffers = s.objectBuffers.set slot els1 ∧ els1.length = els.length
        ∧ (∀ i : Nat, (∀ e ∈ items, 0 < e.NumFramesDirty → toINT e.ObjCBIndex ≠ (i : Int)) →
            els1[i]? = els[i]?)
        ∧ (∀ e ∈ items, 0 < e.NumFramesDirty →
            0 ≤ toINT e.ObjCBIndex ∧ toINT e.ObjCBIndex < els.length
            ∧ ∃ e2 ∈ items, 0 < e2.NumFramesDirty ∧ toINT e2.ObjCBIndex = toINT e.ObjCBIndex
              ∧ els1[(toINT e.ObjCBIndex).toNat]?
                  = some (some (ShapesApp.objectConstantsOf L e2))) := by
  induction items with
  | nil =>
    intro s s1 items1 els h hels
    simp only [ShapesApp.UpdateObjectCBs.loop, Option.some.injEq, Prod.mk.injEq] at h
    obtain ⟨-, rfl⟩ := h
    refine ⟨els, (List.set_of_getElem? _ _ _ hels).symm, rfl, fun _ _ => rfl, ?_⟩
    intro e he
    exact absurd he (List.not_mem_nil _)
  | cons e es ih =>
    intro s s1 items1 els h hels
    have hslot : slot < s.objectBuffers.length := by
      by_contra hge
      rw [List.getElem?_eq_none (by omega)] at hels
      exact absurd hels (by simp)
    unfold ShapesApp.UpdateObjectCBs.loop at h
    split_ifs at h with hd
    · split at h
      · exact absurd h (by simp)
      · rename_i s2 hcopy
        split at h
        · exact absurd h (by simp)
        · rename_i es1 s3 hloop
          simp only [Option.some.injEq, Prod.mk.injEq] at h
          obtain ⟨-, rfl⟩ := h
          obtain ⟨els0, h0, hi1, hi2, hset⟩ := ShapesApp.copyObjectCB_elements _ _ _ _ _ hcopy
          rw [hels, Option.some.injEq] at h0
          subst h0
          have hels2 : s2.objectBuffers[slot]?
              = some (els.set (toINT e.ObjCBIndex).toNat
                  (some (ShapesApp.objectConstantsOf L e))) := by
            rw [hset, List.getElem?_set_self hslot]
          obtain ⟨els1, a1, a2, a3, a4⟩ := ih s2 s3 es1 _ hloop hels2
          have hlen : els1.length = els.length := by
            rw [a2, List.length_set]
          have hidx : (toINT e.ObjCBIndex).toNat < els.length := by omega
          refine ⟨els1, ?_, hlen, ?_, ?_⟩
          · rw [a1, hset, List.set_set]
          · intro i hi
            rw [a3 i (fun x hx hxd => hi x (List.mem_cons_of_mem _ hx) hxd)]
            have hne : (toINT e.ObjCBIndex).toNat ≠ i := by
              have := hi e (List.mem_cons_self _ _) hd
              omega
            rw [List.getElem?_set_ne hne]
          · intro x hx hxd
            have hrange : 0 ≤ toINT x.ObjCBIndex ∧ toINT x.ObjCBIndex < els.length := by
              rcases List.mem_cons.mp hx with rfl | hx2
              · exact ⟨hi1, hi2⟩
              · obtain ⟨b1, b2, -⟩ := a4 x hx2 hxd
                rw [List.length_set] at b2
                exact ⟨b1, b2⟩
            refine ⟨hrange.1, hrange.2, ?_⟩
            by_cases hex : ∃ y ∈ es, 0 < y.NumFramesDirty ∧ toINT y.ObjCBIndex = toINT x.ObjCBIndex
            · obtain ⟨y, hy, hyd, hyi⟩ := hex
              obtain ⟨-, -, z, hz, hzd, hzi, hzv⟩ := a4 y hy hyd
              refine ⟨z, List.mem_cons_of_mem _ hz, hzd, hzi.trans hyi, ?_⟩
              rw [← hyi]
              exact hzv
            · have hxe : x = e := by
                rcases List.mem_cons.mp hx with rfl | hx2
                · rfl
                · exact absurd ⟨x, hx2, hxd, rfl⟩ hex
              subst hxe
              refine ⟨x, hx, hxd, rfl, ?_⟩
              rw [a3 _ (fun y hy hyd hyi => hex ⟨y, hy, hyd, by omega⟩),
                List.getElem?_set_self hidx]
    · split at h
      · exact absurd h (by simp)
      · rename_i es1 s3 hloop
        simp only [Option.some.injEq, Prod.mk.injEq] at h
        obtain ⟨-, rfl⟩ := h
        obtain ⟨els1, a1, a2, a3, a4⟩ := ih s s3 es1 els hloop hels
        refine ⟨els1, a1, a2, ?_, ?_⟩
        · intro i hi
          exact a3 i (fun x hx hxd => hi x (List.mem_cons_of_mem _ hx) hxd)
        · intro x hx hxd
          rcases List.mem_cons.mp hx with rfl | hx2
          · exact absurd hxd hd
          · obtain ⟨b1, b2, z, hz, hzd, hzi, hzv⟩ := a4 x hx2 hxd
            exact ⟨b1, b2, z, List.mem_cons_of_mem _ hz, hzd, hzi, hzv⟩

theorem ShapesApp.copyMaterialCB_objectBuffers (slot : Nat) (i : Int) (c : MaterialConstants)
    (s s1 : ShapesApp) (h : ShapesApp.copyMaterialCB slot i c s = some s1) :
    s1.objectBuffers = s.objectBuffers := by
  unfold ShapesApp.copyMaterialCB at h
  split at h
  · exact absurd h (by simp)
  · rename_i fr hf
    split at h
    · exact absurd h (by simp)
    · rename_i b hb
      simp only [Option.some.injEq] at h
      subst h
      exact List.map_set_same_image _ _ _ _ _ hf rfl

theorem ShapesApp.copyPassCB_objectBuffers (slot : Nat) (i : Int) (c : PassConstants)
    (s s1 : ShapesApp) (h : ShapesApp.copyPassCB slot i c s = some s1) :
    s1.objectBuffers = s.objectBuffers := by
  unfold ShapesApp.copyPassCB at h
  split at h
  · exact absurd h (by simp)
  · rename_i fr hf
    split at h
    · exact absurd h (by simp)
    · rename_i b hb
      simp only [Option.some.injEq] at h
      subst h
      exact List.map_set_same_image _ _ _ _ _ hf rfl

theorem ShapesApp.UpdateMaterialCBs_loop_objectBuffers (slot : Nat)
    (mats : UMap (Option Material)) :
    ∀ (s s1 : ShapesApp) (mats1 : UMap (Option Material)),
      ShapesApp.UpdateMaterialCBs.loop slot mats s = some (mats1, s1) →
      s1.objectBuffers = s.objectBuffers := by
  induction mats with
  | nil =>
    intro s s1 mats1 h
    simp only [ShapesApp.UpdateMaterialCBs.loop, Option.some.injEq, Prod.mk.injEq] at h
    obtain ⟨-, rfl⟩ := h
    rfl
  | cons e es ih =>
    intro s s1 mats1 h
    obtain ⟨k, m⟩ := e
    cases m with
    | none => simp [ShapesApp.UpdateMaterialCBs.loop] at h
    | some mat =>
      unfold ShapesApp.UpdateMaterialCBs.loop at h
      split_ifs at h with hd
      · split at h
        · exact absurd h (by simp)
        · rename_i s2 hcopy
          split at h
          · exact absurd h (by simp)
          · rename_i es1 s3 hloop
            simp only [Option.some.injEq, Prod.mk.injEq] at h
            obtain ⟨-, rfl⟩ := h
            exact (ih _ _ _ hloop).trans (ShapesApp.copyMaterialCB_objectBuffers _ _ _ _ _ hcopy)
      · split at h
        · exact absurd h (by simp)
        · rename_i es1 s3 hloop
          simp only [Option.some.injEq, Prod.mk.injEq] at h
          obtain ⟨-, rfl⟩ := h
          exact ih _ _ _ hloop

/-- `UpdateMaterialCBs` leaves the object buffers and the render items alone. -/
theorem ShapesApp.UpdateMaterialCBs_objectBuffers (s s1 : ShapesApp)
    (h : ShapesApp.UpdateMaterialCBs s = some s1) :
    s1.objectBuffers = s.objectBuffers ∧ s1.mAllRitems = s.mAllRitems := by
  unfold ShapesApp.UpdateMaterialCBs at h
  split at h
  · exact absurd h (by simp)
  · rename_i slot fr hc
    split at h
    · exact absurd h (by simp)
    · rename_i mats s2 hloop
      simp only [Option.some.injEq] at h
      subst h
      have h1 := ShapesApp.UpdateMaterialCBs_loop_objectBuffers slot _ _ _ _ hloop
      have h2 := (ShapesApp.UpdateMaterialCBs_loop_preserves slot _ _ _ _ hloop).2.1
      exact ⟨h1, h2⟩

/-- `UpdateMainPassCB` leaves the object buffers and the render items alone. -/
theorem ShapesApp.UpdateMainPassCB_objectBuffers (L : MathLib) (gt : GameTimer)
    (s s1 : ShapesApp) (h : ShapesApp.UpdateMainPassCB L gt s = some s1) :
    s1.objectBuffers = s.objectBuffers ∧ s1.mAllRitems = s.mAllRitems := by
  simp only [ShapesApp.UpdateMainPassCB] at h
  split at h
  · exact absurd h (by simp)
  · rename_i slot fr hc
    have h1 := ShapesApp.copyPassCB_objectBuffers _ _ _ _ _ h
    have h2 := (ShapesApp.copyPassCB_preserves _ _ _ _ _ h).2.1
    exact ⟨h1, h2⟩

/-- What `UpdateObjectCBs` writes: the records of the dirty items, into the object
buffer of the current slot at their `ObjCBIndex`, and nothing else. -/
theorem ShapesApp.UpdateObjectCBs_buffers (L : MathLib) (s s1 : ShapesApp) (slot : Nat)
    (h : ShapesApp.UpdateObjectCBs L s = some s1) (hslot : s.mCurrFrameResource = some slot) :
    ∃ els els1, s.objectBuffers[slot]? = some els
      ∧ s1.objectBuffers = s.objectBuffers.set slot els1 ∧ els1.length = els.length
      ∧ s1.mAllRitems = s.mAllRitems.map ShapesApp.countDown
      ∧ (∀ i : Nat, (∀ e ∈ s.mAllRitems, 0 < e.NumFramesDirty → toINT e.ObjCBIndex ≠ (i : Int)) →
          els1[i]? = els[i]?)
      ∧ (∀ e ∈ s.mAllRitems, 0 < e.NumFramesDirty →
          0 ≤ toINT e.ObjCBIndex ∧ toINT e.ObjCBIndex < els.length
          ∧ ∃ e2 ∈ s.mAllRitems, 0 < e2.NumFramesDirty
            ∧ toINT e2.ObjCBIndex = toINT e.ObjCBIndex
            ∧ els1[(toINT e.ObjCBIndex).toNat]?
                = some (some (ShapesApp.objectConstantsOf L e2))) := by
  unfold ShapesApp.UpdateObjectCBs at h
  split at h
  · exact absurd h (by simp)
  · rename_i slot1 fr hc
    obtain ⟨hs, hf⟩ := (ShapesApp.currFrameResource_eq s slot1 fr).mp hc
    rw [hslot, Option.some.injEq] at hs
    subst hs
    split at h
    · exact absurd h (by simp)
    · rename_i items s2 hloop
      simp only [Option.some.injEq] at h
      subst h
      have hels : s.objectBuffers[slot]? = some fr.ObjectCB.elements := by
        simp only [ShapesApp.objectBuffers, List.getElem?_map, hf, Option.map_some']
      obtain ⟨els1, a1, a2, a3, a4⟩ :=
        ShapesApp.UpdateObjectCBs_loop_buffers L slot _ _ _ _ _ hloop hels
      have a5 := (ShapesApp.UpdateObjectCBs_loop_preserves L slot _ _ _ _ hloop).1
      exact ⟨_, els1, hels, a1, a2, a5, a3, a4⟩

/-- C19. For every render item whose dirty countdown is positive, one call of
`Update` writes that item's object-constant record into the object buffer of the
current slot (the slot `Update` has advanced to) at index `ObjCBIndex`, and
nowhere else: the object buffers of the other slots are unchanged, the elements of
the current slot's buffer at indices that are not the `ObjCBIndex` of a dirty item
are unchanged, and the countdown of the item decreases by exactly one. The element
at the `ObjCBIndex` of a dirty item holds, after the call, the record of the dirty
item with that index: of the item itself when the indices are pairwise distinct,
of the last such item in `mAllRitems` otherwise. Every `ObjCBIndex` is taken to be
a `UINT`. -/
theorem update_writes_dirty_items (L : MathLib) (inp : ShapesApp.FrameInput) (s s1 : ShapesApp)
    (h : ShapesApp.Update L inp s = some s1)
    (hU : ∀ e ∈ s.mAllRitems, e.ObjCBIndex < UINT_RANGE) :
    ∃ els els1,
      s.objectBuffers[(s.mCurrFrameResourceIndex + 1) % gNumFrameResources]? = some els
      ∧ s1.objectBuffers[(s.mCurrFrameResourceIndex + 1) % gNumFrameResources]? = some els1
      ∧ s1.mCurrFrameResource = some ((s.mCurrFrameResourceIndex + 1) % gNumFrameResources)
      ∧ els1.length = els.length
      ∧ (∀ k, k ≠ (s.mCurrFrameResourceIndex + 1) % gNumFrameResources →
          s1.objectBuffers[k]? = s.objectBuffers[k]?)
      ∧ (∀ i, (∀ e ∈ s.mAllRitems, 0 < e.NumFramesDirty → e.ObjCBIndex ≠ i) →
          els1[i]? = els[i]?)
      ∧ (∀ e ∈ s.mAllRitems, 0 < e.NumFramesDirty →
          e.ObjCBIndex < els.length
          ∧ ∃ e2 ∈ s.mAllRitems, 0 < e2.NumFramesDirty ∧ e2.ObjCBIndex = e.ObjCBIndex
            ∧ els1[e.ObjCBIndex]? = some (some (ShapesApp.objectConstantsOf L e2)))
      ∧ (s.objCBIndices.Nodup → ∀ e ∈ s.mAllRitems, 0 < e.NumFramesDirty →
          els1[e.ObjCBIndex]? = some (some (ShapesApp.objectConstantsOf L e)))
      ∧ s1.mAllRitems = s.mAllRitems.map ShapesApp.countDown
      ∧ (∀ (i : Nat) (e : RenderItem), s.mAllRitems[i]? = some e → 0 < e.NumFramesDirty →
          ∃ e1 : RenderItem, s1.mAllRitems[i]? = some e1 ∧ e1.NumFramesDirty = e.NumFramesDirty - 1
            ∧ e1.ObjCBIndex = e.ObjCBIndex) := by
  obtain ⟨s3, s4, s5, h3, h4, h5, h6⟩ := ShapesApp.Update_stages L inp s s1 h
  obtain ⟨-, i2, -, i4⟩ := ShapesApp.input_phase L inp.key1Down s
  have hidx : (ShapesApp.UpdateCamera L
      (ShapesApp.OnKeyboardInput inp.key1Down s)).mCurrFrameResourceIndex
      = s.mCurrFrameResourceIndex := by
    cases inp.key1Down <;> rfl
  obtain ⟨c1, c2, c3, -, c5, -⟩ := ShapesApp.Update_cycle_spec inp _ s3 h3
  rw [hidx] at c1
  rw [c1] at c2
  have hitems3 : s3.mAllRitems = s.mAllRitems := c3.trans i4
  have hbuf3 : s3.objectBuffers = s.objectBuffers := by
    simp only [ShapesApp.objectBuffers, c5, i2]
  obtain ⟨els, els1, b1, b2, b3, b4, b5, b6⟩ := ShapesApp.UpdateObjectCBs_buffers L s3 s4 _ h4 c2
  obtain ⟨m1, m2⟩ := ShapesApp.UpdateMaterialCBs_objectBuffers s4 s5 h5
  obtain ⟨p1, p2⟩ := ShapesApp.UpdateMainPassCB_objectBuffers L inp.gt s5 s1 h6
  have hbuf1 : s1.objectBuffers
      = s.objectBuffers.set ((s.mCurrFrameResourceIndex + 1) % gNumFrameResources) els1 := by
    rw [p1, m1, b2, hbuf3]
  have hitems1 : s1.mAllRitems = s.mAllRitems.map ShapesApp.countDown := by
    rw [p2, m2, b4, hitems3]
  rw [hbuf3] at b1
  rw [hitems3] at b5 b6
  have hslot : (s.mCurrFrameResourceIndex + 1) % gNumFrameResources < s.objectBuffers.length := by
    by_contra hge
    rw [List.getElem?_eq_none (by omega)] at b1
    exact absurd b1 (by simp)
  have hcur : s1.mCurrFrameResource
      = some ((s.mCurrFrameResourceIndex + 1) % gNumFrameResources) := by
    obtain ⟨u1, u2, -, -⟩ := ShapesApp.Update_spec L inp s s1 h
    rw [u2, u1]
  -- in range, the converted index is the index
  have hconv : ∀ e ∈ s.mAllRitems, 0 < e.NumFramesDirty →
      toINT e.ObjCBIndex = (e.ObjCBIndex : Int) := fun e he hd =>
    toINT_of_nonneg (hU e he) (b6 e he hd).1
  have hlast : ∀ e ∈ s.mAllRitems, 0 < e.NumFramesDirty →
      e.ObjCBIndex < els.length
      ∧ ∃ e2 ∈ s.mAllRitems, 0 < e2.NumFramesDirty ∧ e2.ObjCBIndex = e.ObjCBIndex
        ∧ els1[e.ObjCBIndex]? = some (some (ShapesApp.objectConstantsOf L e2)) := by
    intro e he hd
    obtain ⟨r1, r2, e2, he2, hd2, hi2, hv⟩ := b6 e he hd
    rw [hconv e he hd] at r2 hv hi2
    rw [hconv e2 he2 hd2] at hi2
    rw [Int.toNat_ofNat] at hv
    exact ⟨by omega, e2, he2, hd2, by omega, hv⟩
  refine ⟨els, els1, b1, ?_, hcur, b3, ?_, ?_, hlast, ?_, hitems1, ?_⟩
  · rw [hbuf1, List.getElem?_set_self hslot]
  · intro k hk
    rw [hbuf1, List.getElem?_set_ne (Ne.symm hk)]
  · intro i hi
    apply b5 i
    intro e he hd
    rw [hconv e he hd]
    have := hi e he hd
    omega
  · intro hnd e he hd
    obtain ⟨-, e2, he2, -, hi2, hv⟩ := hlast e he hd
    have : e2 = e := List.inj_on_of_nodup_map hnd he2 he hi2
    rw [this] at hv
    exact hv
  · intro i e he hd
    refine ⟨ShapesApp.countDown e, ?_, ?_, ?_⟩
    · rw [hitems1, List.getElem?_map, he, Option.map_some']
    · simp only [ShapesApp.countDown, gt_iff_lt, hd, if_true]
    · simp only [ShapesApp.countDown, gt_iff_lt, hd, if_true]

set_option maxRecDepth 100000 in
/-- C19, witness: the first `Update` of the small scene. It advances to slot `1` and
writes the record of the one item into element `0` of that slot's object buffer;
the buffers of slots `0` and `2` stay unwritten and the countdown goes from `3` to
`2`. -/
theorem update_writes_dirty_items_witness :
    (∀ e ∈ sampleApp.mAllRitems, e.ObjCBIndex < UINT_RANGE)
    ∧ (ShapesApp.Update sampleLib sampleInput sampleApp).map (fun s =>
        (s.objectBuffers.map (fun els => els.map Option.isSome),
          s.mAllRitems.map (fun e => e.NumFramesDirty)))
      = some ([[false], [true], [false]], [2])
    ∧ ∃ s1 els1, ShapesApp.Update sampleLib sampleInput sampleApp = some s1
        ∧ s1.objectBuffers[1]? = some els1
        ∧ els1[0]? = some (some (ShapesApp.objectConstantsOf sampleLib sampleItem))
        ∧ s1.objectBuffers[0]? = sampleApp.objectBuffers[0]?
        ∧ s1.objectBuffers[2]? = sampleApp.objectBuffers[2]? := by
  have hU : ∀ e ∈ sampleApp.mAllRitems, e.ObjCBIndex < UINT_RANGE := by
    intro e he
    have h1 : e = sampleItem := by simpa [sampleApp] using he
    rw [h1]
    decide
  have hd : (ShapesApp.Update sampleLib sampleInput sampleApp).map (fun s =>
        (s.objectBuffers.map (fun els => els.map Option.isSome),
          s.mAllRitems.map (fun e => e.NumFramesDirty)))
      = some ([[false], [true], [false]], [2]) := by decide
  refine ⟨hU, hd, ?_⟩
  cases hu : ShapesApp.Update sampleLib sampleInput sampleApp with
  | none => rw [hu] at hd; simp at hd
  | some s1 =>
    obtain ⟨els, els1, -, a2, -, -, a5, -, -, a8, -, -⟩ :=
      update_writes_dirty_items sampleLib sampleInput sampleApp s1 hu hU
    refine ⟨s1, els1, rfl, a2, ?_, a5 0 (by decide), a5 2 (by decide)⟩
    exact a8 (by decide) sampleItem (by simp [sampleApp]) (by decide)

/-! ## The record of a render item does not read `TWorld` (C26) -/

theorem ShapesApp.copyObjectCB_items (slot : Nat) (i : Int) (c : ObjectConstants)
    (s : ShapesApp) (x : List RenderItem) :
    ShapesApp.copyObjectCB slot i c { s with mAllRitems := x }
      = (ShapesApp.copyObjectCB slot i c s).map (fun s1 => { s1 with mAllRitems := x }) := by
  unfold ShapesApp.copyObjectCB
  cases s.mFrameResources[slot]? with
  | none => rfl
  | some fr =>
    simp only
    cases fr.ObjectCB.CopyData i c with
    | none => rfl
    | some b => rfl

/-- The loop of `UpdateObjectCBs` does not read `mAllRitems` of the state it
threads: the items it visits are its argument. -/
theorem ShapesApp.UpdateObjectCBs_loop_items (L : MathLib) (slot : Nat)
    (items : List RenderItem) :
    ∀ (s : ShapesApp) (x : List RenderItem),
      ShapesApp.UpdateObjectCBs.loop L slot items { s with mAllRitems := x }
        = (ShapesApp.UpdateObjectCBs.loop L slot items s).map
            (fun p => (p.1, { p.2 with mAllRitems := x })) := by
  induction items with
  | nil => intro s x; rfl
  | cons e es ih =>
    intro s x
    unfold ShapesApp.UpdateObjectCBs.loop
    split_ifs with hd
    · rw [ShapesApp.copyObjectCB_items]
      cases ShapesApp.copyObjectCB slot (toINT e.ObjCBIndex) (ShapesApp.objectConstantsOf L e) s with
      | none => rfl
      | some s1 =>
        simp only [Option.map_some']
        rw [ih s1 x]
        cases ShapesApp.UpdateObjectCBs.loop L slot es s1 with
        | none => rfl
        | some p => rfl
    · rw [ih s x]
      cases ShapesApp.UpdateObjectCBs.loop L slot es s with
      | none => rfl
      | some p => rfl

/-- The loop of `UpdateObjectCBs` leaves the same state behind for two lists of
items that agree on everything but `TWorld`. -/
theorem ShapesApp.UpdateObjectCBs_loop_agree (L : MathLib) (slot : Nat)
    (items1 items2 : List RenderItem) (h : List.Forall₂ RenderItem.AgreeButTWorld items1 items2) :
    ∀ s : ShapesApp,
      (ShapesApp.UpdateObjectCBs.loop L slot items1 s).map (fun p => p.2)
        = (ShapesApp.UpdateObjectCBs.loop L slot items2 s).map (fun p => p.2) := by
  induction h with
  | nil => intro s; rfl
  | @cons a b l1 l2 hab _ ih =>
    intro s
    obtain ⟨hw, ht, hi, hd⟩ := hab
    have hrec : ShapesApp.objectConstantsOf L a = ShapesApp.objectConstantsOf L b := by
      simp only [ShapesApp.objectConstantsOf, hw, ht]
    unfold ShapesApp.UpdateObjectCBs.loop
    rw [hd, hi, hrec]
    split_ifs with hdirty
    · cases ShapesApp.copyObjectCB slot (toINT b.ObjCBIndex) (ShapesApp.objectConstantsOf L b) s with
      | none => rfl
      | some s1 =>
        simp only
        have := ih s1
        cases h1 : ShapesApp.UpdateObjectCBs.loop L slot l1 s1 with
        | none =>
          rw [h1] at this
          cases h2 : ShapesApp.UpdateObjectCBs.loop L slot l2 s1 with
          | none => rfl
          | some p => rw [h2] at this; simp at this
        | some p =>
          rw [h1] at this
          cases h2 : ShapesApp.UpdateObjectCBs.loop L slot l2 s1 with
          | none => rw [h2] at this; simp at this
          | some q =>
            rw [h2] at this
            simpa using this
    · have := ih s
      cases h1 : ShapesApp.UpdateObjectCBs.loop L slot l1 s with
      | none =>
        rw [h1] at this
        cases h2 : ShapesApp.UpdateObjectCBs.loop L slot l2 s with
        | none => rfl
        | some p => rw [h2] at this; simp at this
      | some p =>
        rw [h1] at this
        cases h2 : ShapesApp.UpdateObjectCBs.loop L slot l2 s with
        | none => rw [h2] at this; simp at this
        | some q =>
          rw [h2] at this
          simpa using this

theorem ShapesApp.map_setTWorld_agree (items : List RenderItem) (f : RenderItem → XMFLOAT4X4) :
    List.Forall₂ RenderItem.AgreeButTWorld
      (items.map (fun e => { e with TWorld := f e })) items := by
  induction items with
  | nil => exact List.Forall₂.nil
  | cons e es ih => exact List.Forall₂.cons ⟨rfl, rfl, rfl, rfl⟩ ih

/-- C26. The object-constant record that `UpdateObjectCBs` writes for a render item
does not depend on the stored `TWorld` of the item. Two items that agree on
`World` and `TexTransform` have the same record, whose `TWorld` is computed from
`World` alone; two lists of items that agree on `World`, `TexTransform`,
`ObjCBIndex` and the countdown make the loop of `UpdateObjectCBs` leave the same
buffers and the same history of writes; and replacing the stored `TWorld` of every
item by any other matrix changes nothing of what `UpdateObjectCBs` writes. -/
theorem record_ignores_stored_tworld (L : MathLib) :
    (∀ e1 e2 : RenderItem, e1.World = e2.World → e1.TexTransform = e2.TexTransform →
        ShapesApp.objectConstantsOf L e1 = ShapesApp.objectConstantsOf L e2)
    ∧ (∀ e : RenderItem, (ShapesApp.objectConstantsOf L e).TWorld
        = XMMatrixTranspose (L.InverseTranspose e.World))
    ∧ (∀ (slot : Nat) (items1 items2 : List RenderItem) (s : ShapesApp),
        List.Forall₂ RenderItem.AgreeButTWorld items1 items2 →
        (ShapesApp.UpdateObjectCBs.loop L slot items1 s).map (fun p => p.2)
          = (ShapesApp.UpdateObjectCBs.loop L slot items2 s).map (fun p => p.2))
    ∧ (∀ (s : ShapesApp) (f : RenderItem → XMFLOAT4X4),
        (ShapesApp.UpdateObjectCBs L
            { s with mAllRitems := s.mAllRitems.map (fun e => { e with TWorld := f e }) }).map
          (fun s1 => (s1.mFrameResources, s1.cbWrites))
        = (ShapesApp.UpdateObjectCBs L s).map (fun s1 => (s1.mFrameResources, s1.cbWrites))) := by
  refine ⟨?_, fun _ => rfl, ?_, ?_⟩
  · intro e1 e2 hw ht
    simp only [ShapesApp.objectConstantsOf, hw, ht]
  · intro slot items1 items2 s h
    exact ShapesApp.UpdateObjectCBs_loop_agree L slot items1 items2 h s
  · intro s f
    have hagree := ShapesApp.UpdateObjectCBs_loop_agree L
    unfold ShapesApp.UpdateObjectCBs
    have hcur : ShapesApp.currFrameResource
        { s with mAllRitems := s.mAllRitems.map (fun e => { e with TWorld := f e }) }
        = s.currFrameResource := rfl
    rw [hcur]
    cases s.currFrameResource with
    | none => rfl
    | some p =>
      obtain ⟨slot, fr⟩ := p
      simp only
      rw [ShapesApp.UpdateObjectCBs_loop_items]
      have h2 := hagree slot _ _ (ShapesApp.map_setTWorld_agree s.mAllRitems f) s
      cases h3 : ShapesApp.UpdateObjectCBs.loop L slot
          (s.mAllRitems.map (fun e => { e with TWorld := f e })) s with
      | none =>
        rw [h3] at h2
        cases h4 : ShapesApp.UpdateObjectCBs.loop L slot s.mAllRitems s with
        | none => rfl
        | some q => rw [h4] at h2; simp at h2
      | some q1 =>
        rw [h3] at h2
        cases h4 : ShapesApp.UpdateObjectCBs.loop L slot s.mAllRitems s with
        | none => rw [h4] at h2; simp at h2
        | some q2 =>
          rw [h4] at h2
          simp only [Option.map_some', Option.some.injEq] at h2
          obtain ⟨i1, t1⟩ := q1
          obtain ⟨i2, t2⟩ := q2
          simp only at h2
          subst h2
          rfl

/-! ## The fence bookkeeping (C27) -/

theorem ShapesApp.execAll_of_run (L : MathLib) (es : List Event) :
    ∀ s s1 : ShapesApp, ShapesApp.run L es s = some s1 → ShapesApp.execAll L es s = some s1 := by
  induction es with
  | nil => intro s s1 h; exact h
  | cons e es ih =>
    intro s s1 h
    simp only [ShapesApp.run] at h
    split at h
    · split at h
      · exact absurd h (by simp)
      · rename_i s2 h2
        simp only [ShapesApp.execAll, h2]
        exact ih s2 s1 h
    · exact absurd h (by simp)

theorem ShapesApp.execAll_append (L : MathLib) (es1 es2 : List Event) :
    ∀ s : ShapesApp, ShapesApp.execAll L (es1 ++ es2) s
      = (ShapesApp.execAll L es1 s).bind (ShapesApp.execAll L es2) := by
  induction es1 with
  | nil => intro s; rfl
  | cons e es ih =>
    intro s
    simp only [List.cons_append, ShapesApp.execAll]
    cases ShapesApp.exec L s e with
    | none => rfl
    | some s1 => exact ih s1

theorem ShapesApp.drawCount_append (es1 es2 : List Event) :
    ShapesApp.drawCount (es1 ++ es2) = ShapesApp.drawCount es1 + ShapesApp.drawCount es2 := by
  induction es1 with
  | nil => simp [ShapesApp.drawCount]
  | cons e es ih =>
    cases e <;> simp [ShapesApp.drawCount, ih] <;> omega

/-- What `Draw` does to the list of slot fences. -/
theorem ShapesApp.Draw_slotFences (s s1 : ShapesApp) (h : ShapesApp.Draw s = some s1) :
    ∃ slot, s.mCurrFrameResource = some slot ∧ s1.mCurrFrameResource = some slot
      ∧ slot < s.slotFences.length
      ∧ s1.mCurrentFence = (s.mCurrentFence + 1) % UINT64_RANGE
      ∧ s1.slotFences = s.slotFences.set slot s1.mCurrentFence := by
  cases hc : s.currFrameResource with
  | none => simp [ShapesApp.Draw, hc] at h
  | some p =>
    obtain ⟨slot, fr⟩ := p
    obtain ⟨hslot, hfr⟩ := (ShapesApp.currFrameResource_eq s slot fr).mp hc
    obtain ⟨d1, -, -, d4⟩ := ShapesApp.Draw_fence s s1 slot fr hc h
    have hlt : slot < s.mFrameResources.length := by
      by_contra hge
      rw [List.getElem?_eq_none (by omega)] at hfr
      exact absurd hfr (by simp)
    refine ⟨slot, hslot, ?_, ?_, d1, ?_⟩
    · rw [(ShapesApp.Draw_spec s s1 h).2.1, hslot]
    · simpa [ShapesApp.slotFences] using hlt
    · simp only [ShapesApp.slotFences, d4, List.map_set]

/-- An event keeps the fences in order, as long as the counter does not wrap. -/
theorem ShapesApp.exec_fencesInOrder (L : MathLib) (c : Nat) (e : Event) (s s1 : ShapesApp)
    (h : ShapesApp.exec L s e = some s1) (hinv : s.FencesInOrder c)
    (hno : s.mCurrentFence + ShapesApp.drawCount [e] < UINT64_RANGE) :
    s1.FencesInOrder c
    ∧ s1.mCurrentFence = s.mCurrentFence + ShapesApp.drawCount [e] := by
  by_cases hd : e = Event.draw
  · subst hd
    simp only [ShapesApp.exec] at h
    obtain ⟨slot, -, -, hlt, hcur, hset⟩ := ShapesApp.Draw_slotFences s s1 h
    have hno1 : s.mCurrentFence + 1 < UINT64_RANGE := hno
    rw [Nat.mod_eq_of_lt hno1] at hcur
    obtain ⟨i1, i2, i3⟩ := hinv
    refine ⟨⟨by omega, ?_, ?_⟩, hcur⟩
    · intro f hf
      rw [hset] at hf
      rcases List.mem_or_eq_of_mem_set hf with hf | hf
      · rcases i2 f hf with h0 | ⟨h1, h2⟩
        · exact Or.inl h0
        · exact Or.inr ⟨h1, by omega⟩
      · exact Or.inr ⟨by omega, by omega⟩
    · intro i j fi fj hij hi hj hi0 hj0
      rw [hset] at hi hj
      by_cases his : slot = i
      · subst his
        rw [List.getElem?_set_self hlt, Option.some.injEq] at hi
        rw [List.getElem?_set_ne hij] at hj
        rcases i2 fj (List.mem_iff_getElem?.mpr ⟨j, hj⟩) with h0 | ⟨-, h2⟩
        · exact absurd h0 hj0
        · omega
      · rw [List.getElem?_set_ne his] at hi
        by_cases hjs : slot = j
        · subst hjs
          rw [List.getElem?_set_self hlt, Option.some.injEq] at hj
          rcases i2 fi (List.mem_iff_getElem?.mpr ⟨i, hi⟩) with h0 | ⟨-, h2⟩
          · exact absurd h0 hi0
          · omega
        · rw [List.getElem?_set_ne hjs] at hj
          exact i3 i j fi fj hij hi hj hi0 hj0
  · obtain ⟨e1, e2⟩ := ShapesApp.exec_fence L e s s1 h hd
    have hdc : ShapesApp.drawCount [e] = 0 := by
      cases e <;> first | rfl | exact absurd rfl hd
    obtain ⟨i1, i2, i3⟩ := hinv
    refine ⟨⟨by omega, ?_, ?_⟩, by omega⟩
    · intro f hf
      rw [e2] at hf
      rw [e1]
      exact i2 f hf
    · intro i j fi fj hij hi hj
      rw [e2] at hi hj
      exact i3 i j fi fj hij hi hj

/-- A sequence of events keeps the fences in order, as long as the counter does
not wrap. -/
theorem ShapesApp.execAll_fencesInOrder (L : MathLib) (c : Nat) (es : List Event) :
    ∀ s s1 : ShapesApp, ShapesApp.execAll L es s = some s1 → s.FencesInOrder c →
      s.mCurrentFence + ShapesApp.drawCount es < UINT64_RANGE →
      s1.FencesInOrder c ∧ s1.mCurrentFence = s.mCurrentFence + ShapesApp.drawCount es := by
  induction es with
  | nil =>
    intro s s1 h hinv _
    simp only [ShapesApp.execAll, Option.some.injEq] at h
    subst h
    exact ⟨hinv, rfl⟩
  | cons e es ih =>
    intro s s1 h hinv hno
    simp only [ShapesApp.execAll] at h
    split at h
    · exact absurd h (by simp)
    · rename_i s2 h2
      have hsplit : ShapesApp.drawCount (e :: es)
          = ShapesApp.drawCount [e] + ShapesApp.drawCount es :=
        ShapesApp.drawCount_append [e] es
      rw [hsplit] at hno ⊢
      obtain ⟨a1, a2⟩ := ShapesApp.exec_fencesInOrder L c e s s2 h2 hinv (by omega)
      obtain ⟨b1, b2⟩ := ih s2 s1 h a1 (by omega)
      exact ⟨b1, by omega⟩

/-- C27, amended. From a start state in which the `Fence` of every slot is `0`,
after any sequence of `Update` and `Draw` calls (alternating or not, with mouse
and GPU events in between) during which the counter `mCurrentFence` does not pass
the largest `UINT64` (the start value plus the number of `Draw` calls is below
`2 ^ 64`): every slot's `Fence` is at most `mCurrentFence`, two slots with nonzero
`Fence` hold different values, and when the last event is a `Draw`, the current
slot's `Fence` equals `mCurrentFence` and is strictly greater than the `Fence` of
every other slot. -/
theorem fence_bookkeeping (L : MathLib) (es : List Event) (s0 s : ShapesApp)
    (h0 : ∀ f ∈ s0.slotFences, f = 0) (hrun : ShapesApp.execAll L es s0 = some s)
    (hno : s0.mCurrentFence + ShapesApp.drawCount es < UINT64_RANGE) :
    s.mCurrentFence = s0.mCurrentFence + ShapesApp.drawCount es
    ∧ (∀ f ∈ s.slotFences, f ≤ s.mCurrentFence)
    ∧ (∀ (i j fi fj : Nat), i ≠ j → s.slotFences[i]? = some fi → s.slotFences[j]? = some fj →
        fi ≠ 0 → fj ≠ 0 → fi ≠ fj)
    ∧ ∀ es1, es = es1 ++ [Event.draw] →
        ∃ slot, s.mCurrFrameResource = some slot
          ∧ s.slotFences[slot]? = some s.mCurrentFence
          ∧ ∀ (j f : Nat), j ≠ slot → s.slotFences[j]? = some f → f < s.mCurrentFence := by
  have hstart : s0.FencesInOrder s0.mCurrentFence := by
    refine ⟨le_refl _, fun f hf => Or.inl (h0 f hf), ?_⟩
    intro i j fi fj _ hi _ hi0
    exact absurd (h0 fi (List.mem_iff_getElem?.mpr ⟨i, hi⟩)) hi0
  obtain ⟨⟨-, i2, i3⟩, hcur⟩ :=
    ShapesApp.execAll_fencesInOrder L s0.mCurrentFence es s0 s hrun hstart hno
  refine ⟨hcur, ?_, i3, ?_⟩
  · intro f hf
    rcases i2 f hf with h | ⟨-, h⟩
    · omega
    · exact h
  · intro es1 hes
    subst hes
    rw [ShapesApp.execAll_append] at hrun
    rw [ShapesApp.drawCount_append] at hno
    cases hmid : ShapesApp.execAll L es1 s0 with
    | none => rw [hmid] at hrun; exact absurd hrun (by simp)
    | some s1 =>
      rw [hmid, Option.some_bind] at hrun
      have hdraw : ShapesApp.Draw s1 = some s := by
        simp only [ShapesApp.execAll, ShapesApp.exec] at hrun
        split at hrun
        · exact absurd hrun (by simp)
        · rename_i s2 h2
          rw [Option.some.injEq] at hrun
          rw [h2, hrun]
      obtain ⟨⟨-, m2, -⟩, mcur⟩ :=
        ShapesApp.execAll_fencesInOrder L s0.mCurrentFence es1 s0 s1 hmid hstart (by omega)
      obtain ⟨slot, -, hslot, hlt, hnew, hset⟩ := ShapesApp.Draw_slotFences s1 s hdraw
      have hd1 : ShapesApp.drawCount [Event.draw] = 1 := rfl
      rw [hd1] at hno
      rw [Nat.mod_eq_of_lt (by omega)] at hnew
      refine ⟨slot, hslot, ?_, ?_⟩
      · rw [hset, List.getElem?_set_self hlt]
      · intro j f hj hf
        rw [hset, List.getElem?_set_ne (Ne.symm hj)] at hf
        rcases m2 f (List.mem_iff_getElem?.mpr ⟨j, hf⟩) with h | ⟨-, h⟩
        · omega
        · omega

/-- C27, witness: two frames of the small scene, from the fence counter `0`. -/
theorem fence_bookkeeping_witness :
    (∀ f ∈ sampleApp.slotFences, f = 0)
    ∧ sampleApp.mCurrentFence + ShapesApp.drawCount twoFrames < UINT64_RANGE
    ∧ ∃ s, ShapesApp.execAll sampleLib twoFrames sampleApp = some s
      ∧ s.mCurrentFence = 2 ∧ s.slotFences = [0, 1, 2]
      ∧ (∀ f ∈ s.slotFences, f ≤ s.mCurrentFence)
      ∧ ∃ slot, s.mCurrFrameResource = some slot
          ∧ s.slotFences[slot]? = some s.mCurrentFence
          ∧ ∀ (j f : Nat), j ≠ slot → s.slotFences[j]? = some f → f < s.mCurrentFence := by
  have hz : ∀ f ∈ sampleApp.slotFences, f = 0 := by decide
  have hn : sampleApp.mCurrentFence + ShapesApp.drawCount twoFrames < UINT64_RANGE := by decide
  have hd : (ShapesApp.execAll sampleLib twoFrames sampleApp).map (fun s => s.slotFences)
      = some [0, 1, 2] := by decide
  cases hrun : ShapesApp.execAll sampleLib twoFrames sampleApp with
  | none => rw [hrun] at hd; simp at hd
  | some s =>
    rw [hrun, Option.map_some', Option.some.injEq] at hd
    obtain ⟨a, b, -, d⟩ := fence_bookkeeping sampleLib twoFrames sampleApp s hz hrun hn
    exact ⟨hz, hn, s, rfl, a, hd, b,
      d [Event.update sampleInput, Event.draw, Event.update sampleInput] rfl⟩

/-- C27, counterexample. From a start state in which every slot's `Fence` is `0`
and the counter is `2 ^ 64 - 2`, two frames (`Update`, `Draw`, `Update`, `Draw`)
wrap the counter to `0`: slot `1` holds `2 ^ 64 - 1`, above the counter, and the
`Fence` of the current slot `2`, just written by `Draw`, is `0`, not greater than
the `Fence` of slot `1`. -/
theorem fence_counter_wraps_below_slot :
    lateFenceApp.slotFences = [0, 0, 0]
    ∧ (ShapesApp.run sampleLib twoFrames lateFenceApp).map
        (fun s => (s.mCurrentFence, s.slotFences, s.mCurrFrameResource))
        = some (0, [0, 18446744073709551615, 0], some 2)
    ∧ ¬ ∃ s, ShapesApp.run sampleLib twoFrames lateFenceApp = some s
        ∧ ∀ f ∈ s.slotFences, f ≤ s.mCurrentFence := by
  have hd : (ShapesApp.run sampleLib twoFrames lateFenceApp).map
      (fun s => (s.mCurrentFence, s.slotFences, s.mCurrFrameResource))
      = some (0, [0, 18446744073709551615, 0], some 2) := by decide
  refine ⟨by decide, hd, ?_⟩
  rintro ⟨s, h1, h2⟩
  rw [h1, Option.map_some', Option.some.injEq, Prod.mk.injEq, Prod.mk.injEq] at hd
  have h3 := h2 18446744073709551615 (by rw [hd.2.1]; simp)
  rw [hd.1] at h3
  omega

/-! ## The shapes of the scene (C23, C25) -/

theorem UMap.find_assign_isSome {V : Type} (m : UMap V) (k k2 : String) (v : V)
    (h : k = k2 ∨ ∃ w, UMap.find m k2 = some w) :
    ∃ w, UMap.find (UMap.assign m k v) k2 = some w := by
  by_cases hk : k = k2
  · subst hk
    exact ⟨v, UMap.find_assign m k v⟩
  · rw [UMap.find_assign_ne m k k2 v hk]
    rcases h with h | h
    · exact absurd h hk
    · exact h

/-- Every shape name is a key of the `DrawArgs` map `BuildShapeGeometry` fills. -/
theorem ShapesApp.drawArgs_keys (m : ShapeMeshes) :
    ∀ n ∈ shapeNames, ∃ sub, UMap.find (ShapesApp.BuildShapeGeometry.drawArgs m) n = some sub := by
  intro n hn
  unfold ShapesApp.BuildShapeGeometry.drawArgs
  simp only []
  simp only [shapeNames, List.mem_cons, List.mem_singleton, List.not_mem_nil, or_false] at hn
  rcases hn with h | h | h | h | h | h | h | h | h | h | h | h <;> subst h <;>
    repeat (first
      | exact UMap.find_assign_isSome _ _ _ _ (Or.inl rfl)
      | refine UMap.find_assign_isSome _ _ _ _ (Or.inr ?_))

/-- After `BuildShapeGeometry` and `BuildMaterials`, the maps of the scene builder
hold every name it looks up. -/
theorem ShapesApp.startup_maps (m : ShapeMeshes) (s : ShapesApp) :
    ∃ g, (ShapesApp.BuildMaterials (ShapesApp.BuildShapeGeometry m s)).SceneMaps g
      ∧ g.DrawArgs = ShapesApp.BuildShapeGeometry.drawArgs m := by
  have hg : ∃ g, UMap.find (ShapesApp.BuildMaterials (ShapesApp.BuildShapeGeometry m s)).mGeometries
      "shapeGeo" = some (some g) ∧ g.DrawArgs = ShapesApp.BuildShapeGeometry.drawArgs m := by
    simp only [ShapesApp.BuildMaterials, ShapesApp.BuildShapeGeometry, UMap.find_assign]
    exact ⟨_, rfl, rfl⟩
  obtain ⟨g, h1, h2⟩ := hg
  refine ⟨g, ⟨h1, ?_, ?_⟩, h2⟩
  · rw [h2]
    exact ShapesApp.drawArgs_keys m
  · simp only [ShapesApp.BuildMaterials]
    rw [UMap.find_assign_ne _ "tile0" "stone0" _ (by decide), UMap.find_assign]
    exact ⟨_, rfl⟩

theorem ShapesApp.Shaped.nothing_added (g : MeshGeometry) (s : ShapesApp) : ShapesApp.Shaped g [] s s :=
  ⟨rfl, rfl, [], (List.append_nil _).symm, List.Forall₂.nil⟩

theorem ShapesApp.Shaped.append (g : MeshGeometry) (a b : List String) (s s1 s2 : ShapesApp)
    (h1 : ShapesApp.Shaped g a s s1) (h2 : ShapesApp.Shaped g b s1 s2) :
    ShapesApp.Shaped g (a ++ b) s s2 := by
  obtain ⟨g1, m1, l1, e1, f1⟩ := h1
  obtain ⟨g2, m2, l2, e2, f2⟩ := h2
  refine ⟨g2.trans g1, m2.trans m1, l1 ++ l2, ?_, ?_⟩
  · rw [e2, e1, List.append_assoc]
  · exact List.rel_append f1 f2

theorem ShapesApp.SceneMaps.of_shaped (g : MeshGeometry) (a : List String) (s s1 : ShapesApp)
    (h : s.SceneMaps g) (h1 : ShapesApp.Shaped g a s s1) : s1.SceneMaps g := by
  obtain ⟨g1, m1, -⟩ := h1
  obtain ⟨a1, a2, a3⟩ := h
  exact ⟨by rw [g1]; exact a1, a2, by rw [m1]; exact a3⟩

/-- What `SetRenderItemInfo` does to a new item when every name it looks up is
there: the item is filled in for the shape, and no map changes. -/
theorem ShapesApp.SetRenderItemInfo_shaped (g : MeshGeometry) (s : ShapesApp) (name : String)
    (t : XMFLOAT4X4) (h : s.SceneMaps g) (hn : name ∈ shapeNames) :
    ∃ s1 r1, ShapesApp.SetRenderItemInfo s {} name t = some (s1, r1)
      ∧ RenderItem.FilledFor g r1 name
      ∧ s1.mAllRitems = s.mAllRitems
      ∧ s1.mGeometries = s.mGeometries ∧ s1.mMaterials = s.mMaterials := by
  obtain ⟨hg, hkeys, mat, hm⟩ := h
  obtain ⟨sub, hsub⟩ := hkeys name hn
  have hidx := UMap.index_of_find none s.mMaterials "stone0" (some mat) hm
  refine ⟨_, _, ShapesApp.SetRenderItemInfo_of_present s {} name t g sub hg hsub,
    ⟨sub, hsub, rfl, rfl, rfl, ?_, rfl, rfl, rfl⟩, rfl, rfl, ?_⟩
  · show Option.map _ (UMap.index none s.mMaterials "stone0").1 = _
    rw [hidx]
    rfl
  · show (UMap.index none s.mMaterials "stone0").2 = _
    rw [hidx]

theorem ShapesApp.single_shaped (g : MeshGeometry) (s : ShapesApp) (name : String)
    (t : XMFLOAT4X4) (h : s.SceneMaps g) (hn : name ∈ shapeNames) :
    ∃ s1, ShapesApp.BuildRenderItems.single s name t = some s1
      ∧ ShapesApp.Shaped g [name] s s1 := by
  obtain ⟨s1, r1, h1, hf, hl, hg, hm⟩ := ShapesApp.SetRenderItemInfo_shaped g s name t h hn
  refine ⟨ShapesApp.pushRitem s1 r1, ?_, hg, hm, [r1], ?_, List.Forall₂.cons hf List.Forall₂.nil⟩
  · simp [ShapesApp.BuildRenderItems.single, h1]
  · show s1.mAllRitems ++ [r1] = _
    rw [hl]

theorem ShapesApp.foldlM_shaped (g : MeshGeometry) (f : ShapesApp → Nat → Option ShapesApp)
    (names : Nat → List String)
    (hf : ∀ s i, ShapesApp.SceneMaps g s →
      ∃ s1, f s i = some s1 ∧ ShapesApp.Shaped g (names i) s s1)
    (l : List Nat) :
    ∀ s, ShapesApp.SceneMaps g s →
      ∃ s1, l.foldlM f s = some s1 ∧ ShapesApp.Shaped g (l.map names).flatten s s1 := by
  induction l with
  | nil =>
    intro s _
    exact ⟨s, rfl, ShapesApp.Shaped.nothing_added g s⟩
  | cons i is ih =>
    intro s h
    obtain ⟨s1, h1, g1⟩ := hf s i h
    obtain ⟨s2, h2, g2⟩ := ih s1 (ShapesApp.SceneMaps.of_shaped g _ s s1 h g1)
    refine ⟨s2, ?_, ?_⟩
    · simp [List.foldlM, h1, h2]
    · rw [List.map_cons, List.flatten_cons]
      exact ShapesApp.Shaped.append g _ _ s s1 s2 g1 g2

theorem ShapesApp.SceneMaps.of_eq (g : MeshGeometry) (s s1 : ShapesApp) (h : s.SceneMaps g)
    (hg : s1.mGeometries = s.mGeometries) (hm : s1.mMaterials = s.mMaterials) :
    s1.SceneMaps g := by
  obtain ⟨a1, a2, a3⟩ := h
  exact ⟨by rw [hg]; exact a1, a2, by rw [hm]; exact a3⟩

theorem ShapesApp.Shaped.names_eq (g : MeshGeometry) (a b : List String) (s s1 : ShapesApp)
    (h : ShapesApp.Shaped g a s s1) (hab : a = b) : ShapesApp.Shaped g b s s1 := by
  subst hab
  exact h

set_option maxHeartbeats 2000000 in
theorem ShapesApp.tower_shaped (L : MathLib) (thetaSquareStep radius : FLOAT)
    (g : MeshGeometry) (s : ShapesApp) (i : Nat) (h : s.SceneMaps g) :
    ∃ s1, ShapesApp.BuildRenderItems.tower L thetaSquareStep radius s i = some s1
      ∧ ShapesApp.Shaped g (BuilderShapes.tower [] i) s s1 := by
  unfold ShapesApp.BuildRenderItems.tower
  simp only []
  generalize XMMatrixMultiply (XMMatrixScaling 6 7 6) _ = towerWorld
  generalize XMMatrixMultiply (XMMatrixScaling (2 / 10) 2 (2 / 10)) _ = poleWorld
  generalize XMMatrixMultiply (XMMatrixScaling (3 / 10) (3 / 10) (3 / 10)) _ = sphereWorld
  generalize XMMatrixMultiply (XMMatrixScaling (15 / 10) 1 (1 / 10)) _ = flagWorld
  generalize XMMatrixMultiply (XMMatrixScaling 8 6 8) _ = roofWorld
  obtain ⟨s1, r1, e1, f1, l1, g1, m1⟩ :=
    ShapesApp.SetRenderItemInfo_shaped g s "cylinder" towerWorld h (by decide)
  have k1 := ShapesApp.SceneMaps.of_eq g s s1 h g1 m1
  obtain ⟨s2, r2, e2, f2, l2, g2, m2⟩ :=
    ShapesApp.SetRenderItemInfo_shaped g s1 "cylinder" poleWorld k1 (by decide)
  have k2 := ShapesApp.SceneMaps.of_eq g s1 s2 k1 g2 m2
  obtain ⟨s3, r3, e3, f3, l3, g3, m3⟩ :=
    ShapesApp.SetRenderItemInfo_shaped g s2 "box" flagWorld k2 (by decide)
  have k3 := ShapesApp.SceneMaps.of_eq g s2 s3 k2 g3 m3
  obtain ⟨s4, r4, e4, f4, l4, g4, m4⟩ :=
    ShapesApp.SetRenderItemInfo_shaped g s3 "sphere" sphereWorld k3 (by decide)
  have k4 := ShapesApp.SceneMaps.of_eq g s3 s4 k3 g4 m4
  have hpushed : ShapesApp.Shaped g ["cylinder", "cylinder", "sphere", "box"] s
      (ShapesApp.pushRitem (ShapesApp.pushRitem (ShapesApp.pushRitem
        (ShapesApp.pushRitem s4 r1) r2) r4) r3) := by
    refine ⟨?_, ?_, [r1, r2, r4, r3], ?_,
      List.Forall₂.cons f1 (List.Forall₂.cons f2 (List.Forall₂.cons f4
        (List.Forall₂.cons f3 List.Forall₂.nil)))⟩
    · show s4.mGeometries = _
      rw [g4, g3, g2, g1]
    · show s4.mMaterials = _
      rw [m4, m3, m2, m1]
    · show s4.mAllRitems ++ [r1] ++ [r2] ++ [r4] ++ [r3] = _
      rw [l4, l3, l2, l1]
      simp only [List.append_assoc, List.singleton_append, List.cons_append, List.nil_append]
  simp only [e1, e2, e3, e4]
  by_cases hi : i < 3
  · obtain ⟨s5, h5, g5⟩ := ShapesApp.single_shaped g _ "cone" roofWorld
      (ShapesApp.SceneMaps.of_shaped g _ s _ h hpushed) (by decide)
    refine ⟨s5, ?_, ?_⟩
    · simp only [hi, if_true]
      exact h5
    · refine ShapesApp.Shaped.names_eq g _ _ s s5 (ShapesApp.Shaped.append g _ _ s _ s5 hpushed g5) ?_
      simp [BuilderShapes.tower, hi]
  · refine ⟨ShapesApp.pushRitem (ShapesApp.pushRitem (ShapesApp.pushRitem
        (ShapesApp.pushRitem s4 r1) r2) r4) r3, ?_, ?_⟩
    · simp only [hi, if_false]
    · refine ShapesApp.Shaped.names_eq g _ _ s _ hpushed ?_
      simp [BuilderShapes.tower, hi]

theorem ShapesApp.mogul_shaped (L : MathLib) (theta sRadius cRadius : FLOAT)
    (g : MeshGeometry) (s : ShapesApp) (j : Nat) (h : s.SceneMaps g) :
    ∃ s1, ShapesApp.BuildRenderItems.mogul L theta sRadius cRadius s j = some s1
      ∧ ShapesApp.Shaped g ["box"] s s1 := by
  unfold ShapesApp.BuildRenderItems.mogul
  exact ShapesApp.single_shaped g s "box" _ h (by decide)

theorem ShapesApp.frontWall_shaped (g : MeshGeometry) (s : ShapesApp) (i : Nat)
    (h : s.SceneMaps g) :
    ∃ s1, ShapesApp.BuildRenderItems.frontWall s i = some s1
      ∧ ShapesApp.Shaped g ["box"] s s1 := by
  unfold ShapesApp.BuildRenderItems.frontWall
  exact ShapesApp.single_shaped g s "box" _ h (by decide)

theorem ShapesApp.wedge_shaped (L : MathLib) (thetaSquareStep : FLOAT)
    (g : MeshGeometry) (s : ShapesApp) (i : Nat) (h : s.SceneMaps g) :
    ∃ s1, ShapesApp.BuildRenderItems.wedge L thetaSquareStep s i = some s1
      ∧ ShapesApp.Shaped g ["wedge"] s s1 := by
  unfold ShapesApp.BuildRenderItems.wedge
  exact ShapesApp.single_shaped g s "wedge" _ h (by decide)

theorem ShapesApp.wall_shaped (L : MathLib) (thetaSquareStep w2 : FLOAT)
    (g : MeshGeometry) (s : ShapesApp) (i : Nat) (h : s.SceneMaps g) :
    ∃ s1, ShapesApp.BuildRenderItems.wall L thetaSquareStep w2 s i = some s1
      ∧ ShapesApp.Shaped g (BuilderShapes.wall [] i) s s1 := by
  unfold ShapesApp.BuildRenderItems.wall
  simp only []
  generalize XMMatrixMultiply (XMMatrixMultiply (XMMatrixScaling 1 10 width) _) _ = world
  generalize XMMatrixMultiply (XMMatrixMultiply (XMMatrixScaling 1 4 (width - 3)) _) _
    = PrismWorld
  have hfirst : ∃ s1, (if i < 3 then ShapesApp.BuildRenderItems.single s "box" world
      else some s) = some s1
      ∧ ShapesApp.Shaped g (if i < 3 then ["box"] else []) s s1 := by
    by_cases hi : i < 3
    · simp only [hi, if_true]
      exact ShapesApp.single_shaped g s "box" _ h (by decide)
    · simp only [hi, if_false]
      exact ⟨s, rfl, ShapesApp.Shaped.nothing_added g s⟩
  obtain ⟨s1, h1, t1⟩ := hfirst
  have k1 := ShapesApp.SceneMaps.of_shaped g _ s s1 h t1
  obtain ⟨s2, h2, t2⟩ := ShapesApp.single_shaped g s1 "prism" PrismWorld k1 (by decide)
  have k2 := ShapesApp.SceneMaps.of_shaped g _ s1 s2 k1 t2
  obtain ⟨s3, h3, t3⟩ := ShapesApp.foldlM_shaped g
    (ShapesApp.BuildRenderItems.mogul L (↑i * thetaSquareStep)
      (w2 * L.sinf (↑i * thetaSquareStep)) (w2 * L.cosf (↑i * thetaSquareStep)))
    (fun _ => ["box"])
    (fun s j hh => ShapesApp.mogul_shaped L _ _ _ g s j hh) (forValues 0 50 2) s2 k2
  refine ⟨s3, ?_, ?_⟩
  · simp only [h1, h2, h3]
  · refine ShapesApp.Shaped.names_eq g _ _ s s3
      (ShapesApp.Shaped.append g _ _ s s2 s3 (ShapesApp.Shaped.append g _ _ s s1 s2 t1 t2) t3) ?_
    by_cases hi : i < 3
    · simp only [hi, if_true, BuilderShapes.wall]
      decide
    · simp only [hi, if_false, BuilderShapes.wall]
      decide

set_option maxRecDepth 100000 in
/-- The names of the 137 shapes of the scene, in the order of `mAllRitems`, and
how often each name occurs. -/
theorem BuilderShapes.build_start_counts :
    (BuilderShapes.build []).length = 137
    ∧ (BuilderShapes.build []).count "grid" = 1
    ∧ (BuilderShapes.build []).count "cylinder" = 8
    ∧ (BuilderShapes.build []).count "sphere" = 4
    ∧ (BuilderShapes.build []).count "cone" = 3
    ∧ (BuilderShapes.build []).count "cylinder2" = 1
    ∧ (BuilderShapes.build []).count "torus2" = 1
    ∧ (BuilderShapes.build []).count "prism" = 4
    ∧ (BuilderShapes.build []).count "box" = 110
    ∧ (BuilderShapes.build []).count "pyramid" = 1
    ∧ (BuilderShapes.build []).count "diamond" = 1
    ∧ (BuilderShapes.build []).count "torus" = 1
    ∧ (BuilderShapes.build []).count "wedge" = 2
    ∧ ∀ n ∈ BuilderShapes.build [], n ∈ shapeNames := by
  decide

set_option maxRecDepth 100000 in
/-- `BuildRenderItems` succeeds when every name it looks up is there: the items it
adds are filled in for the shapes of `BuilderShapes.build`, in this order, and no
map changes. -/
theorem ShapesApp.BuildRenderItems_shaped (L : MathLib) (g : MeshGeometry) (s : ShapesApp)
    (h : s.SceneMaps g) :
    ∃ s1, ShapesApp.BuildRenderItems L s = some s1
      ∧ ShapesApp.Shaped g (BuilderShapes.build []) s s1 := by
  unfold ShapesApp.BuildRenderItems
  simp only []
  obtain ⟨s1, h1, g1⟩ := ShapesApp.single_shaped g s "grid" XMMatrixIdentity h (by decide)
  have k1 := ShapesApp.SceneMaps.of_shaped g _ s s1 h g1
  obtain ⟨s2, h2, g2⟩ := ShapesApp.foldlM_shaped g
    (ShapesApp.BuildRenderItems.tower L (XM_2PI / 4)
      (L.sqrtf (width * (1 / 2) * (width * (1 / 2)) + width * (1 / 2) * (width * (1 / 2)))))
    (BuilderShapes.tower [])
    (fun s i hh => ShapesApp.tower_shaped L _ _ g s i hh) (forValues 0 4 1) s1 k1
  have k2 := ShapesApp.SceneMaps.of_shaped g _ s1 s2 k1 g2
  obtain ⟨s3, h3, g3⟩ := ShapesApp.single_shaped g s2 "cylinder2"
    (XMMatrixMultiply (XMMatrixScaling (35 / 10) 3 (35 / 10))
      (XMMatrixTranslation (width * (1 / 2)) (175 / 10) (-(width * (1 / 2))))) k2 (by decide)
  have k3 := ShapesApp.SceneMaps.of_shaped g _ s2 s3 k2 g3
  obtain ⟨s4, h4, g4⟩ := ShapesApp.single_shaped g s3 "torus2"
    (XMMatrixMultiply (XMMatrixScaling (18 / 10) 2 (18 / 10))
      (XMMatrixTranslation (width * (1 / 2)) (145 / 10) (-(width * (1 / 2))))) k3 (by decide)
  have k4 := ShapesApp.SceneMaps.of_shaped g _ s3 s4 k3 g4
  obtain ⟨s5, h5, g5⟩ := ShapesApp.foldlM_shaped g
    (ShapesApp.BuildRenderItems.wall L (XM_2PI / 4) (width * (1 / 2)))
    (BuilderShapes.wall [])
    (fun s i hh => ShapesApp.wall_shaped L _ _ g s i hh) (forValues 0 4 1) s4 k4
  have k5 := ShapesApp.SceneMaps.of_shaped g _ s4 s5 k4 g5
  obtain ⟨s6, h6, g6⟩ := ShapesApp.foldlM_shaped g ShapesApp.BuildRenderItems.frontWall
    (fun _ => ["box"])
    (fun s i hh => ShapesApp.frontWall_shaped g s i hh) (forValues 0 2 1) s5 k5
  have k6 := ShapesApp.SceneMaps.of_shaped g _ s5 s6 k5 g6
  obtain ⟨s7, h7, g7⟩ := ShapesApp.single_shaped g s6 "pyramid"
    (XMMatrixMultiply (XMMatrixScaling 21 6 21) (XMMatrixTranslation 0 (75 / 10) 13)) k6
    (by decide)
  have k7 := ShapesApp.SceneMaps.of_shaped g _ s6 s7 k6 g7
  obtain ⟨s8, h8, g8⟩ := ShapesApp.single_shaped g s7 "diamond"
    (XMMatrixMultiply (XMMatrixScaling 1 1 1) (XMMatrixTranslation 0 13 13)) k7 (by decide)
  have k8 := ShapesApp.SceneMaps.of_shaped g _ s7 s8 k7 g8
  obtain ⟨s9, h9, g9⟩ := ShapesApp.single_shaped g s8 "torus"
    (XMMatrixMultiply
      (XMMatrixMultiply (XMMatrixScaling (1 / 2) (1 / 2) (1 / 2)) (XMMatrixRotationX L (1571 / 1000)))
      (XMMatrixTranslation 0 (1175 / 100) 13)) k8 (by decide)
  have k9 := ShapesApp.SceneMaps.of_shaped g _ s8 s9 k8 g9
  obtain ⟨s10, h10, g10⟩ := ShapesApp.foldlM_shaped g
    (ShapesApp.BuildRenderItems.wedge L (XM_2PI / 4)) (fun _ => ["wedge"])
    (fun s i hh => ShapesApp.wedge_shaped L _ g s i hh) (forValues 0 2 1) s9 k9
  have k10 := ShapesApp.SceneMaps.of_shaped g _ s9 s10 k9 g10
  obtain ⟨s11, h11, g11⟩ := ShapesApp.single_shaped g s10 "box"
    (XMMatrixMultiply (XMMatrixScaling 6 3 13) (XMMatrixTranslation 0 (15 / 10) (-19))) k10
    (by decide)
  have hA : ShapesApp.Shaped g _ s s11 :=
    ShapesApp.Shaped.append g _ _ _ _ _ (ShapesApp.Shaped.append g _ _ _ _ _
      (ShapesApp.Shaped.append g _ _ _ _ _ (ShapesApp.Shaped.append g _ _ _ _ _
      (ShapesApp.Shaped.append g _ _ _ _ _ (ShapesApp.Shaped.append g _ _ _ _ _
      (ShapesApp.Shaped.append g _ _ _ _ _ (ShapesApp.Shaped.append g _ _ _ _ _
      (ShapesApp.Shaped.append g _ _ _ _ _ (ShapesApp.Shaped.append g _ _ _ _ _ g1 g2) g3) g4) g5)
        g6) g7) g8) g9) g10) g11
  have hB := ShapesApp.Shaped.names_eq g _ (BuilderShapes.build []) s s11 hA (by decide)
  refine ⟨{ s11 with mOpaqueRitems := s11.mOpaqueRitems ++ List.range s11.mAllRitems.length },
    ?_, hB⟩
  simp only [h1, h2, h3, h4, h5, h6, h7, h8, h9, h10, h11]

theorem List.map_range_getElem? {α : Type} (l : List α) :
    (List.range l.length).map (fun i => l[i]?) = l.map some := by
  apply List.ext_getElem
  · simp
  · intro i h1 h2
    simp only [List.length_map, List.length_range] at h1
    simp [List.getElem?_eq_getElem h1]

theorem List.Forall₂.exists_of_mem_left {α β : Type} {R : α → β → Prop} {l1 : List α}
    {l2 : List β} (h : List.Forall₂ R l1 l2) : ∀ a ∈ l1, ∃ b ∈ l2, R a b := by
  induction h with
  | nil => intro a ha; exact absurd ha (List.not_mem_nil a)
  | @cons a b l1 l2 hab _ ih =>
    intro x hx
    rcases List.mem_cons.mp hx with hx | hx
    · subst hx
      exact ⟨b, List.mem_cons_self _ _, hab⟩
    · obtain ⟨y, hy, hxy⟩ := ih x hx
      exact ⟨y, List.mem_cons_of_mem _ hy, hxy⟩

/-- The scene built at startup, shape by shape. -/
theorem ShapesApp.scene_shapes (L : MathLib) (m : ShapeMeshes) :
    ∃ s g, ShapesApp.BuildRenderItems L
        (ShapesApp.BuildMaterials (ShapesApp.BuildShapeGeometry m {})) = some s
      ∧ (ShapesApp.BuildMaterials (ShapesApp.BuildShapeGeometry m {})).SceneMaps g
      ∧ g.DrawArgs = ShapesApp.BuildShapeGeometry.drawArgs m
      ∧ s.mGeometries = (ShapesApp.BuildMaterials (ShapesApp.BuildShapeGeometry m {})).mGeometries
      ∧ s.mMaterials = (ShapesApp.BuildMaterials (ShapesApp.BuildShapeGeometry m {})).mMaterials
      ∧ List.Forall₂ (fun e n => RenderItem.FilledFor g e n) s.mAllRitems (BuilderShapes.build [])
      ∧ s.mAllRitems.length = 137
      ∧ s.mOpaqueRitems = List.range 137 := by
  obtain ⟨g, hmaps, hargs⟩ := ShapesApp.startup_maps m {}
  obtain ⟨s, h, hg, hm, items, hl, hf⟩ := ShapesApp.BuildRenderItems_shaped L g _ hmaps
  obtain ⟨s1, pre, w0, w1, p, h1, l1, n1, -, -, -, -, -, -, o1, -⟩ := ShapesApp.scene_items L m
  rw [h, Option.some.injEq] at h1
  subst h1
  have hl2 : s.mAllRitems = items := by
    rw [hl]
    rfl
  refine ⟨s, g, h, hmaps, hargs, hg, hm, ?_, ?_, o1⟩
  · rw [hl2]
    exact hf
  · rw [l1]
    simp [n1]

/-- C23. `BuildRenderItems` produces exactly 137 render items: each is filled in
from the `DrawArgs` entry of its shape, and among the shapes there are 1 grid, 8
cylinders, 4 spheres, 3 cones, 1 cylinder2, 1 torus2, 4 prisms, 110 boxes, 1
pyramid, 1 diamond, 1 torus and 2 wedges. The opaque list `mOpaqueRitems` has the
same length as `mAllRitems` and points to the same items in the same order. -/
theorem scene_has_137_items (L : MathLib) (m : ShapeMeshes) :
    ∃ s g, ShapesApp.BuildRenderItems L
        (ShapesApp.BuildMaterials (ShapesApp.BuildShapeGeometry m {})) = some s
      ∧ s.mAllRitems.length = 137
      ∧ UMap.find s.mGeometries "shapeGeo" = some (some g)
      ∧ List.Forall₂ (fun e n => RenderItem.FilledFor g e n) s.mAllRitems (BuilderShapes.build [])
      ∧ (BuilderShapes.build []).count "grid" = 1
      ∧ (BuilderShapes.build []).count "cylinder" = 8
      ∧ (BuilderShapes.build []).count "sphere" = 4
      ∧ (BuilderShapes.build []).count "cone" = 3
      ∧ (BuilderShapes.build []).count "cylinder2" = 1
      ∧ (BuilderShapes.build []).count "torus2" = 1
      ∧ (BuilderShapes.build []).count "prism" = 4
      ∧ (BuilderShapes.build []).count "box" = 110
      ∧ (BuilderShapes.build []).count "pyramid" = 1
      ∧ (BuilderShapes.build []).count "diamond" = 1
      ∧ (BuilderShapes.build []).count "torus" = 1
      ∧ (BuilderShapes.build []).count "wedge" = 2
      ∧ s.mOpaqueRitems.length = s.mAllRitems.length
      ∧ s.mOpaqueRitems = List.range s.mAllRitems.length
      ∧ s.mOpaqueRitems.map (fun i => s.mAllRitems[i]?) = s.mAllRitems.map some := by
  obtain ⟨s, g, h, hmaps, -, hg, -, hf, hlen, ho⟩ := ShapesApp.scene_shapes L m
  obtain ⟨-, c1, c2, c3, c4, c5, c6, c7, c8, c9, c10, c11, c12, -⟩ :=
    BuilderShapes.build_start_counts
  have ho2 : s.mOpaqueRitems = List.range s.mAllRitems.length := by rw [ho, hlen]
  refine ⟨s, g, h, hlen, ?_, hf, c1, c2, c3, c4, c5, c6, c7, c8, c9, c10, c11, c12, ?_, ho2, ?_⟩
  · rw [hg]
    exact hmaps.1
  · rw [ho2, List.length_range]
  · rw [ho2]
    exact List.map_range_getElem? s.mAllRitems

/-- C25. Every shape name `BuildRenderItems` passes to `SetRenderItemInfo` (grid,
cylinder, box, sphere, cone, cylinder2, torus2, prism, pyramid, diamond, torus,
wedge) is a key of the `DrawArgs` map `BuildShapeGeometry` stores in the geometry
"shapeGeo"; "stone0" is a material registered by `BuildMaterials` and "shapeGeo" a
geometry registered by `BuildShapeGeometry`, neither null. So the scene build
succeeds without any lookup inserting a key: the maps `mGeometries` and
`mMaterials` are the same after it as before, and every item has the material
"stone0", the geometry "shapeGeo" and the draw parameters stored under the name
of its shape. -/
theorem scene_lookups_hit (L : MathLib) (m : ShapeMeshes) :
    (∀ n ∈ ["grid", "cylinder", "box", "sphere", "cone", "cylinder2", "torus2", "prism",
        "pyramid", "diamond", "torus", "wedge"],
      ∃ sub, UMap.find (ShapesApp.BuildShapeGeometry.drawArgs m) n = some sub)
    ∧ (∀ n ∈ BuilderShapes.build [],
        n ∈ ["grid", "cylinder", "box", "sphere", "cone", "cylinder2", "torus2", "prism",
          "pyramid", "diamond", "torus", "wedge"])
    ∧ ∃ s g mat,
        UMap.find (ShapesApp.BuildShapeGeometry m {}).mGeometries "shapeGeo" = some (some g)
      ∧ g.DrawArgs = ShapesApp.BuildShapeGeometry.drawArgs m
      ∧ UMap.find (ShapesApp.BuildMaterials (ShapesApp.BuildShapeGeometry m {})).mMaterials
          "stone0" = some (some mat)
      ∧ ShapesApp.BuildRenderItems L
          (ShapesApp.BuildMaterials (ShapesApp.BuildShapeGeometry m {})) = some s
      ∧ s.mGeometries = (ShapesApp.BuildShapeGeometry m {}).mGeometries
      ∧ s.mMaterials = (ShapesApp.BuildMaterials (ShapesApp.BuildShapeGeometry m {})).mMaterials
      ∧ List.Forall₂ (fun e n => RenderItem.FilledFor g e n) s.mAllRitems (BuilderShapes.build [])
      ∧ ∀ e ∈ s.mAllRitems, e.Mat = some "stone0" ∧ e.Geo = some "shapeGeo"
          ∧ UMap.find s.mMaterials "stone0" = some (some mat)
          ∧ UMap.find s.mGeometries "shapeGeo" = some (some g) := by
  obtain ⟨s, g, h, ⟨hg0, hkeys, mat, hmat⟩, hargs, hg, hm, hf, -, -⟩ := ShapesApp.scene_shapes L m
  refine ⟨?_, ?_, s, g, mat, hg0, hargs, hmat, h, hg, hm, hf, ?_⟩
  · intro n hn
    have hnames : ∀ n ∈ ["grid", "cylinder", "box", "sphere", "cone", "cylinder2", "torus2",
        "prism", "pyramid", "diamond", "torus", "wedge"], n ∈ shapeNames := by decide
    exact ShapesApp.drawArgs_keys m n (hnames n hn)
  · have hnames : ∀ n ∈ shapeNames,
        n ∈ ["grid", "cylinder", "box", "sphere", "cone", "cylinder2", "torus2", "prism",
          "pyramid", "diamond", "torus", "wedge"] := by decide
    intro n hn
    exact hnames n (BuilderShapes.build_start_counts.2.2.2.2.2.2.2.2.2.2.2.2.2 n hn)
  · intro e he
    obtain ⟨n, -, sub, -, -, -, -, e1, e2, -⟩ := List.Forall₂.exists_of_mem_left hf e he
    exact ⟨e1, e2, by rw [hm]; exact hmat, by rw [hg]; exact hg0⟩

/-! ## `Update` is defined on a ring of the right size -/

theorem ShapesApp.ringSizes_getElem? (s : ShapesApp) (slot : Nat) (sz : Nat × Nat × Nat)
    (h : s.ringSizes[slot]? = some sz) :
    ∃ fr, s.mFrameResources[slot]? = some fr ∧ fr.PassCB.elements.length = sz.1
      ∧ fr.MaterialCB.elements.length = sz.2.1 ∧ fr.ObjectCB.elements.length = sz.2.2 := by
  simp only [ShapesApp.ringSizes, List.getElem?_map] at h
  cases hf : s.mFrameResources[slot]? with
  | none => rw [hf] at h; exact absurd h (by simp)
  | some fr =>
    rw [hf, Option.map_some', Option.some.injEq] at h
    subst h
    exact ⟨fr, rfl, rfl, rfl, rfl⟩

theorem ShapesApp.copyObjectCB_sizes (slot : Nat) (i : Int) (c : ObjectConstants)
    (s s1 : ShapesApp) (h : ShapesApp.copyObjectCB slot i c s = some s1) :
    s1.ringSizes = s.ringSizes ∧ s1.mMaterials = s.mMaterials := by
  unfold ShapesApp.copyObjectCB at h
  split at h
  · exact absurd h (by simp)
  · rename_i fr hf
    unfold UploadBuffer.CopyData at h
    split_ifs at h with hi
    simp only [Option.some.injEq] at h
    subst h
    refine ⟨List.map_set_same_image _ _ _ _ _ hf ?_, rfl⟩
    simp only [List.length_set]

theorem ShapesApp.UpdateObjectCBs_loop_sizes (L : MathLib) (slot : Nat)
    (items : List RenderItem) :
    ∀ (s s1 : ShapesApp) (items1 : List RenderItem),
      ShapesApp.UpdateObjectCBs.loop L slot items s = some (items1, s1) →
      s1.ringSizes = s.ringSizes ∧ s1.mMaterials = s.mMaterials := by
  induction items with
  | nil =>
    intro s s1 items1 h
    simp only [ShapesApp.UpdateObjectCBs.loop, Option.some.injEq, Prod.mk.injEq] at h
    obtain ⟨-, rfl⟩ := h
    exact ⟨rfl, rfl⟩
  | cons e es ih =>
    intro s s1 items1 h
    unfold ShapesApp.UpdateObjectCBs.loop at h
    split_ifs at h with hd
    · split at h
      · exact absurd h (by simp)
      · rename_i s2 hcopy
        split at h
        · exact absurd h (by simp)
        · rename_i es1 s3 hloop
          simp only [Option.some.injEq, Prod.mk.injEq] at h
          obtain ⟨-, rfl⟩ := h
          obtain ⟨c1, c2⟩ := ShapesApp.copyObjectCB_sizes _ _ _ _ _ hcopy
          obtain ⟨l1, l2⟩ := ih _ _ _ hloop
          exact ⟨l1.trans c1, l2.trans c2⟩
    · split at h
      · exact absurd h (by simp)
      · rename_i es1 s3 hloop
        simp only [Option.some.injEq, Prod.mk.injEq] at h
        obtain ⟨-, rfl⟩ := h
        exact ih _ _ _ hloop

theorem ShapesApp.UpdateObjectCBs_sizes (L : MathLib) (s s1 : ShapesApp)
    (h : ShapesApp.UpdateObjectCBs L s = some s1) :
    s1.ringSizes = s.ringSizes ∧ s1.mMaterials = s.mMaterials := by
  unfold ShapesApp.UpdateObjectCBs at h
  split at h
  · exact absurd h (by simp)
  · split at h
    · exact absurd h (by simp)
    · rename_i items s2 hloop
      simp only [Option.some.injEq] at h
      subst h
      exact ShapesApp.UpdateObjectCBs_loop_sizes L _ _ s s2 items hloop

theorem ShapesApp.copyMaterialCB_total (slot : Nat) (i : Int) (c : MaterialConstants)
    (s : ShapesApp) (sz : Nat × Nat × Nat) (hsz : s.ringSizes[slot]? = some sz)
    (hi : 0 ≤ i ∧ i < sz.2.1) :
    ∃ s1, ShapesApp.copyMaterialCB slot i c s = some s1 ∧ s1.ringSizes = s.ringSizes := by
  obtain ⟨fr, hf, -, hm, -⟩ := ShapesApp.ringSizes_getElem? s slot sz hsz
  rw [← hm] at hi
  have hdef : ShapesApp.copyMaterialCB slot i c s =
      some { s with
        mFrameResources := s.mFrameResources.set slot
          { fr with MaterialCB :=
              { fr.MaterialCB with elements := fr.MaterialCB.elements.set i.toNat (some c) } }
        cbWrites := s.cbWrites
          ++ [⟨slot, CBKind.material, i, fr.Fence, s.mFenceCompleted⟩] } := by
    simp [ShapesApp.copyMaterialCB, hf, UploadBuffer.CopyData, hi]
  refine ⟨_, hdef, ?_⟩
  refine List.map_set_same_image _ _ _ _ _ hf ?_
  simp only [List.length_set]

theorem ShapesApp.UpdateMaterialCBs_loop_total (slot : Nat) (sz : Nat × Nat × Nat)
    (mats : UMap (Option Material)) :
    ∀ s : ShapesApp, s.ringSizes[slot]? = some sz →
      (∀ kv ∈ mats, ∃ mat : Material, kv.2 = some mat ∧ 0 ≤ mat.MatCBIndex
        ∧ mat.MatCBIndex < sz.2.1) →
      ∃ mats1 s1, ShapesApp.UpdateMaterialCBs.loop slot mats s = some (mats1, s1)
        ∧ s1.ringSizes = s.ringSizes
        ∧ mats1.map (fun e => (e.1, e.2.map (fun mat => mat.MatCBIndex)))
            = mats.map (fun e => (e.1, e.2.map (fun mat => mat.MatCBIndex))) := by
  induction mats with
  | nil =>
    intro s _ _
    exact ⟨[], s, rfl, rfl, rfl⟩
  | cons e es ih =>
    intro s hsz hm
    obtain ⟨k, v⟩ := e
    obtain ⟨mat, hv, h0, h1⟩ := hm (k, v) (List.mem_cons_self _ _)
    simp only at hv
    subst hv
    have hrest : ∀ kv ∈ es, ∃ mat : Material, kv.2 = some mat ∧ 0 ≤ mat.MatCBIndex
        ∧ mat.MatCBIndex < sz.2.1 := fun kv hkv => hm kv (List.mem_cons_of_mem _ hkv)
    by_cases hd : mat.NumFramesDirty > 0
    · obtain ⟨s2, hcopy, hs2⟩ := ShapesApp.copyMaterialCB_total slot mat.MatCBIndex
        (ShapesApp.materialConstantsOf mat) s sz hsz ⟨h0, h1⟩
      obtain ⟨mats1, s3, hloop, hs3, hmats⟩ := ih s2 (by rw [hs2]; exact hsz) hrest
      refine ⟨(k, some { mat with NumFramesDirty := mat.NumFramesDirty - 1 }) :: mats1, s3,
        ?_, hs3.trans hs2, ?_⟩
      · simp only [ShapesApp.UpdateMaterialCBs.loop, hd, if_true, hcopy, hloop]
      · simp only [List.map_cons, hmats, Option.map_some']
    · obtain ⟨mats1, s3, hloop, hs3, hmats⟩ := ih s hsz hrest
      refine ⟨(k, some mat) :: mats1, s3, ?_, hs3, ?_⟩
      · simp only [ShapesApp.UpdateMaterialCBs.loop, hd, if_false, hloop]
      · simp only [List.map_cons, hmats]

theorem ShapesApp.currFrameResource_of_size (s : ShapesApp) (slot : Nat) (sz : Nat × Nat × Nat)
    (hslot : s.mCurrFrameResource = some slot) (hsz : s.ringSizes[slot]? = some sz) :
    ∃ fr, s.currFrameResource = some (slot, fr) ∧ fr.PassCB.elements.length = sz.1
      ∧ fr.MaterialCB.elements.length = sz.2.1 ∧ fr.ObjectCB.elements.length = sz.2.2 := by
  obtain ⟨fr, hf, a, b, c⟩ := ShapesApp.ringSizes_getElem? s slot sz hsz
  exact ⟨fr, (ShapesApp.currFrameResource_eq s slot fr).mpr ⟨hslot, hf⟩, a, b, c⟩

theorem ShapesApp.UpdateMaterialCBs_total (s : ShapesApp) (slot : Nat) (sz : Nat × Nat × Nat)
    (hslot : s.mCurrFrameResource = some slot) (hsz : s.ringSizes[slot]? = some sz)
    (hm : ∀ kv ∈ s.matCBIndices, ∃ i : Int, kv.2 = some i ∧ 0 ≤ i ∧ i < sz.2.1) :
    ∃ s1, ShapesApp.UpdateMaterialCBs s = some s1 ∧ s1.ringSizes = s.ringSizes
      ∧ s1.matCBIndices = s.matCBIndices := by
  obtain ⟨fr, hc, -⟩ := ShapesApp.currFrameResource_of_size s slot sz hslot hsz
  have hm2 : ∀ kv ∈ s.mMaterials, ∃ mat : Material, kv.2 = some mat ∧ 0 ≤ mat.MatCBIndex
      ∧ mat.MatCBIndex < sz.2.1 := by
    intro kv hkv
    obtain ⟨i, hi, h0, h1⟩ := hm (kv.1, kv.2.map (fun mat => mat.MatCBIndex))
      (List.mem_map.mpr ⟨kv, hkv, rfl⟩)
    simp only at hi
    cases hv : kv.2 with
    | none => rw [hv] at hi; exact absurd hi (by simp)
    | some mat =>
      rw [hv, Option.map_some', Option.some.injEq] at hi
      exact ⟨mat, rfl, by rw [hi]; exact h0, by rw [hi]; exact h1⟩
  obtain ⟨mats1, s1, hloop, hs1, hmats⟩ :=
    ShapesApp.UpdateMaterialCBs_loop_total slot sz s.mMaterials s hsz hm2
  refine ⟨{ s1 with mMaterials := mats1 }, ?_, hs1, hmats⟩
  simp only [ShapesApp.UpdateMaterialCBs, hc, hloop]

theorem ShapesApp.UpdateMainPassCB_total (L : MathLib) (gt : GameTimer) (s : ShapesApp)
    (slot : Nat) (sz : Nat × Nat × Nat)
    (hslot : s.mCurrFrameResource = some slot) (hsz : s.ringSizes[slot]? = some sz)
    (hp : 1 ≤ sz.1) :
    ∃ s1, ShapesApp.UpdateMainPassCB L gt s = some s1 ∧ s1.ringSizes = s.ringSizes
      ∧ s1.mMaterials = s.mMaterials := by
  obtain ⟨fr, hf, hpl, -, -⟩ := ShapesApp.ringSizes_getElem? s slot sz hsz
  have hlen : (0 : Int) < fr.PassCB.elements.length := by
    rw [hpl]
    exact_mod_cast hp
  have hcopy : ∀ (cb : PassConstants) (s2 : ShapesApp), s2.mFrameResources = s.mFrameResources →
      s2.mMaterials = s.mMaterials →
      ∃ s1, ShapesApp.copyPassCB slot 0 cb s2 = some s1 ∧ s1.ringSizes = s.ringSizes
        ∧ s1.mMaterials = s.mMaterials := by
    intro cb s2 h2 h3
    have hf2 : s2.mFrameResources[slot]? = some fr := by rw [h2]; exact hf
    have hdef : ShapesApp.copyPassCB slot 0 cb s2 =
        some { s2 with
          mFrameResources := s2.mFrameResources.set slot
            { fr with PassCB :=
                { fr.PassCB with elements := fr.PassCB.elements.set 0 (some cb) } }
          cbWrites := s2.cbWrites
            ++ [⟨slot, CBKind.pass, 0, fr.Fence, s2.mFenceCompleted⟩] } := by
      simp [ShapesApp.copyPassCB, hf2, UploadBuffer.CopyData, hlen]
    refine ⟨_, hdef, ?_, h3⟩
    show List.map _ (s2.mFrameResources.set slot _) = _
    rw [List.map_set_same_image _ _ _ _ _ hf2 (by simp only [List.length_set])]
    show s2.ringSizes = _
    simp only [ShapesApp.ringSizes, h2]
  simp only [ShapesApp.UpdateMainPassCB, ShapesApp.currFrameResource, hslot, hf]
  exact hcopy _ _ rfl rfl

theorem ShapesApp.Update_cycle_total (inp : ShapesApp.FrameInput) (s : ShapesApp)
    (hlen : s.ringSizes.length = gNumFrameResources) :
    ∃ s1, ShapesApp.Update.cycle inp s = some s1 ∧ s1.mMaterials = s.mMaterials := by
  have hlt : (s.mCurrFrameResourceIndex + 1) % gNumFrameResources < s.mFrameResources.length := by
    have h1 : s.mFrameResources.length = gNumFrameResources := by
      simpa [ShapesApp.ringSizes] using hlen
    rw [h1]
    exact Nat.mod_lt _ (by decide)
  have hf : s.mFrameResources[(s.mCurrFrameResourceIndex + 1) % gNumFrameResources]?
      = some (s.mFrameResources.get ⟨_, hlt⟩) := List.getElem?_eq_getElem hlt
  have hdef : ∃ s1, ShapesApp.Update.cycle inp s = some s1 := by
    simp only [ShapesApp.Update.cycle, hf]
    exact ⟨_, rfl⟩
  obtain ⟨s1, h1⟩ := hdef
  refine ⟨s1, h1, ?_⟩
  simp only [ShapesApp.Update.cycle, hf, Option.some.injEq] at h1
  subst h1
  split_ifs <;> rfl

/-- `Update` is defined on a ring of the right size, whatever the frame's input,
and leaves a ring of the right size. -/
theorem ShapesApp.Update_total (L : MathLib) (inp : ShapesApp.FrameInput) (s : ShapesApp)
    (h : s.Sized) :
    ∃ s1, ShapesApp.Update L inp s = some s1 ∧ s1.Sized ∧ s1.ringSizes = s.ringSizes
      ∧ s1.objCBIndices = s.objCBIndices ∧ s1.matCBIndices = s.matCBIndices := by
  obtain ⟨hlen, hidx, hall⟩ := h
  have hin : (ShapesApp.UpdateCamera L (ShapesApp.OnKeyboardInput inp.key1Down s)).ringSizes
        = s.ringSizes
      ∧ (ShapesApp.UpdateCamera L (ShapesApp.OnKeyboardInput inp.key1Down s)).mMaterials
        = s.mMaterials
      ∧ (ShapesApp.UpdateCamera L (ShapesApp.OnKeyboardInput inp.key1Down s)).mAllRitems
        = s.mAllRitems := by
    cases inp.key1Down <;> exact ⟨rfl, rfl, rfl⟩
  obtain ⟨i1, i2, i3⟩ := hin
  obtain ⟨s3, h3, m3⟩ := ShapesApp.Update_cycle_total inp
    (ShapesApp.UpdateCamera L (ShapesApp.OnKeyboardInput inp.key1Down s)) (by rw [i1]; exact hlen)
  obtain ⟨-, c2, c3, -, c5, -⟩ := ShapesApp.Update_cycle_spec inp _ s3 h3
  have r3 : s3.ringSizes = s.ringSizes := by
    rw [← i1]
    simp only [ShapesApp.ringSizes, c5]
  have hslt : s3.mCurrFrameResourceIndex < s3.ringSizes.length := by
    rw [r3, hlen, (ShapesApp.Update_cycle_spec inp _ s3 h3).1]
    exact Nat.mod_lt _ (by decide)
  have hsz3 : s3.ringSizes[s3.mCurrFrameResourceIndex]?
      = some (s3.ringSizes.get ⟨_, hslt⟩) := List.getElem?_eq_getElem hslt
  have hmem : s3.ringSizes.get ⟨_, hslt⟩ ∈ s.ringSizes := by
    rw [← r3]
    exact List.get_mem _ _ _
  obtain ⟨hp, ho, hm⟩ := hall _ hmem
  generalize s3.ringSizes.get ⟨_, hslt⟩ = sz at hsz3 hp ho hm
  obtain ⟨fr, hc, -, -, hol⟩ := ShapesApp.currFrameResource_of_size s3 _ sz c2 hsz3
  have hrange : s3.ObjectCBsInRange := by
    refine ⟨_, fr, hc, ?_⟩
    intro e he
    rw [c3, i3] at he
    obtain ⟨a, b⟩ := ho e.ObjCBIndex (List.mem_map.mpr ⟨e, he, rfl⟩)
    rw [toINT_of_lt b, hol]
    exact ⟨Int.natCast_nonneg _, by exact_mod_cast a⟩
  obtain ⟨s4, h4, -, -⟩ := ShapesApp.UpdateObjectCBs_spec L s3 hrange
  obtain ⟨r4, m4⟩ := ShapesApp.UpdateObjectCBs_sizes L s3 s4 h4
  obtain ⟨v4, -, -⟩ := ShapesApp.UpdateObjectCBs_preserves L s3 s4 _ h4 c2
  have hcur4 : s4.mCurrFrameResource = some s3.mCurrFrameResourceIndex := by
    have := congrArg (fun v => v.2.1) v4
    simp only [ShapesApp.ringView] at this
    rw [this, c2]
  have hmat4 : s4.matCBIndices = s.matCBIndices := by
    simp only [ShapesApp.matCBIndices, m4, m3, i2]
  obtain ⟨s5, h5, r5, m5⟩ := ShapesApp.UpdateMaterialCBs_total s4 _ sz hcur4
    (by rw [r4]; exact hsz3) (by rw [hmat4]; exact hm)
  obtain ⟨v5, -, -⟩ := ShapesApp.UpdateMaterialCBs_preserves s4 s5 _ h5 hcur4
  have hcur5 : s5.mCurrFrameResource = some s3.mCurrFrameResourceIndex := by
    have := congrArg (fun v => v.2.1) v5
    simp only [ShapesApp.ringView] at this
    rw [this, hcur4]
  obtain ⟨s1, h1, r1, m1⟩ := ShapesApp.UpdateMainPassCB_total L inp.gt s5 _ sz hcur5
    (by rw [r5, r4]; exact hsz3) hp
  have hupd : ShapesApp.Update L inp s = some s1 := by
    simp only [ShapesApp.Update, h3, h4, h5, h1]
  obtain ⟨u1, -, u3, -⟩ := ShapesApp.Update_spec L inp s s1 hupd
  have hr : s1.ringSizes = s.ringSizes := r1.trans (r5.trans (r4.trans r3))
  have hm1 : s1.matCBIndices = s.matCBIndices := by
    rw [← hmat4, ← m5]
    simp only [ShapesApp.matCBIndices, m1]
  refine ⟨s1, hupd, ⟨by rw [hr]; exact hlen, ?_, ?_⟩, hr, u3, hm1⟩
  · rw [u1]
    exact Nat.mod_lt _ (by decide)
  · rw [hr, u3, hm1]
    exact hall

/-! ## The state after startup -/

set_option maxRecDepth 100000 in
theorem BuilderTrace.build_start_range :
    (∀ i ∈ (BuilderTrace.build (0, [])).2, i < 137)
    ∧ ∀ i, i < 137 → i ∈ (BuilderTrace.build (0, [])).2 := by
  decide

/-- The state `Initialize` returns: 137 render items with the dirty countdown `3`,
a ring of three slots with buffers of 1, 3 and 137 unwritten elements, the ring
index `0`, no buffer written and the queue flushed at fence `1`. -/
theorem ShapesApp.startup_state (L : MathLib) (m : ShapeMeshes) :
    ∃ s0 s, ShapesApp.BuildRenderItems L
        (ShapesApp.BuildMaterials (ShapesApp.BuildShapeGeometry m {})) = some s0
      ∧ ShapesApp.Initialize L m {} = some s
      ∧ s.mAllRitems = s0.mAllRitems
      ∧ s.mAllRitems.length = 137
      ∧ s.objCBIndices = (BuilderTrace.build (0, [])).2
      ∧ (∀ e ∈ s.mAllRitems, e.NumFramesDirty = gNumFrameResources)
      ∧ s.mFrameResources = List.replicate 3 (FrameResource.create 1 137 3)
      ∧ s.mCurrFrameResourceIndex = 0
      ∧ s.matCBIndices = [("bricks0", some 0), ("stone0", some 1), ("tile0", some 2)]
      ∧ s.cbWrites = []
      ∧ s.mCurrentFence = 1 ∧ s.mFenceCompleted = 1 := by
  obtain ⟨s0, pre, w0, w1, p, h, l, n, t, -, -, -, -, hm, -, ho⟩ := ShapesApp.scene_items L m
  obtain ⟨s0b, g, hb, -, -, -, -, hf, hlen, -⟩ := ShapesApp.scene_shapes L m
  rw [h, Option.some.injEq] at hb
  subst hb
  have hfr : s0.mFrameResources = [] := congrArg (fun v => v.1) ho
  have hidx : s0.mCurrFrameResourceIndex = 0 := congrArg (fun v => v.2.2.1) ho
  have hcf : s0.mCurrentFence = 0 := congrArg (fun v => v.2.2.2.1) ho
  have hw : s0.cbWrites = [] := congrArg (fun v => v.2.2.2.2.2.2.2.2.2) ho
  have hmat : s0.mMaterials.length = 3 := by
    rw [hm]
    rfl
  have hmi : s0.matCBIndices = [("bricks0", some 0), ("stone0", some 1), ("tile0", some 2)] := by
    simp only [ShapesApp.matCBIndices, hm]
    simp [ShapesApp.BuildMaterials, ShapesApp.BuildShapeGeometry, UMap.assign]
  refine ⟨s0, _, h, ShapesApp.Initialize_eq L m {} s0 h, ?_, ?_, ?_, ?_, ?_, ?_, ?_, ?_, ?_, ?_⟩
  · rw [ShapesApp.BuildFrameResources_eq]
    rfl
  · rw [ShapesApp.BuildFrameResources_eq]
    exact hlen
  · rw [ShapesApp.BuildFrameResources_eq]
    exact t
  · rw [ShapesApp.BuildFrameResources_eq]
    intro e he
    obtain ⟨nm, -, sub, -, -, -, -, -, -, e3, -⟩ := List.Forall₂.exists_of_mem_left hf e he
    exact e3
  · rw [ShapesApp.BuildFrameResources_eq]
    show s0.mFrameResources ++ List.replicate 3 _ = _
    rw [hfr, hlen, hmat]
    rfl
  · rw [ShapesApp.BuildFrameResources_eq]
    exact hidx
  · rw [ShapesApp.BuildFrameResources_eq]
    exact hmi
  · rw [ShapesApp.BuildFrameResources_eq]
    exact hw
  · rw [ShapesApp.BuildFrameResources_eq]
    show (s0.mCurrentFence + 1) % UINT64_RANGE = 1
    rw [hcf]
    rfl
  · rw [ShapesApp.BuildFrameResources_eq]
    show (s0.mCurrentFence + 1) % UINT64_RANGE = 1
    rw [hcf]
    rfl

/-- The state `Initialize` returns has a ring of the right size. -/
theorem ShapesApp.startup_sized (s : ShapesApp)
    (hi : s.objCBIndices = (BuilderTrace.build (0, [])).2)
    (hf : s.mFrameResources = List.replicate 3 (FrameResource.create 1 137 3))
    (hx : s.mCurrFrameResourceIndex = 0)
    (hm : s.matCBIndices = [("bricks0", some 0), ("stone0", some 1), ("tile0", some 2)]) :
    s.Sized ∧ s.ringSizes = [(1, 3, 137), (1, 3, 137), (1, 3, 137)] := by
  have hr : s.ringSizes = [(1, 3, 137), (1, 3, 137), (1, 3, 137)] := by
    simp [ShapesApp.ringSizes, hf, FrameResource.create, UploadBuffer.create, List.replicate]
  refine ⟨⟨by rw [hr]; rfl, by rw [hx]; decide, ?_⟩, hr⟩
  intro sz hsz
  rw [hr] at hsz
  have hsz2 : sz = (1, 3, 137) := by
    simp only [List.mem_cons, List.mem_singleton, List.not_mem_nil, or_false, or_self] at hsz
    exact hsz
  subst hsz2
  refine ⟨le_refl _, ?_, ?_⟩
  · intro i hi2
    rw [hi] at hi2
    have := BuilderTrace.build_start_range.1 i hi2
    exact ⟨this, by omega⟩
  · intro kv hkv
    rw [hm] at hkv
    simp only [List.mem_cons, List.mem_singleton, List.not_mem_nil, or_false] at hkv
    rcases hkv with h | h | h <;> subst h
    · exact ⟨0, rfl, by decide, by decide⟩
    · exact ⟨1, rfl, by decide, by decide⟩
    · exact ⟨2, rfl, by decide, by decide⟩

/-! ## The object index stays inside the object buffers (C22) -/

theorem ShapesApp.Sized.of_views (s s1 : ShapesApp) (h : s.Sized)
    (hr : s1.ringSizes = s.ringSizes) (hx : s1.mCurrFrameResourceIndex = s.mCurrFrameResourceIndex)
    (ho : s1.objCBIndices = s.objCBIndices) (hm : s1.matCBIndices = s.matCBIndices) :
    s1.Sized := by
  unfold ShapesApp.Sized
  rw [hr, hx, ho, hm]
  exact h

theorem ShapesApp.Draw_views (s s1 : ShapesApp) (h : ShapesApp.Draw s = some s1) :
    s1.ringSizes = s.ringSizes ∧ s1.matCBIndices = s.matCBIndices
    ∧ s1.objectBuffers = s.objectBuffers := by
  cases hc : s.currFrameResource with
  | none => simp [ShapesApp.Draw, hc] at h
  | some p =>
    obtain ⟨slot, fr⟩ := p
    obtain ⟨-, hf⟩ := (ShapesApp.currFrameResource_eq s slot fr).mp hc
    obtain ⟨-, -, -, d4⟩ := ShapesApp.Draw_fence s s1 slot fr hc h
    refine ⟨?_, ?_, ?_⟩
    · simp only [ShapesApp.ringSizes, d4]
      exact List.map_set_same_image _ _ _ _ _ hf rfl
    · unfold ShapesApp.Draw at h
      rw [hc] at h
      simp only at h
      split at h
      · exact absurd h (by simp)
      · simp only [Option.some.injEq] at h
        subst h
        rfl
    · simp only [ShapesApp.objectBuffers, d4]
      exact List.map_set_same_image _ _ _ _ _ hf rfl

theorem ShapesApp.OnMouseMove_views (s : ShapesApp) (b : Nat) (x y : Int) :
    (ShapesApp.OnMouseMove s b x y).mFrameResources = s.mFrameResources
    ∧ (ShapesApp.OnMouseMove s b x y).mCurrFrameResourceIndex = s.mCurrFrameResourceIndex
    ∧ (ShapesApp.OnMouseMove s b x y).mAllRitems = s.mAllRitems
    ∧ (ShapesApp.OnMouseMove s b x y).mMaterials = s.mMaterials := by
  unfold ShapesApp.OnMouseMove
  simp only []
  split_ifs <;> exact ⟨rfl, rfl, rfl, rfl⟩

/-- An event leaves a ring of the right size as it is. -/
theorem ShapesApp.exec_sized (L : MathLib) (e : Event) (s s1 : ShapesApp)
    (h : ShapesApp.exec L s e = some s1) (hs : s.Sized) :
    s1.Sized ∧ s1.ringSizes = s.ringSizes ∧ s1.objCBIndices = s.objCBIndices := by
  cases e with
  | update inp =>
    obtain ⟨s2, h2, a, b, c, -⟩ := ShapesApp.Update_total L inp s hs
    simp only [ShapesApp.exec] at h
    rw [h2, Option.some.injEq] at h
    subst h
    exact ⟨a, b, c⟩
  | draw =>
    simp only [ShapesApp.exec] at h
    obtain ⟨d1, -, d3, -⟩ := ShapesApp.Draw_spec s s1 h
    obtain ⟨v1, v2, -⟩ := ShapesApp.Draw_views s s1 h
    have ho : s1.objCBIndices = s.objCBIndices := by simp only [ShapesApp.objCBIndices, d3]
    exact ⟨ShapesApp.Sized.of_views s s1 hs v1 d1 ho v2, v1, ho⟩
  | mouseDown b x y =>
    simp only [ShapesApp.exec, Option.some.injEq] at h
    subst h
    exact ⟨hs, rfl, rfl⟩
  | mouseMove b x y =>
    simp only [ShapesApp.exec, Option.some.injEq] at h
    subst h
    obtain ⟨a, b2, c, d⟩ := ShapesApp.OnMouseMove_views s b x y
    have hr : (ShapesApp.OnMouseMove s b x y).ringSizes = s.ringSizes := by
      simp only [ShapesApp.ringSizes, a]
    have ho : (ShapesApp.OnMouseMove s b x y).objCBIndices = s.objCBIndices := by
      simp only [ShapesApp.objCBIndices, c]
    have hm : (ShapesApp.OnMouseMove s b x y).matCBIndices = s.matCBIndices := by
      simp only [ShapesApp.matCBIndices, d]
    exact ⟨ShapesApp.Sized.of_views s _ hs hr b2 ho hm, hr, ho⟩
  | gpu c =>
    simp only [ShapesApp.exec, Option.some.injEq] at h
    subst h
    exact ⟨hs, rfl, rfl⟩

theorem ShapesApp.execAll_sized (L : MathLib) (es : List Event) :
    ∀ s s1 : ShapesApp, ShapesApp.execAll L es s = some s1 → s.Sized →
      s1.Sized ∧ s1.ringSizes = s.ringSizes ∧ s1.objCBIndices = s.objCBIndices := by
  induction es with
  | nil =>
    intro s s1 h hs
    simp only [ShapesApp.execAll, Option.some.injEq] at h
    subst h
    exact ⟨hs, rfl, rfl⟩
  | cons e es ih =>
    intro s s1 h hs
    simp only [ShapesApp.execAll] at h
    split at h
    · exact absurd h (by simp)
    · rename_i s2 h2
      obtain ⟨a1, a2, a3⟩ := ShapesApp.exec_sized L e s s2 h2 hs
      obtain ⟨b1, b2, b3⟩ := ih s2 s1 h a1
      exact ⟨b1, b2.trans a2, b3.trans a3⟩

/-- C22. The `ObjCBIndex` values of the items built by `BuildRenderItems` are
exactly the numbers below `n`, the length of `mAllRitems` (and no two items share
one), and `n` is the object-constant capacity of each frame resource. So in every
state reached from the state after `Initialize` by `Update`, `Draw`, mouse and GPU
events, every `ObjCBIndex` is strictly below the capacity of every slot's object
buffer: the `CopyData` call of `UpdateObjectCBs` at that index is inside the
buffer, and so is the element at the address offset `DrawRenderItems` computes. -/
theorem objCBIndex_in_bounds (L : MathLib) (m : ShapeMeshes) :
    ∃ s0 s, ShapesApp.BuildRenderItems L
        (ShapesApp.BuildMaterials (ShapesApp.BuildShapeGeometry m {})) = some s0
      ∧ ShapesApp.Initialize L m {} = some s
      ∧ s.mAllRitems = s0.mAllRitems
      ∧ (∀ i, i ∈ s0.objCBIndices ↔ i < s0.mAllRitems.length)
      ∧ s0.objCBIndices.Nodup
      ∧ (∀ fr ∈ s.mFrameResources, fr.ObjectCB.elements.length = s0.mAllRitems.length)
      ∧ ∀ es s1, ShapesApp.execAll L es s = some s1 →
          ∀ e ∈ s1.mAllRitems, ∀ fr ∈ s1.mFrameResources,
            fr.ObjectCB.elements.length = s0.mAllRitems.length
            ∧ e.ObjCBIndex < fr.ObjectCB.elements.length
            ∧ (0 ≤ toINT e.ObjCBIndex ∧ toINT e.ObjCBIndex < fr.ObjectCB.elements.length)
            ∧ (∀ c, (fr.ObjectCB.CopyData (toINT e.ObjCBIndex) c).isSome = true)
            ∧ toUINT (e.ObjCBIndex * d3dUtil.CalcConstantBufferByteSize sizeofObjectConstants)
                + d3dUtil.CalcConstantBufferByteSize sizeofObjectConstants
              ≤ fr.ObjectCB.elements.length
                * d3dUtil.CalcConstantBufferByteSize sizeofObjectConstants := by
  obtain ⟨s0, s, h0, h, hitems, hlen, hidx, -, hfr, hx, hmat, -, -, -⟩ :=
    ShapesApp.startup_state L m
  obtain ⟨hsized, hsizes⟩ := ShapesApp.startup_sized s hidx hfr hx hmat
  have hidx0 : s0.objCBIndices = (BuilderTrace.build (0, [])).2 := by
    rw [← hidx]
    simp only [ShapesApp.objCBIndices, hitems]
  have hlen0 : s0.mAllRitems.length = 137 := by rw [← hitems]; exact hlen
  have hcap : ∀ s1 : ShapesApp, s1.ringSizes = [(1, 3, 137), (1, 3, 137), (1, 3, 137)] →
      ∀ fr ∈ s1.mFrameResources, fr.ObjectCB.elements.length = 137 := by
    intro s1 hr fr hfr1
    have hmem : (fr.PassCB.elements.length, fr.MaterialCB.elements.length,
        fr.ObjectCB.elements.length) ∈ s1.ringSizes := List.mem_map.mpr ⟨fr, hfr1, rfl⟩
    rw [hr] at hmem
    simp only [List.mem_cons, List.mem_singleton, List.not_mem_nil, or_false, or_self,
      Prod.mk.injEq] at hmem
    exact hmem.2.2
  refine ⟨s0, s, h0, h, hitems, ?_, ?_, ?_, ?_⟩
  · intro i
    rw [hidx0, hlen0]
    exact ⟨BuilderTrace.build_start_range.1 i, BuilderTrace.build_start_range.2 i⟩
  · rw [hidx0]
    exact BuilderTrace.build_start_nodup
  · intro fr hfr1
    rw [hlen0]
    exact hcap s hsizes fr hfr1
  · intro es s1 hrun e he fr hfr1
    obtain ⟨-, r1, r2⟩ := ShapesApp.execAll_sized L es s s1 hrun hsized
    have hc := hcap s1 (r1.trans hsizes) fr hfr1
    have hlt : e.ObjCBIndex < 137 := by
      apply BuilderTrace.build_start_range.1
      rw [← hidx, ← r2]
      exact List.mem_map.mpr ⟨e, he, rfl⟩
    have hconv : toINT e.ObjCBIndex = (e.ObjCBIndex : Int) := toINT_of_lt (by omega)
    have hin : 0 ≤ toINT e.ObjCBIndex ∧ toINT e.ObjCBIndex < fr.ObjectCB.elements.length := by
      rw [hconv, hc]
      exact ⟨Int.natCast_nonneg _, by exact_mod_cast hlt⟩
    have hsize : d3dUtil.CalcConstantBufferByteSize sizeofObjectConstants = 256 := by decide
    refine ⟨by rw [hc, hlen0], by rw [hc]; exact hlt, hin, ?_, ?_⟩
    · intro c
      simp only [UploadBuffer.CopyData, hin, and_self, if_true, Option.isSome_some]
    · rw [hsize, hc, toUINT_of_lt (by omega)]
      omega

/-! ## Three calls of `Update` fill every slot (C21) -/

theorem ShapesApp.countDown_record (L : MathLib) (e : RenderItem) :
    (ShapesApp.countDown e).ObjCBIndex = e.ObjCBIndex
    ∧ ShapesApp.objectConstantsOf L (ShapesApp.countDown e) = ShapesApp.objectConstantsOf L e := by
  unfold ShapesApp.countDown
  split_ifs <;> exact ⟨rfl, rfl⟩

theorem ShapesApp.countDown_dirty (e : RenderItem) (k : Int) (hk : 0 < k)
    (h : e.NumFramesDirty = k) : (ShapesApp.countDown e).NumFramesDirty = k - 1 := by
  unfold ShapesApp.countDown
  rw [if_pos (by rw [h]; exact hk)]
  show e.NumFramesDirty - 1 = k - 1
  rw [h]

/-- What `Update` does to the object buffers: the buffer of the slot it advances
to is rewritten at the `ObjCBIndex` of the dirty items, and nothing else changes. -/
theorem ShapesApp.Update_buffers (L : MathLib) (inp : ShapesApp.FrameInput) (s s1 : ShapesApp)
    (h : ShapesApp.Update L inp s = some s1)
    (hU : ∀ e ∈ s.mAllRitems, e.ObjCBIndex < UINT_RANGE) :
    ∃ els els1,
      s.objectBuffers[(s.mCurrFrameResourceIndex + 1) % gNumFrameResources]? = some els
      ∧ s1.objectBuffers
          = s.objectBuffers.set ((s.mCurrFrameResourceIndex + 1) % gNumFrameResources) els1
      ∧ s1.mAllRitems = s.mAllRitems.map ShapesApp.countDown
      ∧ (∀ i, (∀ e ∈ s.mAllRitems, 0 < e.NumFramesDirty → e.ObjCBIndex ≠ i) →
          els1[i]? = els[i]?)
      ∧ (∀ e ∈ s.mAllRitems, 0 < e.NumFramesDirty →
          ∃ e2 ∈ s.mAllRitems, 0 < e2.NumFramesDirty ∧ e2.ObjCBIndex = e.ObjCBIndex
            ∧ els1[e.ObjCBIndex]? = some (some (ShapesApp.objectConstantsOf L e2))) := by
  obtain ⟨s3, s4, s5, h3, h4, h5, h6⟩ := ShapesApp.Update_stages L inp s s1 h
  obtain ⟨-, i2, -, i4⟩ := ShapesApp.input_phase L inp.key1Down s
  have hidx : (ShapesApp.UpdateCamera L
      (ShapesApp.OnKeyboardInput inp.key1Down s)).mCurrFrameResourceIndex
      = s.mCurrFrameResourceIndex := by
    cases inp.key1Down <;> rfl
  obtain ⟨c1, c2, c3, -, c5, -⟩ := ShapesApp.Update_cycle_spec inp _ s3 h3
  rw [hidx] at c1
  rw [c1] at c2
  have hitems3 : s3.mAllRitems = s.mAllRitems := c3.trans i4
  have hbuf3 : s3.objectBuffers = s.objectBuffers := by
    simp only [ShapesApp.objectBuffers, c5, i2]
  obtain ⟨els, els1, b1, b2, -, b4, b5, b6⟩ := ShapesApp.UpdateObjectCBs_buffers L s3 s4 _ h4 c2
  obtain ⟨m1, m2⟩ := ShapesApp.UpdateMaterialCBs_objectBuffers s4 s5 h5
  obtain ⟨p1, p2⟩ := ShapesApp.UpdateMainPassCB_objectBuffers L inp.gt s5 s1 h6
  rw [hbuf3] at b1
  rw [hitems3] at b5 b6
  have hconv : ∀ e ∈ s.mAllRitems, 0 < e.NumFramesDirty →
      toINT e.ObjCBIndex = (e.ObjCBIndex : Int) := fun e he hd =>
    toINT_of_nonneg (hU e he) (b6 e he hd).1
  refine ⟨els, els1, b1, by rw [p1, m1, b2, hbuf3], by rw [p2, m2, b4, hitems3], ?_, ?_⟩
  · intro i hi
    apply b5 i
    intro e he hd
    rw [hconv e he hd]
    have := hi e he hd
    omega
  · intro e he hd
    obtain ⟨-, -, e2, he2, hd2, hi2, hv⟩ := b6 e he hd
    rw [hconv e he hd] at hv hi2
    rw [hconv e2 he2 hd2] at hi2
    rw [Int.toNat_ofNat] at hv
    exact ⟨e2, he2, hd2, by omega, hv⟩

/-- After `Update`, the slot it advanced to holds the record of every item when
every item was dirty or the slot held the records before; every other slot that
held the records before still holds them. -/
theorem ShapesApp.Update_populated (L : MathLib) (inp : ShapesApp.FrameInput) (s s1 : ShapesApp)
    (h : ShapesApp.Update L inp s = some s1)
    (hU : ∀ e ∈ s.mAllRitems, e.ObjCBIndex < UINT_RANGE) (hnd : s.objCBIndices.Nodup) :
    s1.objectRecords L = s.objectRecords L
    ∧ (((∀ e ∈ s.mAllRitems, 0 < e.NumFramesDirty)
          ∨ s.Populated L ((s.mCurrFrameResourceIndex + 1) % gNumFrameResources)) →
        s1.Populated L ((s.mCurrFrameResourceIndex + 1) % gNumFrameResources))
    ∧ ∀ k, k ≠ (s.mCurrFrameResourceIndex + 1) % gNumFrameResources →
        s.Populated L k → s1.Populated L k := by
  obtain ⟨els, els1, b1, b2, b3, b4, b5⟩ := ShapesApp.Update_buffers L inp s s1 h hU
  have hslot : (s.mCurrFrameResourceIndex + 1) % gNumFrameResources < s.objectBuffers.length := by
    by_contra hge
    rw [List.getElem?_eq_none (by omega)] at b1
    exact absurd b1 (by simp)
  have hrec : s1.objectRecords L = s.objectRecords L := by
    simp only [ShapesApp.objectRecords, b3, List.map_map]
    apply List.map_congr_left
    intro e _
    simp only [Function.comp, (ShapesApp.countDown_record L e).1,
      (ShapesApp.countDown_record L e).2]
  refine ⟨hrec, ?_, ?_⟩
  · intro hcase
    refine ⟨els1, by rw [b2, List.getElem?_set_self hslot], ?_⟩
    intro e1 he1
    rw [b3, List.mem_map] at he1
    obtain ⟨e, he, rfl⟩ := he1
    rw [(ShapesApp.countDown_record L e).1, (ShapesApp.countDown_record L e).2]
    by_cases hd : 0 < e.NumFramesDirty
    · obtain ⟨e2, he2, -, hi2, hv⟩ := b5 e he hd
      have : e2 = e := List.inj_on_of_nodup_map hnd he2 he hi2
      rw [this] at hv
      exact hv
    · rcases hcase with hall | ⟨els0, g1, g2⟩
      · exact absurd (hall e he) hd
      · rw [b1, Option.some.injEq] at g1
        subst g1
        rw [b4 e.ObjCBIndex]
        · exact g2 e he
        · intro e2 he2 hd2 hi2
          have : e2 = e := List.inj_on_of_nodup_map hnd he2 he hi2
          rw [this] at hd2
          exact hd hd2
  · intro k hk ⟨els0, g1, g2⟩
    refine ⟨els0, by rw [b2, List.getElem?_set_ne (Ne.symm hk)]; exact g1, ?_⟩
    intro e1 he1
    rw [b3, List.mem_map] at he1
    obtain ⟨e, he, rfl⟩ := he1
    rw [(ShapesApp.countDown_record L e).1, (ShapesApp.countDown_record L e).2]
    exact g2 e he

/-- An event other than `Update` changes no object buffer, no render item and not
the ring index. -/
theorem ShapesApp.exec_other_views (L : MathLib) (e : Event) (s s1 : ShapesApp)
    (h : ShapesApp.exec L s e = some s1) (hne : ∀ inp, e ≠ Event.update inp) :
    s1.objectBuffers = s.objectBuffers ∧ s1.mAllRitems = s.mAllRitems
    ∧ s1.mCurrFrameResourceIndex = s.mCurrFrameResourceIndex := by
  cases e with
  | update inp => exact absurd rfl (hne inp)
  | draw =>
    simp only [ShapesApp.exec] at h
    obtain ⟨d1, -, d3, -⟩ := ShapesApp.Draw_spec s s1 h
    exact ⟨(ShapesApp.Draw_views s s1 h).2.2, d3, d1⟩
  | mouseDown b x y =>
    simp only [ShapesApp.exec, Option.some.injEq] at h
    subst h
    exact ⟨rfl, rfl, rfl⟩
  | mouseMove b x y =>
    simp only [ShapesApp.exec, Option.some.injEq] at h
    subst h
    obtain ⟨a, b2, c, -⟩ := ShapesApp.OnMouseMove_views s b x y
    exact ⟨by simp only [ShapesApp.objectBuffers, a], c, b2⟩
  | gpu c =>
    simp only [ShapesApp.exec, Option.some.injEq] at h
    subst h
    exact ⟨rfl, rfl, rfl⟩

theorem ShapesApp.execAll_populates (L : MathLib) (es : List Event) :
    ∀ (s s1 : ShapesApp) (j : Nat), s.Sized → s.objCBIndices.Nodup →
      (∀ e ∈ s.mAllRitems, e.NumFramesDirty = (3 : Int) - (j : Int)) →
      j + ShapesApp.updateCount es ≤ 3 →
      (∀ i, i < j → s.Populated L ((s.mCurrFrameResourceIndex + 3 - i) % 3)) →
      ShapesApp.execAll L es s = some s1 →
      (∀ e ∈ s1.mAllRitems,
          e.NumFramesDirty = (3 : Int) - ((j + ShapesApp.updateCount es : Nat) : Int))
      ∧ (∀ i, i < j + ShapesApp.updateCount es →
          s1.Populated L ((s1.mCurrFrameResourceIndex + 3 - i) % 3))
      ∧ s1.objectRecords L = s.objectRecords L := by
  induction es with
  | nil =>
    intro s s1 j _ _ hd _ hp h
    simp only [ShapesApp.execAll, Option.some.injEq] at h
    subst h
    exact ⟨by simpa [ShapesApp.updateCount] using hd, by simpa [ShapesApp.updateCount] using hp,
      rfl⟩
  | cons e es ih =>
    intro s s1 j hs hnd hd hj hp h
    simp only [ShapesApp.execAll] at h
    split at h
    · exact absurd h (by simp)
    · rename_i s2 h2
      obtain ⟨z1, -, z3⟩ := ShapesApp.exec_sized L e s s2 h2 hs
      have hnd2 : s2.objCBIndices.Nodup := by rw [z3]; exact hnd
      have hidx : s.mCurrFrameResourceIndex < 3 := hs.2.1
      by_cases hu : ∃ inp, e = Event.update inp
      · obtain ⟨inp, rfl⟩ := hu
        have hcount : ShapesApp.updateCount (Event.update inp :: es)
            = ShapesApp.updateCount es + 1 := rfl
        rw [hcount] at hj ⊢
        simp only [ShapesApp.exec] at h2
        have hU : ∀ e ∈ s.mAllRitems, e.ObjCBIndex < UINT_RANGE := by
          intro e he
          obtain ⟨sz, hsz⟩ : ∃ sz, sz ∈ s.ringSizes := by
            have hl := hs.1
            cases hr : s.ringSizes with
            | nil => rw [hr] at hl; exact absurd hl (by decide)
            | cons a l => exact ⟨a, List.mem_cons_self _ _⟩
          have := ((hs.2.2 sz hsz).2.1 e.ObjCBIndex (List.mem_map.mpr ⟨e, he, rfl⟩)).2
          unfold UINT_RANGE
          omega
        obtain ⟨u1, -, -, -⟩ := ShapesApp.Update_spec L inp s s2 h2
        have hg : gNumFrameResources = 3 := rfl
        rw [hg] at u1
        obtain ⟨q1, q2, q3⟩ := ShapesApp.Update_populated L inp s s2 h2 hU hnd
        rw [hg] at q2 q3
        obtain ⟨els0, els1, -, -, b3, -, -⟩ := ShapesApp.Update_buffers L inp s s2 h2 hU
        have hd2 : ∀ e ∈ s2.mAllRitems, e.NumFramesDirty = (3 : Int) - ((j + 1 : Nat) : Int) := by
          intro e1 he1
          rw [b3, List.mem_map] at he1
          obtain ⟨e0, he0, rfl⟩ := he1
          rw [ShapesApp.countDown_dirty e0 _ (by omega) (hd e0 he0)]
          omega
        have hp2 : ∀ i, i < j + 1 →
            s2.Populated L ((s2.mCurrFrameResourceIndex + 3 - i) % 3) := by
          intro i hi
          rcases Nat.eq_zero_or_pos i with h0 | hpos
          · subst h0
            have hslot : (s2.mCurrFrameResourceIndex + 3 - 0) % 3
                = (s.mCurrFrameResourceIndex + 1) % 3 := by
              rw [u1]
              omega
            rw [hslot]
            apply q2
            left
            intro e0 he0
            rw [hd e0 he0]
            omega
          · have hslot : (s2.mCurrFrameResourceIndex + 3 - i) % 3
                = (s.mCurrFrameResourceIndex + 3 - (i - 1)) % 3 := by
              rw [u1]
              omega
            rw [hslot]
            apply q3
            · omega
            · exact hp (i - 1) (by omega)
        obtain ⟨r1, r2, r3⟩ := ih s2 s1 (j + 1) z1 hnd2 hd2 (by omega) hp2 h
        have hsum : j + 1 + ShapesApp.updateCount es = j + (ShapesApp.updateCount es + 1) := by
          omega
        rw [hsum] at r1 r2
        exact ⟨r1, r2, r3.trans q1⟩
      · have hne : ∀ inp, e ≠ Event.update inp := fun inp he => hu ⟨inp, he⟩
        have hcount : ShapesApp.updateCount (e :: es) = ShapesApp.updateCount es := by
          cases e <;> first | rfl | exact absurd rfl (hne _)
        rw [hcount] at hj ⊢
        obtain ⟨v1, v2, v3⟩ := ShapesApp.exec_other_views L e s s2 h2 hne
        have hd2 : ∀ e ∈ s2.mAllRitems, e.NumFramesDirty = (3 : Int) - (j : Int) := by
          rw [v2]
          exact hd
        have hp2 : ∀ i, i < j → s2.Populated L ((s2.mCurrFrameResourceIndex + 3 - i) % 3) := by
          intro i hi
          obtain ⟨els, g1, g2⟩ := hp i hi
          exact ⟨els, by rw [v1, v3]; exact g1, by rw [v2]; exact g2⟩
        obtain ⟨r1, r2, r3⟩ := ih s2 s1 j z1 hnd2 hd2 hj hp2 h
        refine ⟨r1, r2, r3.trans ?_⟩
        simp only [ShapesApp.objectRecords, v2]

/-- From a state with a ring of the right size in which every item has the dirty
countdown `3`, any events with three calls of `Update` among them leave every
countdown at `0` and the records of all the items in the object buffer of every
slot. -/
theorem ShapesApp.three_updates_populate (L : MathLib) (es : List Event) (s s1 : ShapesApp)
    (hs : s.Sized) (hnd : s.objCBIndices.Nodup)
    (hd : ∀ e ∈ s.mAllRitems, e.NumFramesDirty = gNumFrameResources)
    (hc : ShapesApp.updateCount es = gNumFrameResources)
    (h : ShapesApp.execAll L es s = some s1) :
    (∀ e ∈ s1.mAllRitems, e.NumFramesDirty = 0)
    ∧ ∀ slot, slot < gNumFrameResources → ∀ e ∈ s.mAllRitems,
        ∃ els, s1.objectBuffers[slot]? = some els
          ∧ els[e.ObjCBIndex]? = some (some (ShapesApp.objectConstantsOf L e)) := by
  have hg : gNumFrameResources = 3 := rfl
  rw [hg] at hc
  obtain ⟨r1, r2, r3⟩ := ShapesApp.execAll_populates L es s s1 0 hs hnd
    (by intro e he; rw [hd e he, hg]; rfl) (by omega) (fun i hi => absurd hi (by omega)) h
  rw [hc] at r1 r2
  refine ⟨fun e he => by rw [r1 e he]; rfl, ?_⟩
  intro slot hslot e he
  rw [hg] at hslot
  have hidx1 : s1.mCurrFrameResourceIndex < 3 :=
    (ShapesApp.execAll_sized L es s s1 h hs).1.2.1
  have hi : (s1.mCurrFrameResourceIndex + 3 - (s1.mCurrFrameResourceIndex + 3 - slot) % 3) % 3
      = slot := by omega
  obtain ⟨els, g1, g2⟩ := r2 ((s1.mCurrFrameResourceIndex + 3 - slot) % 3) (by omega)
  rw [hi] at g1
  have hmem : (e.ObjCBIndex, ShapesApp.objectConstantsOf L e) ∈ s1.objectRecords L := by
    rw [r3]
    exact List.mem_map.mpr ⟨e, he, rfl⟩
  obtain ⟨e1, he1, heq⟩ := List.mem_map.mp hmem
  rw [Prod.mk.injEq] at heq
  refine ⟨els, g1, ?_⟩
  rw [← heq.1, ← heq.2]
  exact g2 e1 he1

/-- C21. In the state right after startup every render item has the dirty
countdown `N = 3` and no element of any object buffer has been written. From there
three consecutive calls of `Update`, whatever their inputs, are defined; the
current slot is `1`, then `2`, then `0`, so each of the three slots is current
exactly once; afterwards every countdown is `0` and, for every render item and
every slot, the object buffer of the slot holds the item's record at the index
`ObjCBIndex`. The same holds after any events with exactly three calls of
`Update` among them (calls of `Draw`, mouse and GPU events in between). -/
theorem three_updates_fill_ring (L : MathLib) (m : ShapeMeshes)
    (i1 i2 i3 : ShapesApp.FrameInput) :
    ∃ s, ShapesApp.Initialize L m {} = some s
      ∧ (∀ e ∈ s.mAllRitems, e.NumFramesDirty = gNumFrameResources)
      ∧ s.cbWrites = []
      ∧ (∀ els ∈ s.objectBuffers, ∀ x ∈ els, x = none)
      ∧ (∃ s1 s2 s3, ShapesApp.Update L i1 s = some s1 ∧ ShapesApp.Update L i2 s1 = some s2
          ∧ ShapesApp.Update L i3 s2 = some s3
          ∧ [s1.mCurrFrameResource, s2.mCurrFrameResource, s3.mCurrFrameResource]
              = [some 1, some 2, some 0]
          ∧ (∀ e ∈ s3.mAllRitems, e.NumFramesDirty = 0)
          ∧ ∀ slot, slot < gNumFrameResources → ∀ e ∈ s.mAllRitems,
              ∃ els, s3.objectBuffers[slot]? = some els
                ∧ els[e.ObjCBIndex]? = some (some (ShapesApp.objectConstantsOf L e)))
      ∧ ∀ es s3, ShapesApp.updateCount es = gNumFrameResources →
          ShapesApp.execAll L es s = some s3 →
          (∀ e ∈ s3.mAllRitems, e.NumFramesDirty = 0)
          ∧ ∀ slot, slot < gNumFrameResources → ∀ e ∈ s.mAllRitems,
              ∃ els, s3.objectBuffers[slot]? = some els
                ∧ els[e.ObjCBIndex]? = some (some (ShapesApp.objectConstantsOf L e)) := by
  obtain ⟨s0, s, -, h, -, -, hidx, hdirty, hfr, hx, hmat, hw, -, -⟩ :=
    ShapesApp.startup_state L m
  obtain ⟨hsized, -⟩ := ShapesApp.startup_sized s hidx hfr hx hmat
  have hnd : s.objCBIndices.Nodup := by
    rw [hidx]
    exact BuilderTrace.build_start_nodup
  have hnone : ∀ els ∈ s.objectBuffers, ∀ x ∈ els, x = none := by
    intro els hels x hx2
    simp only [ShapesApp.objectBuffers, hfr, List.map_replicate, FrameResource.create,
      UploadBuffer.create] at hels
    rw [List.eq_of_mem_replicate hels] at hx2
    exact List.eq_of_mem_replicate hx2
  obtain ⟨s1, h1, z1, -⟩ := ShapesApp.Update_total L i1 s hsized
  obtain ⟨s2, h2, z2, -⟩ := ShapesApp.Update_total L i2 s1 z1
  obtain ⟨s3, h3, -, -⟩ := ShapesApp.Update_total L i3 s2 z2
  obtain ⟨a1, a2, -, -⟩ := ShapesApp.Update_spec L i1 s s1 h1
  obtain ⟨b1, b2, -, -⟩ := ShapesApp.Update_spec L i2 s1 s2 h2
  obtain ⟨c1, c2, -, -⟩ := ShapesApp.Update_spec L i3 s2 s3 h3
  have hrun : ShapesApp.execAll L [Event.update i1, Event.update i2, Event.update i3] s
      = some s3 := by
    simp only [ShapesApp.execAll, ShapesApp.exec, h1, h2, h3]
  obtain ⟨p1, p2⟩ := ShapesApp.three_updates_populate L
    [Event.update i1, Event.update i2, Event.update i3] s s3 hsized hnd hdirty rfl hrun
  refine ⟨s, h, hdirty, hw, hnone, ⟨s1, s2, s3, h1, h2, h3, ?_, p1, p2⟩, ?_⟩
  · rw [a2, b2, c2, c1, b1, a1, hx]
    rfl
  · intro es s4 hc hrun4
    exact ShapesApp.three_updates_populate L es s s4 hsized hnd hdirty hc hrun4

/-! ## The shared vertex and index buffers (C24) -/

theorem List.slice_flatten {α : Type} (Ls : List (List α)) :
    ∀ (i : Nat) (l : List α), Ls[i]? = some l →
      ((Ls.flatten).drop ((Ls.take i).map List.length).sum).take l.length = l := by
  induction Ls with
  | nil => intro i l h; simp at h
  | cons a rest ih =>
    intro i l h
    cases i with
    | zero =>
      simp only [List.getElem?_cons_zero, Option.some.injEq] at h
      subst h
      simp
    | succ i =>
      simp only [List.getElem?_cons_succ] at h
      simp only [List.take_succ_cons, List.map_cons, List.sum_cons, List.flatten_cons,
        List.drop_append]
      exact ih i l h

theorem List.sum_take_mono (l : List Nat) (i j : Nat) (h : i ≤ j) :
    (l.take i).sum ≤ (l.take j).sum := by
  induction l generalizing i j with
  | nil => simp
  | cons a rest ih =>
    cases i with
    | zero => simp
    | succ i =>
      cases j with
      | zero => omega
      | succ j =>
        simp only [List.take_succ_cons, List.sum_cons]
        have := ih i j (by omega)
        omega

theorem List.sum_take_cover (l : List Nat) :
    ∀ k, k < l.sum → ∃ i, i < l.length ∧ (l.take i).sum ≤ k ∧ k < (l.take (i + 1)).sum := by
  induction l with
  | nil => intro k hk; simp at hk
  | cons a rest ih =>
    intro k hk
    by_cases hka : k < a
    · exact ⟨0, by simp, by simp, by simpa using hka⟩
    · rw [List.sum_cons] at hk
      obtain ⟨i, hi, h1, h2⟩ := ih (k - a) (by omega)
      refine ⟨i + 1, by simpa using hi, ?_, ?_⟩
      · simp only [List.take_succ_cons, List.sum_cons]
        omega
      · simp only [List.take_succ_cons, List.sum_cons]
        omega

/-- One vertex-copy loop, started at the first unwritten vertex: the vertices of
the mesh follow those copied before, and the counter is the number copied. -/
theorem ShapesApp.copyVertices_spec (src : List GeometryGenerator.Vertex) :
    ∀ (done : List Vertex) (n : Nat), src.length ≤ n → done.length + src.length < 4294967296 →
      ShapesApp.copyVertices src (done ++ List.replicate n ({} : Vertex), done.length)
        = ((done ++ src.map Vertex.ofGenerated) ++ List.replicate (n - src.length) ({} : Vertex),
            (done ++ src.map Vertex.ofGenerated).length) := by
  induction src with
  | nil =>
    intro done n _ _
    simp [ShapesApp.copyVertices]
  | cons v vs ih =>
    intro done n hn hlt
    simp only [List.length_cons] at hn hlt
    obtain ⟨n1, rfl⟩ : ∃ n1, n = n1 + 1 := ⟨n - 1, by omega⟩
    have hstep : ShapesApp.copyVertices (v :: vs) (done ++ List.replicate (n1 + 1) ({} : Vertex), done.length)
        = ShapesApp.copyVertices vs
            ((done ++ [Vertex.ofGenerated v]) ++ List.replicate n1 ({} : Vertex),
              (done ++ [Vertex.ofGenerated v]).length) := by
      simp only [ShapesApp.copyVertices, List.foldl_cons]
      congr 1
      rw [Prod.mk.injEq]
      constructor
      · rw [List.set_append_right _ _ (le_refl _), Nat.sub_self, List.replicate_succ,
          List.set_cons_zero, List.append_assoc]
        rfl
      · rw [toUINT_of_lt (by omega)]
        simp
    rw [hstep, ih (done ++ [Vertex.ofGenerated v]) n1 (by omega) (by simp; omega)]
    simp [List.append_assoc]

theorem ShapesApp.copyVertices_all (srcs : List (List GeometryGenerator.Vertex)) :
    ∀ (done : List Vertex) (n : Nat), (srcs.map List.length).sum ≤ n →
      done.length + (srcs.map List.length).sum < 4294967296 →
      (srcs.foldl (fun a src => ShapesApp.copyVertices src a)
          (done ++ List.replicate n ({} : Vertex), done.length)).1
        = (done ++ (srcs.map (fun src => src.map Vertex.ofGenerated)).flatten)
            ++ List.replicate (n - (srcs.map List.length).sum) ({} : Vertex) := by
  induction srcs with
  | nil =>
    intro done n _ _
    simp
  | cons src rest ih =>
    intro done n hn hlt
    simp only [List.map_cons, List.sum_cons] at hn hlt
    rw [List.foldl_cons, ShapesApp.copyVertices_spec src done n (by omega) (by omega),
      ih _ _ (by omega) (by simp; omega)]
    simp only [List.map_cons, List.sum_cons, List.flatten_cons, List.append_assoc]
    rw [Nat.sub_sub]

/-- The shared vertex buffer is the concatenation of the vertices of the twelve
meshes, when their number fits a `UINT`. -/
theorem ShapesApp.vertices_eq (m : ShapeMeshes) (hV : m.vertexCounts.sum < 4294967296) :
    ShapesApp.BuildShapeGeometry.vertices m
      = (m.toList.map (fun d => d.Vertices.map Vertex.ofGenerated)).flatten := by
  have hsum : m.box.Vertices.length + m.grid.Vertices.length + m.sphere.Vertices.length
      + m.cylinder.Vertices.length + m.cone.Vertices.length + m.triPrism.Vertices.length
      + m.diamond.Vertices.length + m.pyramid.Vertices.length + m.torus.Vertices.length
      + m.wedge.Vertices.length + m.torus2.Vertices.length + m.cylinder2.Vertices.length
      = m.vertexCounts.sum := by
    simp only [ShapeMeshes.vertexCounts, ShapeMeshes.toList, List.map, List.sum_cons,
      List.sum_nil]
    omega
  have hfold : ShapesApp.BuildShapeGeometry.vertices m
      = ((m.toList.map (fun d => d.Vertices)).foldl (fun a src => ShapesApp.copyVertices src a)
          (([] : List Vertex) ++ List.replicate m.vertexCounts.sum ({} : Vertex),
            ([] : List Vertex).length)).1 := by
    unfold ShapesApp.BuildShapeGeometry.vertices
    simp only []
    rw [hsum, Nat.mod_eq_of_lt (by unfold UINT64_RANGE; omega)]
    rfl
  have hlen : ((m.toList.map (fun d => d.Vertices)).map List.length).sum
      = m.vertexCounts.sum := by
    simp only [ShapeMeshes.vertexCounts, List.map_map]
    rfl
  rw [hfold, ShapesApp.copyVertices_all _ _ _ (by rw [hlen]) (by rw [hlen]; simpa using hV),
    hlen, Nat.sub_self]
  simp only [List.replicate_zero, List.append_nil, List.nil_append, List.map_map]
  rfl

theorem ShapesApp.indices_eq (m : ShapeMeshes) :
    ShapesApp.BuildShapeGeometry.indices m
      = (m.toList.map (fun d => d.GetIndices16)).flatten := by
  simp [ShapesApp.BuildShapeGeometry.indices, ShapeMeshes.toList]

theorem ShapesApp.ranges_are_sums (m : ShapeMeshes) (s : ShapesApp)
    (hI : m.indexCounts.sum < 4294967296) (hV : m.vertexCounts.sum < 2147483648)
    (i : Nat) (hi : i < 12) :
    ShapesApp.RangeIsPrefixSum m s i := by
  unfold ShapesApp.RangeIsPrefixSum
  simp only [ShapesApp.builtSubmesh_eq, ShapesApp.drawArgs_of_fits m hI hV, shapeNames,
    ShapeMeshes.indexCounts, ShapeMeshes.vertexCounts, ShapeMeshes.toList, List.map]
  interval_cases i <;>
    simp [UMap.find, List.lookup] <;> omega

theorem ShapesApp.builtGeometry_eq (m : ShapeMeshes) (s : ShapesApp) :
    ∃ g, ShapesApp.builtGeometry m s = some g
      ∧ g.VertexBufferCPU = ShapesApp.BuildShapeGeometry.vertices m
      ∧ g.IndexBufferCPU = ShapesApp.BuildShapeGeometry.indices m
      ∧ g.VertexBufferByteSize
          = toUINT (toUINT (ShapesApp.BuildShapeGeometry.vertices m).length * sizeofVertex)
      ∧ g.IndexBufferByteSize
          = toUINT (toUINT (ShapesApp.BuildShapeGeometry.indices m).length * 2)
      ∧ g.DrawArgs = ShapesApp.BuildShapeGeometry.drawArgs m := by
  simp only [ShapesApp.builtGeometry, ShapesApp.BuildShapeGeometry, UMap.find_assign]
  exact ⟨_, rfl, rfl, rfl, rfl, rfl, rfl⟩

/-- The mesh at position `i` and its counts in the lists of counts. -/
theorem ShapeMeshes.counts_at (m : ShapeMeshes) (i : Nat) (d : GeometryGenerator.MeshData)
    (h : m.toList[i]? = some d) :
    i < 12 ∧ m.indexCounts.getD i 0 = d.Indices32.length
    ∧ m.indexCounts[i]? = some d.Indices32.length
    ∧ (m.toList.map (fun d => d.Vertices.map Vertex.ofGenerated))[i]?
        = some (d.Vertices.map Vertex.ofGenerated)
    ∧ (m.toList.map (fun d => d.GetIndices16))[i]? = some d.GetIndices16
    ∧ (((m.toList.map (fun d => d.Vertices.map Vertex.ofGenerated)).take i).map List.length).sum
        = (m.vertexCounts.take i).sum
    ∧ (((m.toList.map (fun d => d.GetIndices16)).take i).map List.length).sum
        = (m.indexCounts.take i).sum := by
  have hi : i < 12 := by
    by_contra hge
    have hlen : m.toList.length ≤ i := by
      show 12 ≤ i
      omega
    rw [List.getElem?_eq_none hlen] at h
    exact absurd h (by simp)
  have h2 : m.indexCounts[i]? = some d.Indices32.length := by
    simp only [ShapeMeshes.indexCounts, List.getElem?_map, h, Option.map_some']
  refine ⟨hi, ?_, h2, ?_, ?_, ?_, ?_⟩
  · rw [List.getD_eq_getElem?_getD, h2]
    rfl
  · simp only [List.getElem?_map, h, Option.map_some']
  · simp only [List.getElem?_map, h, Option.map_some']
  · simp only [ShapeMeshes.vertexCounts, ← List.map_take, List.map_map]
    congr 1
    apply List.map_congr_left
    intro x _
    simp
  · simp only [ShapeMeshes.indexCounts, ← List.map_take, List.map_map]
    congr 1
    apply List.map_congr_left
    intro x _
    simp [GeometryGenerator.MeshData.GetIndices16]

/-- C24, amended. Whenever the byte sizes of the two shared buffers fit a `UINT`
(32 times the sum of the twelve vertex counts and 2 times the sum of the twelve
index counts are below `2 ^ 32`): for each of the twelve meshes concatenated by
`BuildShapeGeometry`, the slice of the shared vertex buffer of the mesh's vertex
count starting at its `BaseVertexLocation` holds that mesh's vertices in order,
and the slice `[StartIndexLocation, StartIndexLocation + IndexCount)` of the
shared index buffer holds that mesh's 16-bit indices in order; the twelve index
ranges are adjacent in concatenation order, pairwise disjoint, and together cover
the whole index buffer, whose length is the sum of the twelve index counts. -/
theorem buffers_hold_meshes (m : ShapeMeshes) (s : ShapesApp)
    (hV : m.vertexCounts.sum * sizeofVertex < 4294967296)
    (hI : m.indexCounts.sum * 2 < 4294967296) :
    ∃ g, ShapesApp.builtGeometry m s = some g
      ∧ g.VertexBufferByteSize = g.VertexBufferCPU.length * sizeofVertex
      ∧ g.IndexBufferByteSize = g.IndexBufferCPU.length * 2
      ∧ g.IndexBufferCPU.length = m.indexCounts.sum
      ∧ (∀ (i : Nat) (d : GeometryGenerator.MeshData), m.toList[i]? = some d →
          ∃ sub, UMap.find g.DrawArgs (shapeNames.getD i "") = some sub
            ∧ sub.IndexCount = d.Indices32.length
            ∧ sub.StartIndexLocation = (m.indexCounts.take i).sum
            ∧ sub.BaseVertexLocation = ((m.vertexCounts.take i).sum : Nat)
            ∧ (g.VertexBufferCPU.drop sub.BaseVertexLocation.toNat).take d.Vertices.length
                = d.Vertices.map Vertex.ofGenerated
            ∧ (g.IndexBufferCPU.drop sub.StartIndexLocation).take sub.IndexCount
                = d.GetIndices16)
      ∧ (∀ (i : Nat) (a b : SubmeshGeometry), i + 1 < 12 →
          UMap.find g.DrawArgs (shapeNames.getD i "") = some a →
          UMap.find g.DrawArgs (shapeNames.getD (i + 1) "") = some b →
          b.StartIndexLocation = a.StartIndexLocation + a.IndexCount)
      ∧ (∀ a : SubmeshGeometry, UMap.find g.DrawArgs (shapeNames.getD 0 "") = some a →
          a.StartIndexLocation = 0)
      ∧ (∀ a : SubmeshGeometry, UMap.find g.DrawArgs (shapeNames.getD 11 "") = some a →
          a.StartIndexLocation + a.IndexCount = g.IndexBufferCPU.length)
      ∧ (∀ (i j : Nat) (a b : SubmeshGeometry), i < j → j < 12 →
          UMap.find g.DrawArgs (shapeNames.getD i "") = some a →
          UMap.find g.DrawArgs (shapeNames.getD j "") = some b →
          a.StartIndexLocation + a.IndexCount ≤ b.StartIndexLocation)
      ∧ ∀ k, k < g.IndexBufferCPU.length →
          ∃ (i : Nat) (a : SubmeshGeometry), i < 12
            ∧ UMap.find g.DrawArgs (shapeNames.getD i "") = some a
            ∧ a.StartIndexLocation ≤ k ∧ k < a.StartIndexLocation + a.IndexCount := by
  have hS : sizeofVertex = 32 := rfl
  rw [hS] at hV
  obtain ⟨g, hg, gv, gi, gvb, gib, gd⟩ := ShapesApp.builtGeometry_eq m s
  have hvert := ShapesApp.vertices_eq m (by omega)
  have hind := ShapesApp.indices_eq m
  have hvlen : (ShapesApp.BuildShapeGeometry.vertices m).length = m.vertexCounts.sum := by
    rw [hvert, List.length_flatten, List.map_map]
    simp only [ShapeMeshes.vertexCounts]
    congr 1
    apply List.map_congr_left
    intro x _
    simp
  have hilen : (ShapesApp.BuildShapeGeometry.indices m).length = m.indexCounts.sum := by
    rw [hind, List.length_flatten, List.map_map]
    simp only [ShapeMeshes.indexCounts]
    congr 1
    apply List.map_congr_left
    intro x _
    simp [GeometryGenerator.MeshData.GetIndices16]
  have hclen : m.indexCounts.length = 12 := rfl
  -- the range recorded for the mesh at position `i`
  have hrange : ∀ i, i < 12 → ∃ sub, UMap.find g.DrawArgs (shapeNames.getD i "") = some sub
      ∧ sub.StartIndexLocation = (m.indexCounts.take i).sum
      ∧ sub.BaseVertexLocation = ((m.vertexCounts.take i).sum : Nat)
      ∧ sub.IndexCount = m.indexCounts.getD i 0
      ∧ sub.StartIndexLocation + sub.IndexCount = (m.indexCounts.take (i + 1)).sum := by
    intro i hi
    obtain ⟨sub, h1, h2, h3, h4⟩ := ShapesApp.ranges_are_sums m s (by omega) (by omega) i hi
    rw [ShapesApp.builtSubmesh_eq, ← gd] at h1
    refine ⟨sub, h1, h2, h3, h4, ?_⟩
    rw [List.sum_take_succ _ i (by rw [hclen]; exact hi), h2, h4, List.getD_eq_getElem?_getD,
      List.getElem?_eq_getElem (by rw [hclen]; exact hi)]
    rfl
  have hfull : (m.indexCounts.take 12).sum = m.indexCounts.sum := by
    rw [List.take_of_length_le (by rw [hclen])]
  refine ⟨g, hg, ?_, ?_, by rw [gi, hilen], ?_, ?_, ?_, ?_, ?_, ?_⟩
  · have e1 : toUINT m.vertexCounts.sum = m.vertexCounts.sum := toUINT_of_lt (by omega)
    rw [gvb, gv, hvlen, hS, e1, toUINT_of_lt (by omega)]
  · have e1 : toUINT m.indexCounts.sum = m.indexCounts.sum := toUINT_of_lt (by omega)
    rw [gib, gi, hilen, e1, toUINT_of_lt (by omega)]
  · intro i d hd
    obtain ⟨hi, c1, -, c3, c4, c5, c6⟩ := ShapeMeshes.counts_at m i d hd
    obtain ⟨sub, h1, h2, h3, h4, -⟩ := hrange i hi
    refine ⟨sub, h1, by rw [h4, c1], h2, h3, ?_, ?_⟩
    · have := List.slice_flatten _ i _ c3
      rw [c5, List.length_map] at this
      rw [gv, hvert, h3, Int.toNat_ofNat]
      exact this
    · have := List.slice_flatten _ i _ c4
      rw [c6] at this
      rw [gi, hind, h2, h4, c1]
      simpa [GeometryGenerator.MeshData.GetIndices16] using this
  · intro i a b hi ha hb
    obtain ⟨sa, a1, -, -, -, a5⟩ := hrange i (by omega)
    obtain ⟨sb, b1, b2, -, -, -⟩ := hrange (i + 1) hi
    rw [a1, Option.some.injEq] at ha
    rw [b1, Option.some.injEq] at hb
    subst ha hb
    rw [b2, a5]
  · intro a ha
    obtain ⟨sa, a1, a2, -, -, -⟩ := hrange 0 (by omega)
    rw [a1, Option.some.injEq] at ha
    subst ha
    rw [a2]
    rfl
  · intro a ha
    obtain ⟨sa, a1, -, -, -, a5⟩ := hrange 11 (by omega)
    rw [a1, Option.some.injEq] at ha
    subst ha
    rw [a5, hfull, gi, hilen]
  · intro i j a b hij hj ha hb
    obtain ⟨sa, a1, -, -, -, a5⟩ := hrange i (by omega)
    obtain ⟨sb, b1, b2, -, -, -⟩ := hrange j hj
    rw [a1, Option.some.injEq] at ha
    rw [b1, Option.some.injEq] at hb
    subst ha hb
    rw [a5, b2]
    exact List.sum_take_mono _ _ _ (by omega)
  · intro k hk
    rw [gi, hilen] at hk
    obtain ⟨i, hi, h1, h2⟩ := List.sum_take_cover m.indexCounts k hk
    rw [hclen] at hi
    obtain ⟨sa, a1, a2, -, -, a5⟩ := hrange i hi
    exact ⟨i, sa, hi, a1, by rw [a2]; exact h1, by rw [a5]; exact h2⟩

/-- C24, witness: the twelve small meshes, and the index slice of the cylinder. -/
theorem buffers_hold_meshes_witness :
    sampleMeshes.vertexCounts.sum * sizeofVertex < 4294967296
    ∧ sampleMeshes.indexCounts.sum * 2 < 4294967296
    ∧ ∃ g, ShapesApp.builtGeometry sampleMeshes {} = some g
      ∧ g.IndexBufferCPU.length = sampleMeshes.indexCounts.sum
      ∧ ∃ sub, UMap.find g.DrawArgs "cylinder" = some sub
        ∧ sub.StartIndexLocation = (sampleMeshes.indexCounts.take 3).sum
        ∧ (g.IndexBufferCPU.drop sub.StartIndexLocation).take sub.IndexCount
            = sampleMeshes.cylinder.GetIndices16 := by
  have hV : sampleMeshes.vertexCounts.sum * sizeofVertex < 4294967296 := by decide
  have hI : sampleMeshes.indexCounts.sum * 2 < 4294967296 := by decide
  obtain ⟨g, h1, -, -, h4, h5, -⟩ := buffers_hold_meshes sampleMeshes {} hV hI
  obtain ⟨sub, a, -, b, -, -, c⟩ := h5 3 sampleMeshes.cylinder rfl
  exact ⟨hV, hI, g, h1, h4, sub, a, b, c⟩

/-- When the number of indices of the box is a multiple of `2 ^ 32`, the range
recorded for the grid starts at `0`, inside the indices of the box. -/
theorem ShapesApp.grid_slice_wraps (m : ShapeMeshes) (s : ShapesApp) (N : Nat)
    (hN : N % 4294967296 = 0) (h6 : 6 ≤ N) (hbox : m.box.Indices32 = List.replicate N 1)
    (hgrid : m.grid.Indices32 = List.replicate 6 0) :
    ∃ g sub, ShapesApp.builtGeometry m s = some g
      ∧ UMap.find g.DrawArgs "grid" = some sub
      ∧ sub.StartIndexLocation = 0 ∧ sub.IndexCount = 6
      ∧ (g.IndexBufferCPU.drop sub.StartIndexLocation).take sub.IndexCount = [1, 1, 1, 1, 1, 1]
      ∧ m.grid.GetIndices16 = [0, 0, 0, 0, 0, 0] := by
  obtain ⟨g, hg, -, gi, -, -, gd⟩ := ShapesApp.builtGeometry_eq m s
  have hfind : UMap.find g.DrawArgs "grid"
      = some ⟨toUINT m.grid.Indices32.length, toUINT m.box.Indices32.length,
          toINT (toUINT m.box.Vertices.length)⟩ := by
    rw [gd]
    unfold ShapesApp.BuildShapeGeometry.drawArgs
    simp only []
    repeat rw [UMap.find_assign_ne _ _ "grid" _ (by decide)]
    rw [UMap.find_assign]
  have hstart : toUINT m.box.Indices32.length = 0 := by
    rw [hbox, List.length_replicate]
    exact hN
  have hcount : toUINT m.grid.Indices32.length = 6 := by
    rw [hgrid, List.length_replicate]
    rfl
  have hbox16 : m.box.GetIndices16 = List.replicate N 1 := by
    simp [GeometryGenerator.MeshData.GetIndices16, hbox]
  have hslice : ((ShapesApp.BuildShapeGeometry.indices m).drop 0).take 6 = [1, 1, 1, 1, 1, 1] := by
    rw [ShapesApp.indices_eq]
    show List.take 6 (List.drop 0 (m.box.GetIndices16 ++ _)) = _
    rw [List.drop_zero, List.take_append_of_le_length (by rw [hbox16, List.length_replicate]; exact h6),
      hbox16, List.take_replicate, Nat.min_eq_left h6]
    rfl
  refine ⟨g, _, hg, hfind, hstart, hcount, ?_, ?_⟩
  · show List.take (toUINT m.grid.Indices32.length)
      (List.drop (toUINT m.box.Indices32.length) g.IndexBufferCPU) = _
    rw [hstart, hcount, gi]
    exact hslice
  · simp [GeometryGenerator.MeshData.GetIndices16, hgrid]

/-- C24, counterexample. When the box mesh has `2 ^ 32` indices (all `1`, the grid
having six indices `0`), the `UINT` offset of the grid wraps to `0`: the slice
`[StartIndexLocation, StartIndexLocation + IndexCount)` recorded for the grid is
the first six elements of the shared index buffer, which belong to the box, and
does not hold the indices of the grid. -/
theorem grid_slice_holds_box_indices :
    ∃ g sub, ShapesApp.builtGeometry longBoxMeshes {} = some g
      ∧ UMap.find g.DrawArgs "grid" = some sub
      ∧ sub.StartIndexLocation = 0 ∧ sub.IndexCount = 6
      ∧ (g.IndexBufferCPU.drop sub.StartIndexLocation).take sub.IndexCount = [1, 1, 1, 1, 1, 1]
      ∧ longBoxMeshes.grid.GetIndices16 = [0, 0, 0, 0, 0, 0]
      ∧ (g.IndexBufferCPU.drop sub.StartIndexLocation).take sub.IndexCount
          ≠ longBoxMeshes.grid.GetIndices16 := by
  obtain ⟨g, sub, h1, h2, h3, h4, h5, h6⟩ :=
    ShapesApp.grid_slice_wraps longBoxMeshes {} 4294967296 (by decide) (by decide) rfl rfl
  refine ⟨g, sub, h1, h2, h3, h4, h5, h6, ?_⟩
  rw [h5, h6]
  decide
